import Mathlib

/-!
# NeuralNetwork: tensor algebra, layers, losses and optimizers

A shallow embedding of the C++ core (`src/Tensor.cpp`, `src/Linear.cpp`,
`src/Activation.cpp`, `src/Loss.cpp`, `src/Optimizer.cpp`, `src/Network.cpp`,
`src/Data.cpp`)
and theorems about it.

Modelling conventions.

* `float` is an abstract scalar type `α`; the definitions only use the
  operations the C++ text uses (`0`, `+`, `-`, `*`, `/`, casts from sizes), and
  the theorems are stated for a semiring or a field, i.e. for exact arithmetic.
  `std::sqrt`, `std::exp`, `std::tanh` and `std::log` are parameters of the
  definitions that call them.
* `std::vector<T>` is `List T`; `size_t` is `Nat` (dimension products are not
  reduced modulo the word size, allocation never fails).
* A C++ exception is a value of `Err`.  A function that only builds a local
  result returns `Except Err _`; a function that mutates an object returns the
  object as it is when the function is left, together with the exception that
  left it, if any.
* Unchecked accesses (`shape_[k]`, `data_[k]`, `velocity[j]`, `m_w[j]`) past the
  end of a vector are undefined in C++; the model reads `0` there and drops a
  write.  The theorems carry the shape hypotheses under which no such access
  happens.
-/

namespace nn

/-! ## Exceptions and loops -/

/-- The exception classes thrown by the core, with the `what()` text. -/
inductive Err where
  | runtime_error (what : String)
  | out_of_range (what : String)
  | invalid_argument (what : String)
  deriving DecidableEq

deriving instance DecidableEq for Except

/-- Turns the outcome of one statement that either throws before it changes
anything or completes into the state after it and the exception, if any. -/
def stmt {σ : Type} (old : σ) : Except Err σ → σ × Option Err
  | .ok s => (s, none)
  | .error e => (old, some e)

/-- The loop `for (size_t i = start; i < start + count; ++i) body`: runs the
body for consecutive indices and stops at the first exception, keeping the
state reached so far. -/
def forRange {σ : Type} (body : Nat → σ → σ × Option Err) : Nat → Nat → σ → σ × Option Err
  | 0, _, s => (s, none)
  | count + 1, i, s =>
    match body i s with
    | (s', none) => forRange body count (i + 1) s'
    | (s', some e) => (s', some e)

/-- Sequencing of two statements: the second runs if the first did not throw. -/
def andThen {σ : Type} (r : σ × Option Err) (next : σ → σ × Option Err) : σ × Option Err :=
  match r with
  | (s, none) => next s
  | (s, some e) => (s, some e)

/-- Forgets the state of an aborted computation on a local variable. -/
def finish {σ : Type} : σ × Option Err → Except Err σ
  | (s, none) => .ok s
  | (_, some e) => .error e

/-! ## Tensor -/

/-- The class `Tensor`: flat storage `data_` and the shape vector `shape_`. -/
structure Tensor (α : Type) where
  data : List α
  shape : List Nat
  deriving DecidableEq

namespace Tensor

variable {α : Type}

/-- The unchecked read `shape_[k]`. -/
def shape_at (t : Tensor α) (k : Nat) : Nat := t.shape.getD k 0

/-- Modelled from the spec: the header `include/Tensor.h` with the inline
accessors is missing; a tensor has a shape pair (rows, cols), and the sibling
header `xor_only/include/Tensor.h` has `rows() { return shape_[0]; }`. -/
def rows (t : Tensor α) : Nat := t.shape_at 0

/-- Modelled from the spec: the header `include/Tensor.h` is missing; the
sibling header has `cols() { return shape_.size() > 1 ? shape_[1] : 1; }`. -/
def cols (t : Tensor α) : Nat := if t.shape.length > 1 then t.shape_at 1 else 1

/-- Modelled from the spec: the header `include/Tensor.h` is missing; the
sibling header has `size() { return data_.size(); }`. -/
def size (t : Tensor α) : Nat := t.data.length

/-- Conversion of an integer value to the 32-bit type `int`. -/
def wrap_int (z : Int) : Int := (z + 2 ^ 31) % 2 ^ 32 - 2 ^ 31

/-- The call `std::accumulate(shape.begin(), shape.end(), 1,
std::multiplies<size_t>())`: the accumulator has the type of the literal `1`,
which is `int`; each product is formed in `size_t` and converted back. -/
def shape_product (shape : List Nat) : Int :=
  shape.foldl (fun acc d => wrap_int ((acc % 2 ^ 64) * (d : Int) % 2 ^ 64)) 1

/-- `Tensor::Tensor(const std::vector<float>& data, const std::vector<size_t>&
shape)`; the `int` product is converted to `size_t` for the comparison. -/
def make (data : List α) (shape : List Nat) : Except Err (Tensor α) :=
  if (data.length : Int) ≠ shape_product shape % 2 ^ 64 then
    .error (.runtime_error "Data size does not match shape")
  else .ok ⟨data, shape⟩

/-- `Tensor::Tensor(size_t rows, size_t cols)`: zero-filled storage. -/
def zeros [Zero α] (rows cols : Nat) : Tensor α :=
  ⟨List.replicate (rows * cols) 0, [rows, cols]⟩

/-- `Tensor::index`: row-major position. -/
def index (t : Tensor α) (row col : Nat) : Nat := row * t.shape_at 1 + col

/-- The unchecked read `data_[k]`. -/
def data_at [Zero α] (t : Tensor α) (k : Nat) : α := t.data.getD k 0

/-- The element stored for position `(row, col)`: `data_[index(row, col)]`. -/
def entry [Zero α] (t : Tensor α) (row col : Nat) : α := t.data_at (t.index row col)

/-- `Tensor::operator()(row, col) const`: checked read. -/
def op_call [Zero α] (t : Tensor α) (row col : Nat) : Except Err α :=
  if row ≥ t.shape_at 0 ∨ col ≥ t.shape_at 1 then
    .error (.out_of_range "Index out of bounds")
  else .ok (t.entry row col)

/-- The assignment `t(row, col) = v` through `Tensor::operator()(row, col)`. -/
def op_call_assign (t : Tensor α) (row col : Nat) (v : α) : Except Err (Tensor α) :=
  if row ≥ t.shape_at 0 ∨ col ≥ t.shape_at 1 then
    .error (.out_of_range "Index out of bounds")
  else .ok { t with data := t.data.set (t.index row col) v }

/-- `Tensor::operator[](index) const`: checked flat read. -/
def op_index [Zero α] (t : Tensor α) (i : Nat) : Except Err α :=
  if i ≥ t.data.length then .error (.out_of_range "Index out of bounds")
  else .ok (t.data_at i)

/-- The assignment `t[index] = v` through `Tensor::operator[]`. -/
def op_index_assign (t : Tensor α) (i : Nat) (v : α) : Except Err (Tensor α) :=
  if i ≥ t.data.length then .error (.out_of_range "Index out of bounds")
  else .ok { t with data := t.data.set i v }

/-- A well-formed 2-D tensor "of shape (m, n)": the shape vector is `{m, n}`
and the class invariant `data.length == rows*cols` holds. -/
def IsMatrix (t : Tensor α) (m n : Nat) : Prop :=
  t.shape = [m, n] ∧ t.data.length = m * n

instance (t : Tensor α) (m n : Nat) : Decidable (t.IsMatrix m n) :=
  inferInstanceAs (Decidable (t.shape = [m, n] ∧ t.data.length = m * n))

/-- `Tensor::matmul`: the triple loop. -/
def matmul [Zero α] [Add α] [Mul α] (a other : Tensor α) : Except Err (Tensor α) :=
  if a.cols ≠ other.rows then
    .error (.runtime_error "Matrix dimensions do not match for multiplication")
  else
    finish <| forRange (fun i result =>
      forRange (fun j result =>
        match forRange (fun k sum =>
            stmt sum (do
              let x ← a.op_call i k
              let y ← other.op_call k j
              pure (sum + x * y))) a.cols 0 (0 : α) with
        | (sum, none) => stmt result (result.op_call_assign i j sum)
        | (_, some e) => (result, some e)) other.cols 0 result)
      a.rows 0 (zeros a.rows other.cols)

/-- `Tensor::transpose`. -/
def transpose [Zero α] (t : Tensor α) : Except Err (Tensor α) :=
  finish <| forRange (fun i result =>
    forRange (fun j result =>
      match t.op_call i j with
      | .ok x => stmt result (result.op_call_assign j i x)
      | .error e => (result, some e)) t.cols 0 result)
    t.rows 0 (zeros t.cols t.rows)

/-- `Tensor::sum(int axis)`. -/
def sum [Zero α] [Add α] (t : Tensor α) (axis : Int) : Except Err (Tensor α) :=
  if axis = -1 then
    make [t.data.foldl (fun acc x => acc + x) 0] [1, 1]
  else if axis = 0 then
    finish <| forRange (fun j result =>
      match forRange (fun i sum =>
          stmt sum (do
            let x ← t.op_call i j
            pure (sum + x))) t.rows 0 (0 : α) with
      | (sum, none) => stmt result (result.op_call_assign 0 j sum)
      | (_, some e) => (result, some e)) t.cols 0 (zeros 1 t.cols)
  else if axis = 1 then
    finish <| forRange (fun i result =>
      match forRange (fun j sum =>
          stmt sum (do
            let x ← t.op_call i j
            pure (sum + x))) t.cols 0 (0 : α) with
      | (sum, none) => stmt result (result.op_call_assign i 0 sum)
      | (_, some e) => (result, some e)) t.rows 0 (zeros t.rows 1)
  else .error (.invalid_argument "Invalid axis for sum operation")

/-- `Tensor::Tensor(const std::vector<std::vector<float>>& data)`: the rows
are appended to `data_` one after the other; if `data` or its first row is
empty, the members stay empty. -/
def of_rows (data : List (List α)) : Except Err (Tensor α) :=
  match data with
  | [] => .ok ⟨[], []⟩
  | first :: _ =>
    if first.isEmpty then .ok ⟨[], []⟩
    else
      match data.foldlM (fun data_ row =>
          if row.length ≠ first.length then
            Except.error (Err.runtime_error "All rows must have the same size")
          else Except.ok (data_ ++ row)) [] with
      | .ok data_ => .ok ⟨data_, [data.length, first.length]⟩
      | .error e => .error e

/-- `Tensor::operator+(const Tensor& other)`.  The loop writes
`result.data_[i]` unchecked. -/
def op_add [Zero α] [Add α] (t other : Tensor α) : Except Err (Tensor α) :=
  if t.shape ≠ other.shape then
    .error (.runtime_error "Tensor shapes do not match for addition")
  else
    .ok (forRange (fun i (result : Tensor α) =>
      ({ result with data := result.data.set i (t.data_at i + other.data_at i) }, none))
      t.data.length 0 (zeros (t.shape_at 0) (t.shape_at 1))).1

/-- `Tensor::operator-(const Tensor& other)`. -/
def op_sub [Zero α] [Sub α] (t other : Tensor α) : Except Err (Tensor α) :=
  if t.shape ≠ other.shape then
    .error (.runtime_error "Tensor shapes do not match for subtraction")
  else
    .ok (forRange (fun i (result : Tensor α) =>
      ({ result with data := result.data.set i (t.data_at i - other.data_at i) }, none))
      t.data.length 0 (zeros (t.shape_at 0) (t.shape_at 1))).1

/-- `Tensor::operator*(const Tensor& other)`: element-wise product. -/
def op_mul [Zero α] [Mul α] (t other : Tensor α) : Except Err (Tensor α) :=
  if t.shape ≠ other.shape then
    .error (.runtime_error "Tensor shapes do not match for element-wise multiplication")
  else
    .ok (forRange (fun i (result : Tensor α) =>
      ({ result with data := result.data.set i (t.data_at i * other.data_at i) }, none))
      t.data.length 0 (zeros (t.shape_at 0) (t.shape_at 1))).1

/-- `Tensor::operator*(float scalar)`: no statement of it throws. -/
def op_mul_scalar [Zero α] [Mul α] (t : Tensor α) (scalar : α) : Tensor α :=
  (forRange (fun i (result : Tensor α) =>
    ({ result with data := result.data.set i (t.data_at i * scalar) }, none))
    t.data.length 0 (zeros (t.shape_at 0) (t.shape_at 1))).1

/-- `Tensor::operator/(float scalar)`. -/
def op_div_scalar [Zero α] [Div α] [DecidableEq α] (t : Tensor α) (scalar : α) :
    Except Err (Tensor α) :=
  if scalar = 0 then .error (.runtime_error "Division by zero")
  else
    .ok (forRange (fun i (result : Tensor α) =>
      ({ result with data := result.data.set i (t.data_at i / scalar) }, none))
      t.data.length 0 (zeros (t.shape_at 0) (t.shape_at 1))).1

/-- The free function `operator*(float scalar, const Tensor& tensor)`. -/
def scalar_op_mul [Zero α] [Mul α] (scalar : α) (tensor : Tensor α) : Tensor α :=
  tensor.op_mul_scalar scalar

/-- `Tensor::sigmoid`; `std::exp` is the parameter `exp`.  The loop writes
`result.data_[i]` unchecked. -/
def sigmoid [Field α] (exp : α → α) (t : Tensor α) : Tensor α :=
  (forRange (fun i (result : Tensor α) =>
    ({ result with data := result.data.set i (1 / (1 + exp (-t.data_at i))) }, none))
    t.data.length 0 (zeros (t.shape_at 0) (t.shape_at 1))).1

/-- `Tensor::relu`; `std::max(0.0f, x)` is `(0.0f < x) ? x : 0.0f`. -/
def relu [Zero α] [LT α] [DecidableRel (fun (a b : α) => a < b)] (t : Tensor α) : Tensor α :=
  (forRange (fun i (result : Tensor α) =>
    ({ result with data := result.data.set i (if 0 < t.data_at i then t.data_at i else 0) },
      none))
    t.data.length 0 (zeros (t.shape_at 0) (t.shape_at 1))).1

/-- `Tensor::tanh_activation`; `std::tanh` is the parameter `tanh`. -/
def tanh_activation [Zero α] (tanh : α → α) (t : Tensor α) : Tensor α :=
  (forRange (fun i (result : Tensor α) =>
    ({ result with data := result.data.set i (tanh (t.data_at i)) }, none))
    t.data.length 0 (zeros (t.shape_at 0) (t.shape_at 1))).1

/-- `Tensor::fill`: `std::fill(data_.begin(), data_.end(), value)`. -/
def fill (t : Tensor α) (value : α) : Tensor α :=
  { t with data := t.data.map (fun _ => value) }

end Tensor

/-! ## Layers -/

/-- The data members of `class Linear`. -/
structure Linear (α : Type) where
  weights_ : Tensor α
  bias_ : Tensor α
  input_cache_ : Tensor α
  grad_weights_ : Tensor α
  grad_bias_ : Tensor α
  deriving DecidableEq

namespace Linear

variable {α : Type}

/-- `Linear::forward`: the layer after the call and the returned tensor or the
exception. -/
def forward [Zero α] [Add α] [Mul α] (l : Linear α) (input : Tensor α) :
    Linear α × Except Err (Tensor α) :=
  let l1 := { l with input_cache_ := input }
  match l1.weights_.matmul input with
  | .error e => (l1, .error e)
  | .ok output =>
    (l1, finish <| forRange (fun i output =>
      forRange (fun j output =>
        stmt output (do
          let b ← l1.bias_.op_call i 0
          let cur ← output.op_call i j
          output.op_call_assign i j (cur + b))) output.cols 0 output)
      output.rows 0 output)

/-- `Linear::backward`: the layer after the call and the returned tensor or
the exception. -/
def backward [Zero α] [Add α] [Mul α] (l : Linear α) (grad_output : Tensor α) :
    Linear α × Except Err (Tensor α) :=
  match (do
      let xt ← l.input_cache_.transpose
      grad_output.matmul xt) with
  | .error e => (l, .error e)
  | .ok gw =>
    let l1 := { l with grad_weights_ := gw }
    match grad_output.sum 1 with
    | .error e => (l1, .error e)
    | .ok gb =>
      let l2 := { l1 with grad_bias_ := gb }
      (l2, do
        let wt ← l2.weights_.transpose
        wt.matmul grad_output)

/-- `Linear::Linear(input_size, output_size)`; `dis i` is the value of the
i-th call `dis(gen)` of the random distribution.  `input_cache_` is
default-constructed. -/
def make [Zero α] (dis : Nat → α) (input_size output_size : Nat) : Except Err (Linear α) :=
  match forRange (fun i (weights_ : Tensor α) =>
      stmt weights_ (weights_.op_index_assign i (dis i)))
      (Tensor.zeros output_size input_size : Tensor α).size 0
      (Tensor.zeros output_size input_size) with
  | (weights_, none) =>
    .ok ⟨weights_, (Tensor.zeros output_size 1).fill 0, ⟨[], []⟩,
      Tensor.zeros output_size input_size, Tensor.zeros output_size 1⟩
  | (_, some e) => .error e

/-- `Linear::update_parameters`: the layer after the call and the exception
that left it, if any. -/
def update_parameters [Zero α] [Sub α] [Mul α] (l : Linear α) (learning_rate : α) :
    Linear α × Option Err :=
  andThen
    (forRange (fun i (l : Linear α) =>
      stmt l (do
        let g ← l.grad_weights_.op_index i
        let w ← l.weights_.op_index i
        let t ← l.weights_.op_index_assign i (w - learning_rate * g)
        pure { l with weights_ := t })) l.weights_.size 0 l)
    (fun l =>
      forRange (fun i (l : Linear α) =>
        stmt l (do
          let g ← l.grad_bias_.op_index i
          let b ← l.bias_.op_index i
          let t ← l.bias_.op_index_assign i (b - learning_rate * g)
          pure { l with bias_ := t })) l.bias_.size 0 l)

/-- `Linear::set_weights`. -/
def set_weights (l : Linear α) (weights : Tensor α) : Linear α × Option Err :=
  if weights.shape ≠ l.weights_.shape then
    (l, some (.runtime_error "Weight tensor shape mismatch"))
  else ({ l with weights_ := weights }, none)

/-- `Linear::set_bias`. -/
def set_bias (l : Linear α) (bias : Tensor α) : Linear α × Option Err :=
  if bias.shape ≠ l.bias_.shape then
    (l, some (.runtime_error "Bias tensor shape mismatch"))
  else ({ l with bias_ := bias }, none)

end Linear

/-- A pointer to one of the tensor members of a `Linear` object, as returned
in the vectors of `get_parameters()` and `get_gradients()`. -/
inductive Slot where
  | weights_
  | bias_
  | grad_weights_
  | grad_bias_
  deriving DecidableEq

/-- An object of one of the classes derived from `Layer`, with its data
members. -/
inductive Layer (α : Type) where
  | linear (l : Linear α)
  | sigmoid (output_cache_ : Tensor α)
  | relu (input_cache_ : Tensor α)
  | tanh (output_cache_ : Tensor α)
  deriving DecidableEq

namespace Layer

variable {α : Type}

/-- `get_parameters()`: `{&weights_, &bias_}` for `Linear`, `{}` otherwise. -/
def get_parameters : Layer α → List Slot
  | linear _ => [Slot.weights_, Slot.bias_]
  | _ => []

/-- `get_gradients()`: `{&grad_weights_, &grad_bias_}` for `Linear`, `{}`
otherwise. -/
def get_gradients : Layer α → List Slot
  | linear _ => [Slot.grad_weights_, Slot.grad_bias_]
  | _ => []

/-- Reads through a member pointer.  Only `Linear` hands out such pointers. -/
def deref : Layer α → Slot → Tensor α
  | linear l, Slot.weights_ => l.weights_
  | linear l, Slot.bias_ => l.bias_
  | linear l, Slot.grad_weights_ => l.grad_weights_
  | linear l, Slot.grad_bias_ => l.grad_bias_
  | _, _ => ⟨[], []⟩

/-- Writes through a member pointer. -/
def store : Layer α → Slot → Tensor α → Layer α
  | linear l, Slot.weights_, t => linear { l with weights_ := t }
  | linear l, Slot.bias_, t => linear { l with bias_ := t }
  | linear l, Slot.grad_weights_, t => linear { l with grad_weights_ := t }
  | linear l, Slot.grad_bias_, t => linear { l with grad_bias_ := t }
  | other, _, _ => other

end Layer

/-- `Sigmoid::forward`: the new `output_cache_` and the returned tensor. -/
def Sigmoid.forward {α : Type} [Field α] (exp : α → α) (input : Tensor α) :
    Tensor α × Except Err (Tensor α) :=
  (input.sigmoid exp, .ok (input.sigmoid exp))

/-- `Sigmoid::backward`; it reads `output_cache_` and changes nothing. -/
def Sigmoid.backward {α : Type} [Field α] (output_cache_ grad_output : Tensor α) :
    Except Err (Tensor α) :=
  finish <| forRange (fun i grad_input =>
    stmt grad_input (do
      let sig ← output_cache_.op_index i
      let g ← grad_output.op_index i
      grad_input.op_index_assign i (g * sig * (1 - sig))))
    output_cache_.size 0 (Tensor.zeros output_cache_.rows output_cache_.cols)

/-- `ReLU::forward`: the new `input_cache_` and the returned tensor. -/
def ReLU.forward {α : Type} [Zero α] [LT α] [DecidableRel (fun (a b : α) => a < b)]
    (input : Tensor α) : Tensor α × Except Err (Tensor α) :=
  (input, .ok input.relu)

/-- `ReLU::backward`; `grad_output[i]` is read only where the cached input is
positive. -/
def ReLU.backward {α : Type} [Zero α] [LT α] [DecidableRel (fun (a b : α) => a < b)]
    (input_cache_ grad_output : Tensor α) : Except Err (Tensor α) :=
  finish <| forRange (fun i grad_input =>
    stmt grad_input (do
      let x ← input_cache_.op_index i
      if 0 < x then do
        let g ← grad_output.op_index i
        grad_input.op_index_assign i g
      else grad_input.op_index_assign i 0))
    input_cache_.size 0 (Tensor.zeros input_cache_.rows input_cache_.cols)

/-- `Tanh::forward`: the new `output_cache_` and the returned tensor. -/
def Tanh.forward {α : Type} [Zero α] (tanh : α → α) (input : Tensor α) :
    Tensor α × Except Err (Tensor α) :=
  (input.tanh_activation tanh, .ok (input.tanh_activation tanh))

/-- `Tanh::backward`; it reads `output_cache_` and changes nothing. -/
def Tanh.backward {α : Type} [Field α] (output_cache_ grad_output : Tensor α) :
    Except Err (Tensor α) :=
  finish <| forRange (fun i grad_input =>
    stmt grad_input (do
      let tanh_val ← output_cache_.op_index i
      let g ← grad_output.op_index i
      grad_input.op_index_assign i (g * (1 - tanh_val * tanh_val))))
    output_cache_.size 0 (Tensor.zeros output_cache_.rows output_cache_.cols)

/-- The virtual call `layer->forward(input)`: the object after the call and
the returned tensor or the exception. -/
def Layer.forward {α : Type} [Field α] [LT α] [DecidableRel (fun (a b : α) => a < b)]
    (exp tanh : α → α) : Layer α → Tensor α → Layer α × Except Err (Tensor α)
  | .linear l, input =>
    match l.forward input with
    | (l', r) => (.linear l', r)
  | .sigmoid _, input =>
    match Sigmoid.forward exp input with
    | (c, r) => (.sigmoid c, r)
  | .relu _, input =>
    match ReLU.forward input with
    | (c, r) => (.relu c, r)
  | .tanh _, input =>
    match Tanh.forward tanh input with
    | (c, r) => (.tanh c, r)

/-- The virtual call `layer->backward(grad_output)`: the object after the call
and the returned tensor or the exception. -/
def Layer.backward {α : Type} [Field α] [LT α] [DecidableRel (fun (a b : α) => a < b)] :
    Layer α → Tensor α → Layer α × Except Err (Tensor α)
  | .linear l, grad_output =>
    match l.backward grad_output with
    | (l', r) => (.linear l', r)
  | .sigmoid c, grad_output => (.sigmoid c, Sigmoid.backward c grad_output)
  | .relu c, grad_output => (.relu c, ReLU.backward c grad_output)
  | .tanh c, grad_output => (.tanh c, Tanh.backward c grad_output)

/-- The gradients of a layer "have the shapes of its parameters": for a
`Linear` object `grad_weights_` and `grad_bias_` have the shape vector and the
element count of `weights_` and `bias_`; other layers have no parameters. -/
def Layer.GradsConform {α : Type} : Layer α → Prop
  | .linear l =>
    l.grad_weights_.shape = l.weights_.shape ∧ l.grad_weights_.size = l.weights_.size ∧
    l.grad_bias_.shape = l.bias_.shape ∧ l.grad_bias_.size = l.bias_.size
  | _ => True

instance {α : Type} : (layer : Layer α) → Decidable layer.GradsConform
  | .linear l => inferInstanceAs (Decidable (
      l.grad_weights_.shape = l.weights_.shape ∧ l.grad_weights_.size = l.weights_.size ∧
      l.grad_bias_.shape = l.bias_.shape ∧ l.grad_bias_.size = l.bias_.size))
  | .sigmoid _ => isTrue trivial
  | .relu _ => isTrue trivial
  | .tanh _ => isTrue trivial

/-- A `Layer*`: the address and the object it points to.  The entries of a
`std::vector<Layer*>` are modelled as pairwise distinct objects (the network
owns each layer exclusively). -/
structure LayerRef (α : Type) where
  addr : Nat
  obj : Layer α
  deriving DecidableEq

/-- The loop `for (Layer* layer : layers) body` over distinct objects, with a
state `s` shared by the rounds (the optimizer): stops at the first exception
and keeps what was changed up to it. -/
def forEach {β σ : Type} (body : β → σ → (β × σ) × Option Err) :
    List β → σ → (List β × σ) × Option Err
  | [], s => (([], s), none)
  | x :: xs, s =>
    match body x s with
    | ((x', s'), none) =>
      match forEach body xs s' with
      | ((xs', s''), e) => ((x' :: xs', s''), e)
    | ((x', s'), some e) => ((x' :: xs, s'), some e)

/-! ## Optimizers -/

/-- `class SGD`. -/
structure SGD (α : Type) where
  learning_rate_ : α

/-- The body of the layer loop of `SGD::step`. -/
def SGD.step_layer {α : Type} [Zero α] [Sub α] [Mul α] (opt : SGD α) (layer : Layer α) :
    Layer α × Option Err :=
  let params := layer.get_parameters
  let grads := layer.get_gradients
  if params.length ≠ grads.length then (layer, none)
  else
    forRange (fun i layer =>
      match params.get? i, grads.get? i with
      | some ps, some gs =>
        forRange (fun j layer =>
          stmt layer (do
            let g ← (layer.deref gs).op_index j
            let p ← (layer.deref ps).op_index j
            let t ← (layer.deref ps).op_index_assign j (p - opt.learning_rate_ * g)
            pure (layer.store ps t))) (layer.deref ps).size 0 layer
      | _, _ => (layer, none)) params.length 0 layer

/-- `SGD::step`: the layers after the call and the exception that left it, if
any.  The optimizer has no state of its own that changes. -/
def SGD.step {α : Type} [Zero α] [Sub α] [Mul α] (opt : SGD α) (layers : List (LayerRef α)) :
    List (LayerRef α) × Option Err :=
  match forEach (fun (r : LayerRef α) (u : Unit) =>
      match opt.step_layer r.obj with
      | (obj, e) => (({ r with obj := obj }, u), e)) layers () with
  | ((layers', _), e) => (layers', e)

/-- `std::vector<float>::resize(n, 0.0f)`. -/
def resize {α : Type} [Zero α] (v : List α) (n : Nat) : List α :=
  v.take n ++ List.replicate (n - v.length) 0

/-- `class Momentum`; `velocities_` is a `std::map` keyed by `Layer*`. -/
structure Momentum (α : Type) where
  learning_rate_ : α
  momentum_ : α
  velocities_ : Nat → Option (List α)

/-- The body of the layer loop of `Momentum::step`, on the map `velocities_`. -/
def Momentum.step_layer {α : Type} [Zero α] [Add α] [Sub α] [Mul α] (learning_rate_ momentum_ : α)
    (layer : LayerRef α) (velocities_ : Nat → Option (List α)) :
    (LayerRef α × (Nat → Option (List α))) × Option Err :=
  let params := layer.obj.get_parameters
  let grads := layer.obj.get_gradients
  if params.length ≠ grads.length then ((layer, velocities_), none)
  else
    forRange (fun i (st : LayerRef α × (Nat → Option (List α))) =>
      match params.get? i, grads.get? i with
      | some ps, some gs =>
        let n := (st.1.obj.deref ps).size
        let vel1 : Nat → Option (List α) :=
          if (st.2 layer.addr).isNone then
            Function.update st.2 layer.addr (some (List.replicate n 0))
          else st.2
        let velocity := (vel1 layer.addr).getD []
        let velocity := if velocity.length ≠ n then resize velocity n else velocity
        forRange (fun j (st : LayerRef α × (Nat → Option (List α))) =>
          andThen
            (stmt st (do
              let velocity := (st.2 layer.addr).getD []
              let g ← (st.1.obj.deref gs).op_index j
              pure (st.1, Function.update st.2 layer.addr
                (some (velocity.set j (momentum_ * velocity.getD j 0 - learning_rate_ * g))))))
            (fun st => stmt st (do
              let velocity := (st.2 layer.addr).getD []
              let p ← (st.1.obj.deref ps).op_index j
              let t ← (st.1.obj.deref ps).op_index_assign j (p + velocity.getD j 0)
              pure ({ st.1 with obj := st.1.obj.store ps t }, st.2)))) n 0
          (st.1, Function.update vel1 layer.addr (some velocity))
      | _, _ => (st, none)) params.length 0 (layer, velocities_)

/-- `Momentum::step`: the optimizer and the layers after the call and the
exception that left it, if any. -/
def Momentum.step {α : Type} [Zero α] [Add α] [Sub α] [Mul α] (opt : Momentum α)
    (layers : List (LayerRef α)) : (Momentum α × List (LayerRef α)) × Option Err :=
  match forEach (Momentum.step_layer opt.learning_rate_ opt.momentum_) layers
      opt.velocities_ with
  | ((layers', vel), e) => (({ opt with velocities_ := vel }, layers'), e)

/-- The per-layer record `Adam::AdamParams`. -/
structure AdamParams (α : Type) where
  m_w : List α
  v_w : List α
  m_b : List α
  v_b : List α
  w_size : Nat
  b_size : Nat

/-- `class Adam`; `params_` is a `std::map` keyed by `Layer*`.  The counter
`timestep_` is an `int` that only grows by one per call. -/
structure Adam (α : Type) where
  learning_rate_ : α
  beta1_ : α
  beta2_ : α
  epsilon_ : α
  timestep_ : Nat
  params_ : Nat → Option (AdamParams α)

/-- The first-encounter block of `Adam::step`: `params_[layer] = AdamParams{}`
followed by the sizing loop over the parameter pointers. -/
def Adam.first_encounter {α : Type} [Zero α] (layer : Layer α) : AdamParams α :=
  let params := layer.get_parameters
  (List.range params.length).foldl (fun (ap : AdamParams α) i =>
    match params.get? i with
    | some ps =>
      if i = 0 then
        let ap := { ap with w_size := (layer.deref ps).size }
        { ap with m_w := resize ap.m_w ap.w_size, v_w := resize ap.v_w ap.w_size }
      else
        let ap := { ap with b_size := (layer.deref ps).size }
        if ap.m_b.length ≠ ap.b_size then
          { ap with m_b := resize ap.m_b ap.b_size, v_b := resize ap.v_b ap.b_size }
        else ap
    | none => ap) ⟨[], [], [], [], 0, 0⟩

/-- The body of the layer loop of `Adam::step`, on the map `params_`; `lr_t`
and the time step are fixed by the caller for the whole call. -/
def Adam.step_layer {α : Type} [Field α] (sqrt : α → α) (beta1_ beta2_ epsilon_ lr_t : α)
    (timestep_ : Nat) (layer : LayerRef α) (params_ : Nat → Option (AdamParams α)) :
    (LayerRef α × (Nat → Option (AdamParams α))) × Option Err :=
  let params := layer.obj.get_parameters
  let grads := layer.obj.get_gradients
  if params.length ≠ grads.length then ((layer, params_), none)
  else
    let params_1 : Nat → Option (AdamParams α) :=
      if (params_ layer.addr).isNone then
        Function.update params_ layer.addr (some (Adam.first_encounter layer.obj))
      else params_
    let get (st : LayerRef α × (Nat → Option (AdamParams α))) : AdamParams α :=
      (st.2 layer.addr).getD ⟨[], [], [], [], 0, 0⟩
    let put (st : LayerRef α × (Nat → Option (AdamParams α))) (ap : AdamParams α) :
        LayerRef α × (Nat → Option (AdamParams α)) :=
      (st.1, Function.update st.2 layer.addr (some ap))
    andThen
      (match params.get? 0, grads.get? 0 with
      | some ps, some gs =>
        forRange (fun j st =>
          andThen (andThen
            (stmt st (do
              let g ← (st.1.obj.deref gs).op_index j
              let ap := get st
              let x := beta1_ * ap.m_w.getD j 0 + (1 - beta1_) * g
              pure (put st { ap with m_w := ap.m_w.set j x })))
            (fun st => stmt st (do
              let g ← (st.1.obj.deref gs).op_index j
              let g' ← (st.1.obj.deref gs).op_index j
              let ap := get st
              let x := beta2_ * ap.v_w.getD j 0 + (1 - beta2_) * g * g'
              pure (put st { ap with v_w := ap.v_w.set j x }))))
            (fun st => stmt st (do
              let m_hat := (get st).m_w.getD j 0 / (1 - beta1_ ^ timestep_)
              let v_hat := (get st).v_w.getD j 0 / (1 - beta2_ ^ timestep_)
              let p ← (st.1.obj.deref ps).op_index j
              let t ← (st.1.obj.deref ps).op_index_assign j
                (p - lr_t * m_hat / (sqrt v_hat + epsilon_))
              pure ({ st.1 with obj := st.1.obj.store ps t }, st.2))))
          (layer.obj.deref ps).size 0 (layer, params_1)
      | _, _ => ((layer, params_1), none))
      (fun st =>
        match params.get? 1, grads.get? 1 with
        | some ps, some gs =>
          forRange (fun j st =>
            andThen (andThen
              (stmt st (do
                let g ← (st.1.obj.deref gs).op_index j
                let ap := get st
                let x := beta1_ * ap.m_b.getD j 0 + (1 - beta1_) * g
                pure (put st { ap with m_b := ap.m_b.set j x })))
              (fun st => stmt st (do
                let g ← (st.1.obj.deref gs).op_index j
                let g' ← (st.1.obj.deref gs).op_index j
                let ap := get st
                let x := beta2_ * ap.v_b.getD j 0 + (1 - beta2_) * g * g'
                pure (put st { ap with v_b := ap.v_b.set j x }))))
              (fun st => stmt st (do
                let m_hat := (get st).m_b.getD j 0 / (1 - beta1_ ^ timestep_)
                let v_hat := (get st).v_b.getD j 0 / (1 - beta2_ ^ timestep_)
                let p ← (st.1.obj.deref ps).op_index j
                let t ← (st.1.obj.deref ps).op_index_assign j
                  (p - lr_t * m_hat / (sqrt v_hat + epsilon_))
                pure ({ st.1 with obj := st.1.obj.store ps t }, st.2))))
            (st.1.obj.deref ps).size 0 st
        | _, _ => (st, none))

/-- `Adam::step`: the optimizer and the layers after the call and the
exception that left it, if any. -/
def Adam.step {α : Type} [Field α] (sqrt : α → α) (opt : Adam α) (layers : List (LayerRef α)) :
    (Adam α × List (LayerRef α)) × Option Err :=
  let timestep_ := opt.timestep_ + 1
  let lr_t := opt.learning_rate_ * sqrt (1 - opt.beta2_ ^ timestep_) /
    (1 - opt.beta1_ ^ timestep_)
  match forEach (Adam.step_layer sqrt opt.beta1_ opt.beta2_ opt.epsilon_ lr_t timestep_)
      layers opt.params_ with
  | ((layers', ps), e) =>
    (({ opt with timestep_ := timestep_, params_ := ps }, layers'), e)

/-- The body of the layer loop of `SGD::zero_grad`, `Momentum::zero_grad` and
`Adam::zero_grad`, which have the same text. -/
def zero_grad_layer {α : Type} [Zero α] (layer : Layer α) : Layer α × Option Err :=
  let grads := layer.get_gradients
  forRange (fun k layer =>
    match grads.get? k with
    | some gs =>
      forRange (fun i layer =>
        stmt layer (do
          let t ← (layer.deref gs).op_index_assign i 0
          pure (layer.store gs t))) (layer.deref gs).size 0 layer
    | none => (layer, none)) grads.length 0 layer

/-- `SGD::zero_grad`: the layers after the call and the exception that left
it, if any. -/
def SGD.zero_grad {α : Type} [Zero α] (_ : SGD α) (layers : List (LayerRef α)) :
    List (LayerRef α) × Option Err :=
  match forEach (fun (r : LayerRef α) (u : Unit) =>
      match zero_grad_layer r.obj with
      | (obj, e) => (({ r with obj := obj }, u), e)) layers () with
  | ((layers', _), e) => (layers', e)

/-- `Momentum::zero_grad`; `velocities_` is not touched. -/
def Momentum.zero_grad {α : Type} [Zero α] (_ : Momentum α) (layers : List (LayerRef α)) :
    List (LayerRef α) × Option Err :=
  match forEach (fun (r : LayerRef α) (u : Unit) =>
      match zero_grad_layer r.obj with
      | (obj, e) => (({ r with obj := obj }, u), e)) layers () with
  | ((layers', _), e) => (layers', e)

/-- `Adam::zero_grad`; `params_` and `timestep_` are not touched. -/
def Adam.zero_grad {α : Type} [Zero α] (_ : Adam α) (layers : List (LayerRef α)) :
    List (LayerRef α) × Option Err :=
  match forEach (fun (r : LayerRef α) (u : Unit) =>
      match zero_grad_layer r.obj with
      | (obj, e) => (({ r with obj := obj }, u), e)) layers () with
  | ((layers', _), e) => (layers', e)

/-! ## Losses -/

/-- `MSELoss::compute_loss`. -/
def MSELoss.compute_loss {α : Type} [Field α] (predictions targets : Tensor α) :
    Except Err α :=
  if predictions.shape ≠ targets.shape then
    .error (.runtime_error "Prediction and target shapes do not match")
  else
    match forRange (fun i sum =>
        stmt sum (do
          let p ← predictions.op_index i
          let t ← targets.op_index i
          let diff := p - t
          pure (sum + diff * diff))) predictions.size 0 (0 : α) with
    | (sum, none) => .ok (sum / (predictions.size : α))
    | (_, some e) => .error e

/-- `MSELoss::compute_gradient`. -/
def MSELoss.compute_gradient {α : Type} [Field α] (predictions targets : Tensor α) :
    Except Err (Tensor α) :=
  if predictions.shape ≠ targets.shape then
    .error (.runtime_error "Prediction and target shapes do not match")
  else
    finish <| forRange (fun i gradient =>
      stmt gradient (do
        let p ← predictions.op_index i
        let t ← targets.op_index i
        gradient.op_index_assign i (2 * (p - t) / (predictions.size : α))))
      predictions.size 0 (Tensor.zeros predictions.rows predictions.cols)

/-- `CrossEntropyLoss::compute_loss`; `std::log` is the parameter `log`, and
`std::max(x, 1e-15f)` is `(x < 1e-15f) ? 1e-15f : x`. -/
def CrossEntropyLoss.compute_loss {α : Type} [Field α] [LT α]
    [DecidableRel (fun (a b : α) => a < b)] (log : α → α) (predictions targets : Tensor α) :
    Except Err α :=
  if predictions.shape ≠ targets.shape then
    .error (.runtime_error "Prediction and target shapes do not match")
  else
    match forRange (fun i sum =>
        stmt sum (do
          let x ← predictions.op_index i
          let p := if x < 1e-15 then 1e-15 else x
          let t ← targets.op_index i
          pure (sum - t * log p))) predictions.size 0 (0 : α) with
    | (sum, none) => .ok (sum / (predictions.size : α))
    | (_, some e) => .error e

/-- `CrossEntropyLoss::compute_gradient`. -/
def CrossEntropyLoss.compute_gradient {α : Type} [Field α] [LT α]
    [DecidableRel (fun (a b : α) => a < b)] (predictions targets : Tensor α) :
    Except Err (Tensor α) :=
  if predictions.shape ≠ targets.shape then
    .error (.runtime_error "Prediction and target shapes do not match")
  else
    finish <| forRange (fun i gradient =>
      stmt gradient (do
        let x ← predictions.op_index i
        let p := if x < 1e-15 then 1e-15 else x
        let t ← targets.op_index i
        gradient.op_index_assign i ((p - t) / (p * (predictions.size : α)))))
      predictions.size 0 (Tensor.zeros predictions.rows predictions.cols)

/-- An object of a class derived from `Loss`: its two virtual member
functions.  The loss classes have no data members and change nothing. -/
structure Loss (α : Type) where
  compute_loss : Tensor α → Tensor α → Except Err α
  compute_gradient : Tensor α → Tensor α → Except Err (Tensor α)

/-- An object of class `MSELoss` behind a `Loss&`. -/
def MSELoss.loss {α : Type} [Field α] : Loss α :=
  ⟨MSELoss.compute_loss, MSELoss.compute_gradient⟩

/-! ## Network -/

/-- An object of one of the classes derived from `Optimizer`. -/
inductive Optimizer (α : Type) where
  | sgd (o : SGD α)
  | momentum (o : Momentum α)
  | adam (o : Adam α)

/-- The virtual call `optimizer.step(layers)`; `std::sqrt` is the parameter
`sqrt`. -/
def Optimizer.step {α : Type} [Field α] (sqrt : α → α) :
    Optimizer α → List (LayerRef α) → (Optimizer α × List (LayerRef α)) × Option Err
  | .sgd o, layers =>
    match o.step layers with
    | (layers', e) => ((.sgd o, layers'), e)
  | .momentum o, layers =>
    match o.step layers with
    | ((o', layers'), e) => ((.momentum o', layers'), e)
  | .adam o, layers =>
    match Adam.step sqrt o layers with
    | ((o', layers'), e) => ((.adam o', layers'), e)

/-- The virtual call `optimizer.zero_grad(layers)`; no optimizer changes a
member of its own in it. -/
def Optimizer.zero_grad {α : Type} [Zero α] :
    Optimizer α → List (LayerRef α) → List (LayerRef α) × Option Err
  | .sgd o, layers => o.zero_grad layers
  | .momentum o, layers => o.zero_grad layers
  | .adam o, layers => o.zero_grad layers

/-- The data members of `class Network`; `layer_outputs_` is declared and
never used. -/
structure Network (α : Type) where
  layers_ : List (LayerRef α)
  layer_outputs_ : List (Tensor α)

namespace Network

variable {α : Type}

/-- `Network::add_layer`: `layers_.push_back(layer)`. -/
def add_layer (net : Network α) (layer : LayerRef α) : Network α :=
  { net with layers_ := net.layers_ ++ [layer] }

/-- The body of the layer loop of `Network::forward`, on `current_output`. -/
def forward_layer [Field α] [LT α] [DecidableRel (fun (a b : α) => a < b)]
    (exp tanh : α → α) (layer : LayerRef α) (current_output : Tensor α) :
    (LayerRef α × Tensor α) × Option Err :=
  match layer.obj.forward exp tanh current_output with
  | (obj, .ok output) => (({ layer with obj := obj }, output), none)
  | (obj, .error e) => (({ layer with obj := obj }, current_output), some e)

/-- `Network::forward`: the network after the call and the returned tensor or
the exception. -/
def forward [Field α] [LT α] [DecidableRel (fun (a b : α) => a < b)]
    (exp tanh : α → α) (net : Network α) (input : Tensor α) :
    Network α × Except Err (Tensor α) :=
  match forEach (forward_layer exp tanh) net.layers_ input with
  | ((layers, current_output), none) => ({ net with layers_ := layers }, .ok current_output)
  | ((layers, _), some e) => ({ net with layers_ := layers }, .error e)

/-- The body of the backward loop of `Network::train`, on `grad_output`. -/
def backward_layer [Field α] [LT α] [DecidableRel (fun (a b : α) => a < b)]
    (layer : LayerRef α) (grad_output : Tensor α) : (LayerRef α × Tensor α) × Option Err :=
  match layer.obj.backward grad_output with
  | (obj, .ok grad) => (({ layer with obj := obj }, grad), none)
  | (obj, .error e) => (({ layer with obj := obj }, grad_output), some e)

/-- The loop `for (int i = layers_.size() - 1; i >= 0; --i) grad_output =
layers_[i]->backward(grad_output);` of `Network::train`: the layers are visited
from the last to the first. -/
def backward_pass [Field α] [LT α] [DecidableRel (fun (a b : α) => a < b)]
    (layers : List (LayerRef α)) (grad_output : Tensor α) :
    (List (LayerRef α) × Tensor α) × Option Err :=
  match forEach backward_layer layers.reverse grad_output with
  | ((visited, grad), e) => ((visited.reverse, grad), e)

/-- `Network::train`: the network and the optimizer after the call and the
returned loss value or the exception. -/
def train [Field α] [LT α] [DecidableRel (fun (a b : α) => a < b)]
    (exp tanh sqrt : α → α) (net : Network α) (input target : Tensor α) (loss : Loss α)
    (optimizer : Optimizer α) : (Network α × Optimizer α) × Except Err α :=
  match forward exp tanh net input with
  | (net, .error e) => ((net, optimizer), .error e)
  | (net, .ok output) =>
    match loss.compute_loss output target with
    | .error e => ((net, optimizer), .error e)
    | .ok loss_value =>
      match loss.compute_gradient output target with
      | .error e => ((net, optimizer), .error e)
      | .ok grad_output =>
        match backward_pass net.layers_ grad_output with
        | ((layers, _), some e) => (({ net with layers_ := layers }, optimizer), .error e)
        | ((layers, _), none) =>
          match optimizer.step sqrt layers with
          | ((optimizer, layers), some e) =>
            (({ net with layers_ := layers }, optimizer), .error e)
          | ((optimizer, layers), none) =>
            (({ net with layers_ := layers }, optimizer), .ok loss_value)

/-- `Network::evaluate`: the network after the call and the returned loss
value or the exception. -/
def evaluate [Field α] [LT α] [DecidableRel (fun (a b : α) => a < b)]
    (exp tanh : α → α) (net : Network α) (input target : Tensor α) (loss : Loss α) :
    Network α × Except Err α :=
  match forward exp tanh net input with
  | (net, .error e) => (net, .error e)
  | (net, .ok output) => (net, loss.compute_loss output target)

end Network

/-! ## Conditions on layer states -/

/-- Two states of a layer object "agree except for the stored gradients": the
same class, and for a `Linear` object the same weights, bias and cached input
(the caches of the other classes are all their state). -/
def Layer.AgreeUpToGradients {α : Type} : Layer α → Layer α → Prop
  | .linear l, .linear l' =>
    l'.weights_ = l.weights_ ∧ l'.bias_ = l.bias_ ∧ l'.input_cache_ = l.input_cache_
  | .sigmoid c, .sigmoid c' => c' = c
  | .relu c, .relu c' => c' = c
  | .tanh c, .tanh c' => c' = c
  | _, _ => False

/-- The shape invariant of the layer classes: a `Linear` object has weights of
a shape (out, in) and a bias of the shape (out, 1), as its constructor and its
setters leave them; the other classes have no parameters. -/
def Layer.WellFormed {α : Type} : Layer α → Prop
  | .linear l => ∃ out inp, l.weights_.IsMatrix out inp ∧ l.bias_.IsMatrix out 1
  | _ => True

/-- A layer after a `forward` that returned: the shape invariant, and for a
`Linear` object the cached input has as many rows as the weights have
columns. -/
def Layer.Cached {α : Type} : Layer α → Prop
  | .linear l => ∃ out inp,
    l.weights_.IsMatrix out inp ∧ l.bias_.IsMatrix out 1 ∧ l.input_cache_.rows = inp
  | _ => True

/-- An entry of a layer list "is the same object with parameters of the same
sizes" as another: the same address and class and, for a `Linear` object,
weights and bias of as many elements. -/
def LayerRef.SameObject {α : Type} (ref ref' : LayerRef α) : Prop :=
  ref'.addr = ref.addr ∧
  match ref.obj, ref'.obj with
  | .linear l, .linear l' =>
    l'.weights_.size = l.weights_.size ∧ l'.bias_.size = l.bias_.size
  | .sigmoid _, .sigmoid _ => True
  | .relu _, .relu _ => True
  | .tanh _, .tanh _ => True
  | _, _ => False

/-- An entry of a layer list "is the same object with its parameters as they
were": the same address and class and, for a `Linear` object, the same weights
and the same bias. -/
def LayerRef.SameParameters {α : Type} (ref ref' : LayerRef α) : Prop :=
  ref'.addr = ref.addr ∧
  match ref.obj, ref'.obj with
  | .linear l, .linear l' => l'.weights_ = l.weights_ ∧ l'.bias_ = l.bias_
  | .sigmoid _, .sigmoid _ => True
  | .relu _, .relu _ => True
  | .tanh _, .tanh _ => True
  | _, _ => False

/-- The auxiliary state of an optimizer "fits" a layer list: for `Adam`, the
layers are distinct objects and the moment buffers recorded for a `Linear`
layer hold as many elements as its weights and its bias; `SGD` has no such
state and `Momentum::step` resizes its buffer before every use. -/
def Optimizer.StateFits {α : Type} : Optimizer α → List (LayerRef α) → Prop
  | .adam o, layers =>
    (layers.map (fun r => r.addr)).Nodup ∧
    ∀ ref ∈ layers, ∀ l ap, ref.obj = Layer.linear l → o.params_ ref.addr = some ap →
      ap.m_w.length = l.weights_.size ∧ ap.v_w.length = l.weights_.size ∧
      ap.m_b.length = l.bias_.size ∧ ap.v_b.length = l.bias_.size
  | _, _ => True

/-! ## DataLoader -/

/-- The data members of `class DataLoader`. -/
structure DataLoader (α : Type) where
  data_ : List (Tensor α)
  labels_ : List (Tensor α)
  batch_size_ : Nat
  current_index_ : Nat
  deriving DecidableEq

/-- `struct DataLoader::Batch`. -/
structure DataLoader.Batch (α : Type) where
  data : List (Tensor α)
  labels : List (Tensor α)
  deriving DecidableEq

namespace DataLoader

variable {α : Type}

/-- `DataLoader::DataLoader(data, labels, batch_size)`. -/
def make (data labels : List (Tensor α)) (batch_size : Nat) : Except Err (DataLoader α) :=
  if data.length ≠ labels.length then
    .error (.runtime_error "Data and label sets must have the same size")
  else .ok ⟨data, labels, batch_size, 0⟩

/-- `DataLoader::has_next`. -/
def has_next (dl : DataLoader α) : Bool := decide (dl.current_index_ < dl.data_.length)

/-- `DataLoader::get_next`: the loader after the call and the returned batch
or the exception.  `data_[i]` and `labels_[i]` are unchecked reads; the sum
`current_index_ + batch_size_` is not reduced modulo the word size. -/
def get_next (dl : DataLoader α) : DataLoader α × Except Err (Batch α) :=
  if !dl.has_next then (dl, .error (.runtime_error "No more data to load"))
  else
    let end_index := min (dl.current_index_ + dl.batch_size_) dl.data_.length
    let batch := (forRange (fun i (batch : Batch α) =>
      (⟨batch.data ++ [dl.data_.getD i ⟨[], []⟩],
        batch.labels ++ [dl.labels_.getD i ⟨[], []⟩]⟩, none))
      (end_index - dl.current_index_) dl.current_index_ ⟨[], []⟩).1
    ({ dl with current_index_ := end_index }, .ok batch)

/-- `DataLoader::reset`. -/
def reset (dl : DataLoader α) : DataLoader α := { dl with current_index_ := 0 }

end DataLoader

/-! ## Loop rules -/

section LoopRules

variable {α σ : Type}

/-- Invariant rule for `forRange`: a loop whose body never throws under the
invariant completes and the invariant holds at the end. -/
theorem forRange_inv (body : Nat → σ → σ × Option Err) (I : Nat → σ → Prop) :
    ∀ (n i : Nat) (s : σ), I i s →
      (∀ k s, i ≤ k → k < i + n → I k s →
        (body k s).2 = none ∧ I (k + 1) (body k s).1) →
      (forRange body n i s).2 = none ∧ I (i + n) (forRange body n i s).1 := by
  intro n
  induction n with
  | zero => intro i s h0 _; exact ⟨rfl, by simpa [forRange] using h0⟩
  | succ n ih =>
    intro i s h0 hstep
    obtain ⟨hb, hI⟩ := hstep i s (Nat.le_refl i) (by omega) h0
    have hfr : forRange body (n + 1) i s = forRange body n (i + 1) (body i s).1 := by
      rcases hbs : body i s with ⟨s', o⟩
      rw [hbs] at hb
      simp only at hb
      subst hb
      simp [forRange, hbs]
    rw [hfr]
    have := ih (i + 1) (body i s).1 hI
      (fun k s hk hk2 hIk => hstep k s (by omega) (by omega) hIk)
    have e : i + (n + 1) = i + 1 + n := by omega
    rw [e]
    exact this

/-- An accumulating loop that adds `f k` in round `k` computes the sum. -/
theorem forRange_sum [AddCommMonoid α] (body : Nat → α → α × Option Err) (f : Nat → α)
    (n : Nat) (h : ∀ k s, k < n → body k s = (s + f k, none)) :
    forRange body n 0 0 = (∑ k in Finset.range n, f k, none) := by
  have := forRange_inv body (fun k s => s = ∑ k' in Finset.range k, f k') n 0 0
    (by simp)
    (fun k s _ hk hs => by
      rw [h k s (by omega)]
      refine ⟨rfl, ?_⟩
      simp only
      rw [Finset.sum_range_succ, hs])
  rcases hr : forRange body n 0 0 with ⟨s, o⟩
  rw [hr] at this
  simp only [Nat.zero_add] at this
  rw [this.1, this.2]

theorem Tensor.data_at_set [Zero α] (r : Tensor α) (a b : Nat) (v : α) :
    ({ r with data := r.data.set a v } : Tensor α).data_at b =
      if a = b ∧ a < r.data.length then v else r.data_at b := by
  simp only [Tensor.data_at, List.getD_eq_getElem?_getD, List.getElem?_set]
  by_cases hab : a = b
  · subst hab
    by_cases hl : a < r.data.length
    · simp [hl]
    · simp [hl, List.getElem?_eq_none (Nat.le_of_not_lt hl)]
  · simp [hab]

/-- A double loop whose body stores `val i j` at the storage position
`loc i j`, for an injective `loc`, yields a tensor holding `val` there. -/
theorem fill_loop [Zero α] (m p : Nat) (body : Nat → Nat → Tensor α → Tensor α × Option Err)
    (outer : Nat → Tensor α → Tensor α × Option Err)
    (init : Tensor α) (loc : Nat → Nat → Nat) (val : Nat → Nat → α)
    (houter : ∀ i r, r.shape = init.shape →
      outer i r = forRange (fun j r => body i j r) p 0 r)
    (hinj : ∀ i j i' j', i < m → j < p → i' < m → j' < p →
      loc i j = loc i' j' → i = i' ∧ j = j')
    (hlen : ∀ i j, i < m → j < p → loc i j < init.data.length)
    (hbody : ∀ i j r, i < m → j < p → r.shape = init.shape →
      r.data.length = init.data.length →
      r.data_at (loc i j) = init.data_at (loc i j) →
      body i j r = ({ r with data := r.data.set (loc i j) (val i j) }, none)) :
    ∃ res, forRange outer m 0 init = (res, none) ∧
      res.shape = init.shape ∧ res.data.length = init.data.length ∧
      ∀ i j, i < m → j < p → res.data_at (loc i j) = val i j := by
  let Inv : Nat → Nat → Tensor α → Prop := fun i j r =>
    r.shape = init.shape ∧ r.data.length = init.data.length ∧
    (∀ i' j', i' < m → j' < p → (i' < i ∨ (i' = i ∧ j' < j)) →
      r.data_at (loc i' j') = val i' j') ∧
    (∀ i' j', i' < m → j' < p → ¬ (i' < i ∨ (i' = i ∧ j' < j)) →
      r.data_at (loc i' j') = init.data_at (loc i' j'))
  have inner : ∀ i r, i < m → Inv i 0 r →
      (forRange (fun j r => body i j r) p 0 r).2 = none ∧
      Inv (i + 1) 0 (forRange (fun j r => body i j r) p 0 r).1 := by
    intro i r hi hr
    have := forRange_inv (fun j r => body i j r) (fun j r => Inv i j r) p 0 r hr
      (fun j r _ hj hI => by
        have hj : j < p := by omega
        obtain ⟨hs, hl, hdone, htodo⟩ := hI
        have hcur := htodo i j hi hj (by omega)
        show (body i j r).2 = none ∧ Inv i (j + 1) (body i j r).1
        rw [hbody i j r hi hj hs hl hcur]
        refine ⟨rfl, hs, by simpa using hl, ?_, ?_⟩
        · intro i' j' hi' hj' hd
          simp only [Tensor.data_at_set]
          by_cases heq : loc i j = loc i' j'
          · have hl' : loc i j < r.data.length := by rw [hl]; exact hlen i j hi hj
            obtain ⟨h1, h2⟩ := hinj i j i' j' hi hj hi' hj' heq
            subst h1; subst h2
            simp [hl']
          · simp only [heq, false_and, if_false]
            apply hdone i' j' hi' hj'
            rcases hd with hd | ⟨hd1, hd2⟩
            · exact Or.inl hd
            · refine Or.inr ⟨hd1, ?_⟩
              rcases Nat.lt_or_ge j' j with h | h
              · exact h
              · exfalso
                have : j' = j := by omega
                subst this; subst hd1
                exact heq rfl
        · intro i' j' hi' hj' hd
          simp only [Tensor.data_at_set]
          have hne : loc i j ≠ loc i' j' := by
            intro heq
            obtain ⟨h1, h2⟩ := hinj i j i' j' hi hj hi' hj' heq
            apply hd
            right
            exact ⟨h1.symm, by omega⟩
          simp only [hne, false_and, if_false]
          apply htodo i' j' hi' hj'
          intro h
          apply hd
          rcases h with h | ⟨h1, h2⟩
          · exact Or.inl h
          · exact Or.inr ⟨h1, by omega⟩)
    refine ⟨this.1, ?_⟩
    obtain ⟨hs, hl, hdone, htodo⟩ := this.2
    simp only [Nat.zero_add] at hdone htodo
    refine ⟨hs, hl, ?_, ?_⟩
    · intro i' j' hi' hj' hd
      apply hdone i' j' hi' hj'
      rcases hd with hd | ⟨_, hd2⟩
      · rcases Nat.lt_or_ge i' i with h | h
        · exact Or.inl h
        · exact Or.inr ⟨by omega, hj'⟩
      · omega
    · intro i' j' hi' hj' hd
      apply htodo i' j' hi' hj'
      intro h
      apply hd
      rcases h with h | ⟨h1, _⟩
      · exact Or.inl (by omega)
      · exact Or.inl (by omega)
  have hout := forRange_inv outer
    (fun i r => Inv i 0 r) m 0 init
    ⟨rfl, rfl, fun _ _ _ _ h => by omega, fun _ _ _ _ _ => rfl⟩
    (fun i r _ hi hI => by
      show (outer i r).2 = none ∧ Inv (i + 1) 0 (outer i r).1
      rw [houter i r hI.1]
      exact inner i r (by omega) hI)
  rcases hr : forRange outer m 0 init with ⟨res, o⟩
  rw [hr] at hout
  obtain ⟨ho, hs, hl, hdone, _⟩ := hout
  simp only at ho
  subst ho
  refine ⟨res, rfl, hs, hl, ?_⟩
  intro i j hi hj
  exact hdone i j hi hj (Or.inl (by omega))

theorem rowmajor_inj (m p i j i' j' : Nat) (_ : i < m) (hj : j < p) (_ : i' < m)
    (hj' : j' < p) (h : i * p + j = i' * p + j') : i = i' ∧ j = j' := by
  have h1 : (i * p + j) / p = (i' * p + j') / p := by rw [h]
  have h2 : (i * p + j) % p = (i' * p + j') % p := by rw [h]
  have hp : 0 < p := by omega
  rw [Nat.mul_comm i p, Nat.mul_comm i' p, Nat.mul_add_div hp, Nat.mul_add_div hp,
    Nat.div_eq_of_lt hj, Nat.div_eq_of_lt hj'] at h1
  rw [Nat.mul_comm i p, Nat.mul_comm i' p, Nat.mul_add_mod, Nat.mul_add_mod,
    Nat.mod_eq_of_lt hj, Nat.mod_eq_of_lt hj'] at h2
  exact ⟨by omega, h2⟩

theorem rowmajor_lt (m p i j : Nat) (hi : i < m) (hj : j < p) : i * p + j < m * p := by
  have : (i + 1) * p ≤ m * p := Nat.mul_le_mul_right p hi
  rw [Nat.add_mul, Nat.one_mul] at this
  omega

namespace Tensor

theorem shape_at_zero (t : Tensor α) (m n : Nat) (h : t.shape = [m, n]) :
    t.shape_at 0 = m := by simp [shape_at, h]

theorem shape_at_one (t : Tensor α) (m n : Nat) (h : t.shape = [m, n]) :
    t.shape_at 1 = n := by simp [shape_at, h]

theorem rows_eq (t : Tensor α) (m n : Nat) (h : t.shape = [m, n]) : t.rows = m := by
  simp [rows, shape_at, h]

theorem cols_eq (t : Tensor α) (m n : Nat) (h : t.shape = [m, n]) : t.cols = n := by
  simp [cols, shape_at, h]

theorem index_eq (t : Tensor α) (m n : Nat) (h : t.shape = [m, n]) (i j : Nat) :
    t.index i j = i * n + j := by simp [index, shape_at, h]

theorem op_call_ok [Zero α] (t : Tensor α) (m n : Nat) (h : t.shape = [m, n]) (i j : Nat)
    (hi : i < m) (hj : j < n) : t.op_call i j = .ok (t.entry i j) := by
  have h0 := shape_at_zero t m n h
  have h1 := shape_at_one t m n h
  simp only [op_call, h0, h1]
  rw [if_neg (by omega)]

theorem op_call_assign_ok (t : Tensor α) (m n : Nat) (h : t.shape = [m, n]) (i j : Nat)
    (hi : i < m) (hj : j < n) (v : α) :
    t.op_call_assign i j v = .ok { t with data := t.data.set (i * n + j) v } := by
  have h0 := shape_at_zero t m n h
  have h1 := shape_at_one t m n h
  simp only [op_call_assign, h0, h1, index]
  rw [if_neg (by omega)]

theorem zeros_isMatrix [Zero α] (m n : Nat) : (zeros m n : Tensor α).IsMatrix m n := by
  simp [zeros, IsMatrix]

/-- The triple loop of `matmul` on conformant shapes. -/
theorem matmul_ok [Semiring α] (A B : Tensor α) (m n p : Nat) (hA : A.shape = [m, n])
    (hB : B.shape = [n, p]) :
    ∃ C, A.matmul B = .ok C ∧ C.IsMatrix m p ∧
      ∀ i j, i < m → j < p →
        C.entry i j = ∑ k in Finset.range n, A.entry i k * B.entry k j := by
  have hAr := rows_eq A m n hA
  have hAc := cols_eq A m n hA
  have hBr := rows_eq B n p hB
  have hBc := cols_eq B n p hB
  obtain ⟨hZs, hZl⟩ := zeros_isMatrix (α := α) m p
  obtain ⟨res, hres, hs, hl, hval⟩ := fill_loop m p
    (fun i j result =>
      match forRange (fun k sum =>
          stmt sum (do
            let x ← A.op_call i k
            let y ← B.op_call k j
            pure (sum + x * y))) n 0 (0 : α) with
      | (sum, none) => stmt result (result.op_call_assign i j sum)
      | (_, some e) => (result, some e)) _
    (zeros m p) (fun i j => i * p + j)
    (fun i j => ∑ k in Finset.range n, A.entry i k * B.entry k j)
    (fun _ _ _ => rfl)
    (fun i j i' j' hi hj hi' hj' h => rowmajor_inj m p i j i' j' hi hj hi' hj' h)
    (fun i j hi hj => by rw [hZl]; exact rowmajor_lt m p i j hi hj)
    (fun i j r hi hj hrs _ _ => by
      have hsum := forRange_sum (fun k sum =>
          stmt sum (do
            let x ← A.op_call i k
            let y ← B.op_call k j
            pure (sum + x * y))) (fun k => A.entry i k * B.entry k j) n
        (fun k s hk => by
          simp only [op_call_ok A m n hA i k hi hk, op_call_ok B n p hB k j hk hj]
          rfl)
      simp only [hsum]
      rw [op_call_assign_ok r m p (hrs.trans hZs) i j hi hj]
      rfl)
  refine ⟨res, ?_, ⟨hs.trans hZs, hl.trans hZl⟩, ?_⟩
  · simp only [matmul, hAr, hAc, hBr, hBc, ne_eq, not_true_eq_false, if_false]
    rw [hres]
    rfl
  · intro i j hi hj
    have := hval i j hi hj
    simpa [entry, index_eq res m p (hs.trans hZs)] using this

theorem forRange_one {σ : Type} (f : Nat → σ → σ × Option Err) (i : Nat) (s : σ) :
    forRange f 1 i s = f i s := by
  rcases h : f i s with ⟨s', o⟩
  cases o <;> simp [forRange, h]

/-- `Tensor::transpose` on a 2-D shape. -/
theorem transpose_ok [Zero α] (t : Tensor α) (m n : Nat) (ht : t.shape = [m, n]) :
    ∃ r, t.transpose = .ok r ∧ r.IsMatrix n m ∧
      ∀ i j, i < n → j < m → r.entry i j = t.entry j i := by
  have hr := rows_eq t m n ht
  have hc := cols_eq t m n ht
  obtain ⟨hZs, hZl⟩ := zeros_isMatrix (α := α) n m
  obtain ⟨res, hres, hs, hl, hval⟩ := fill_loop m n
    (fun i j result =>
      match t.op_call i j with
      | .ok x => stmt result (result.op_call_assign j i x)
      | .error e => (result, some e)) _
    (zeros n m) (fun i j => j * m + i) (fun i j => t.entry i j)
    (fun _ _ _ => rfl)
    (fun i j i' j' hi hj hi' hj' h =>
      (rowmajor_inj n m j i j' i' hj hi hj' hi' h).symm)
    (fun i j hi hj => by rw [hZl]; exact rowmajor_lt n m j i hj hi)
    (fun i j r hi hj hrs _ _ => by
      simp only [op_call_ok t m n ht i j hi hj]
      rw [op_call_assign_ok r n m (hrs.trans hZs) j i hj hi]
      rfl)
  refine ⟨res, ?_, ⟨hs.trans hZs, hl.trans hZl⟩, ?_⟩
  · simp only [transpose, hr, hc]
    rw [hres]
    rfl
  · intro i j hi hj
    have := hval j i hj hi
    simpa [entry, index_eq res n m (hs.trans hZs)] using this

/-- `Tensor::sum(1)` on a 2-D shape: the row sums. -/
theorem sum_one_ok [AddCommMonoid α] (t : Tensor α) (m n : Nat) (ht : t.shape = [m, n]) :
    ∃ r, t.sum 1 = .ok r ∧ r.IsMatrix m 1 ∧
      ∀ i, i < m → r.entry i 0 = ∑ j in Finset.range n, t.entry i j := by
  have hr := rows_eq t m n ht
  have hc := cols_eq t m n ht
  obtain ⟨hZs, hZl⟩ := zeros_isMatrix (α := α) m 1
  obtain ⟨res, hres, hs, hl, hval⟩ := fill_loop m 1
    (fun i _ result =>
      match forRange (fun j sum =>
          stmt sum (do
            let x ← t.op_call i j
            pure (sum + x))) n 0 (0 : α) with
      | (sum, none) => stmt result (result.op_call_assign i 0 sum)
      | (_, some e) => (result, some e)) _
    (zeros m 1) (fun i _ => i) (fun i _ => ∑ j in Finset.range n, t.entry i j)
    (fun _ _ _ => (forRange_one _ _ _).symm)
    (fun i j i' j' _ hj _ hj' h => ⟨h, by omega⟩)
    (fun i j hi _ => by show i < _; rw [hZl]; omega)
    (fun i j r hi _ hrs _ _ => by
      have hsum := forRange_sum (fun j sum =>
          stmt sum (do
            let x ← t.op_call i j
            pure (sum + x))) (fun j => t.entry i j) n
        (fun k s hk => by
          simp only [op_call_ok t m n ht i k hi hk]
          rfl)
      simp only [hsum]
      rw [op_call_assign_ok r m 1 (hrs.trans hZs) i 0 hi (by omega)]
      simp [stmt])
  refine ⟨res, ?_, ⟨hs.trans hZs, hl.trans hZl⟩, ?_⟩
  · have h1 : (1 : Int) ≠ -1 := by decide
    have h2 : (1 : Int) ≠ 0 := by decide
    simp only [sum, h1, h2, if_false, if_true, hr, hc]
    rw [hres]
    rfl
  · intro i hi
    have := hval i 0 hi (by omega)
    simpa [entry, index_eq res m 1 (hs.trans hZs)] using this

end Tensor

end LoopRules

/-! ## Tensor algebra and the Linear layer -/

section LinearLayer

variable {α : Type}

/-- The bias loop of `Linear::forward` on a product of shape (out, batch). -/
theorem Linear.bias_loop_ok [Semiring α] (bias output : Tensor α) (out batch : Nat)
    (hb : bias.shape = [out, 1]) (ho : output.IsMatrix out batch) :
    ∃ y, forRange (fun i output =>
        forRange (fun j output =>
          stmt output (do
            let b ← bias.op_call i 0
            let cur ← output.op_call i j
            output.op_call_assign i j (cur + b))) output.cols 0 output) out 0 output
        = (y, none) ∧
      y.IsMatrix out batch ∧
      ∀ i j, i < out → j < batch → y.entry i j = output.entry i j + bias.entry i 0 := by
  obtain ⟨hos, hol⟩ := ho
  obtain ⟨res, hres, hs, hl, hval⟩ := fill_loop out batch
    (fun i j output =>
      stmt output (do
        let b ← bias.op_call i 0
        let cur ← output.op_call i j
        output.op_call_assign i j (cur + b)))
    (fun i output =>
      forRange (fun j output =>
        stmt output (do
          let b ← bias.op_call i 0
          let cur ← output.op_call i j
          output.op_call_assign i j (cur + b))) output.cols 0 output)
    output (fun i j => i * batch + j) (fun i j => output.entry i j + bias.entry i 0)
    (fun i r hr => by simp only [Tensor.cols_eq r out batch (hr.trans hos)])
    (fun i j i' j' hi hj hi' hj' h => rowmajor_inj out batch i j i' j' hi hj hi' hj' h)
    (fun i j hi hj => by rw [hol]; exact rowmajor_lt out batch i j hi hj)
    (fun i j r hi hj hrs _ hcur => by
      have hre : r.entry i j = output.entry i j := by
        simp only [Tensor.entry, Tensor.index_eq r out batch (hrs.trans hos),
          Tensor.index_eq output out batch hos]
        exact hcur
      simp only [Tensor.op_call_ok bias out 1 hb i 0 hi (by omega),
        Tensor.op_call_ok r out batch (hrs.trans hos) i j hi hj]
      show stmt r (r.op_call_assign i j (r.entry i j + bias.entry i 0)) = _
      rw [Tensor.op_call_assign_ok r out batch (hrs.trans hos) i j hi hj, hre]
      rfl)
  refine ⟨res, hres, ⟨hs.trans hos, hl.trans hol⟩, ?_⟩
  intro i j hi hj
  have := hval i j hi hj
  simpa [Tensor.entry, Tensor.index_eq res out batch (hs.trans hos)] using this

/-- C1: for a Linear layer with weights of shape (out, in) and bias of shape
(out, 1) and an input `x` of shape (in, batch), `forward(x)` succeeds, leaves
the layer as it was except that `x` is the cached input, and returns a tensor
of shape (out, batch) whose entry (i, j) is the sum over k of W(i,k)*x(k,j)
plus b(i,0). -/
theorem Linear.forward_spec [Semiring α] (l : Linear α) (x : Tensor α) (out inp batch : Nat)
    (hW : l.weights_.IsMatrix out inp) (hb : l.bias_.IsMatrix out 1)
    (hx : x.IsMatrix inp batch) :
    ∃ y, l.forward x = ({ l with input_cache_ := x }, .ok y) ∧ y.IsMatrix out batch ∧
      ∀ i j, i < out → j < batch →
        y.op_call i j = .ok ((∑ k in Finset.range inp,
          l.weights_.entry i k * x.entry k j) + l.bias_.entry i 0) := by
  obtain ⟨C, hC, hCm, hCe⟩ := Tensor.matmul_ok l.weights_ x out inp batch hW.1 hx.1
  obtain ⟨y, hy, hym, hye⟩ := Linear.bias_loop_ok l.bias_ C out batch hb.1 hCm
  refine ⟨y, ?_, hym, ?_⟩
  · simp only [Linear.forward, hC, Tensor.rows_eq C out batch hCm.1]
    rw [hy]
    rfl
  · intro i j hi hj
    rw [Tensor.op_call_ok y out batch hym.1 i j hi hj, hye i j hi hj, hCe i j hi hj]

/-- Witness of C1: the layer of `test_linear_layer` (3 inputs, 2 outputs) on a
3x1 input. -/
theorem Linear.forward_spec_witness :
    (⟨⟨[1, 2, 3, 4, 5, 6], [2, 3]⟩, ⟨[7, 8], [2, 1]⟩, ⟨[], []⟩, ⟨[0, 0, 0, 0, 0, 0], [2, 3]⟩,
        ⟨[0, 0], [2, 1]⟩⟩ : Linear Int).weights_.IsMatrix 2 3 ∧
    ∃ y, (⟨⟨[1, 2, 3, 4, 5, 6], [2, 3]⟩, ⟨[7, 8], [2, 1]⟩, ⟨[], []⟩,
        ⟨[0, 0, 0, 0, 0, 0], [2, 3]⟩, ⟨[0, 0], [2, 1]⟩⟩ : Linear Int).forward ⟨[1, 2, 3], [3, 1]⟩
        = ({ (⟨⟨[1, 2, 3, 4, 5, 6], [2, 3]⟩, ⟨[7, 8], [2, 1]⟩, ⟨[], []⟩,
          ⟨[0, 0, 0, 0, 0, 0], [2, 3]⟩, ⟨[0, 0], [2, 1]⟩⟩ : Linear Int) with
            input_cache_ := ⟨[1, 2, 3], [3, 1]⟩ }, .ok y) ∧
      y.IsMatrix 2 1 ∧
      ∀ i j, i < 2 → j < 1 →
        y.op_call i j = .ok ((∑ k in Finset.range 3,
          (⟨[1, 2, 3, 4, 5, 6], [2, 3]⟩ : Tensor Int).entry i k *
            (⟨[1, 2, 3], [3, 1]⟩ : Tensor Int).entry k j) +
          (⟨[7, 8], [2, 1]⟩ : Tensor Int).entry i 0) :=
  ⟨by decide, Linear.forward_spec _ _ 2 3 1 (by decide) (by decide) (by decide)⟩

/-- C2: for a Linear layer with weights of shape (out, in) and cached input
`x` of shape (in, batch), and `g` of shape (out, batch), `backward(g)`
succeeds; afterwards `grad_weights_` is `g.matmul(x.transpose())` of shape
(out, in), `grad_bias_` is `g.sum(1)` of shape (out, 1) with entry i the sum
over j of g(i,j), the weights, the bias and the cache are what they were, and
the returned tensor is `W.transpose().matmul(g)` of shape (in, batch). -/
theorem Linear.backward_spec [Semiring α] (l : Linear α) (g : Tensor α) (out inp batch : Nat)
    (hW : l.weights_.IsMatrix out inp) (hx : l.input_cache_.IsMatrix inp batch)
    (hg : g.IsMatrix out batch) :
    ∃ xt gw gb wt gi,
      l.input_cache_.transpose = .ok xt ∧ g.matmul xt = .ok gw ∧ g.sum 1 = .ok gb ∧
      l.weights_.transpose = .ok wt ∧ wt.matmul g = .ok gi ∧
      l.backward g = ({ l with grad_weights_ := gw, grad_bias_ := gb }, .ok gi) ∧
      gw.IsMatrix out inp ∧ gb.IsMatrix out 1 ∧ gi.IsMatrix inp batch ∧
      ∀ i, i < out → gb.op_call i 0 = .ok (∑ j in Finset.range batch, g.entry i j) := by
  obtain ⟨xt, hxt, hxtm, _⟩ := Tensor.transpose_ok l.input_cache_ inp batch hx.1
  obtain ⟨gw, hgw, hgwm, _⟩ := Tensor.matmul_ok g xt out batch inp hg.1 hxtm.1
  obtain ⟨gb, hgb, hgbm, hgbe⟩ := Tensor.sum_one_ok g out batch hg.1
  obtain ⟨wt, hwt, hwtm, _⟩ := Tensor.transpose_ok l.weights_ out inp hW.1
  obtain ⟨gi, hgi, hgim, _⟩ := Tensor.matmul_ok wt g inp out batch hwtm.1 hg.1
  refine ⟨xt, gw, gb, wt, gi, hxt, hgw, hgb, hwt, hgi, ?_, hgwm, hgbm, hgim, ?_⟩
  · simp [Linear.backward, hxt, hgw, hgb, hwt, hgi, bind, Except.bind]
  · intro i hi
    rw [Tensor.op_call_ok gb out 1 hgbm.1 i 0 hi (by omega), hgbe i hi]

/-- Witness of C2: a layer with 3 inputs and 2 outputs, cached 3x1 input and
the all-ones gradient of `test_linear_layer`. -/
theorem Linear.backward_spec_witness :
    (⟨[1, 1], [2, 1]⟩ : Tensor Int).IsMatrix 2 1 ∧
    ∃ xt gw gb wt gi,
      (⟨⟨[1, 2, 3, 4, 5, 6], [2, 3]⟩, ⟨[7, 8], [2, 1]⟩, ⟨[1, 2, 3], [3, 1]⟩,
        ⟨[0, 0, 0, 0, 0, 0], [2, 3]⟩, ⟨[0, 0], [2, 1]⟩⟩ : Linear Int).input_cache_.transpose
        = .ok xt ∧
      (⟨[1, 1], [2, 1]⟩ : Tensor Int).matmul xt = .ok gw ∧
      (⟨[1, 1], [2, 1]⟩ : Tensor Int).sum 1 = .ok gb ∧
      (⟨⟨[1, 2, 3, 4, 5, 6], [2, 3]⟩, ⟨[7, 8], [2, 1]⟩, ⟨[1, 2, 3], [3, 1]⟩,
        ⟨[0, 0, 0, 0, 0, 0], [2, 3]⟩, ⟨[0, 0], [2, 1]⟩⟩ : Linear Int).weights_.transpose
        = .ok wt ∧
      wt.matmul (⟨[1, 1], [2, 1]⟩ : Tensor Int) = .ok gi ∧
      (⟨⟨[1, 2, 3, 4, 5, 6], [2, 3]⟩, ⟨[7, 8], [2, 1]⟩, ⟨[1, 2, 3], [3, 1]⟩,
        ⟨[0, 0, 0, 0, 0, 0], [2, 3]⟩, ⟨[0, 0], [2, 1]⟩⟩ : Linear Int).backward ⟨[1, 1], [2, 1]⟩
        = ({ (⟨⟨[1, 2, 3, 4, 5, 6], [2, 3]⟩, ⟨[7, 8], [2, 1]⟩, ⟨[1, 2, 3], [3, 1]⟩,
          ⟨[0, 0, 0, 0, 0, 0], [2, 3]⟩, ⟨[0, 0], [2, 1]⟩⟩ : Linear Int) with
            grad_weights_ := gw, grad_bias_ := gb }, .ok gi) ∧
      gw.IsMatrix 2 3 ∧ gb.IsMatrix 2 1 ∧ gi.IsMatrix 3 1 ∧
      ∀ i, i < 2 → gb.op_call i 0 =
        .ok (∑ j in Finset.range 1, (⟨[1, 1], [2, 1]⟩ : Tensor Int).entry i j) :=
  ⟨by decide, Linear.backward_spec _ _ 2 3 1 (by decide) (by decide) (by decide)⟩

/-- C3: for `A` of shape (m, n) and `B` of shape (n, p), `A.matmul(B)`
succeeds, the result has shape (m, p), and its entry (i, j) is the sum over
k < n of A(i,k)*B(k,j), the empty sum 0 when n = 0.  `matmul` is a function of
the two values: the operands are what they were. -/
theorem Tensor.matmul_spec [Semiring α] (A B : Tensor α) (m n p : Nat)
    (hA : A.IsMatrix m n) (hB : B.IsMatrix n p) :
    ∃ C, A.matmul B = .ok C ∧ C.IsMatrix m p ∧
      ∀ i j, i < m → j < p →
        C.op_call i j = .ok (∑ k in Finset.range n, A.entry i k * B.entry k j) := by
  obtain ⟨C, hC, hCm, hCe⟩ := Tensor.matmul_ok A B m n p hA.1 hB.1
  refine ⟨C, hC, hCm, fun i j hi hj => ?_⟩
  rw [Tensor.op_call_ok C m p hCm.1 i j hi hj, hCe i j hi hj]

/-- Witness of C3: the 2x3 by 3x2 product of `test_tensor_operations`. -/
theorem Tensor.matmul_spec_witness :
    (⟨[1, 2, 3, 4, 5, 6], [2, 3]⟩ : Tensor Int).IsMatrix 2 3 ∧
    (⟨[1, 2, 3, 4, 5, 6], [3, 2]⟩ : Tensor Int).IsMatrix 3 2 ∧
    ∃ C, (⟨[1, 2, 3, 4, 5, 6], [2, 3]⟩ : Tensor Int).matmul ⟨[1, 2, 3, 4, 5, 6], [3, 2]⟩
        = .ok C ∧ C.IsMatrix 2 2 ∧
      ∀ i j, i < 2 → j < 2 →
        C.op_call i j = .ok (∑ k in Finset.range 3,
          (⟨[1, 2, 3, 4, 5, 6], [2, 3]⟩ : Tensor Int).entry i k *
            (⟨[1, 2, 3, 4, 5, 6], [3, 2]⟩ : Tensor Int).entry k j) :=
  ⟨by decide, by decide, Tensor.matmul_spec _ _ 2 3 2 (by decide) (by decide)⟩

/-- C4: for 2-D tensors `A` and `B`, `A.matmul(B)` throws if and only if
`A.cols()` differs from `B.rows()`, and what it throws then is the
`runtime_error` of the dimension check; no tensor is returned. -/
theorem Tensor.matmul_fails_iff [Semiring α] (A B : Tensor α) (m n n' p : Nat)
    (hA : A.IsMatrix m n) (hB : B.IsMatrix n' p) :
    ((∃ e, A.matmul B = .error e) ↔ A.cols ≠ B.rows) ∧
    (A.cols ≠ B.rows → A.matmul B =
      .error (.runtime_error "Matrix dimensions do not match for multiplication")) := by
  have hc := Tensor.cols_eq A m n hA.1
  have hr := Tensor.rows_eq B n' p hB.1
  have herr : A.cols ≠ B.rows → A.matmul B =
      .error (.runtime_error "Matrix dimensions do not match for multiplication") := by
    intro h
    simp [Tensor.matmul, h]
  refine ⟨⟨?_, fun h => ⟨_, herr h⟩⟩, herr⟩
  rintro ⟨e, he⟩ heq
  rw [hc, hr] at heq
  subst heq
  obtain ⟨C, hC, _⟩ := Tensor.matmul_ok A B m n p hA.1 hB.1
  rw [hC] at he
  cases he

/-- Witness of C4: shapes (2,3) and (4,5). -/
theorem Tensor.matmul_fails_iff_witness :
    (Tensor.zeros 2 3 : Tensor Int).IsMatrix 2 3 ∧
    (Tensor.zeros 4 5 : Tensor Int).IsMatrix 4 5 ∧
    ((∃ e, (Tensor.zeros 2 3 : Tensor Int).matmul (Tensor.zeros 4 5) = .error e) ↔
      (Tensor.zeros 2 3 : Tensor Int).cols ≠ (Tensor.zeros 4 5 : Tensor Int).rows) ∧
    ((Tensor.zeros 2 3 : Tensor Int).cols ≠ (Tensor.zeros 4 5 : Tensor Int).rows →
      (Tensor.zeros 2 3 : Tensor Int).matmul (Tensor.zeros 4 5) =
      .error (.runtime_error "Matrix dimensions do not match for multiplication")) :=
  ⟨by decide, by decide, Tensor.matmul_fails_iff _ _ 2 3 4 5 (by decide) (by decide)⟩

end LinearLayer

/-! ## Optimizers -/

section Optimizers

variable {α : Type}

theorem Tensor.op_index_ok [Zero α] (t : Tensor α) (i : Nat) (h : i < t.data.length) :
    t.op_index i = .ok (t.data_at i) := by
  simp only [Tensor.op_index]
  rw [if_neg (by omega)]

theorem Tensor.op_index_assign_ok (t : Tensor α) (i : Nat) (v : α) (h : i < t.data.length) :
    t.op_index_assign i v = .ok { t with data := t.data.set i v } := by
  simp only [Tensor.op_index_assign]
  rw [if_neg (by omega)]

theorem Layer.deref_store_same (l : Linear α) (ps : Slot) (t : Tensor α) :
    ((Layer.linear l).store ps t).deref ps = t := by
  cases ps <;> rfl

theorem Layer.deref_store_other (l : Linear α) (ps gs : Slot) (h : ps ≠ gs) (t : Tensor α) :
    ((Layer.linear l).store ps t).deref gs = (Layer.linear l).deref gs := by
  cases ps <;> cases gs <;> first | rfl | exact absurd rfl h

theorem Layer.store_store (l : Linear α) (ps : Slot) (t t' : Tensor α) :
    ((Layer.linear l).store ps t).store ps t' = (Layer.linear l).store ps t' := by
  cases ps <;> rfl

theorem Layer.store_deref (l : Linear α) (ps : Slot) :
    (Layer.linear l).store ps ((Layer.linear l).deref ps) = Layer.linear l := by
  cases ps <;> rfl

theorem getD_set_eq [Zero α] (d : List α) (j k : Nat) (v : α) (hj : j < d.length) :
    (d.set j v).getD k 0 = if k = j then v else d.getD k 0 := by
  simp only [List.getD_eq_getElem?_getD, List.getElem?_set]
  by_cases h : j = k
  · subst h; simp [hj]
  · have h' : ¬ k = j := fun e => h e.symm
    simp [h, h']

/-- A list of length `n` whose entries are given by `F` on two lists of that
length is the `zipWith` of the two lists. -/
theorem eq_zipWith_of_getD [Zero α] (F : α → α → α) (d p g : List α) (hd : d.length = p.length)
    (hg : g.length = p.length)
    (h : ∀ k, k < p.length → d.getD k 0 = F (p.getD k 0) (g.getD k 0)) :
    d = List.zipWith F p g := by
  apply List.ext_getElem
  · simp [hd, hg]
  · intro k h1 h2
    have hk : k < p.length := by omega
    have hkg : k < g.length := by omega
    have := h k hk
    simp only [List.getD_eq_getElem?_getD, List.getElem?_eq_getElem h1,
      List.getElem?_eq_getElem hk, List.getElem?_eq_getElem hkg, Option.getD_some] at this
    simp [this]

/-- The element loop of `SGD::step` on one parameter of a `Linear` object. -/
theorem SGD.sgd_element_loop_ok [Zero α] [Sub α] [Mul α] (rate : α) (l : Linear α) (ps gs : Slot)
    (hne : ps ≠ gs)
    (hlen : ((Layer.linear l).deref gs).data.length = ((Layer.linear l).deref ps).data.length) :
    forRange (fun j layer =>
        stmt layer (do
          let g ← (layer.deref gs).op_index j
          let p ← (layer.deref ps).op_index j
          let t ← (layer.deref ps).op_index_assign j (p - rate * g)
          pure (layer.store ps t))) ((Layer.linear l).deref ps).size 0 (Layer.linear l)
      = ((Layer.linear l).store ps { (Layer.linear l).deref ps with
            data := List.zipWith (fun p g => p - rate * g) ((Layer.linear l).deref ps).data
              ((Layer.linear l).deref gs).data }, none) := by
  generalize hP : (Layer.linear l).deref ps = P at hlen ⊢
  generalize hG : (Layer.linear l).deref gs = G at hlen ⊢
  have key := forRange_inv (fun j layer =>
        stmt layer (do
          let g ← (layer.deref gs).op_index j
          let p ← (layer.deref ps).op_index j
          let t ← (layer.deref ps).op_index_assign j (p - rate * g)
          pure (layer.store ps t)))
    (fun j layer => ∃ d : List α, layer = (Layer.linear l).store ps { P with data := d } ∧
      d.length = P.data.length ∧
      ∀ k, d.getD k 0 = if k < j then P.data.getD k 0 - rate * G.data.getD k 0
        else P.data.getD k 0)
    P.size 0 (Layer.linear l)
    ⟨P.data, by rw [← hP]; exact (Layer.store_deref l ps).symm, rfl,
      fun k => by rw [if_neg (Nat.not_lt_zero k)]⟩
    (fun j layer _ hj hI => by
      obtain ⟨d, rfl, hd, hk⟩ := hI
      have hj : j < P.data.length := by simpa [Tensor.size] using hj
      have e1 : (Tensor.op_index G j : Except Err α) = .ok (G.data.getD j 0) := by
        simp only [Tensor.op_index, Tensor.data_at]
        rw [if_neg (by omega)]
      have e2 : (Tensor.op_index ({ P with data := d } : Tensor α) j : Except Err α)
          = .ok (d.getD j 0) := by
        simp only [Tensor.op_index, Tensor.data_at]
        rw [if_neg (by omega)]
      have e3 : ∀ v, Tensor.op_index_assign ({ P with data := d } : Tensor α) j v
          = .ok { P with data := d.set j v } := by
        intro v
        simp only [Tensor.op_index_assign]
        rw [if_neg (by omega)]
      simp only [Layer.deref_store_same, Layer.deref_store_other l ps gs hne, hG, e1, e2, e3,
        Layer.store_store, bind, Except.bind, pure, Except.pure, stmt]
      refine ⟨trivial, d.set j (d.getD j 0 - rate * G.data.getD j 0), rfl, by simpa using hd, ?_⟩
      intro k
      rw [getD_set_eq d j k _ (by omega)]
      by_cases hkj : k = j
      · subst hkj
        have := hk k
        rw [if_neg (Nat.lt_irrefl k)] at this
        rw [if_pos rfl, if_pos (Nat.lt_succ_self k), this]
      · have := hk k
        rw [if_neg hkj, this]
        by_cases hlt : k < j
        · rw [if_pos hlt, if_pos (Nat.lt_succ_of_lt hlt)]
        · rw [if_neg hlt, if_neg (by omega)])
  rcases hr : forRange (fun j layer =>
        stmt layer (do
          let g ← (layer.deref gs).op_index j
          let p ← (layer.deref ps).op_index j
          let t ← (layer.deref ps).op_index_assign j (p - rate * g)
          pure (layer.store ps t))) P.size 0 (Layer.linear l) with ⟨res, o⟩
  rw [hr] at key
  obtain ⟨ho, d, hres, hd, hk⟩ := key
  simp only at ho hres
  subst ho
  rw [hr, hres]
  congr 3
  apply eq_zipWith_of_getD _ d P.data G.data hd hlen
  intro k hk'
  have := hk k
  simp only [Nat.zero_add, Tensor.size] at this
  rw [if_pos hk'] at this
  exact this

theorem forRange_two {σ : Type} (f : Nat → σ → σ × Option Err) (s : σ) :
    forRange f 2 0 s = andThen (f 0 s) (f 1) := by
  rcases h : f 0 s with ⟨s', o⟩
  cases o
  · simp [forRange, h, andThen, Tensor.forRange_one]
    rcases h' : f 1 s' with ⟨s'', o'⟩
    cases o' <;> simp
  · simp [forRange, h, andThen]

/-- `SGD::step` on one `Linear` object whose gradients conform. -/
theorem SGD.sgd_step_layer_linear [Zero α] [Sub α] [Mul α] (opt : SGD α) (l : Linear α)
    (h : (Layer.linear l).GradsConform) :
    opt.step_layer (Layer.linear l) = (Layer.linear { l with
        weights_ := { l.weights_ with
          data := List.zipWith (fun p g => p - opt.learning_rate_ * g) l.weights_.data
                    l.grad_weights_.data },
        bias_ := { l.bias_ with
          data := List.zipWith (fun p g => p - opt.learning_rate_ * g) l.bias_.data
                    l.grad_bias_.data } }, none) := by
  obtain ⟨_, hw, _, hb⟩ := h
  have h1 := SGD.sgd_element_loop_ok opt.learning_rate_ l Slot.weights_ Slot.grad_weights_
    (by decide) hw
  simp only [SGD.step_layer, Layer.get_parameters, Layer.get_gradients, List.length_cons,
    List.length_nil, ne_eq, not_true_eq_false, if_false]
  rw [show (0 + 1 + 1 : Nat) = 2 from rfl, forRange_two]
  simp only [List.get?]
  rw [h1]
  have h2 := SGD.sgd_element_loop_ok opt.learning_rate_ { l with
      weights_ := { l.weights_ with
        data := List.zipWith (fun p g => p - opt.learning_rate_ * g) l.weights_.data
                  l.grad_weights_.data } }
    Slot.bias_ Slot.grad_bias_ (by decide) hb
  simp only [andThen, Layer.store, Layer.deref] at h2 ⊢
  rw [h2]

/-- `SGD::step` on a layer without parameters does nothing. -/
theorem SGD.sgd_step_layer_other [Zero α] [Sub α] [Mul α] (opt : SGD α) (layer : Layer α)
    (h : ∀ l, layer ≠ Layer.linear l) : opt.step_layer layer = (layer, none) := by
  cases layer with
  | linear l => exact absurd rfl (h l)
  | sigmoid c => rfl
  | relu c => rfl
  | tanh c => rfl

/-- A layer loop whose body maps each object by `f` and leaves the shared
state alone. -/
theorem forEach_map {β σ : Type} (body : β → σ → (β × σ) × Option Err) (f : β → β) (s : σ) :
    ∀ xs : List β, (∀ x ∈ xs, body x s = ((f x, s), none)) →
      forEach body xs s = ((xs.map f, s), none) := by
  intro xs
  induction xs with
  | nil => intro _; rfl
  | cons x xs ih =>
    intro h
    have hx := h x (List.mem_cons_self x xs)
    have hxs := ih (fun y hy => h y (List.mem_cons_of_mem x hy))
    simp [forEach, hx, hxs]

/-- C5: for a layer list in which the gradients of every `Linear` layer have
the shapes of its parameters, and every rate, `SGD(rate).step` completes and
each element of every weight and bias tensor is its previous value minus the
rate times the gradient element at the same position; gradients, cached
inputs and outputs, addresses and the layers without parameters are what they
were. -/
theorem SGD.sgd_step_spec [Zero α] [Sub α] [Mul α] (opt : SGD α) (layers : List (LayerRef α))
    (h : ∀ ref ∈ layers, ref.obj.GradsConform) :
    opt.step layers = (layers.map (fun ref =>
      match ref.obj with
      | .linear l => { ref with obj := .linear { l with
          weights_ := { l.weights_ with
            data := List.zipWith (fun p g => p - opt.learning_rate_ * g) l.weights_.data
                      l.grad_weights_.data },
          bias_ := { l.bias_ with
            data := List.zipWith (fun p g => p - opt.learning_rate_ * g) l.bias_.data
                      l.grad_bias_.data } } }
      | _ => ref), none) := by
  unfold SGD.step
  rw [forEach_map _ _ () layers]
  intro ref href
  rcases ref with ⟨addr, obj⟩
  cases obj with
  | linear l =>
    simp only [SGD.sgd_step_layer_linear opt l (h _ href)]
  | sigmoid c => rfl
  | relu c => rfl
  | tanh c => rfl

/-- Witness of C5: rate 0.1 on a `Linear(2,1)` layer followed by a ReLU. -/
theorem SGD.sgd_step_spec_witness :
    (∀ ref ∈ ([⟨0, .linear ⟨⟨[1, 2], [1, 2]⟩, ⟨[3], [1, 1]⟩, ⟨[5, 6], [2, 1]⟩,
        ⟨[10, 20], [1, 2]⟩, ⟨[30], [1, 1]⟩⟩⟩, ⟨1, .relu ⟨[4], [1, 1]⟩⟩] : List (LayerRef ℚ)),
      ref.obj.GradsConform) ∧
    (⟨1 / 10⟩ : SGD ℚ).step [⟨0, .linear ⟨⟨[1, 2], [1, 2]⟩, ⟨[3], [1, 1]⟩, ⟨[5, 6], [2, 1]⟩,
        ⟨[10, 20], [1, 2]⟩, ⟨[30], [1, 1]⟩⟩⟩, ⟨1, .relu ⟨[4], [1, 1]⟩⟩]
      = ([⟨0, .linear ⟨⟨[0, 0], [1, 2]⟩, ⟨[0], [1, 1]⟩, ⟨[5, 6], [2, 1]⟩,
        ⟨[10, 20], [1, 2]⟩, ⟨[30], [1, 1]⟩⟩⟩, ⟨1, .relu ⟨[4], [1, 1]⟩⟩], none) :=
  ⟨by decide, by rw [SGD.sgd_step_spec _ _ (by decide)]; norm_num⟩

/-- The element loop of `Adam::step` on one parameter of a `Linear` object
and the two moment buffers that belong to it, read and written through
`getm`, `setm`, `getv`, `setv`. -/
theorem Adam.adam_element_loop_ok [Field α] (sqrt : α → α) (beta1_ beta2_ epsilon_ lr_t : α)
    (timestep_ addr : Nat) (l : Linear α) (ps gs : Slot) (hne : ps ≠ gs)
    (getm getv : AdamParams α → List α) (setm setv : AdamParams α → List α → AdamParams α)
    {γ : Type} (frame : AdamParams α → γ)
    (h1 : ∀ a x, getm (setm a x) = x) (h2 : ∀ a x, getv (setm a x) = getv a)
    (h3 : ∀ a x, frame (setm a x) = frame a) (h4 : ∀ a x, getm (setv a x) = getm a)
    (h5 : ∀ a x, getv (setv a x) = x) (h6 : ∀ a x, frame (setv a x) = frame a)
    (P : Nat → Option (AdamParams α)) (ap : AdamParams α) (hP : P addr = some ap)
    (n : Nat) (hn : ((Layer.linear l).deref ps).data.length = n)
    (hg : ((Layer.linear l).deref gs).data.length = n)
    (hm : (getm ap).length = n) (hv : (getv ap).length = n) :
    ∃ pd ap',
      forRange (fun j (st : LayerRef α × (Nat → Option (AdamParams α))) =>
          andThen (andThen
            (stmt st (do
              let g ← (st.1.obj.deref gs).op_index j
              let ap := (st.2 addr).getD ⟨[], [], [], [], 0, 0⟩
              let x := beta1_ * (getm ap).getD j 0 + (1 - beta1_) * g
              pure (st.1, Function.update st.2 addr (some (setm ap ((getm ap).set j x))))))
            (fun st => stmt st (do
              let g ← (st.1.obj.deref gs).op_index j
              let g' ← (st.1.obj.deref gs).op_index j
              let ap := (st.2 addr).getD ⟨[], [], [], [], 0, 0⟩
              let x := beta2_ * (getv ap).getD j 0 + (1 - beta2_) * g * g'
              pure (st.1, Function.update st.2 addr (some (setv ap ((getv ap).set j x)))))))
            (fun st => stmt st (do
              let m_hat := (getm ((st.2 addr).getD ⟨[], [], [], [], 0, 0⟩)).getD j 0 /
                (1 - beta1_ ^ timestep_)
              let v_hat := (getv ((st.2 addr).getD ⟨[], [], [], [], 0, 0⟩)).getD j 0 /
                (1 - beta2_ ^ timestep_)
              let p ← (st.1.obj.deref ps).op_index j
              let t ← (st.1.obj.deref ps).op_index_assign j
                (p - lr_t * m_hat / (sqrt v_hat + epsilon_))
              pure ({ st.1 with obj := st.1.obj.store ps t }, st.2))))
          n 0 (⟨addr, Layer.linear l⟩, P)
        = ((⟨addr, (Layer.linear l).store ps
              { (Layer.linear l).deref ps with data := pd }⟩,
            Function.update P addr (some ap')), none) ∧
      pd.length = n ∧ (getm ap').length = n ∧ (getv ap').length = n ∧ frame ap' = frame ap ∧
      ∀ k, k < n →
        (getm ap').getD k 0 = beta1_ * (getm ap).getD k 0 +
          (1 - beta1_) * ((Layer.linear l).deref gs).data.getD k 0 ∧
        (getv ap').getD k 0 = beta2_ * (getv ap).getD k 0 +
          (1 - beta2_) * ((Layer.linear l).deref gs).data.getD k 0 *
            ((Layer.linear l).deref gs).data.getD k 0 ∧
        pd.getD k 0 = ((Layer.linear l).deref ps).data.getD k 0 -
          lr_t * ((getm ap').getD k 0 / (1 - beta1_ ^ timestep_)) /
            (sqrt ((getv ap').getD k 0 / (1 - beta2_ ^ timestep_)) + epsilon_) := by
  generalize hPt : (Layer.linear l).deref ps = Pt at hn ⊢
  generalize hGt : (Layer.linear l).deref gs = G at hg ⊢
  have key := forRange_inv (fun j (st : LayerRef α × (Nat → Option (AdamParams α))) =>
          andThen (andThen
            (stmt st (do
              let g ← (st.1.obj.deref gs).op_index j
              let ap := (st.2 addr).getD ⟨[], [], [], [], 0, 0⟩
              let x := beta1_ * (getm ap).getD j 0 + (1 - beta1_) * g
              pure (st.1, Function.update st.2 addr (some (setm ap ((getm ap).set j x))))))
            (fun st => stmt st (do
              let g ← (st.1.obj.deref gs).op_index j
              let g' ← (st.1.obj.deref gs).op_index j
              let ap := (st.2 addr).getD ⟨[], [], [], [], 0, 0⟩
              let x := beta2_ * (getv ap).getD j 0 + (1 - beta2_) * g * g'
              pure (st.1, Function.update st.2 addr (some (setv ap ((getv ap).set j x)))))))
            (fun st => stmt st (do
              let m_hat := (getm ((st.2 addr).getD ⟨[], [], [], [], 0, 0⟩)).getD j 0 /
                (1 - beta1_ ^ timestep_)
              let v_hat := (getv ((st.2 addr).getD ⟨[], [], [], [], 0, 0⟩)).getD j 0 /
                (1 - beta2_ ^ timestep_)
              let p ← (st.1.obj.deref ps).op_index j
              let t ← (st.1.obj.deref ps).op_index_assign j
                (p - lr_t * m_hat / (sqrt v_hat + epsilon_))
              pure ({ st.1 with obj := st.1.obj.store ps t }, st.2))))
    (fun j st => ∃ pd ap', st = (⟨addr, (Layer.linear l).store ps { Pt with data := pd }⟩,
        Function.update P addr (some ap')) ∧
      pd.length = n ∧ (getm ap').length = n ∧ (getv ap').length = n ∧ frame ap' = frame ap ∧
      (∀ k, j ≤ k → (getm ap').getD k 0 = (getm ap).getD k 0 ∧
        (getv ap').getD k 0 = (getv ap).getD k 0 ∧ pd.getD k 0 = Pt.data.getD k 0) ∧
      ∀ k, k < j →
        (getm ap').getD k 0 = beta1_ * (getm ap).getD k 0 + (1 - beta1_) * G.data.getD k 0 ∧
        (getv ap').getD k 0 = beta2_ * (getv ap).getD k 0 +
          (1 - beta2_) * G.data.getD k 0 * G.data.getD k 0 ∧
        pd.getD k 0 = Pt.data.getD k 0 -
          lr_t * ((getm ap').getD k 0 / (1 - beta1_ ^ timestep_)) /
            (sqrt ((getv ap').getD k 0 / (1 - beta2_ ^ timestep_)) + epsilon_))
    n 0 (⟨addr, Layer.linear l⟩, P)
    ⟨Pt.data, ap, by
        rw [← hPt, Layer.store_deref, ← hP, Function.update_eq_self], hn, hm, hv, rfl,
      fun k _ => ⟨rfl, rfl, rfl⟩, fun k hk => absurd hk (Nat.not_lt_zero k)⟩
    (fun j st _ hj hI => by
      obtain ⟨pd, ap', rfl, hpd, hm', hv', hfr, htodo, hdone⟩ := hI
      have hj : j < n := by omega
      have e1 : (Tensor.op_index G j : Except Err α) = .ok (G.data.getD j 0) :=
        Tensor.op_index_ok G j (by omega)
      have e2 : (Tensor.op_index ({ Pt with data := pd } : Tensor α) j : Except Err α)
          = .ok (pd.getD j 0) := Tensor.op_index_ok _ j (by show j < pd.length; omega)
      have e3 : ∀ v, Tensor.op_index_assign ({ Pt with data := pd } : Tensor α) j v
          = .ok { Pt with data := pd.set j v } :=
        fun v => Tensor.op_index_assign_ok _ j v (by show j < pd.length; omega)
      simp only [Layer.deref_store_same, Layer.deref_store_other l ps gs hne, hGt, e1, e2, e3,
        Layer.store_store, bind, Except.bind, pure, Except.pure, stmt, andThen,
        Function.update_same, Function.update_idem, Option.getD_some, h1, h2, h4, h5]
      obtain ⟨t1, t2, t3⟩ := htodo j (Nat.le_refl j)
      refine ⟨trivial, _, _, rfl, by simpa using hpd, ?_, ?_, ?_, ?_, ?_⟩
      · rw [h4, h1]; simpa using hm'
      · rw [h5]; simpa using hv'
      · rw [h6, h3]; exact hfr
      · intro k hk
        obtain ⟨u1, u2, u3⟩ := htodo k (by omega)
        have hkj : ¬ k = j := by omega
        rw [h4, h1, h5, getD_set_eq _ j k _ (by omega), getD_set_eq _ j k _ (by omega),
          getD_set_eq _ j k _ (by omega), if_neg hkj, if_neg hkj, if_neg hkj]
        exact ⟨u1, u2, u3⟩
      · intro k hk
        rw [h4, h1, h5, getD_set_eq _ j k _ (by omega), getD_set_eq _ j k _ (by omega),
          getD_set_eq _ j k _ (by omega)]
        by_cases hkj : k = j
        · subst hkj
          rw [if_pos rfl, if_pos rfl, if_pos rfl, getD_set_eq _ k k _ (by omega), if_pos rfl,
            getD_set_eq _ k k _ (by omega), if_pos rfl, t1, t2, t3]
          exact ⟨rfl, rfl, rfl⟩
        · rw [if_neg hkj, if_neg hkj, if_neg hkj]
          exact hdone k (by omega))
  rcases hr : forRange (fun j (st : LayerRef α × (Nat → Option (AdamParams α))) =>
          andThen (andThen
            (stmt st (do
              let g ← (st.1.obj.deref gs).op_index j
              let ap := (st.2 addr).getD ⟨[], [], [], [], 0, 0⟩
              let x := beta1_ * (getm ap).getD j 0 + (1 - beta1_) * g
              pure (st.1, Function.update st.2 addr (some (setm ap ((getm ap).set j x))))))
            (fun st => stmt st (do
              let g ← (st.1.obj.deref gs).op_index j
              let g' ← (st.1.obj.deref gs).op_index j
              let ap := (st.2 addr).getD ⟨[], [], [], [], 0, 0⟩
              let x := beta2_ * (getv ap).getD j 0 + (1 - beta2_) * g * g'
              pure (st.1, Function.update st.2 addr (some (setv ap ((getv ap).set j x)))))))
            (fun st => stmt st (do
              let m_hat := (getm ((st.2 addr).getD ⟨[], [], [], [], 0, 0⟩)).getD j 0 /
                (1 - beta1_ ^ timestep_)
              let v_hat := (getv ((st.2 addr).getD ⟨[], [], [], [], 0, 0⟩)).getD j 0 /
                (1 - beta2_ ^ timestep_)
              let p ← (st.1.obj.deref ps).op_index j
              let t ← (st.1.obj.deref ps).op_index_assign j
                (p - lr_t * m_hat / (sqrt v_hat + epsilon_))
              pure ({ st.1 with obj := st.1.obj.store ps t }, st.2))))
          n 0 (⟨addr, Layer.linear l⟩, P) with ⟨res, o⟩
  rw [hr] at key
  obtain ⟨ho, pd, ap', hres, hpd, hm', hv', hfr, _, hdone⟩ := key
  simp only at ho hres
  subst ho
  refine ⟨pd, ap', by rw [hres], hpd, hm', hv', hfr, fun k hk => hdone k (by omega)⟩

theorem andThen_none {σ : Type} (s : σ) (next : σ → σ × Option Err) :
    andThen (s, none) next = next s := rfl

theorem Layer.store_weights (l : Linear α) (t : Tensor α) :
    (Layer.linear l).store Slot.weights_ t = Layer.linear { l with weights_ := t } := rfl

theorem Layer.store_bias (l : Linear α) (t : Tensor α) :
    (Layer.linear l).store Slot.bias_ t = Layer.linear { l with bias_ := t } := rfl

theorem Layer.deref_weights (l : Linear α) :
    (Layer.linear l).deref Slot.weights_ = l.weights_ := rfl

theorem Layer.deref_bias (l : Linear α) : (Layer.linear l).deref Slot.bias_ = l.bias_ := rfl

theorem Layer.deref_grad_weights (l : Linear α) :
    (Layer.linear l).deref Slot.grad_weights_ = l.grad_weights_ := rfl

theorem Layer.deref_grad_bias (l : Linear α) :
    (Layer.linear l).deref Slot.grad_bias_ = l.grad_bias_ := rfl

theorem Adam.first_encounter_linear [Zero α] (l : Linear α) :
    Adam.first_encounter (Layer.linear l) =
      ⟨List.replicate l.weights_.size 0, List.replicate l.weights_.size 0,
        List.replicate l.bias_.size 0, List.replicate l.bias_.size 0,
        l.weights_.size, l.bias_.size⟩ := by
  simp only [Adam.first_encounter, Layer.get_parameters, List.length_cons, List.length_nil]
  rw [show (0 + 1 + 1 : Nat) = 2 from rfl, show List.range 2 = [0, 1] from rfl]
  simp only [List.foldl, List.get?, if_true, Layer.deref, resize, List.take_nil, List.nil_append,
    List.length_nil, Nat.sub_zero, Nat.one_ne_zero, if_false]
  by_cases hb : l.bias_.size = 0
  · simp [hb]
  · have : ¬ (0 = l.bias_.size) := fun e => hb e.symm
    simp [this]

theorem Adam.adam_step_layer_linear [Field α] (sqrt : α → α) (beta1_ beta2_ epsilon_ lr_t : α)
    (timestep_ addr : Nat) (l : Linear α) (P : Nat → Option (AdamParams α))
    (hconf : (Layer.linear l).GradsConform)
    (hwf : ∀ ap, P addr = some ap →
      ap.m_w.length = l.weights_.size ∧ ap.v_w.length = l.weights_.size ∧
      ap.m_b.length = l.bias_.size ∧ ap.v_b.length = l.bias_.size) :
    ∃ wd bd ap',
      Adam.step_layer sqrt beta1_ beta2_ epsilon_ lr_t timestep_ ⟨addr, Layer.linear l⟩ P
        = ((⟨addr, Layer.linear { l with
              weights_ := { l.weights_ with data := wd },
              bias_ := { l.bias_ with data := bd } }⟩,
            Function.update P addr (some ap')), none) ∧
      wd.length = l.weights_.size ∧ bd.length = l.bias_.size ∧
      ap'.m_w.length = l.weights_.size ∧ ap'.v_w.length = l.weights_.size ∧
      ap'.m_b.length = l.bias_.size ∧ ap'.v_b.length = l.bias_.size ∧
      (∀ k, k < l.weights_.size →
        ap'.m_w.getD k 0 = beta1_ * ((P addr).getD ⟨[], [], [], [], 0, 0⟩).m_w.getD k 0 +
          (1 - beta1_) * l.grad_weights_.data_at k ∧
        ap'.v_w.getD k 0 = beta2_ * ((P addr).getD ⟨[], [], [], [], 0, 0⟩).v_w.getD k 0 +
          (1 - beta2_) * l.grad_weights_.data_at k * l.grad_weights_.data_at k ∧
        wd.getD k 0 = l.weights_.data_at k -
          lr_t * (ap'.m_w.getD k 0 / (1 - beta1_ ^ timestep_)) /
            (sqrt (ap'.v_w.getD k 0 / (1 - beta2_ ^ timestep_)) + epsilon_)) ∧
      (∀ k, k < l.bias_.size →
        ap'.m_b.getD k 0 = beta1_ * ((P addr).getD ⟨[], [], [], [], 0, 0⟩).m_b.getD k 0 +
          (1 - beta1_) * l.grad_bias_.data_at k ∧
        ap'.v_b.getD k 0 = beta2_ * ((P addr).getD ⟨[], [], [], [], 0, 0⟩).v_b.getD k 0 +
          (1 - beta2_) * l.grad_bias_.data_at k * l.grad_bias_.data_at k ∧
        bd.getD k 0 = l.bias_.data_at k -
          lr_t * (ap'.m_b.getD k 0 / (1 - beta1_ ^ timestep_)) /
            (sqrt (ap'.v_b.getD k 0 / (1 - beta2_ ^ timestep_)) + epsilon_)) := by
  obtain ⟨_, hgw, _, hgb⟩ := hconf
  have hP1 : (if (P addr).isNone = true then
        Function.update P addr (some (Adam.first_encounter (Layer.linear l)))
      else P) = Function.update P addr
        (some ((P addr).getD (Adam.first_encounter (Layer.linear l)))) := by
    cases hPa : P addr with
    | none => simp
    | some a =>
      simp only [Option.isNone_some, Bool.false_eq_true, if_false, Option.getD_some]
      rw [← hPa, Function.update_eq_self]
  -- the record in use and its relation to the record before the call
  obtain ⟨ap0, hap0, hm0, hv0, hmb0, hvb0, hprev⟩ :
      ∃ ap0, (P addr).getD (Adam.first_encounter (Layer.linear l)) = ap0 ∧
        ap0.m_w.length = l.weights_.size ∧ ap0.v_w.length = l.weights_.size ∧
        ap0.m_b.length = l.bias_.size ∧ ap0.v_b.length = l.bias_.size ∧
        ∀ k, ap0.m_w.getD k 0 = ((P addr).getD ⟨[], [], [], [], 0, 0⟩).m_w.getD k 0 ∧
          ap0.v_w.getD k 0 = ((P addr).getD ⟨[], [], [], [], 0, 0⟩).v_w.getD k 0 ∧
          ap0.m_b.getD k 0 = ((P addr).getD ⟨[], [], [], [], 0, 0⟩).m_b.getD k 0 ∧
          ap0.v_b.getD k 0 = ((P addr).getD ⟨[], [], [], [], 0, 0⟩).v_b.getD k 0 := by
    cases hPa : P addr with
    | none =>
      refine ⟨_, rfl, ?_, ?_, ?_, ?_, ?_⟩ <;>
        simp [Adam.first_encounter_linear, List.getElem?_getD_replicate_default_eq]
    | some a =>
      obtain ⟨a1, a2, a3, a4⟩ := hwf a hPa
      exact ⟨a, rfl, a1, a2, a3, a4, fun k => ⟨rfl, rfl, rfl, rfl⟩⟩
  obtain ⟨wd, ap1, hloop1, hwd, hm1, hv1, hfr1, hel1⟩ :=
    Adam.adam_element_loop_ok sqrt beta1_ beta2_ epsilon_ lr_t timestep_ addr l
      Slot.weights_ Slot.grad_weights_ (by decide)
      (fun a => a.m_w) (fun a => a.v_w) (fun a x => { a with m_w := x })
      (fun a x => { a with v_w := x }) (fun a => (a.m_b, a.v_b))
      (fun _ _ => rfl) (fun _ _ => rfl) (fun _ _ => rfl) (fun _ _ => rfl) (fun _ _ => rfl)
      (fun _ _ => rfl)
      (Function.update P addr (some ap0)) ap0 (Function.update_same _ _ _)
      l.weights_.size rfl hgw hm0 hv0
  obtain ⟨bd, ap2, hloop2, hbd, hm2, hv2, hfr2, hel2⟩ :=
    Adam.adam_element_loop_ok sqrt beta1_ beta2_ epsilon_ lr_t timestep_ addr
      { l with weights_ := { l.weights_ with data := wd } }
      Slot.bias_ Slot.grad_bias_ (by decide)
      (fun a => a.m_b) (fun a => a.v_b) (fun a x => { a with m_b := x })
      (fun a x => { a with v_b := x }) (fun a => (a.m_w, a.v_w))
      (fun _ _ => rfl) (fun _ _ => rfl) (fun _ _ => rfl) (fun _ _ => rfl) (fun _ _ => rfl)
      (fun _ _ => rfl)
      (Function.update (Function.update P addr (some ap0)) addr (some ap1)) ap1
      (Function.update_same _ _ _)
      l.bias_.size rfl hgb
      (by have := congrArg Prod.fst hfr1; simp only at this
          show ap1.m_b.length = _; rw [this]; exact hmb0)
      (by have := congrArg Prod.snd hfr1; simp only at this
          show ap1.v_b.length = _; rw [this]; exact hvb0)
  simp only [Layer.deref_weights, Layer.deref_bias, Layer.deref_grad_weights,
    Layer.deref_grad_bias] at hel1 hel2
  have f1m := congrArg Prod.fst hfr1
  have f1v := congrArg Prod.snd hfr1
  have f2m := congrArg Prod.fst hfr2
  have f2v := congrArg Prod.snd hfr2
  simp only at f1m f1v f2m f2v
  refine ⟨wd, bd, ap2, ?_, hwd, hbd, by rw [f2m]; exact hm1, by rw [f2v]; exact hv1, hm2, hv2,
    ?_, ?_⟩
  · simp only [Adam.step_layer, Layer.get_parameters, Layer.get_gradients, List.length_cons,
      List.length_nil, ne_eq, not_true_eq_false, if_false, List.get?, hP1, hap0]
    rw [Layer.deref_weights, hloop1]
    simp only [andThen_none, Layer.store_weights, Layer.deref_weights, Layer.deref_bias]
    rw [hloop2]
    simp only [Layer.store_bias, Layer.deref_bias, Function.update_idem]
  · intro k hk
    obtain ⟨e1, e2, e3⟩ := hel1 k hk
    obtain ⟨p1, p2, _, _⟩ := hprev k
    rw [f2m, f2v, e1, e2, ← p1, ← p2]
    refine ⟨rfl, rfl, ?_⟩
    rw [e3, e1, e2]
    rfl
  · intro k hk
    obtain ⟨e1, e2, e3⟩ := hel2 k hk
    obtain ⟨_, _, p3, p4⟩ := hprev k
    rw [e1, e2, f1m, f1v, ← p3, ← p4]
    refine ⟨rfl, rfl, ?_⟩
    rw [e3, e1, e2, f1m, f1v]
    rfl

/-- `Adam::step` on a layer without parameters only makes sure that the map
has a record for it. -/
theorem Adam.adam_step_layer_other [Field α] (sqrt : α → α) (beta1_ beta2_ epsilon_ lr_t : α)
    (timestep_ addr : Nat) (obj : Layer α) (P : Nat → Option (AdamParams α))
    (h : ∀ l, obj ≠ Layer.linear l) :
    Adam.step_layer sqrt beta1_ beta2_ epsilon_ lr_t timestep_ ⟨addr, obj⟩ P
      = ((⟨addr, obj⟩,
          Function.update P addr (some ((P addr).getD ⟨[], [], [], [], 0, 0⟩))), none) := by
  have hP1 : (if (P addr).isNone = true then
        Function.update P addr (some (⟨[], [], [], [], 0, 0⟩ : AdamParams α))
      else P) = Function.update P addr (some ((P addr).getD ⟨[], [], [], [], 0, 0⟩)) := by
    cases hPa : P addr with
    | none => simp
    | some a =>
      simp only [Option.isNone_some, Bool.false_eq_true, if_false, Option.getD_some]
      rw [← hPa, Function.update_eq_self]
  cases obj with
  | linear l => exact absurd rfl (h l)
  | sigmoid c =>
    simp only [Adam.step_layer, Layer.get_parameters, Layer.get_gradients, List.length_nil,
      ne_eq, not_true_eq_false, if_false, List.get?, andThen_none, Adam.first_encounter,
      List.range_zero, List.foldl_nil, hP1]
  | relu c =>
    simp only [Adam.step_layer, Layer.get_parameters, Layer.get_gradients, List.length_nil,
      ne_eq, not_true_eq_false, if_false, List.get?, andThen_none, Adam.first_encounter,
      List.range_zero, List.foldl_nil, hP1]
  | tanh c =>
    simp only [Adam.step_layer, Layer.get_parameters, Layer.get_gradients, List.length_nil,
      ne_eq, not_true_eq_false, if_false, List.get?, andThen_none, Adam.first_encounter,
      List.range_zero, List.foldl_nil, hP1]

/-- A layer loop over objects at pairwise distinct addresses whose body
rewrites the map entry of the object it visits: every object is related by `R`
to its successor and to its new map entry, given the entry it had before the
loop. -/
theorem forEach_keyed {S : Type}
    (body : LayerRef α → (Nat → Option S) → (LayerRef α × (Nat → Option S)) × Option Err)
    (Q : LayerRef α → Option S → Prop) (R : LayerRef α → Option S → LayerRef α → S → Prop)
    (hbody : ∀ ref P, Q ref (P ref.addr) → ∃ ref' s',
      body ref P = ((ref', Function.update P ref.addr (some s')), none) ∧
      R ref (P ref.addr) ref' s') :
    ∀ (layers : List (LayerRef α)) (P : Nat → Option S),
      (layers.map (fun r => r.addr)).Nodup → (∀ ref ∈ layers, Q ref (P ref.addr)) →
      ∃ layers' P', forEach body layers P = ((layers', P'), none) ∧
        (∀ a, a ∉ layers.map (fun r => r.addr) → P' a = P a) ∧
        List.Forall₂ (fun ref ref' => ∃ s', P' ref.addr = some s' ∧
          R ref (P ref.addr) ref' s') layers layers' := by
  intro layers
  induction layers with
  | nil =>
    intro P _ _
    exact ⟨[], P, rfl, fun _ _ => rfl, List.Forall₂.nil⟩
  | cons ref rest ih =>
    intro P hnd hQ
    rw [List.map_cons, List.nodup_cons] at hnd
    obtain ⟨hnotin, hnd'⟩ := hnd
    obtain ⟨ref', s', hb, hR⟩ := hbody ref P (hQ ref (List.mem_cons_self _ _))
    have hne : ∀ r ∈ rest, r.addr ≠ ref.addr := by
      intro r hr e
      exact hnotin (List.mem_map.mpr ⟨r, hr, e⟩)
    obtain ⟨rest', P', hrest, hframe, hall⟩ := ih (Function.update P ref.addr (some s')) hnd'
      (fun r hr => by
        rw [Function.update_noteq (hne r hr)]
        exact hQ r (List.mem_cons_of_mem _ hr))
    refine ⟨ref' :: rest', P', ?_, ?_, ?_⟩
    · simp [forEach, hb, hrest]
    · intro a ha
      rw [List.map_cons, List.mem_cons, not_or] at ha
      rw [hframe a ha.2, Function.update_noteq ha.1]
    · refine List.Forall₂.cons ⟨s', ?_, hR⟩ ?_
      · rw [hframe ref.addr hnotin, Function.update_same]
      · have hsub : ∀ (xs ys : List (LayerRef α)), (∀ r ∈ xs, r.addr ≠ ref.addr) →
            List.Forall₂ (fun r r' => ∃ s'', P' r.addr = some s'' ∧
              R r (Function.update P ref.addr (some s') r.addr) r' s'') xs ys →
            List.Forall₂ (fun r r' => ∃ s'', P' r.addr = some s'' ∧
              R r (P r.addr) r' s'') xs ys := by
          intro xs ys hx hf
          induction hf with
          | nil => exact List.Forall₂.nil
          | cons hhead _ ih2 =>
            refine List.Forall₂.cons ?_ (ih2 (fun r hr => hx r (List.mem_cons_of_mem _ hr)))
            obtain ⟨s'', h1, h2⟩ := hhead
            rw [Function.update_noteq (hx _ (List.mem_cons_self _ _))] at h2
            exact ⟨s'', h1, h2⟩
        exact hsub rest rest' hne hall

/-- The layer loop of `Adam::step` on objects at pairwise distinct addresses
whose gradients conform and whose moment buffers, where the map has them, have
the sizes of the parameters. -/
theorem Adam.adam_layer_loop_ok [Field α] (sqrt : α → α) (beta1_ beta2_ epsilon_ lr_t : α)
    (timestep_ : Nat) (layers : List (LayerRef α)) (P : Nat → Option (AdamParams α))
    (hnd : (layers.map (fun r => r.addr)).Nodup)
    (hconf : ∀ ref ∈ layers, ref.obj.GradsConform)
    (hwf : ∀ ref ∈ layers, ∀ l ap, ref.obj = Layer.linear l → P ref.addr = some ap →
      ap.m_w.length = l.weights_.size ∧ ap.v_w.length = l.weights_.size ∧
      ap.m_b.length = l.bias_.size ∧ ap.v_b.length = l.bias_.size) :
    ∃ layers' P',
      forEach (Adam.step_layer sqrt beta1_ beta2_ epsilon_ lr_t timestep_) layers P
        = ((layers', P'), none) ∧
      (∀ a, a ∉ layers.map (fun r => r.addr) → P' a = P a) ∧
      List.Forall₂ (fun ref ref' => ∃ ap', P' ref.addr = some ap' ∧
        ref'.addr = ref.addr ∧
        ((∀ l, ref.obj ≠ Layer.linear l) → ref'.obj = ref.obj) ∧
        ∀ l, ref.obj = Layer.linear l → ∃ wd bd,
          ref'.obj = Layer.linear { l with
            weights_ := { l.weights_ with data := wd },
            bias_ := { l.bias_ with data := bd } } ∧
          wd.length = l.weights_.size ∧ bd.length = l.bias_.size ∧
          ap'.m_w.length = l.weights_.size ∧ ap'.v_w.length = l.weights_.size ∧
          ap'.m_b.length = l.bias_.size ∧ ap'.v_b.length = l.bias_.size ∧
          (∀ k, k < l.weights_.size →
            ap'.m_w.getD k 0 = beta1_ * ((P ref.addr).getD ⟨[], [], [], [], 0, 0⟩).m_w.getD k 0 +
              (1 - beta1_) * l.grad_weights_.data_at k ∧
            ap'.v_w.getD k 0 = beta2_ * ((P ref.addr).getD ⟨[], [], [], [], 0, 0⟩).v_w.getD k 0 +
              (1 - beta2_) * l.grad_weights_.data_at k * l.grad_weights_.data_at k ∧
            wd.getD k 0 = l.weights_.data_at k -
              lr_t * (ap'.m_w.getD k 0 / (1 - beta1_ ^ timestep_)) /
                (sqrt (ap'.v_w.getD k 0 / (1 - beta2_ ^ timestep_)) + epsilon_)) ∧
          (∀ k, k < l.bias_.size →
            ap'.m_b.getD k 0 = beta1_ * ((P ref.addr).getD ⟨[], [], [], [], 0, 0⟩).m_b.getD k 0 +
              (1 - beta1_) * l.grad_bias_.data_at k ∧
            ap'.v_b.getD k 0 = beta2_ * ((P ref.addr).getD ⟨[], [], [], [], 0, 0⟩).v_b.getD k 0 +
              (1 - beta2_) * l.grad_bias_.data_at k * l.grad_bias_.data_at k ∧
            bd.getD k 0 = l.bias_.data_at k -
              lr_t * (ap'.m_b.getD k 0 / (1 - beta1_ ^ timestep_)) /
                (sqrt (ap'.v_b.getD k 0 / (1 - beta2_ ^ timestep_)) + epsilon_)))
        layers layers' := by
  refine forEach_keyed (Adam.step_layer sqrt beta1_ beta2_ epsilon_ lr_t timestep_)
    (fun ref prev => ref.obj.GradsConform ∧ ∀ l ap, ref.obj = Layer.linear l → prev = some ap →
      ap.m_w.length = l.weights_.size ∧ ap.v_w.length = l.weights_.size ∧
      ap.m_b.length = l.bias_.size ∧ ap.v_b.length = l.bias_.size)
    (fun ref prev ref' ap' =>
      ref'.addr = ref.addr ∧
      ((∀ l, ref.obj ≠ Layer.linear l) → ref'.obj = ref.obj) ∧
      ∀ l, ref.obj = Layer.linear l → ∃ wd bd,
        ref'.obj = Layer.linear { l with
          weights_ := { l.weights_ with data := wd },
          bias_ := { l.bias_ with data := bd } } ∧
        wd.length = l.weights_.size ∧ bd.length = l.bias_.size ∧
        ap'.m_w.length = l.weights_.size ∧ ap'.v_w.length = l.weights_.size ∧
        ap'.m_b.length = l.bias_.size ∧ ap'.v_b.length = l.bias_.size ∧
        (∀ k, k < l.weights_.size →
          ap'.m_w.getD k 0 = beta1_ * (prev.getD ⟨[], [], [], [], 0, 0⟩).m_w.getD k 0 +
            (1 - beta1_) * l.grad_weights_.data_at k ∧
          ap'.v_w.getD k 0 = beta2_ * (prev.getD ⟨[], [], [], [], 0, 0⟩).v_w.getD k 0 +
            (1 - beta2_) * l.grad_weights_.data_at k * l.grad_weights_.data_at k ∧
          wd.getD k 0 = l.weights_.data_at k -
            lr_t * (ap'.m_w.getD k 0 / (1 - beta1_ ^ timestep_)) /
              (sqrt (ap'.v_w.getD k 0 / (1 - beta2_ ^ timestep_)) + epsilon_)) ∧
        (∀ k, k < l.bias_.size →
          ap'.m_b.getD k 0 = beta1_ * (prev.getD ⟨[], [], [], [], 0, 0⟩).m_b.getD k 0 +
            (1 - beta1_) * l.grad_bias_.data_at k ∧
          ap'.v_b.getD k 0 = beta2_ * (prev.getD ⟨[], [], [], [], 0, 0⟩).v_b.getD k 0 +
            (1 - beta2_) * l.grad_bias_.data_at k * l.grad_bias_.data_at k ∧
          bd.getD k 0 = l.bias_.data_at k -
            lr_t * (ap'.m_b.getD k 0 / (1 - beta1_ ^ timestep_)) /
              (sqrt (ap'.v_b.getD k 0 / (1 - beta2_ ^ timestep_)) + epsilon_)))
    ?_ layers P hnd (fun ref href => ⟨hconf ref href, hwf ref href⟩)
  intro ref P ⟨hc, hw⟩
  rcases ref with ⟨addr, obj⟩
  by_cases hlin : ∃ l, obj = Layer.linear l
  · obtain ⟨l, rfl⟩ := hlin
    obtain ⟨wd, bd, ap', hstep, h1, h2, h3, h4, h5, h6, h7, h8⟩ :=
      Adam.adam_step_layer_linear sqrt beta1_ beta2_ epsilon_ lr_t timestep_ addr l P hc
        (fun ap hap => hw l ap rfl hap)
    refine ⟨_, ap', hstep, rfl, fun hno => absurd rfl (hno l), ?_⟩
    intro l' hl'
    cases hl'
    exact ⟨wd, bd, rfl, h1, h2, h3, h4, h5, h6, h7, h8⟩
  · have hno : ∀ l, obj ≠ Layer.linear l := fun l e => hlin ⟨l, e⟩
    refine ⟨_, _, Adam.adam_step_layer_other sqrt beta1_ beta2_ epsilon_ lr_t timestep_ addr obj P
      hno, rfl, fun _ => rfl, ?_⟩
    intro l hl
    exact absurd hl (hno l)

/-- C6: the call of `Adam::step` that raises the counter to `t` (the number of
calls so far, this one included; one `t` and one `rate_t` for all layers of the
call) completes on layers at distinct addresses whose gradients conform and
whose moment buffers have the sizes of the parameters, and for every element
of the weights and of the bias of a `Linear` layer, with gradient `g` and
previous moments `m`, `v` (zero when the layer is met for the first time):
`m' = beta1*m + (1-beta1)*g`, `v' = beta2*v + (1-beta2)*g*g`,
`param' = param - rate_t * (m'/(1-beta1^t)) / (sqrt(v'/(1-beta2^t)) + eps)` with
`rate_t = rate*sqrt(1-beta2^t)/(1-beta1^t)`. -/
theorem Adam.adam_step_spec [Field α] (sqrt : α → α) (opt : Adam α) (layers : List (LayerRef α))
    (hnd : (layers.map (fun r => r.addr)).Nodup)
    (hconf : ∀ ref ∈ layers, ref.obj.GradsConform)
    (hwf : ∀ ref ∈ layers, ∀ l ap, ref.obj = Layer.linear l →
      opt.params_ ref.addr = some ap →
      ap.m_w.length = l.weights_.size ∧ ap.v_w.length = l.weights_.size ∧
      ap.m_b.length = l.bias_.size ∧ ap.v_b.length = l.bias_.size) :
    ∃ layers' P',
      Adam.step sqrt opt layers
        = (({ opt with timestep_ := opt.timestep_ + 1, params_ := P' }, layers'), none) ∧
      List.Forall₂ (fun ref ref' => ∀ l, ref.obj = Layer.linear l → ∃ l' ap',
        ref'.obj = Layer.linear l' ∧ P' ref.addr = some ap' ∧
        l'.weights_.shape = l.weights_.shape ∧ l'.weights_.size = l.weights_.size ∧
        l'.bias_.shape = l.bias_.shape ∧ l'.bias_.size = l.bias_.size ∧
        (∀ j, j < l.weights_.size →
          ap'.m_w.getD j 0 =
            opt.beta1_ * (match opt.params_ ref.addr with
              | some ap => ap.m_w.getD j 0
              | none => 0) + (1 - opt.beta1_) * l.grad_weights_.data_at j ∧
          ap'.v_w.getD j 0 =
            opt.beta2_ * (match opt.params_ ref.addr with
              | some ap => ap.v_w.getD j 0
              | none => 0) + (1 - opt.beta2_) * l.grad_weights_.data_at j * l.grad_weights_.data_at j ∧
          l'.weights_.data_at j = l.weights_.data_at j -
            (opt.learning_rate_ * sqrt (1 - opt.beta2_ ^ (opt.timestep_ + 1)) /
                (1 - opt.beta1_ ^ (opt.timestep_ + 1))) *
              (ap'.m_w.getD j 0 / (1 - opt.beta1_ ^ (opt.timestep_ + 1))) /
              (sqrt (ap'.v_w.getD j 0 / (1 - opt.beta2_ ^ (opt.timestep_ + 1))) + opt.epsilon_)) ∧
        (∀ j, j < l.bias_.size →
          ap'.m_b.getD j 0 =
            opt.beta1_ * (match opt.params_ ref.addr with
              | some ap => ap.m_b.getD j 0
              | none => 0) + (1 - opt.beta1_) * l.grad_bias_.data_at j ∧
          ap'.v_b.getD j 0 =
            opt.beta2_ * (match opt.params_ ref.addr with
              | some ap => ap.v_b.getD j 0
              | none => 0) + (1 - opt.beta2_) * l.grad_bias_.data_at j * l.grad_bias_.data_at j ∧
          l'.bias_.data_at j = l.bias_.data_at j -
            (opt.learning_rate_ * sqrt (1 - opt.beta2_ ^ (opt.timestep_ + 1)) /
                (1 - opt.beta1_ ^ (opt.timestep_ + 1))) *
              (ap'.m_b.getD j 0 / (1 - opt.beta1_ ^ (opt.timestep_ + 1))) /
              (sqrt (ap'.v_b.getD j 0 / (1 - opt.beta2_ ^ (opt.timestep_ + 1))) + opt.epsilon_)))
        layers layers' := by
  obtain ⟨layers', P', hloop, _, hall⟩ := Adam.adam_layer_loop_ok sqrt opt.beta1_ opt.beta2_
    opt.epsilon_ (opt.learning_rate_ * sqrt (1 - opt.beta2_ ^ (opt.timestep_ + 1)) /
        (1 - opt.beta1_ ^ (opt.timestep_ + 1))) (opt.timestep_ + 1) layers opt.params_
    hnd hconf hwf
  refine ⟨layers', P', ?_, ?_⟩
  · simp only [Adam.step]
    rw [hloop]
  · refine List.Forall₂.imp ?_ hall
    rintro ref ref' ⟨ap', hap', _, _, hlin⟩ l hl
    obtain ⟨wd, bd, hobj, hwd, hbd, _, _, _, _, hW, hB⟩ := hlin l hl
    refine ⟨_, ap', hobj, hap', rfl, hwd, rfl, hbd, ?_, ?_⟩
    · intro j hj
      obtain ⟨e1, e2, e3⟩ := hW j hj
      refine ⟨?_, ?_, e3⟩
      · rw [e1]; cases opt.params_ ref.addr <;> rfl
      · rw [e2]; cases opt.params_ ref.addr <;> rfl
    · intro j hj
      obtain ⟨e1, e2, e3⟩ := hB j hj
      refine ⟨?_, ?_, e3⟩
      · rw [e1]; cases opt.params_ ref.addr <;> rfl
      · rw [e2]; cases opt.params_ ref.addr <;> rfl

/-- Witness of C6: the first step of a fresh optimizer with the default
hyperparameters on one `Linear(1,1)` layer over the reals. -/
theorem Adam.adam_step_spec_witness :
    (([⟨0, .linear ⟨⟨[0], [1, 1]⟩, ⟨[0], [1, 1]⟩, ⟨[2], [1, 1]⟩, ⟨[1], [1, 1]⟩,
        ⟨[1], [1, 1]⟩⟩⟩] : List (LayerRef ℝ)).map (fun r => r.addr)).Nodup ∧
    (∀ ref ∈ ([⟨0, .linear ⟨⟨[0], [1, 1]⟩, ⟨[0], [1, 1]⟩, ⟨[2], [1, 1]⟩, ⟨[1], [1, 1]⟩,
        ⟨[1], [1, 1]⟩⟩⟩] : List (LayerRef ℝ)), ref.obj.GradsConform) ∧
    ∃ layers' P',
      Adam.step Real.sqrt (⟨0.001, 0.9, 0.999, 1e-8, 0, fun _ => none⟩ : Adam ℝ) ([⟨0, .linear ⟨⟨[0], [1, 1]⟩, ⟨[0], [1, 1]⟩, ⟨[2], [1, 1]⟩, ⟨[1], [1, 1]⟩,
        ⟨[1], [1, 1]⟩⟩⟩] : List (LayerRef ℝ))
        = (({ (⟨0.001, 0.9, 0.999, 1e-8, 0, fun _ => none⟩ : Adam ℝ) with timestep_ := (⟨0.001, 0.9, 0.999, 1e-8, 0, fun _ => none⟩ : Adam ℝ).timestep_ + 1, params_ := P' }, layers'), none) ∧
      List.Forall₂ (fun ref ref' => ∀ l, ref.obj = Layer.linear l → ∃ l' ap',
        ref'.obj = Layer.linear l' ∧ P' ref.addr = some ap' ∧
        l'.weights_.shape = l.weights_.shape ∧ l'.weights_.size = l.weights_.size ∧
        l'.bias_.shape = l.bias_.shape ∧ l'.bias_.size = l.bias_.size ∧
        (∀ j, j < l.weights_.size →
          ap'.m_w.getD j 0 =
            (⟨0.001, 0.9, 0.999, 1e-8, 0, fun _ => none⟩ : Adam ℝ).beta1_ * (match (⟨0.001, 0.9, 0.999, 1e-8, 0, fun _ => none⟩ : Adam ℝ).params_ ref.addr with
              | some ap => ap.m_w.getD j 0
              | none => 0) + (1 - (⟨0.001, 0.9, 0.999, 1e-8, 0, fun _ => none⟩ : Adam ℝ).beta1_) * l.grad_weights_.data_at j ∧
          ap'.v_w.getD j 0 =
            (⟨0.001, 0.9, 0.999, 1e-8, 0, fun _ => none⟩ : Adam ℝ).beta2_ * (match (⟨0.001, 0.9, 0.999, 1e-8, 0, fun _ => none⟩ : Adam ℝ).params_ ref.addr with
              | some ap => ap.v_w.getD j 0
              | none => 0) + (1 - (⟨0.001, 0.9, 0.999, 1e-8, 0, fun _ => none⟩ : Adam ℝ).beta2_) * l.grad_weights_.data_at j * l.grad_weights_.data_at j ∧
          l'.weights_.data_at j = l.weights_.data_at j -
            ((⟨0.001, 0.9, 0.999, 1e-8, 0, fun _ => none⟩ : Adam ℝ).learning_rate_ * Real.sqrt (1 - (⟨0.001, 0.9, 0.999, 1e-8, 0, fun _ => none⟩ : Adam ℝ).beta2_ ^ ((⟨0.001, 0.9, 0.999, 1e-8, 0, fun _ => none⟩ : Adam ℝ).timestep_ + 1)) /
                (1 - (⟨0.001, 0.9, 0.999, 1e-8, 0, fun _ => none⟩ : Adam ℝ).beta1_ ^ ((⟨0.001, 0.9, 0.999, 1e-8, 0, fun _ => none⟩ : Adam ℝ).timestep_ + 1))) *
              (ap'.m_w.getD j 0 / (1 - (⟨0.001, 0.9, 0.999, 1e-8, 0, fun _ => none⟩ : Adam ℝ).beta1_ ^ ((⟨0.001, 0.9, 0.999, 1e-8, 0, fun _ => none⟩ : Adam ℝ).timestep_ + 1))) /
              (Real.sqrt (ap'.v_w.getD j 0 / (1 - (⟨0.001, 0.9, 0.999, 1e-8, 0, fun _ => none⟩ : Adam ℝ).beta2_ ^ ((⟨0.001, 0.9, 0.999, 1e-8, 0, fun _ => none⟩ : Adam ℝ).timestep_ + 1))) + (⟨0.001, 0.9, 0.999, 1e-8, 0, fun _ => none⟩ : Adam ℝ).epsilon_)) ∧
        (∀ j, j < l.bias_.size →
          ap'.m_b.getD j 0 =
            (⟨0.001, 0.9, 0.999, 1e-8, 0, fun _ => none⟩ : Adam ℝ).beta1_ * (match (⟨0.001, 0.9, 0.999, 1e-8, 0, fun _ => none⟩ : Adam ℝ).params_ ref.addr with
              | some ap => ap.m_b.getD j 0
              | none => 0) + (1 - (⟨0.001, 0.9, 0.999, 1e-8, 0, fun _ => none⟩ : Adam ℝ).beta1_) * l.grad_bias_.data_at j ∧
          ap'.v_b.getD j 0 =
            (⟨0.001, 0.9, 0.999, 1e-8, 0, fun _ => none⟩ : Adam ℝ).beta2_ * (match (⟨0.001, 0.9, 0.999, 1e-8, 0, fun _ => none⟩ : Adam ℝ).params_ ref.addr with
              | some ap => ap.v_b.getD j 0
              | none => 0) + (1 - (⟨0.001, 0.9, 0.999, 1e-8, 0, fun _ => none⟩ : Adam ℝ).beta2_) * l.grad_bias_.data_at j * l.grad_bias_.data_at j ∧
          l'.bias_.data_at j = l.bias_.data_at j -
            ((⟨0.001, 0.9, 0.999, 1e-8, 0, fun _ => none⟩ : Adam ℝ).learning_rate_ * Real.sqrt (1 - (⟨0.001, 0.9, 0.999, 1e-8, 0, fun _ => none⟩ : Adam ℝ).beta2_ ^ ((⟨0.001, 0.9, 0.999, 1e-8, 0, fun _ => none⟩ : Adam ℝ).timestep_ + 1)) /
                (1 - (⟨0.001, 0.9, 0.999, 1e-8, 0, fun _ => none⟩ : Adam ℝ).beta1_ ^ ((⟨0.001, 0.9, 0.999, 1e-8, 0, fun _ => none⟩ : Adam ℝ).timestep_ + 1))) *
              (ap'.m_b.getD j 0 / (1 - (⟨0.001, 0.9, 0.999, 1e-8, 0, fun _ => none⟩ : Adam ℝ).beta1_ ^ ((⟨0.001, 0.9, 0.999, 1e-8, 0, fun _ => none⟩ : Adam ℝ).timestep_ + 1))) /
              (Real.sqrt (ap'.v_b.getD j 0 / (1 - (⟨0.001, 0.9, 0.999, 1e-8, 0, fun _ => none⟩ : Adam ℝ).beta2_ ^ ((⟨0.001, 0.9, 0.999, 1e-8, 0, fun _ => none⟩ : Adam ℝ).timestep_ + 1))) + (⟨0.001, 0.9, 0.999, 1e-8, 0, fun _ => none⟩ : Adam ℝ).epsilon_)))
        ([⟨0, .linear ⟨⟨[0], [1, 1]⟩, ⟨[0], [1, 1]⟩, ⟨[2], [1, 1]⟩, ⟨[1], [1, 1]⟩,
        ⟨[1], [1, 1]⟩⟩⟩] : List (LayerRef ℝ)) layers' :=
  ⟨by simp, by decide,
    Adam.adam_step_spec Real.sqrt (⟨0.001, 0.9, 0.999, 1e-8, 0, fun _ => none⟩ : Adam ℝ) ([⟨0, .linear ⟨⟨[0], [1, 1]⟩, ⟨[0], [1, 1]⟩, ⟨[2], [1, 1]⟩, ⟨[1], [1, 1]⟩,
        ⟨[1], [1, 1]⟩⟩⟩] : List (LayerRef ℝ)) (by simp) (by decide)
      (fun _ _ _ _ _ h => nomatch h)⟩

/-- `Adam::step` is the layer loop run with the raised counter and the rate
computed from it. -/
theorem Adam.adam_step_of_loop [Field α] (sqrt : α → α) (opt : Adam α)
    (layers layers' : List (LayerRef α)) (P' : Nat → Option (AdamParams α))
    (h : forEach (Adam.step_layer sqrt opt.beta1_ opt.beta2_ opt.epsilon_
        (opt.learning_rate_ * sqrt (1 - opt.beta2_ ^ (opt.timestep_ + 1)) /
          (1 - opt.beta1_ ^ (opt.timestep_ + 1))) (opt.timestep_ + 1)) layers opt.params_
      = ((layers', P'), none)) :
    Adam.step sqrt opt layers
      = (({ opt with timestep_ := opt.timestep_ + 1, params_ := P' }, layers'), none) := by
  simp only [Adam.step]
  rw [h]

/-- C7 (the code at the input of the claim): the first step of a fresh
`Adam(0.001)` with the default betas and epsilon on a `Linear(1,1)` layer whose
weight gradient is 1 completes, and the change of the weight differs from
`-0.001 * 1 / (sqrt(1) + 1e-8)` by more than 1e-6 (it is about -0.000316: the
step applies the bias correction both in `lr_t` and in `m_hat`, `v_hat`). -/
theorem Adam.first_step_delta :
    ∃ opt' l',
      Adam.step Real.sqrt (⟨0.001, 0.9, 0.999, 1e-8, 0, fun _ => none⟩ : Adam ℝ)
        [⟨0, .linear ⟨⟨[0], [1, 1]⟩, ⟨[0], [1, 1]⟩, ⟨[2], [1, 1]⟩, ⟨[1], [1, 1]⟩,
          ⟨[1], [1, 1]⟩⟩⟩]
        = ((opt', [⟨0, .linear l'⟩]), none) ∧
      1e-6 < |(l'.weights_.data_at 0 - 0) - (-0.001 * 1 / (Real.sqrt 1 + 1e-8))| := by
  obtain ⟨layers', P', hloop, _, hall⟩ := Adam.adam_layer_loop_ok Real.sqrt
    (0.9 : ℝ) 0.999 1e-8 (0.001 * Real.sqrt (1 - 0.999 ^ (0 + 1)) / (1 - 0.9 ^ (0 + 1))) (0 + 1)
    [⟨0, .linear ⟨⟨[0], [1, 1]⟩, ⟨[0], [1, 1]⟩, ⟨[2], [1, 1]⟩, ⟨[1], [1, 1]⟩, ⟨[1], [1, 1]⟩⟩⟩]
    (fun _ => none) (by simp) (by decide) (fun _ _ _ _ _ h => nomatch h)
  have hstep := Adam.adam_step_of_loop Real.sqrt
    (⟨0.001, 0.9, 0.999, 1e-8, 0, fun _ => none⟩ : Adam ℝ) _ layers' P' hloop
  obtain ⟨ref', rest', hhead, htail, rfl⟩ := List.forall₂_cons_left_iff.mp hall
  obtain rfl := List.forall₂_nil_left_iff.mp htail
  obtain ⟨ap', _, haddr, _, hlin⟩ := hhead
  obtain ⟨wd, bd, hobj, _, _, _, _, _, _, hW, _⟩ := hlin _ rfl
  obtain ⟨e1, e2, e3⟩ := hW 0 (by decide)
  rcases ref' with ⟨a, obj⟩
  simp only at haddr hobj
  subst haddr hobj
  refine ⟨_, _, hstep, ?_⟩
  show (1e-6 : ℝ) < |(wd.getD 0 0 - 0) - (-0.001 * 1 / (Real.sqrt 1 + 1e-8))|
  rw [e3, e1, e2]
  have h1 : Real.sqrt (1 - 0.999 ^ (0 + 1)) < 0.04 := by
    rw [Real.sqrt_lt' (by norm_num)]
    norm_num
  have h0 : 0 ≤ Real.sqrt (1 - 0.999 ^ (0 + 1)) := Real.sqrt_nonneg _
  generalize Real.sqrt (1 - 0.999 ^ (0 + 1)) = s at h1 h0
  simp only [Option.getD_none, List.getD_nil, Tensor.data_at, List.getD_cons_zero]
  have e4 : ((0.999 * 0 + (1 - 0.999) * 1 * 1) / (1 - 0.999 ^ (0 + 1)) : ℝ) = 1 := by norm_num
  have e5 : ((0.9 * 0 + (1 - 0.9) * 1) / (1 - 0.9 ^ (0 + 1)) : ℝ) = 1 := by norm_num
  rw [e4, e5, Real.sqrt_one, lt_abs]
  left
  have hden : (0 : ℝ) < 1 + 1e-8 := by norm_num
  have key : 0 - 1e-3 * s / (1 - 0.9 ^ (0 + 1)) * 1 / (1 + 1e-8) - 0 -
      -1e-3 * 1 / (1 + 1e-8) = (1e-3 - 1e-2 * s) / (1 + 1e-8) := by
    field_simp
    ring
  rw [key, lt_div_iff₀ hden]
  norm_num at h1 ⊢
  linarith

/-- C8 (the code at a failing input): the first step of a fresh
`Momentum(0.01, 0.9)` on a `Linear(1,1)` layer with weight gradient 1 and bias
gradient 0 moves the bias from 7 to 6.991, although its own gradient is 0: the
one velocity buffer kept for the layer holds the velocity of the weights when
the bias is updated. -/
theorem Momentum.first_step_shared_velocity :
    (⟨1 / 100, 9 / 10, fun _ => none⟩ : Momentum ℚ).step
      [⟨0, .linear ⟨⟨[5], [1, 1]⟩, ⟨[7], [1, 1]⟩, ⟨[2], [1, 1]⟩, ⟨[1], [1, 1]⟩, ⟨[0], [1, 1]⟩⟩⟩]
    = ((⟨1 / 100, 9 / 10, Function.update (fun _ => none) 0 (some [-9 / 1000])⟩,
        [⟨0, .linear ⟨⟨[499 / 100], [1, 1]⟩, ⟨[6991 / 1000], [1, 1]⟩, ⟨[2], [1, 1]⟩,
          ⟨[1], [1, 1]⟩, ⟨[0], [1, 1]⟩⟩⟩]), none) := by
  simp [Momentum.step, forEach, Momentum.step_layer, Layer.get_parameters, Layer.get_gradients,
    forRange, andThen, stmt, Layer.deref, Layer.store, Tensor.size, Tensor.op_index,
    Tensor.op_index_assign, Tensor.data_at, bind, Except.bind, pure, Except.pure, resize]
  norm_num

end Optimizers

/-! ## Mean squared error -/

section Losses

variable {α : Type}

/-- `MSELoss::compute_loss` on tensors of one shape with equally many elements. -/
theorem MSELoss.compute_loss_ok [Field α] (p t : Tensor α) (hs : p.shape = t.shape)
    (hl : t.data.length = p.data.length) :
    MSELoss.compute_loss p t = .ok ((∑ i in Finset.range p.data.length,
      (p.data_at i - t.data_at i) ^ 2) / (p.data.length : α)) := by
  have hsum := forRange_sum (fun i sum =>
      stmt sum (do
        let x ← p.op_index i
        let y ← t.op_index i
        let diff := x - y
        pure (sum + diff * diff))) (fun i => (p.data_at i - t.data_at i) ^ 2) p.data.length
    (fun k s hk => by
      simp only [Tensor.op_index_ok p k hk, Tensor.op_index_ok t k (by omega), bind,
        Except.bind, pure, Except.pure, stmt, sq])
  simp only [MSELoss.compute_loss, hs, ne_eq, not_true_eq_false, if_false, Tensor.size]
  rw [hsum]

/-- `MSELoss::compute_gradient` on 2-D tensors of one shape. -/
theorem MSELoss.compute_gradient_ok [Field α] (p t : Tensor α) (r c : Nat)
    (hp : p.IsMatrix r c) (ht : t.IsMatrix r c) :
    ∃ G, MSELoss.compute_gradient p t = .ok G ∧ G.IsMatrix r c ∧
      ∀ i, i < r * c → G.data_at i = 2 * (p.data_at i - t.data_at i) / ((r * c : Nat) : α) := by
  obtain ⟨hps, hpl⟩ := hp
  obtain ⟨hts, htl⟩ := ht
  obtain ⟨hZs, hZl⟩ := Tensor.zeros_isMatrix (α := α) r c
  have key := forRange_inv (fun i gradient =>
      stmt gradient (do
        let x ← p.op_index i
        let y ← t.op_index i
        gradient.op_index_assign i (2 * (x - y) / (p.size : α))))
    (fun i (G : Tensor α) => G.shape = [r, c] ∧ G.data.length = r * c ∧
      ∀ k, k < i → G.data_at k = 2 * (p.data_at k - t.data_at k) / ((r * c : Nat) : α))
    p.size 0 (Tensor.zeros r c) ⟨hZs, hZl, fun k hk => absurd hk (Nat.not_lt_zero k)⟩
    (fun i G _ hi hI => by
      obtain ⟨hGs, hGl, hGk⟩ := hI
      have hi : i < r * c := by rw [Tensor.size, hpl] at hi; omega
      simp only [Tensor.op_index_ok p i (by omega), Tensor.op_index_ok t i (by omega),
        Tensor.op_index_assign_ok G i _ (by omega), bind, Except.bind, stmt, Tensor.size, hpl]
      refine ⟨trivial, hGs, by simpa using hGl, ?_⟩
      intro k hk
      rw [Tensor.data_at_set]
      by_cases hik : i = k
      · subst hik
        rw [if_pos ⟨rfl, by omega⟩]
      · rw [if_neg (fun h => hik h.1)]
        exact hGk k (by omega))
  rcases hr : forRange (fun i gradient =>
      stmt gradient (do
        let x ← p.op_index i
        let y ← t.op_index i
        gradient.op_index_assign i (2 * (x - y) / (p.size : α))))
    p.size 0 (Tensor.zeros r c) with ⟨G, o⟩
  rw [hr] at key
  obtain ⟨ho, hGs, hGl, hGk⟩ := key
  simp only at ho
  subst ho
  refine ⟨G, ?_, ⟨hGs, hGl⟩, fun i hi => hGk i (by rw [Tensor.size, hpl]; omega)⟩
  simp only [MSELoss.compute_gradient, hps, hts, ne_eq, not_true_eq_false, if_false,
    Tensor.rows_eq p r c hps, Tensor.cols_eq p r c hps]
  rw [hr]
  rfl

/-- C9 as stated fails: the flat constructor accepts the data `{1, 2}` and
`{0, 0}` with the shape `{1, 1, 2}`; the two tensors have one shape and N = 2
elements and `compute_loss` returns 5/2, but `compute_gradient` builds
`gradient(rows(), cols())`, a 1x1 tensor, and the checked `gradient[1]` throws
`out_of_range`: no tensor of the shape of `p` is returned. -/
theorem MSELoss.mse_spec_counterexample :
    Tensor.make ([1, 2] : List ℚ) [1, 1, 2] = .ok ⟨[1, 2], [1, 1, 2]⟩ ∧
    Tensor.make ([0, 0] : List ℚ) [1, 1, 2] = .ok ⟨[0, 0], [1, 1, 2]⟩ ∧
    (⟨[1, 2], [1, 1, 2]⟩ : Tensor ℚ).shape = (⟨[0, 0], [1, 1, 2]⟩ : Tensor ℚ).shape ∧
    (⟨[1, 2], [1, 1, 2]⟩ : Tensor ℚ).size = 2 ∧
    MSELoss.compute_loss (⟨[1, 2], [1, 1, 2]⟩ : Tensor ℚ) ⟨[0, 0], [1, 1, 2]⟩ = .ok (5 / 2) ∧
    MSELoss.compute_gradient (⟨[1, 2], [1, 1, 2]⟩ : Tensor ℚ) ⟨[0, 0], [1, 1, 2]⟩
      = .error (.out_of_range "Index out of bounds") := by
  decide!

/-- C9, amended: for a prediction `p` and a target `t` of one two-entry shape
(r, c) that hold `N = r*c >= 1` elements each, `compute_loss(p, t)` is the sum
over i of (p_i - t_i)^2 divided by N, and `compute_gradient(p, t)` has the
shape of `p` and N elements, element i being 2*(p_i - t_i)/N. -/
theorem MSELoss.mse_spec [Field α] (p t : Tensor α) (r c : Nat) (hp : p.IsMatrix r c)
    (ht : t.IsMatrix r c) (hN : 1 ≤ r * c) :
    MSELoss.compute_loss p t = .ok ((∑ i in Finset.range (r * c),
      (p.data_at i - t.data_at i) ^ 2) / ((r * c : Nat) : α)) ∧
    ∃ G, MSELoss.compute_gradient p t = .ok G ∧ G.shape = p.shape ∧ G.size = r * c ∧
      G.size = p.size ∧ 1 ≤ G.size ∧
      ∀ i, i < r * c →
        G.op_index i = .ok (2 * (p.data_at i - t.data_at i) / ((r * c : Nat) : α)) := by
  constructor
  · rw [MSELoss.compute_loss_ok p t (hp.1.trans ht.1.symm) (ht.2.trans hp.2.symm), hp.2]
  · obtain ⟨G, hG, hGm, hGe⟩ := MSELoss.compute_gradient_ok p t r c hp ht
    refine ⟨G, hG, hGm.1.trans hp.1.symm, hGm.2, hGm.2.trans hp.2.symm, ?_, ?_⟩
    · rw [Tensor.size, hGm.2]; exact hN
    · intro i hi
      rw [Tensor.op_index_ok G i (by rw [hGm.2]; exact hi), hGe i hi]

/-- Witness of C9, amended: the 1x3 prediction and target of `test_loss_functions`. -/
theorem MSELoss.mse_spec_witness :
    (⟨[7 / 10, 2 / 10, 1 / 10], [1, 3]⟩ : Tensor ℚ).IsMatrix 1 3 ∧
    (⟨[1, 0, 0], [1, 3]⟩ : Tensor ℚ).IsMatrix 1 3 ∧
    MSELoss.compute_loss (⟨[7 / 10, 2 / 10, 1 / 10], [1, 3]⟩ : Tensor ℚ) ⟨[1, 0, 0], [1, 3]⟩
      = .ok ((∑ i in Finset.range (1 * 3),
        ((⟨[7 / 10, 2 / 10, 1 / 10], [1, 3]⟩ : Tensor ℚ).data_at i -
          (⟨[1, 0, 0], [1, 3]⟩ : Tensor ℚ).data_at i) ^ 2) / ((1 * 3 : Nat) : ℚ)) ∧
    ∃ G, MSELoss.compute_gradient (⟨[7 / 10, 2 / 10, 1 / 10], [1, 3]⟩ : Tensor ℚ)
        ⟨[1, 0, 0], [1, 3]⟩ = .ok G ∧
      G.shape = (⟨[7 / 10, 2 / 10, 1 / 10], [1, 3]⟩ : Tensor ℚ).shape ∧ G.size = 1 * 3 ∧
      G.size = (⟨[7 / 10, 2 / 10, 1 / 10], [1, 3]⟩ : Tensor ℚ).size ∧ 1 ≤ G.size ∧
      ∀ i, i < 1 * 3 →
        G.op_index i = .ok (2 * ((⟨[7 / 10, 2 / 10, 1 / 10], [1, 3]⟩ : Tensor ℚ).data_at i -
          (⟨[1, 0, 0], [1, 3]⟩ : Tensor ℚ).data_at i) / ((1 * 3 : Nat) : ℚ)) :=
  ⟨by decide, by decide,
    MSELoss.mse_spec _ _ 1 3 (by decide) (by decide) (by decide)⟩

/-- Difference of the two squared-error sums when element `i` of the
prediction is moved by `+h` and by `-h`. -/
theorem MSELoss.mse_sum_diff [Field α] (p t : Tensor α) (i : Nat) (hi : i < p.data.length)
    (h : α) :
    (∑ k in Finset.range p.data.length,
        (({ p with data := p.data.set i (p.data_at i + h) } : Tensor α).data_at k
          - t.data_at k) ^ 2) -
      (∑ k in Finset.range p.data.length,
        (({ p with data := p.data.set i (p.data_at i - h) } : Tensor α).data_at k
          - t.data_at k) ^ 2)
      = 4 * (p.data_at i - t.data_at i) * h := by
  rw [← Finset.sum_sub_distrib]
  rw [Finset.sum_eq_single i]
  · rw [Tensor.data_at_set, Tensor.data_at_set, if_pos ⟨rfl, hi⟩, if_pos ⟨rfl, hi⟩]
    ring
  · intro k _ hki
    rw [Tensor.data_at_set, Tensor.data_at_set, if_neg (fun e => hki e.1.symm),
      if_neg (fun e => hki e.1.symm)]
    ring
  · intro hni
    exact absurd (Finset.mem_range.mpr hi) hni

/-- C10 as stated fails: the flat constructor accepts the data `{1, 2, 3, 4}`
and `{0, 0, 0, 0}` with the shape `{2, 1, 2}`; for the element index 3 and the
step 1 the two values of `compute_loss` are 39/4 and 23/4, so the central
difference is 2, but `compute_gradient` builds `gradient(rows(), cols())`, a
2x1 tensor, and the checked `gradient[2]` throws `out_of_range`: there is no
element of `compute_gradient(p, t)` to compare with. -/
theorem MSELoss.mse_derivative_counterexample :
    Tensor.make ([1, 2, 3, 4] : List ℚ) [2, 1, 2] = .ok ⟨[1, 2, 3, 4], [2, 1, 2]⟩ ∧
    Tensor.make ([0, 0, 0, 0] : List ℚ) [2, 1, 2] = .ok ⟨[0, 0, 0, 0], [2, 1, 2]⟩ ∧
    MSELoss.compute_loss { (⟨[1, 2, 3, 4], [2, 1, 2]⟩ : Tensor ℚ) with
        data := (⟨[1, 2, 3, 4], [2, 1, 2]⟩ : Tensor ℚ).data.set 3
          ((⟨[1, 2, 3, 4], [2, 1, 2]⟩ : Tensor ℚ).data_at 3 + 1) }
      ⟨[0, 0, 0, 0], [2, 1, 2]⟩ = .ok (39 / 4) ∧
    MSELoss.compute_loss { (⟨[1, 2, 3, 4], [2, 1, 2]⟩ : Tensor ℚ) with
        data := (⟨[1, 2, 3, 4], [2, 1, 2]⟩ : Tensor ℚ).data.set 3
          ((⟨[1, 2, 3, 4], [2, 1, 2]⟩ : Tensor ℚ).data_at 3 - 1) }
      ⟨[0, 0, 0, 0], [2, 1, 2]⟩ = .ok (23 / 4) ∧
    MSELoss.compute_gradient (⟨[1, 2, 3, 4], [2, 1, 2]⟩ : Tensor ℚ) ⟨[0, 0, 0, 0], [2, 1, 2]⟩
      = .error (.out_of_range "Index out of bounds") := by
  decide!

/-- C10, amended: `compute_gradient` is the derivative of `compute_loss` on
2-D tensors: for `p`, `t` of one two-entry shape (r, c) that hold r*c elements
each, an element index `i < r*c` and a step `h` other than 0, the central
difference of `compute_loss` in element `i` of the prediction equals element
`i` of `compute_gradient(p, t)`, so the two differ by less than 1e-3. -/
theorem MSELoss.mse_gradient_is_derivative [LinearOrderedField α] (p t : Tensor α) (r c : Nat)
    (hp : p.IsMatrix r c) (ht : t.IsMatrix r c) (i : Nat) (hi : i < r * c) (h : α)
    (hh : h ≠ 0) :
    ∃ Lp Lm G,
      MSELoss.compute_loss { p with data := p.data.set i (p.data_at i + h) } t = .ok Lp ∧
      MSELoss.compute_loss { p with data := p.data.set i (p.data_at i - h) } t = .ok Lm ∧
      MSELoss.compute_gradient p t = .ok G ∧
      G.op_index i = .ok ((Lp - Lm) / (2 * h)) ∧
      |(Lp - Lm) / (2 * h) - G.data_at i| < 1 / 1000 := by
  obtain ⟨hps, hpl⟩ := hp
  obtain ⟨hts, htl⟩ := ht
  obtain ⟨G, hG, hGm, hGe⟩ := MSELoss.compute_gradient_ok p t r c ⟨hps, hpl⟩ ⟨hts, htl⟩
  have hip : i < p.data.length := by omega
  have hLp := MSELoss.compute_loss_ok
    ({ p with data := p.data.set i (p.data_at i + h) } : Tensor α) t
    (hps.trans hts.symm) (by simp [htl, hpl])
  have hLm := MSELoss.compute_loss_ok
    ({ p with data := p.data.set i (p.data_at i - h) } : Tensor α) t
    (hps.trans hts.symm) (by simp [htl, hpl])
  simp only [List.length_set] at hLp hLm
  have hN : ((r * c : Nat) : α) ≠ 0 := by
    have : 0 < r * c := by omega
    exact_mod_cast this.ne'
  have hcd : ((∑ k in Finset.range p.data.length,
        (({ p with data := p.data.set i (p.data_at i + h) } : Tensor α).data_at k
          - t.data_at k) ^ 2) / (p.data.length : α) -
      (∑ k in Finset.range p.data.length,
        (({ p with data := p.data.set i (p.data_at i - h) } : Tensor α).data_at k
          - t.data_at k) ^ 2) / (p.data.length : α)) / (2 * h) = G.data_at i := by
    rw [← sub_div, MSELoss.mse_sum_diff p t i hip h, hGe i hi, hpl]
    generalize ((r * c : Nat) : α) = N at hN
    field_simp
    ring
  refine ⟨_, _, G, hLp, hLm, hG, ?_, ?_⟩
  · rw [Tensor.op_index_ok G i (by rw [hGm.2]; exact hi), hcd]
  · rw [hcd, sub_self, abs_zero]
    norm_num

/-- Witness of C10, amended: the prediction and target of `test_loss_functions`, element
0 and step 1/100. -/
theorem MSELoss.mse_gradient_is_derivative_witness :
    (⟨[7 / 10, 2 / 10, 1 / 10], [1, 3]⟩ : Tensor ℚ).IsMatrix 1 3 ∧
    ((1 / 100 : ℚ) ≠ 0) ∧
    ∃ Lp Lm G,
      MSELoss.compute_loss { (⟨[7 / 10, 2 / 10, 1 / 10], [1, 3]⟩ : Tensor ℚ) with
        data := (⟨[7 / 10, 2 / 10, 1 / 10], [1, 3]⟩ : Tensor ℚ).data.set 0
          ((⟨[7 / 10, 2 / 10, 1 / 10], [1, 3]⟩ : Tensor ℚ).data_at 0 + 1 / 100) }
        ⟨[1, 0, 0], [1, 3]⟩ = .ok Lp ∧
      MSELoss.compute_loss { (⟨[7 / 10, 2 / 10, 1 / 10], [1, 3]⟩ : Tensor ℚ) with
        data := (⟨[7 / 10, 2 / 10, 1 / 10], [1, 3]⟩ : Tensor ℚ).data.set 0
          ((⟨[7 / 10, 2 / 10, 1 / 10], [1, 3]⟩ : Tensor ℚ).data_at 0 - 1 / 100) }
        ⟨[1, 0, 0], [1, 3]⟩ = .ok Lm ∧
      MSELoss.compute_gradient (⟨[7 / 10, 2 / 10, 1 / 10], [1, 3]⟩ : Tensor ℚ)
        ⟨[1, 0, 0], [1, 3]⟩ = .ok G ∧
      G.op_index 0 = .ok ((Lp - Lm) / (2 * (1 / 100))) ∧
      |(Lp - Lm) / (2 * (1 / 100)) - G.data_at 0| < 1 / 1000 :=
  ⟨by decide, by norm_num,
    MSELoss.mse_gradient_is_derivative _ _ 1 3 (by decide) (by decide) 0 (by decide) (1 / 100)
      (by norm_num)⟩

end Losses

/-! ## Transposition -/

section Transposition

variable {α : Type}

/-- Two well-formed tensors of one shape with equal entries are equal. -/
theorem Tensor.ext_entries [Zero α] (t u : Tensor α) (m n : Nat) (ht : t.IsMatrix m n)
    (hu : u.IsMatrix m n) (h : ∀ i j, i < m → j < n → t.entry i j = u.entry i j) : t = u := by
  obtain ⟨hts, htl⟩ := ht
  obtain ⟨hus, hul⟩ := hu
  rcases t with ⟨td, tsh⟩
  rcases u with ⟨ud, ush⟩
  simp only at hts htl hus hul
  subst hts hus
  congr 1
  apply List.ext_getElem (by rw [htl, hul])
  intro k h1 h2
  have hk : k < m * n := by omega
  have hn : 0 < n := by
    rcases Nat.eq_zero_or_pos n with h0 | h0
    · subst h0; simp at hk
    · exact h0
  have hdiv : k / n < m := by
    rw [Nat.div_lt_iff_lt_mul hn]; exact hk
  have hmod : k % n < n := Nat.mod_lt k hn
  have := h (k / n) (k % n) hdiv hmod
  simp only [Tensor.entry, Tensor.index, Tensor.shape_at, Tensor.data_at, List.getD_cons_succ,
    List.getD_cons_zero] at this
  rw [Nat.div_add_mod' k n] at this
  simpa [List.getD_eq_getElem?_getD, List.getElem?_eq_getElem h1,
    List.getElem?_eq_getElem h2] using this

/-- C19: for `A` of shape (m, n) and `B` of shape (n, p) over commutative exact
scalars, `A.matmul(B).transpose()` and `B.transpose().matmul(A.transpose())`
both succeed and are the same tensor: shape (p, m) and equal elements. -/
theorem Tensor.matmul_transpose [CommSemiring α] (A B : Tensor α) (m n p : Nat)
    (hA : A.IsMatrix m n) (hB : B.IsMatrix n p) :
    ∃ C Ct Bt At D, A.matmul B = .ok C ∧ C.transpose = .ok Ct ∧ B.transpose = .ok Bt ∧
      A.transpose = .ok At ∧ Bt.matmul At = .ok D ∧ Ct.IsMatrix p m ∧ D.IsMatrix p m ∧
      Ct = D := by
  obtain ⟨C, hC, hCm, hCe⟩ := Tensor.matmul_ok A B m n p hA.1 hB.1
  obtain ⟨Ct, hCt, hCtm, hCte⟩ := Tensor.transpose_ok C m p hCm.1
  obtain ⟨Bt, hBt, hBtm, hBte⟩ := Tensor.transpose_ok B n p hB.1
  obtain ⟨At, hAt, hAtm, hAte⟩ := Tensor.transpose_ok A m n hA.1
  obtain ⟨D, hD, hDm, hDe⟩ := Tensor.matmul_ok Bt At p n m hBtm.1 hAtm.1
  refine ⟨C, Ct, Bt, At, D, hC, hCt, hBt, hAt, hD, hCtm, hDm, ?_⟩
  apply Tensor.ext_entries Ct D p m hCtm hDm
  intro i j hi hj
  rw [hCte i j hi hj, hCe j i hj hi, hDe i j hi hj]
  apply Finset.sum_congr rfl
  intro k hk
  rw [Finset.mem_range] at hk
  rw [hBte i k hi hk, hAte k j hk hj, mul_comm]

/-- Witness of C19: the 2x3 and 3x2 tensors of `test_tensor_operations`. -/
theorem Tensor.matmul_transpose_witness :
    (⟨[1, 2, 3, 4, 5, 6], [2, 3]⟩ : Tensor Int).IsMatrix 2 3 ∧
    (⟨[1, 2, 3, 4, 5, 6], [3, 2]⟩ : Tensor Int).IsMatrix 3 2 ∧
    ∃ C Ct Bt At D,
      (⟨[1, 2, 3, 4, 5, 6], [2, 3]⟩ : Tensor Int).matmul ⟨[1, 2, 3, 4, 5, 6], [3, 2]⟩ = .ok C ∧
      C.transpose = .ok Ct ∧
      (⟨[1, 2, 3, 4, 5, 6], [3, 2]⟩ : Tensor Int).transpose = .ok Bt ∧
      (⟨[1, 2, 3, 4, 5, 6], [2, 3]⟩ : Tensor Int).transpose = .ok At ∧
      Bt.matmul At = .ok D ∧ Ct.IsMatrix 2 2 ∧ D.IsMatrix 2 2 ∧ Ct = D :=
  ⟨by decide, by decide, Tensor.matmul_transpose _ _ 2 3 2 (by decide) (by decide)⟩

/-- C20 as stated fails: the flat constructor accepts the data `{1, 2}` with the
shape `{1, 1, 2}`; `transpose()` of that tensor is the 1x1 tensor `[[1]]`, and
transposing again gives `[[1]]`, which has neither the shape nor the elements
of the tensor it started from. -/
theorem Tensor.transpose_transpose_counterexample :
    Tensor.make ([1, 2] : List Int) [1, 1, 2] = .ok ⟨[1, 2], [1, 1, 2]⟩ ∧
    (⟨[1, 2], [1, 1, 2]⟩ : Tensor Int).transpose = .ok ⟨[1], [1, 1]⟩ ∧
    (⟨[1], [1, 1]⟩ : Tensor Int).transpose = .ok ⟨[1], [1, 1]⟩ ∧
    (⟨[1], [1, 1]⟩ : Tensor Int) ≠ ⟨[1, 2], [1, 1, 2]⟩ := by
  decide

/-- C20, amended: for every tensor `t` with a two-entry shape (r, c) that holds
r*c elements, `t.transpose()` succeeds with shape (c, r) and
`t.transpose().transpose()` succeeds and equals `t`. -/
theorem Tensor.transpose_transpose [Zero α] (t : Tensor α) (r c : Nat) (ht : t.IsMatrix r c) :
    ∃ u v, t.transpose = .ok u ∧ u.IsMatrix c r ∧ u.transpose = .ok v ∧ v = t := by
  obtain ⟨u, hu, hum, hue⟩ := Tensor.transpose_ok t r c ht.1
  obtain ⟨v, hv, hvm, hve⟩ := Tensor.transpose_ok u c r hum.1
  refine ⟨u, v, hu, hum, hv, ?_⟩
  apply Tensor.ext_entries v t r c hvm ht
  intro i j hi hj
  rw [hve i j hi hj, hue j i hj hi]

/-- Witness of C20, amended: the 2x3 tensor of `test_tensor_operations`. -/
theorem Tensor.transpose_transpose_witness :
    (⟨[1, 2, 3, 4, 5, 6], [2, 3]⟩ : Tensor Int).IsMatrix 2 3 ∧
    ∃ u v, (⟨[1, 2, 3, 4, 5, 6], [2, 3]⟩ : Tensor Int).transpose = .ok u ∧ u.IsMatrix 3 2 ∧
      u.transpose = .ok v ∧ v = ⟨[1, 2, 3, 4, 5, 6], [2, 3]⟩ :=
  ⟨by decide, Tensor.transpose_transpose _ 2 3 (by decide)⟩

end Transposition

/-! ## Activation layers -/

section Activations

variable {α : Type}

/-- A loop over the flat positions whose body stores `val i` at position `i`
yields a tensor of the same shape holding `val`. -/
theorem flat_fill_loop [Zero α] (n : Nat) (body : Nat → Tensor α → Tensor α × Option Err)
    (init : Tensor α) (val : Nat → α) (hlen : init.data.length = n)
    (hbody : ∀ i G, i < n → G.shape = init.shape → G.data.length = n →
      body i G = ({ G with data := G.data.set i (val i) }, none)) :
    ∃ res, forRange body n 0 init = (res, none) ∧ res.shape = init.shape ∧
      res.data.length = n ∧ ∀ i, i < n → res.data_at i = val i := by
  have key := forRange_inv body
    (fun i (G : Tensor α) => G.shape = init.shape ∧ G.data.length = n ∧
      ∀ k, k < i → G.data_at k = val k)
    n 0 init ⟨rfl, hlen, fun k hk => absurd hk (Nat.not_lt_zero k)⟩
    (fun i G _ hi hI => by
      obtain ⟨hGs, hGl, hGk⟩ := hI
      have hi : i < n := by omega
      rw [hbody i G hi hGs hGl]
      refine ⟨rfl, hGs, by simpa using hGl, ?_⟩
      intro k hk
      rw [Tensor.data_at_set]
      by_cases hik : i = k
      · subst hik
        rw [if_pos ⟨rfl, by omega⟩]
      · rw [if_neg (fun h => hik h.1)]
        exact hGk k (by omega))
  rcases hr : forRange body n 0 init with ⟨res, o⟩
  rw [hr] at key
  obtain ⟨ho, hs, hl, hk⟩ := key
  simp only at ho
  subst ho
  exact ⟨res, rfl, hs, hl, fun i hi => hk i (by omega)⟩

/-- The loops of `Tensor::sigmoid`, `Tensor::relu` and `Tensor::tanh_activation`
on a well-formed 2-D tensor. -/
theorem Tensor.activation_loop_ok [Zero α] (f : α → α) (t : Tensor α) (r c : Nat)
    (ht : t.IsMatrix r c) :
    ∃ y, (forRange (fun i (result : Tensor α) =>
        ({ result with data := result.data.set i (f (t.data_at i)) }, none))
        t.data.length 0 (Tensor.zeros (t.shape_at 0) (t.shape_at 1))).1 = y ∧
      y.IsMatrix r c ∧ ∀ i, i < r * c → y.data_at i = f (t.data_at i) := by
  obtain ⟨hts, htl⟩ := ht
  rw [Tensor.shape_at_zero t r c hts, Tensor.shape_at_one t r c hts, htl]
  obtain ⟨hZs, hZl⟩ := Tensor.zeros_isMatrix (α := α) r c
  obtain ⟨res, hres, hs, hl, hval⟩ := flat_fill_loop (r * c)
    (fun i (result : Tensor α) =>
      ({ result with data := result.data.set i (f (t.data_at i)) }, none))
    (Tensor.zeros r c) (fun i => f (t.data_at i)) hZl (fun _ _ _ _ _ => rfl)
  exact ⟨res, by rw [hres], ⟨hs.trans hZs, hl⟩, hval⟩

/-- The loops of `Sigmoid::backward`, `ReLU::backward` and `Tanh::backward`: a
checked store of `val i` at every flat position of a fresh tensor. -/
theorem backward_loop_ok [Zero α] (cache : Tensor α) (r c : Nat) (hc : cache.IsMatrix r c)
    (body : Nat → Tensor α → Tensor α × Option Err) (val : Nat → α)
    (hbody : ∀ i G, i < r * c → G.data.length = r * c →
      body i G = stmt G (G.op_index_assign i (val i))) :
    ∃ G, finish (forRange body cache.size 0 (Tensor.zeros cache.rows cache.cols)) = .ok G ∧
      G.IsMatrix r c ∧ ∀ i, i < r * c → G.op_index i = .ok (val i) := by
  obtain ⟨hcs, hcl⟩ := hc
  rw [Tensor.rows_eq cache r c hcs, Tensor.cols_eq cache r c hcs, Tensor.size, hcl]
  obtain ⟨hZs, hZl⟩ := Tensor.zeros_isMatrix (α := α) r c
  obtain ⟨res, hres, hs, hl, hval⟩ := flat_fill_loop (r * c) body (Tensor.zeros r c) val hZl
    (fun i G hi _ hGl => by
      rw [hbody i G hi hGl, Tensor.op_index_assign_ok G i _ (by omega)]
      rfl)
  refine ⟨res, by rw [hres]; rfl, ⟨hs.trans hZs, hl⟩, ?_⟩
  intro i hi
  rw [Tensor.op_index_ok res i (by omega), hval i hi]

/-- C18: if `Sigmoid::forward(x)` returned `y` (which it also caches; y_i =
1/(1+exp(-x_i))), then `Sigmoid::backward(g)` for `g` of `y`'s shape returns a
tensor of `y`'s shape with element i = g_i * y_i * (1 - y_i); if
`Tanh::forward(x)` returned `y` (y_i = tanh(x_i)), then `Tanh::backward(g)`
returns a tensor of `y`'s shape with element i = g_i * (1 - y_i * y_i). -/
theorem Sigmoid.sigmoid_tanh_backward_spec [Field α] (exp tanh : α → α) (x g : Tensor α)
    (r c : Nat) (hx : x.IsMatrix r c) (hg : g.IsMatrix r c) :
    (∃ y G, Sigmoid.forward exp x = (y, .ok y) ∧ y.IsMatrix r c ∧
      (∀ i, i < r * c → y.data_at i = 1 / (1 + exp (-x.data_at i))) ∧
      Sigmoid.backward y g = .ok G ∧ G.IsMatrix r c ∧
      ∀ i, i < r * c → G.op_index i = .ok (g.data_at i * y.data_at i * (1 - y.data_at i))) ∧
    (∃ y G, Tanh.forward tanh x = (y, .ok y) ∧ y.IsMatrix r c ∧
      (∀ i, i < r * c → y.data_at i = tanh (x.data_at i)) ∧
      Tanh.backward y g = .ok G ∧ G.IsMatrix r c ∧
      ∀ i, i < r * c → G.op_index i = .ok (g.data_at i * (1 - y.data_at i * y.data_at i))) := by
  constructor
  · obtain ⟨y, hy, hym, hye⟩ := Tensor.activation_loop_ok
      (fun v : α => 1 / (1 + exp (-v))) x r c hx
    obtain ⟨G, hG, hGm, hGe⟩ := backward_loop_ok y r c hym
      (fun i grad_input =>
        stmt grad_input (do
          let sig ← y.op_index i
          let w ← g.op_index i
          grad_input.op_index_assign i (w * sig * (1 - sig))))
      (fun i => g.data_at i * y.data_at i * (1 - y.data_at i))
      (fun i G hi _ => by
        have hyi := Tensor.op_index_ok y i (by rw [hym.2]; exact hi)
        have hgi := Tensor.op_index_ok g i (by rw [hg.2]; exact hi)
        simp only [hyi, hgi, bind, Except.bind])
    refine ⟨y, G, ?_, hym, hye, hG, hGm, hGe⟩
    simp only [Sigmoid.forward, Tensor.sigmoid]
    rw [hy]
  · obtain ⟨y, hy, hym, hye⟩ := Tensor.activation_loop_ok tanh x r c hx
    obtain ⟨G, hG, hGm, hGe⟩ := backward_loop_ok y r c hym
      (fun i grad_input =>
        stmt grad_input (do
          let tanh_val ← y.op_index i
          let w ← g.op_index i
          grad_input.op_index_assign i (w * (1 - tanh_val * tanh_val))))
      (fun i => g.data_at i * (1 - y.data_at i * y.data_at i))
      (fun i G hi _ => by
        have hyi := Tensor.op_index_ok y i (by rw [hym.2]; exact hi)
        have hgi := Tensor.op_index_ok g i (by rw [hg.2]; exact hi)
        simp only [hyi, hgi, bind, Except.bind])
    refine ⟨y, G, ?_, hym, hye, hG, hGm, hGe⟩
    simp only [Tanh.forward, Tensor.tanh_activation]
    rw [hy]

/-- Witness of C18: the 3x1 input and the all-ones gradient of
`test_activation_layers`, over the reals. -/
theorem Sigmoid.sigmoid_tanh_backward_spec_witness :
    (⟨[0, 1, -1], [3, 1]⟩ : Tensor ℝ).IsMatrix 3 1 ∧
    (⟨[1, 1, 1], [3, 1]⟩ : Tensor ℝ).IsMatrix 3 1 ∧
    (∃ y G, Sigmoid.forward Real.exp (⟨[0, 1, -1], [3, 1]⟩ : Tensor ℝ) = (y, .ok y) ∧
      y.IsMatrix 3 1 ∧
      (∀ i, i < 3 * 1 → y.data_at i =
        1 / (1 + Real.exp (-(⟨[0, 1, -1], [3, 1]⟩ : Tensor ℝ).data_at i))) ∧
      Sigmoid.backward y ⟨[1, 1, 1], [3, 1]⟩ = .ok G ∧ G.IsMatrix 3 1 ∧
      ∀ i, i < 3 * 1 → G.op_index i =
        .ok ((⟨[1, 1, 1], [3, 1]⟩ : Tensor ℝ).data_at i * y.data_at i * (1 - y.data_at i))) ∧
    (∃ y G, Tanh.forward Real.tanh (⟨[0, 1, -1], [3, 1]⟩ : Tensor ℝ) = (y, .ok y) ∧
      y.IsMatrix 3 1 ∧
      (∀ i, i < 3 * 1 → y.data_at i =
        Real.tanh ((⟨[0, 1, -1], [3, 1]⟩ : Tensor ℝ).data_at i)) ∧
      Tanh.backward y ⟨[1, 1, 1], [3, 1]⟩ = .ok G ∧ G.IsMatrix 3 1 ∧
      ∀ i, i < 3 * 1 → G.op_index i =
        .ok ((⟨[1, 1, 1], [3, 1]⟩ : Tensor ℝ).data_at i * (1 - y.data_at i * y.data_at i))) :=
  ⟨by decide, by decide,
    Sigmoid.sigmoid_tanh_backward_spec Real.exp Real.tanh _ _ 3 1 (by decide) (by decide)⟩

end Activations

/-! ## Network -/

section NetworkPasses

variable {α : Type}

/-- A layer loop relates every object to its successor by any reflexive
relation that the body establishes, also when the loop is left early. -/
theorem forEach_rel {β σ : Type} (body : β → σ → (β × σ) × Option Err) (R : β → β → Prop)
    (hrefl : ∀ x, R x x) (hbody : ∀ x s, R x (body x s).1.1) :
    ∀ (xs : List β) (s : σ), List.Forall₂ R xs (forEach body xs s).1.1 := by
  intro xs
  induction xs with
  | nil => intro s; exact List.Forall₂.nil
  | cons x xs ih =>
    intro s
    have hx := hbody x s
    rcases hb : body x s with ⟨⟨x', s'⟩, o⟩
    rw [hb] at hx
    cases o with
    | none =>
      have hxs := ih s'
      rcases hf : forEach body xs s' with ⟨⟨xs', s''⟩, e⟩
      rw [hf] at hxs
      simp only [forEach, hb, hf]
      exact List.Forall₂.cons hx hxs
    | some e =>
      simp only [forEach, hb]
      exact List.Forall₂.cons hx (List.forall₂_same.mpr (fun y _ => hrefl y))

/-- A layer loop over a list with one more object at the end. -/
theorem forEach_snoc {β σ : Type} (body : β → σ → (β × σ) × Option Err) (y : β) :
    ∀ (xs : List β) (s : σ), forEach body (xs ++ [y]) s =
      match forEach body xs s with
      | ((xs', s'), none) =>
        match body y s' with
        | ((y', s''), e) => ((xs' ++ [y'], s''), e)
      | ((xs', s'), some e) => ((xs' ++ [y], s'), some e) := by
  intro xs
  induction xs with
  | nil =>
    intro s
    rcases hb : body y s with ⟨⟨y', s'⟩, o⟩
    cases o <;> simp [forEach, hb]
  | cons x xs ih =>
    intro s
    rcases hb : body x s with ⟨⟨x', s'⟩, o⟩
    cases o with
    | none =>
      have := ih s'
      rcases hf : forEach body xs s' with ⟨⟨xs', s''⟩, e⟩
      rw [hf] at this
      cases e with
      | none =>
        rcases hy : body y s'' with ⟨⟨y', s3⟩, e'⟩
        simp only [hy] at this
        simp [forEach, hb, hf, this, hy]
      | some e => simp [forEach, hb, hf, this]
    | some e => simp [forEach, hb]

/-- `Linear::forward` changes `input_cache_` and nothing else, whether it
returns or throws. -/
theorem Linear.forward_fst [Zero α] [Add α] [Mul α] (l : Linear α) (input : Tensor α) :
    (l.forward input).1 = { l with input_cache_ := input } := by
  simp only [Linear.forward]
  cases l.weights_.matmul input <;> rfl

/-- The value returned by the layer loop of `Network::forward` is the left
fold of the values returned by the layers. -/
theorem Network.forward_value_fold [Field α] [LT α] [DecidableRel (fun (a b : α) => a < b)]
    (exp tanh : α → α) :
    ∀ (layers : List (LayerRef α)) (input : Tensor α),
      (match forEach (Network.forward_layer exp tanh) layers input with
        | ((_, current_output), none) => Except.ok current_output
        | ((_, _), some e) => Except.error e)
      = layers.foldlM (fun t ref => (ref.obj.forward exp tanh t).2) input := by
  intro layers
  induction layers with
  | nil => intro input; rfl
  | cons ref rest ih =>
    intro input
    rcases hf : ref.obj.forward exp tanh input with ⟨obj, res⟩
    cases res with
    | error e =>
      simp [forEach, Network.forward_layer, hf, List.foldlM, bind, Except.bind]
    | ok output =>
      have := ih output
      rcases hr : forEach (Network.forward_layer exp tanh) rest output with ⟨⟨ls, cur⟩, e⟩
      rw [hr] at this
      simp only [forEach, Network.forward_layer, hf, hr, List.foldlM, bind, Except.bind]
      rw [← this]
      cases e <;> rfl

/-- C11: `Network::forward` is the left fold of the layers' `forward` in the
order of the `add_layer` calls: a network built from the empty one by adding
`refs` in order holds exactly `refs`; the value (or exception) it returns on
`input` is the left fold of the layers' results starting from `input`; with no
layers it returns `input` and changes nothing; and on a network with one more
layer added, the new last layer receives what the network before returned. -/
theorem Network.forward_fold [Field α] [LT α] [DecidableRel (fun (a b : α) => a < b)]
    (exp tanh : α → α) (refs : List (LayerRef α)) (outs : List (Tensor α))
    (input : Tensor α) :
    (refs.foldl Network.add_layer ⟨[], outs⟩).layers_ = refs ∧
    (Network.forward exp tanh (refs.foldl Network.add_layer ⟨[], outs⟩) input).2
      = refs.foldlM (fun t ref => (ref.obj.forward exp tanh t).2) input ∧
    Network.forward exp tanh ⟨[], outs⟩ input = (⟨[], outs⟩, .ok input) ∧
    ∀ (net : Network α) (ref : LayerRef α),
      Network.forward exp tanh (net.add_layer ref) input =
        match Network.forward exp tanh net input with
        | (net', .ok y) =>
          (net'.add_layer ⟨ref.addr, (ref.obj.forward exp tanh y).1⟩,
            (ref.obj.forward exp tanh y).2)
        | (net', .error e) => (net'.add_layer ref, .error e) := by
  have hadd : ∀ (rs : List (LayerRef α)) (net : Network α),
      (rs.foldl Network.add_layer net).layers_ = net.layers_ ++ rs := by
    intro rs
    induction rs with
    | nil => intro net; simp
    | cons r rs ih => intro net; simp [ih, Network.add_layer]
  have hlay : (refs.foldl Network.add_layer ⟨[], outs⟩).layers_ = refs := by
    rw [hadd]; rfl
  refine ⟨hlay, ?_, rfl, ?_⟩
  · have := Network.forward_value_fold exp tanh refs input
    rw [← this]
    simp only [Network.forward, hlay]
    rcases forEach (Network.forward_layer exp tanh) refs input with ⟨⟨ls, cur⟩, e⟩
    cases e <;> rfl
  · intro net ref
    simp only [Network.forward, Network.add_layer, forEach_snoc]
    rcases forEach (Network.forward_layer exp tanh) net.layers_ input with ⟨⟨ls, cur⟩, e⟩
    cases e with
    | some e => rfl
    | none =>
      simp only [Network.forward_layer]
      rcases ref.obj.forward exp tanh cur with ⟨obj, res⟩
      cases res <;> rfl

/-- The layer loop of `Network::forward` changes nothing of a layer but its
cache, whether it completes or is left by an exception. -/
theorem Network.forward_cache_only [Field α] [LT α] [DecidableRel (fun (a b : α) => a < b)]
    (exp tanh : α → α) (layers : List (LayerRef α)) (input : Tensor α) :
    List.Forall₂ (fun ref ref' => ref'.addr = ref.addr ∧
        (match ref.obj, ref'.obj with
        | .linear l, .linear l' => l' = { l with input_cache_ := l'.input_cache_ }
        | .sigmoid _, .sigmoid _ => True
        | .relu _, .relu _ => True
        | .tanh _, .tanh _ => True
        | _, _ => False))
      layers (forEach (Network.forward_layer exp tanh) layers input).1.1 := by
  apply forEach_rel
  · intro ref
    refine ⟨rfl, ?_⟩
    cases ref.obj <;> trivial
  · intro ref cur
    rcases ref with ⟨addr, obj⟩
    have hfst : (Network.forward_layer exp tanh ⟨addr, obj⟩ cur).1.1
        = ⟨addr, (obj.forward exp tanh cur).1⟩ := by
      simp only [Network.forward_layer]
      rcases obj.forward exp tanh cur with ⟨o, res⟩
      cases res <;> rfl
    rw [hfst]
    refine ⟨rfl, ?_⟩
    cases obj with
    | linear l =>
      have : (Layer.forward exp tanh (Layer.linear l) cur).1
          = Layer.linear (l.forward cur).1 := by
        simp only [Layer.forward]
      rw [this, Linear.forward_fst]
    | sigmoid c => trivial
    | relu c => trivial
    | tanh c => trivial

/-- The layers after `Network::evaluate` are the layers after the layer loop
of `Network::forward`. -/
theorem Network.evaluate_layers [Field α] [LT α] [DecidableRel (fun (a b : α) => a < b)]
    (exp tanh : α → α) (net : Network α) (input target : Tensor α) (loss : Loss α) :
    (Network.evaluate exp tanh net input target loss).1
      = { net with layers_ := (forEach (Network.forward_layer exp tanh) net.layers_ input).1.1 }
    ∧ (Network.forward exp tanh net input).1
      = { net with
          layers_ := (forEach (Network.forward_layer exp tanh) net.layers_ input).1.1 } := by
  simp only [Network.evaluate, Network.forward]
  rcases forEach (Network.forward_layer exp tanh) net.layers_ input with ⟨⟨ls, cur⟩, e⟩
  cases e <;> exact ⟨rfl, rfl⟩

/-- C12: whenever `Network::train` returns a value, it is the value that
`Network::evaluate(input, target, loss)` returns on the network as it was
before the call: the loss of the parameters before the optimizer step. -/
theorem Network.train_returns_evaluate [Field α] [LT α]
    [DecidableRel (fun (a b : α) => a < b)] (exp tanh sqrt : α → α) (net : Network α)
    (input target : Tensor α) (loss : Loss α) (optimizer : Optimizer α) (v : α)
    (h : (Network.train exp tanh sqrt net input target loss optimizer).2 = .ok v) :
    (Network.evaluate exp tanh net input target loss).2 = .ok v := by
  simp only [Network.train, Network.evaluate] at h ⊢
  generalize Network.forward exp tanh net input = fw at h ⊢
  rcases fw with ⟨net1, res⟩
  cases res with
  | error e => simp at h
  | ok output =>
    simp only at h ⊢
    cases hl : loss.compute_loss output target with
    | error e => rw [hl] at h; simp at h
    | ok lv =>
      rw [hl] at h
      simp only at h
      cases hg : loss.compute_gradient output target with
      | error e => rw [hg] at h; simp at h
      | ok g =>
        rw [hg] at h
        simp only at h
        generalize Network.backward_pass net1.layers_ g = bw at h
        rcases bw with ⟨⟨ls, gr⟩, e⟩
        cases e with
        | some e => simp at h
        | none =>
          simp only at h
          generalize optimizer.step sqrt ls = st at h
          rcases st with ⟨⟨o, ls'⟩, e'⟩
          cases e' with
          | some e => simp at h
          | none =>
            simp only at h
            exact h

/-- Witness of C12: one training step with `SGD(0.1)` and the MSE loss on the
network of a single `Linear(2,1)` layer returns 4 (no layer of this network
calls the two functions passed for `std::exp` and `std::tanh`). -/
theorem Network.train_returns_evaluate_witness :
    (Network.train (fun x => x) (fun x => x) (fun x => x)
      (⟨[⟨0, .linear ⟨⟨[1, 1], [1, 2]⟩, ⟨[0], [1, 1]⟩, ⟨[], []⟩, ⟨[0, 0], [1, 2]⟩,
        ⟨[0], [1, 1]⟩⟩⟩], []⟩ : Network ℚ)
      ⟨[1, 1], [2, 1]⟩ ⟨[0], [1, 1]⟩ MSELoss.loss (.sgd ⟨1 / 10⟩)).2 = .ok 4 ∧
    (Network.evaluate (fun x => x) (fun x => x)
      (⟨[⟨0, .linear ⟨⟨[1, 1], [1, 2]⟩, ⟨[0], [1, 1]⟩, ⟨[], []⟩, ⟨[0, 0], [1, 2]⟩,
        ⟨[0], [1, 1]⟩⟩⟩], []⟩ : Network ℚ)
      ⟨[1, 1], [2, 1]⟩ ⟨[0], [1, 1]⟩ MSELoss.loss).2 = .ok 4 :=
  ⟨by decide!,
    Network.train_returns_evaluate (fun x => x) (fun x => x) (fun x => x) _ _ _ _
      (.sgd ⟨1 / 10⟩) 4 (by decide!)⟩

/-- C14: `Network::evaluate` mutates no parameter: after the call, whether it
returned or threw, every layer is at its address, is of the same class, and
its weights, bias, grad_weights and grad_bias are what they were; and what is
returned is `loss.compute_loss(forward(input), target)`. -/
theorem Network.evaluate_frame [Field α] [LT α] [DecidableRel (fun (a b : α) => a < b)]
    (exp tanh : α → α) (net : Network α) (input target : Tensor α) (loss : Loss α) :
    List.Forall₂ (fun ref ref' => ref'.addr = ref.addr ∧
        ref'.obj.get_parameters = ref.obj.get_parameters ∧
        ref'.obj.get_gradients = ref.obj.get_gradients ∧
        ∀ s : Slot, ref'.obj.deref s = ref.obj.deref s)
      net.layers_ (Network.evaluate exp tanh net input target loss).1.layers_ ∧
    (Network.evaluate exp tanh net input target loss).2 =
      (match (Network.forward exp tanh net input).2 with
        | .ok output => loss.compute_loss output target
        | .error e => .error e) := by
  constructor
  · rw [(Network.evaluate_layers exp tanh net input target loss).1]
    refine List.Forall₂.imp ?_ (Network.forward_cache_only exp tanh net.layers_ input)
    rintro ⟨a, obj⟩ ⟨a', obj'⟩ ⟨haddr, hobj⟩
    refine ⟨haddr, ?_⟩
    cases obj <;> cases obj' <;> try (exact False.elim hobj)
    · rename_i l l'
      rcases l with ⟨w, b, c, gw, gb⟩
      rcases l' with ⟨w', b', c', gw', gb'⟩
      simp only [Linear.mk.injEq] at hobj
      obtain ⟨rfl, rfl, -, rfl, rfl⟩ := hobj
      exact ⟨rfl, rfl, fun s => by cases s <;> rfl⟩
    · exact ⟨rfl, rfl, fun s => by cases s <;> rfl⟩
    · exact ⟨rfl, rfl, fun s => by cases s <;> rfl⟩
    · exact ⟨rfl, rfl, fun s => by cases s <;> rfl⟩
  · simp only [Network.evaluate]
    rcases Network.forward exp tanh net input with ⟨net1, res⟩
    cases res <;> rfl

/-- C15 as stated fails: a `Linear(1,1)` layer whose cached input is `[[5]]`
holds the cached input `[[1]]` after `evaluate` on the input `[[1]]`, so the
state of the layer after the call is not its state before (no layer of this
network calls the two functions passed for `std::exp` and `std::tanh`). -/
theorem Network.evaluate_overwrites_cache :
    (Network.evaluate (fun x => x) (fun x => x)
      (⟨[⟨0, .linear ⟨⟨[1], [1, 1]⟩, ⟨[0], [1, 1]⟩, ⟨[5], [1, 1]⟩, ⟨[0], [1, 1]⟩,
        ⟨[0], [1, 1]⟩⟩⟩], []⟩ : Network ℚ)
      ⟨[1], [1, 1]⟩ ⟨[0], [1, 1]⟩ MSELoss.loss).1.layers_
      = [⟨0, .linear ⟨⟨[1], [1, 1]⟩, ⟨[0], [1, 1]⟩, ⟨[1], [1, 1]⟩, ⟨[0], [1, 1]⟩,
        ⟨[0], [1, 1]⟩⟩⟩] ∧
    (Network.evaluate (fun x => x) (fun x => x)
      (⟨[⟨0, .linear ⟨⟨[1], [1, 1]⟩, ⟨[0], [1, 1]⟩, ⟨[5], [1, 1]⟩, ⟨[0], [1, 1]⟩,
        ⟨[0], [1, 1]⟩⟩⟩], []⟩ : Network ℚ)
      ⟨[1], [1, 1]⟩ ⟨[0], [1, 1]⟩ MSELoss.loss).1.layers_
      ≠ (⟨[⟨0, .linear ⟨⟨[1], [1, 1]⟩, ⟨[0], [1, 1]⟩, ⟨[5], [1, 1]⟩, ⟨[0], [1, 1]⟩,
        ⟨[0], [1, 1]⟩⟩⟩], []⟩ : Network ℚ).layers_ := by
  decide!

/-- C15, amended: `Network::evaluate` changes the network exactly as
`Network::forward(input)` does, and that is at most the caches: after the
call, whether it returned or threw, every layer is at its address and equals
its state before except for its cached input or output. -/
theorem Network.evaluate_cache_only [Field α] [LT α] [DecidableRel (fun (a b : α) => a < b)]
    (exp tanh : α → α) (net : Network α) (input target : Tensor α) (loss : Loss α) :
    (Network.evaluate exp tanh net input target loss).1
      = (Network.forward exp tanh net input).1 ∧
    (Network.evaluate exp tanh net input target loss).1.layer_outputs_ = net.layer_outputs_ ∧
    List.Forall₂ (fun ref ref' => ref'.addr = ref.addr ∧
        (match ref.obj, ref'.obj with
        | .linear l, .linear l' => l' = { l with input_cache_ := l'.input_cache_ }
        | .sigmoid _, .sigmoid _ => True
        | .relu _, .relu _ => True
        | .tanh _, .tanh _ => True
        | _, _ => False))
      net.layers_ (Network.evaluate exp tanh net input target loss).1.layers_ := by
  obtain ⟨h1, h2⟩ := Network.evaluate_layers exp tanh net input target loss
  refine ⟨h1.trans h2.symm, by rw [h1], ?_⟩
  rw [h1]
  exact Network.forward_cache_only exp tanh net.layers_ input

/-- C16: the network of one `Linear(2,1)` layer with weights `[[1,1]]` and bias
`[[0]]` maps the 2x1 input `[[1],[1]]` to the 1x1 output `[[2]]`;
`MSELoss::compute_loss` of that output against the target `[[0]]` is 4 and
`MSELoss::compute_gradient` is `[[4]]`. -/
theorem Network.end_to_end_linear (exp tanh : ℚ → ℚ) :
    (Network.forward exp tanh
      (⟨[⟨0, .linear ⟨⟨[1, 1], [1, 2]⟩, ⟨[0], [1, 1]⟩, ⟨[], []⟩, ⟨[0, 0], [1, 2]⟩,
        ⟨[0], [1, 1]⟩⟩⟩], []⟩ : Network ℚ) ⟨[1, 1], [2, 1]⟩).2 = .ok ⟨[2], [1, 1]⟩ ∧
    MSELoss.compute_loss (⟨[2], [1, 1]⟩ : Tensor ℚ) ⟨[0], [1, 1]⟩ = .ok 4 ∧
    MSELoss.compute_gradient (⟨[2], [1, 1]⟩ : Tensor ℚ) ⟨[0], [1, 1]⟩ = .ok ⟨[4], [1, 1]⟩ := by
  refine ⟨?_, by decide!, by decide!⟩
  have h : ((⟨⟨[1, 1], [1, 2]⟩, ⟨[0], [1, 1]⟩, ⟨[], []⟩, ⟨[0, 0], [1, 2]⟩, ⟨[0], [1, 1]⟩⟩ :
      Linear ℚ).forward ⟨[1, 1], [2, 1]⟩).2 = .ok ⟨[2], [1, 1]⟩ := by decide!
  simp only [Network.forward, forEach, Network.forward_layer, Layer.forward]
  rcases hf : (⟨⟨[1, 1], [1, 2]⟩, ⟨[0], [1, 1]⟩, ⟨[], []⟩, ⟨[0, 0], [1, 2]⟩, ⟨[0], [1, 1]⟩⟩ :
      Linear ℚ).forward ⟨[1, 1], [2, 1]⟩ with ⟨l', res⟩
  rw [hf] at h
  simp only at h
  subst h
  rfl

/-- `Linear::forward` on conformant shapes: the call and its result. -/
theorem Linear.forward_ok [Semiring α] (l : Linear α) (x : Tensor α) (out inp batch : Nat)
    (hW : l.weights_.IsMatrix out inp) (hb : l.bias_.IsMatrix out 1)
    (hx : x.IsMatrix inp batch) :
    ∃ y, l.forward x = ({ l with input_cache_ := x }, .ok y) ∧ y.IsMatrix out batch ∧
      ∀ i j, i < out → j < batch →
        y.entry i j = (∑ k in Finset.range inp, l.weights_.entry i k * x.entry k j)
          + l.bias_.entry i 0 := by
  obtain ⟨C, hC, hCm, hCe⟩ := Tensor.matmul_ok l.weights_ x out inp batch hW.1 hx.1
  obtain ⟨y, hy, hym, hye⟩ := Linear.bias_loop_ok l.bias_ C out batch hb.1 hCm
  refine ⟨y, ?_, hym, ?_⟩
  · simp only [Linear.forward, hC, Tensor.rows_eq C out batch hCm.1]
    rw [hy]
    rfl
  · intro i j hi hj
    rw [hye i j hi hj, hCe i j hi hj]

/-- `Linear::backward` on conformant shapes: the call and its result. -/
theorem Linear.backward_ok [Semiring α] (l : Linear α) (g : Tensor α) (out inp batch : Nat)
    (hW : l.weights_.IsMatrix out inp) (hx : l.input_cache_.IsMatrix inp batch)
    (hg : g.IsMatrix out batch) :
    ∃ xt gw gb wt gi,
      l.input_cache_.transpose = .ok xt ∧ g.matmul xt = .ok gw ∧ g.sum 1 = .ok gb ∧
      l.weights_.transpose = .ok wt ∧ wt.matmul g = .ok gi ∧
      l.backward g = ({ l with grad_weights_ := gw, grad_bias_ := gb }, .ok gi) ∧
      gw.IsMatrix out inp ∧ gb.IsMatrix out 1 ∧ gi.IsMatrix inp batch := by
  obtain ⟨xt, hxt, hxtm, _⟩ := Tensor.transpose_ok l.input_cache_ inp batch hx.1
  obtain ⟨gw, hgw, hgwm, _⟩ := Tensor.matmul_ok g xt out batch inp hg.1 hxtm.1
  obtain ⟨gb, hgb, hgbm, _⟩ := Tensor.sum_one_ok g out batch hg.1
  obtain ⟨wt, hwt, hwtm, _⟩ := Tensor.transpose_ok l.weights_ out inp hW.1
  obtain ⟨gi, hgi, hgim, _⟩ := Tensor.matmul_ok wt g inp out batch hwtm.1 hg.1
  refine ⟨xt, gw, gb, wt, gi, hxt, hgw, hgb, hwt, hgi, ?_, hgwm, hgbm, hgim⟩
  simp [Linear.backward, hxt, hgw, hgb, hwt, hgi, bind, Except.bind]

/-- C13: `Network::train` on the network [Linear A, Linear B] with `A` of
shape (h, n), `B` of shape (o, h), an input `x` of shape (n, batch), a loss
that returns a value and a gradient of shape (o, batch) on outputs of that
shape, and `SGD(r)`.  The call returns the loss value; `B.backward` receives
the loss gradient `g` and `A.backward` receives what `B.backward` returned,
`B_w.transpose().matmul(g)` with the weights of before the call; afterwards
the weights of `B` are `B_w - r * g.matmul(y1.transpose())` with
`y1 = A_w x + a_b` the output of `A`, and the weights of `A` are
`A_w - r * (B_w.transpose().matmul(g)).matmul(x.transpose())`. -/
theorem Network.train_two_linear [Field α] [LT α] [DecidableRel (fun (a b : α) => a < b)]
    (exp tanh sqrt : α → α) (A B : Linear α) (a b : Nat) (outs : List (Tensor α))
    (x target : Tensor α) (loss : Loss α) (r : α) (n h o batch : Nat)
    (hAw : A.weights_.IsMatrix h n) (hAb : A.bias_.IsMatrix h 1)
    (hBw : B.weights_.IsMatrix o h) (hBb : B.bias_.IsMatrix o 1)
    (hx : x.IsMatrix n batch)
    (hloss : ∀ y : Tensor α, y.IsMatrix o batch →
      ∃ v g, loss.compute_loss y target = .ok v ∧ loss.compute_gradient y target = .ok g ∧
        g.IsMatrix o batch) :
    ∃ y1 y2 v g y1t gB gbB Bt gh xt gA gbA,
      (A.forward x).2 = .ok y1 ∧
      (∀ i j, i < h → j < batch →
        y1.entry i j = (∑ k in Finset.range n, A.weights_.entry i k * x.entry k j)
          + A.bias_.entry i 0) ∧
      (B.forward y1).2 = .ok y2 ∧
      loss.compute_loss y2 target = .ok v ∧ loss.compute_gradient y2 target = .ok g ∧
      y1.transpose = .ok y1t ∧ g.matmul y1t = .ok gB ∧ g.sum 1 = .ok gbB ∧
      B.weights_.transpose = .ok Bt ∧ Bt.matmul g = .ok gh ∧
      x.transpose = .ok xt ∧ gh.matmul xt = .ok gA ∧ gh.sum 1 = .ok gbA ∧
      gB.IsMatrix o h ∧ gA.IsMatrix h n ∧
      Network.train exp tanh sqrt ⟨[⟨a, .linear A⟩, ⟨b, .linear B⟩], outs⟩ x target loss
          (.sgd ⟨r⟩)
        = ((⟨[⟨a, .linear
                ⟨⟨List.zipWith (fun p d => p - r * d) A.weights_.data gA.data, A.weights_.shape⟩,
                  ⟨List.zipWith (fun p d => p - r * d) A.bias_.data gbA.data, A.bias_.shape⟩,
                  x, gA, gbA⟩⟩,
              ⟨b, .linear
                ⟨⟨List.zipWith (fun p d => p - r * d) B.weights_.data gB.data, B.weights_.shape⟩,
                  ⟨List.zipWith (fun p d => p - r * d) B.bias_.data gbB.data, B.bias_.shape⟩,
                  y1, gB, gbB⟩⟩], outs⟩,
            .sgd ⟨r⟩), .ok v) := by
  obtain ⟨y1, hA, hy1m, hy1e⟩ := Linear.forward_ok A x h n batch hAw hAb hx
  obtain ⟨y2, hB, hy2m, -⟩ := Linear.forward_ok B y1 o h batch hBw hBb hy1m
  obtain ⟨v, g, hv, hg, hgm⟩ := hloss y2 hy2m
  obtain ⟨y1t, gB, gbB, Bt, gh, hy1t, hgB, hgbB, hBt, hgh, hBback, hgBm, hgbBm, hghm⟩ :=
    Linear.backward_ok { B with input_cache_ := y1 } g o h batch hBw hy1m hgm
  obtain ⟨xt, gA, gbA, At, gi, hxt, hgA, hgbA, -, -, hAback, hgAm, hgbAm, -⟩ :=
    Linear.backward_ok { A with input_cache_ := x } gh h n batch hAw hx hghm
  refine ⟨y1, y2, v, g, y1t, gB, gbB, Bt, gh, xt, gA, gbA, by rw [hA], hy1e, by rw [hB],
    hv, hg, hy1t, hgB, hgbB, hBt, hgh, hxt, hgA, hgbA, hgBm, hgAm, ?_⟩
  have hA1 : A.forward x = (⟨A.weights_, A.bias_, x, A.grad_weights_, A.grad_bias_⟩, .ok y1) :=
    hA
  have hB1 : B.forward y1 = (⟨B.weights_, B.bias_, y1, B.grad_weights_, B.grad_bias_⟩, .ok y2) :=
    hB
  have hB2 : Linear.backward ⟨B.weights_, B.bias_, y1, B.grad_weights_, B.grad_bias_⟩ g
      = (⟨B.weights_, B.bias_, y1, gB, gbB⟩, .ok gh) := hBback
  have hA2 : Linear.backward ⟨A.weights_, A.bias_, x, A.grad_weights_, A.grad_bias_⟩ gh
      = (⟨A.weights_, A.bias_, x, gA, gbA⟩, .ok gi) := hAback
  have hfw : Network.forward exp tanh ⟨[⟨a, .linear A⟩, ⟨b, .linear B⟩], outs⟩ x
      = (⟨[⟨a, .linear ⟨A.weights_, A.bias_, x, A.grad_weights_, A.grad_bias_⟩⟩,
            ⟨b, .linear ⟨B.weights_, B.bias_, y1, B.grad_weights_, B.grad_bias_⟩⟩], outs⟩,
          .ok y2) := by
    simp only [Network.forward, forEach, Network.forward_layer, Layer.forward, hA1, hB1]
  have hbw : Network.backward_pass
      [⟨a, .linear ⟨A.weights_, A.bias_, x, A.grad_weights_, A.grad_bias_⟩⟩,
        ⟨b, .linear ⟨B.weights_, B.bias_, y1, B.grad_weights_, B.grad_bias_⟩⟩] g
      = (([⟨a, .linear ⟨A.weights_, A.bias_, x, gA, gbA⟩⟩,
            ⟨b, .linear ⟨B.weights_, B.bias_, y1, gB, gbB⟩⟩], gi), none) := by
    simp only [Network.backward_pass, List.reverse_cons, List.reverse_nil, List.nil_append,
      List.singleton_append, forEach, Network.backward_layer, Layer.backward, hB2, hA2]
  have hcA : (Layer.linear ⟨A.weights_, A.bias_, x, gA, gbA⟩).GradsConform :=
    ⟨hgAm.1.trans hAw.1.symm, hgAm.2.trans hAw.2.symm, hgbAm.1.trans hAb.1.symm,
      hgbAm.2.trans hAb.2.symm⟩
  have hcB : (Layer.linear ⟨B.weights_, B.bias_, y1, gB, gbB⟩).GradsConform :=
    ⟨hgBm.1.trans hBw.1.symm, hgBm.2.trans hBw.2.symm, hgbBm.1.trans hBb.1.symm,
      hgbBm.2.trans hBb.2.symm⟩
  have hst := SGD.sgd_step_layer_linear ⟨r⟩ _ hcA
  have hst2 := SGD.sgd_step_layer_linear ⟨r⟩ _ hcB
  simp only [Network.train, hfw, hv, hg, hbw, Optimizer.step, SGD.step, forEach, hst, hst2]

/-- Witness of C13: `Linear(2,2)` followed by `Linear(2,1)`, a 2x1 input, the
MSE loss against the target `[[0]]` and `SGD(0.1)` (no layer of this network
calls the functions passed for `std::exp`, `std::tanh` and `std::sqrt`). -/
theorem Network.train_two_linear_witness :
    (⟨[1, 1], [2, 1]⟩ : Tensor ℚ).IsMatrix 2 1 ∧
    (∀ y : Tensor ℚ, y.IsMatrix 1 1 →
      ∃ v g, MSELoss.loss.compute_loss y (⟨[0], [1, 1]⟩ : Tensor ℚ) = .ok v ∧
        MSELoss.loss.compute_gradient y (⟨[0], [1, 1]⟩ : Tensor ℚ) = .ok g ∧ g.IsMatrix 1 1) ∧
    ∃ y1 y2 v g y1t gB gbB Bt gh xt gA gbA,
      ((⟨⟨[1, 2, 3, 4], [2, 2]⟩, ⟨[0, 1], [2, 1]⟩, ⟨[], []⟩, ⟨[0, 0, 0, 0], [2, 2]⟩,
          ⟨[0, 0], [2, 1]⟩⟩ : Linear ℚ).forward (⟨[1, 1], [2, 1]⟩ : Tensor ℚ)).2 = .ok y1 ∧
      (∀ i j, i < 2 → j < 1 →
        y1.entry i j = (∑ k in Finset.range 2, (⟨[1, 2, 3, 4], [2, 2]⟩ : Tensor ℚ).entry i k * (⟨[1, 1], [2, 1]⟩ : Tensor ℚ).entry k j)
          + (⟨[0, 1], [2, 1]⟩ : Tensor ℚ).entry i 0) ∧
      ((⟨⟨[1, -1], [1, 2]⟩, ⟨[0], [1, 1]⟩, ⟨[], []⟩, ⟨[0, 0], [1, 2]⟩, ⟨[0], [1, 1]⟩⟩ :
          Linear ℚ).forward y1).2 = .ok y2 ∧
      MSELoss.loss.compute_loss y2 (⟨[0], [1, 1]⟩ : Tensor ℚ) = .ok v ∧
      MSELoss.loss.compute_gradient y2 (⟨[0], [1, 1]⟩ : Tensor ℚ) = .ok g ∧
      y1.transpose = .ok y1t ∧ g.matmul y1t = .ok gB ∧ g.sum 1 = .ok gbB ∧
      (⟨[1, -1], [1, 2]⟩ : Tensor ℚ).transpose = .ok Bt ∧ Bt.matmul g = .ok gh ∧
      (⟨[1, 1], [2, 1]⟩ : Tensor ℚ).transpose = .ok xt ∧ gh.matmul xt = .ok gA ∧ gh.sum 1 = .ok gbA ∧
      gB.IsMatrix 1 2 ∧ gA.IsMatrix 2 2 ∧
      Network.train (fun x => x) (fun x => x) (fun x => x)
          ⟨[⟨0, .linear (⟨⟨[1, 2, 3, 4], [2, 2]⟩, ⟨[0, 1], [2, 1]⟩, ⟨[], []⟩, ⟨[0, 0, 0, 0], [2, 2]⟩,
          ⟨[0, 0], [2, 1]⟩⟩ : Linear ℚ)⟩,
            ⟨1, .linear (⟨⟨[1, -1], [1, 2]⟩, ⟨[0], [1, 1]⟩, ⟨[], []⟩, ⟨[0, 0], [1, 2]⟩, ⟨[0], [1, 1]⟩⟩ :
          Linear ℚ)⟩], []⟩
          (⟨[1, 1], [2, 1]⟩ : Tensor ℚ) (⟨[0], [1, 1]⟩ : Tensor ℚ) MSELoss.loss (.sgd ⟨1 / 10⟩)
        = ((⟨[⟨0, .linear
                ⟨⟨List.zipWith (fun p d => p - 1 / 10 * d) [1, 2, 3, 4] gA.data, [2, 2]⟩,
                  ⟨List.zipWith (fun p d => p - 1 / 10 * d) [0, 1] gbA.data, [2, 1]⟩,
                  (⟨[1, 1], [2, 1]⟩ : Tensor ℚ), gA, gbA⟩⟩,
              ⟨1, .linear
                ⟨⟨List.zipWith (fun p d => p - 1 / 10 * d) [1, -1] gB.data, [1, 2]⟩,
                  ⟨List.zipWith (fun p d => p - 1 / 10 * d) [0] gbB.data, [1, 1]⟩,
                  y1, gB, gbB⟩⟩], []⟩,
            .sgd ⟨1 / 10⟩), .ok v) := by
  have hloss : ∀ y : Tensor ℚ, y.IsMatrix 1 1 →
      ∃ v g, MSELoss.loss.compute_loss y (⟨[0], [1, 1]⟩ : Tensor ℚ) = .ok v ∧
        MSELoss.loss.compute_gradient y (⟨[0], [1, 1]⟩ : Tensor ℚ) = .ok g ∧ g.IsMatrix 1 1 := by
    intro y hy
    obtain ⟨G, hG, hGm, -⟩ := MSELoss.compute_gradient_ok y (⟨[0], [1, 1]⟩ : Tensor ℚ) 1 1 hy (by decide)
    exact ⟨_, G, MSELoss.compute_loss_ok y _ hy.1 (by rw [hy.2]; rfl), hG, hGm⟩
  exact ⟨by decide, hloss,
    Network.train_two_linear (fun x => x) (fun x => x) (fun x => x)
      (⟨⟨[1, 2, 3, 4], [2, 2]⟩, ⟨[0, 1], [2, 1]⟩, ⟨[], []⟩, ⟨[0, 0, 0, 0], [2, 2]⟩,
          ⟨[0, 0], [2, 1]⟩⟩ : Linear ℚ)
      (⟨⟨[1, -1], [1, 2]⟩, ⟨[0], [1, 1]⟩, ⟨[], []⟩, ⟨[0, 0], [1, 2]⟩, ⟨[0], [1, 1]⟩⟩ :
          Linear ℚ)
      0 1 [] (⟨[1, 1], [2, 1]⟩ : Tensor ℚ) (⟨[0], [1, 1]⟩ : Tensor ℚ) MSELoss.loss (1 / 10) 2 2 1 1
      (by decide) (by decide) (by decide) (by decide) (by decide) hloss⟩

end NetworkPasses

/-! ## Reductions -/

section Reductions

variable {α : Type}

/-- `Tensor::sum(0)` on a 2-D shape: the column sums. -/
theorem Tensor.sum_zero_ok [AddCommMonoid α] (t : Tensor α) (m n : Nat) (ht : t.shape = [m, n]) :
    ∃ r, t.sum 0 = .ok r ∧ r.IsMatrix 1 n ∧
      ∀ j, j < n → r.entry 0 j = ∑ i in Finset.range m, t.entry i j := by
  have hr := Tensor.rows_eq t m n ht
  have hc := Tensor.cols_eq t m n ht
  obtain ⟨hZs, hZl⟩ := Tensor.zeros_isMatrix (α := α) 1 n
  obtain ⟨res, hres, hs, hl, hval⟩ := fill_loop n 1
    (fun j _ result =>
      match forRange (fun i sum =>
          stmt sum (do
            let x ← t.op_call i j
            pure (sum + x))) m 0 (0 : α) with
      | (sum, none) => stmt result (result.op_call_assign 0 j sum)
      | (_, some e) => (result, some e)) _
    (Tensor.zeros 1 n) (fun j _ => j) (fun j _ => ∑ i in Finset.range m, t.entry i j)
    (fun _ _ _ => (Tensor.forRange_one _ _ _).symm)
    (fun i j i' j' _ hj _ hj' h => ⟨h, by omega⟩)
    (fun i j hi _ => by show i < _; rw [hZl]; omega)
    (fun j k r hj _ hrs _ _ => by
      have hsum := forRange_sum (fun i sum =>
          stmt sum (do
            let x ← t.op_call i j
            pure (sum + x))) (fun i => t.entry i j) m
        (fun k s hk => by
          simp only [Tensor.op_call_ok t m n ht k j hk hj]
          rfl)
      simp only [hsum]
      rw [Tensor.op_call_assign_ok r 1 n (hrs.trans hZs) 0 j (by omega) hj]
      simp [stmt])
  refine ⟨res, ?_, ⟨hs.trans hZs, hl.trans hZl⟩, ?_⟩
  · have h1 : (0 : Int) ≠ -1 := by decide
    simp only [Tensor.sum, h1, if_false, if_true, hr, hc]
    exact congrArg finish hres
  · intro j hj
    have := hval j 0 hj (by omega)
    simpa [Tensor.entry, Tensor.index_eq res 1 n (hs.trans hZs)] using this

/-- The sum of a list is the sum of its elements by position. -/
theorem list_sum_eq_range [AddCommMonoid α] (l : List α) :
    l.sum = ∑ k in Finset.range l.length, l.getD k 0 := by
  induction l with
  | nil => simp
  | cons x xs ih =>
    rw [List.sum_cons, List.length_cons, Finset.sum_range_succ', ih]
    simp [add_comm]

/-- The elements of a row-major store, summed by position and summed row by
row. -/
theorem sum_range_mul [AddCommMonoid α] (f : Nat → α) (m n : Nat) :
    ∑ k in Finset.range (m * n), f k
      = ∑ i in Finset.range m, ∑ j in Finset.range n, f (i * n + j) := by
  induction m with
  | zero => simp
  | succ m ih =>
    rw [Nat.succ_mul, Finset.sum_range_add, ih, Finset.sum_range_succ]

/-- `Tensor::sum(-1)` on any tensor. -/
theorem Tensor.sum_all_ok [AddCommMonoid α] (t : Tensor α) :
    t.sum (-1) = .ok ⟨[t.data.sum], [1, 1]⟩ := by
  have h : Tensor.shape_product [1, 1] % 2 ^ 64 = 1 := by decide
  simp only [Tensor.sum, if_true, Tensor.make, h, List.length_singleton, Nat.cast_one, ne_eq,
    not_true_eq_false, if_false]
  rw [List.sum_eq_foldl]

/-- C21: for every R x C tensor `t`, `t.sum(0)` has shape (1, C) with entry
(0, j) the sum over i of t(i, j); `t.sum(1)` has shape (R, 1) with entry (i, 0)
the sum over j of t(i, j); `t.sum(-1)` has shape (1, 1) and its single entry is
the total of all elements of `t`, summed by flat position or row by row. -/
theorem Tensor.sum_axes [AddCommMonoid α] (t : Tensor α) (R C : Nat) (ht : t.IsMatrix R C) :
    ∃ s0 s1 st,
      t.sum 0 = .ok s0 ∧ s0.IsMatrix 1 C ∧
      (∀ j, j < C → s0.op_call 0 j = .ok (∑ i in Finset.range R, t.entry i j)) ∧
      t.sum 1 = .ok s1 ∧ s1.IsMatrix R 1 ∧
      (∀ i, i < R → s1.op_call i 0 = .ok (∑ j in Finset.range C, t.entry i j)) ∧
      t.sum (-1) = .ok st ∧ st.IsMatrix 1 1 ∧
      st.op_call 0 0 = .ok (∑ k in Finset.range (R * C), t.data_at k) ∧
      st.op_call 0 0 = .ok (∑ i in Finset.range R, ∑ j in Finset.range C, t.entry i j) := by
  obtain ⟨s0, h0, h0m, h0e⟩ := Tensor.sum_zero_ok t R C ht.1
  obtain ⟨s1, h1, h1m, h1e⟩ := Tensor.sum_one_ok t R C ht.1
  have htot : t.data.sum = ∑ k in Finset.range (R * C), t.data_at k := by
    rw [list_sum_eq_range, ht.2]
    rfl
  have hst : (⟨[t.data.sum], [1, 1]⟩ : Tensor α).op_call 0 0 = .ok t.data.sum := by
    rw [Tensor.op_call_ok _ 1 1 rfl 0 0 (by omega) (by omega)]
    rfl
  refine ⟨s0, s1, ⟨[t.data.sum], [1, 1]⟩, h0, h0m, ?_, h1, h1m, ?_, Tensor.sum_all_ok t,
    ⟨rfl, rfl⟩, ?_, ?_⟩
  · intro j hj
    rw [Tensor.op_call_ok s0 1 C h0m.1 0 j (by omega) hj, h0e j hj]
  · intro i hi
    rw [Tensor.op_call_ok s1 R 1 h1m.1 i 0 hi (by omega), h1e i hi]
  · rw [hst, htot]
  · rw [hst, htot, sum_range_mul]
    simp only [Tensor.entry, Tensor.index_eq t R C ht.1]

/-- Witness of C21: the 2x3 tensor of `test_tensor_operations`. -/
theorem Tensor.sum_axes_witness :
    (⟨[1, 2, 3, 4, 5, 6], [2, 3]⟩ : Tensor Int).IsMatrix 2 3 ∧
    ∃ s0 s1 st,
      (⟨[1, 2, 3, 4, 5, 6], [2, 3]⟩ : Tensor Int).sum 0 = .ok s0 ∧ s0.IsMatrix 1 3 ∧
      (∀ j, j < 3 → s0.op_call 0 j = .ok (∑ i in Finset.range 2,
        (⟨[1, 2, 3, 4, 5, 6], [2, 3]⟩ : Tensor Int).entry i j)) ∧
      (⟨[1, 2, 3, 4, 5, 6], [2, 3]⟩ : Tensor Int).sum 1 = .ok s1 ∧ s1.IsMatrix 2 1 ∧
      (∀ i, i < 2 → s1.op_call i 0 = .ok (∑ j in Finset.range 3,
        (⟨[1, 2, 3, 4, 5, 6], [2, 3]⟩ : Tensor Int).entry i j)) ∧
      (⟨[1, 2, 3, 4, 5, 6], [2, 3]⟩ : Tensor Int).sum (-1) = .ok st ∧ st.IsMatrix 1 1 ∧
      st.op_call 0 0 = .ok (∑ k in Finset.range (2 * 3),
        (⟨[1, 2, 3, 4, 5, 6], [2, 3]⟩ : Tensor Int).data_at k) ∧
      st.op_call 0 0 = .ok (∑ i in Finset.range 2, ∑ j in Finset.range 3,
        (⟨[1, 2, 3, 4, 5, 6], [2, 3]⟩ : Tensor Int).entry i j) :=
  ⟨by decide, Tensor.sum_axes _ 2 3 (by decide)⟩

/-- A loop is left only by an exception of its body. -/
theorem forRange_err {σ : Type} (body : Nat → σ → σ × Option Err) (P : Err → Prop)
    (h : ∀ i s e, (body i s).2 = some e → P e) :
    ∀ (n i : Nat) (s : σ) (e : Err), (forRange body n i s).2 = some e → P e := by
  intro n
  induction n with
  | zero => intro i s e he; simp [forRange] at he
  | succ n ih =>
    intro i s e he
    rcases hb : body i s with ⟨s', o⟩
    cases o with
    | none =>
      simp only [forRange, hb] at he
      exact ih (i + 1) s' e he
    | some e' =>
      simp only [forRange, hb, Option.some.injEq] at he
      subst he
      exact h i s e' (by rw [hb])

/-- The checked read throws nothing but `out_of_range`. -/
theorem Tensor.op_call_err [Zero α] (t : Tensor α) (i j : Nat) (e : Err)
    (h : t.op_call i j = .error e) : e = .out_of_range "Index out of bounds" := by
  simp only [Tensor.op_call] at h
  split_ifs at h
  exact (Except.error.inj h).symm

/-- The checked store throws nothing but `out_of_range`. -/
theorem Tensor.op_call_assign_err (t : Tensor α) (i j : Nat) (v : α) (e : Err)
    (h : t.op_call_assign i j v = .error e) : e = .out_of_range "Index out of bounds" := by
  simp only [Tensor.op_call_assign] at h
  split_ifs at h
  exact (Except.error.inj h).symm

/-- The loops of `sum(0)` and `sum(1)` are left by no exception but
`out_of_range`. -/
theorem Tensor.sum_loop_err [Zero α] [Add α] (read : Nat → Nat → Except Err α)
    (store : Nat → Tensor α → α → Except Err (Tensor α))
    (hread : ∀ a b e, read a b = .error e → e = .out_of_range "Index out of bounds")
    (hstore : ∀ a r v e, store a r v = .error e → e = .out_of_range "Index out of bounds")
    (inner outer : Nat) (init : Tensor α) (e : Err)
    (h : finish (forRange (fun a result =>
        match forRange (fun b sum =>
            stmt sum (do
              let x ← read a b
              pure (sum + x))) inner 0 (0 : α) with
        | (sum, none) => stmt result (store a result sum)
        | (_, some e) => (result, some e)) outer 0 init) = .error e) :
    e = .out_of_range "Index out of bounds" := by
  rcases hr : forRange (fun a result =>
        match forRange (fun b sum =>
            stmt sum (do
              let x ← read a b
              pure (sum + x))) inner 0 (0 : α) with
        | (sum, none) => stmt result (store a result sum)
        | (_, some e) => (result, some e)) outer 0 init with ⟨res, o⟩
  rw [hr] at h
  cases o with
  | none => simp [finish] at h
  | some e' =>
    simp only [finish, Except.error.injEq] at h
    subst h
    refine forRange_err _ (fun e => e = .out_of_range "Index out of bounds") ?_ outer 0 init e'
      (congrArg Prod.snd hr)
    intro a result e he
    rcases hin : forRange (fun b sum =>
            stmt sum (do
              let x ← read a b
              pure (sum + x))) inner 0 (0 : α) with ⟨sum, o⟩
    rw [hin] at he
    cases o with
    | none =>
      simp only at he
      cases hst : store a result sum with
      | ok r => rw [hst] at he; simp [stmt] at he
      | error e2 =>
        rw [hst] at he
        simp only [stmt, Option.some.injEq] at he
        subst he
        exact hstore a result sum e2 hst
    | some e2 =>
      simp only [Option.some.injEq] at he
      subst he
      refine forRange_err _ (fun e => e = .out_of_range "Index out of bounds") ?_ inner 0 0 e2
        (congrArg Prod.snd hin)
      intro b s e he
      cases hrd : read a b with
      | ok x => rw [hrd] at he; simp [stmt, bind, Except.bind, pure, Except.pure] at he
      | error e3 =>
        rw [hrd] at he
        simp only [stmt, bind, Except.bind, Option.some.injEq] at he
        subst he
        exact hread a b e3 hrd

/-- C22: for every tensor `t` and every integer `axis`, `t.sum(axis)` throws
`invalid_argument` if and only if `axis` is none of -1, 0, 1 (what it throws
then is "Invalid axis for sum operation"); and for a 2-D tensor `t.sum(axis)`
throws at all if and only if `axis` is none of -1, 0, 1. -/
theorem Tensor.sum_invalid_axis_iff [AddCommMonoid α] (t : Tensor α) (axis : Int) :
    ((∃ w, t.sum axis = .error (.invalid_argument w)) ↔ (axis ≠ -1 ∧ axis ≠ 0 ∧ axis ≠ 1)) ∧
    ((axis ≠ -1 ∧ axis ≠ 0 ∧ axis ≠ 1) →
      t.sum axis = .error (.invalid_argument "Invalid axis for sum operation")) ∧
    (∀ R C, t.IsMatrix R C →
      ((∃ e, t.sum axis = .error e) ↔ (axis ≠ -1 ∧ axis ≠ 0 ∧ axis ≠ 1))) := by
  have hbad : (axis ≠ -1 ∧ axis ≠ 0 ∧ axis ≠ 1) →
      t.sum axis = .error (.invalid_argument "Invalid axis for sum operation") := by
    rintro ⟨h1, h2, h3⟩
    simp only [Tensor.sum, h1, h2, h3, if_false]
  refine ⟨⟨?_, fun h => ⟨_, hbad h⟩⟩, hbad, ?_⟩
  · rintro ⟨w, hw⟩
    by_contra hcon
    have hax : axis = -1 ∨ axis = 0 ∨ axis = 1 := by omega
    rcases hax with h | h | h
    · subst h
      rw [Tensor.sum_all_ok] at hw
      cases hw
    · subst h
      have h1 : (0 : Int) ≠ -1 := by decide
      simp only [Tensor.sum, h1, if_false, if_true] at hw
      have := Tensor.sum_loop_err (fun j i => t.op_call i j)
        (fun j r v => r.op_call_assign 0 j v)
        (fun a b e => Tensor.op_call_err t b a e)
        (fun a r v e => Tensor.op_call_assign_err r 0 a v e) _ _ _ _ hw
      cases this
    · subst h
      have h1 : (1 : Int) ≠ -1 := by decide
      have h2 : (1 : Int) ≠ 0 := by decide
      simp only [Tensor.sum, h1, h2, if_false, if_true] at hw
      have := Tensor.sum_loop_err (fun i j => t.op_call i j)
        (fun i r v => r.op_call_assign i 0 v)
        (fun a b e => Tensor.op_call_err t a b e)
        (fun a r v e => Tensor.op_call_assign_err r a 0 v e) _ _ _ _ hw
      cases this
  · intro R C ht
    refine ⟨?_, fun h => ⟨_, hbad h⟩⟩
    rintro ⟨e, he⟩
    by_contra hcon
    have hax : axis = -1 ∨ axis = 0 ∨ axis = 1 := by omega
    rcases hax with h | h | h
    · subst h
      rw [Tensor.sum_all_ok] at he
      cases he
    · subst h
      obtain ⟨r, hr, _⟩ := Tensor.sum_zero_ok t R C ht.1
      rw [hr] at he
      cases he
    · subst h
      obtain ⟨r, hr, _⟩ := Tensor.sum_one_ok t R C ht.1
      rw [hr] at he
      cases he

/-- Witness of C22: axis 2 on a 2x3 tensor. -/
theorem Tensor.sum_invalid_axis_iff_witness :
    (Tensor.zeros 2 3 : Tensor Int).IsMatrix 2 3 ∧
    (Tensor.zeros 2 3 : Tensor Int).sum 2
      = .error (.invalid_argument "Invalid axis for sum operation") ∧
    ((∃ e, (Tensor.zeros 2 3 : Tensor Int).sum 2 = .error e) ↔
      ((2 : Int) ≠ -1 ∧ (2 : Int) ≠ 0 ∧ (2 : Int) ≠ 1)) :=
  ⟨by decide,
    (Tensor.sum_invalid_axis_iff (Tensor.zeros 2 3 : Tensor Int) 2).2.1 (by decide),
    (Tensor.sum_invalid_axis_iff (Tensor.zeros 2 3 : Tensor Int) 2).2.2 2 3 (by decide)⟩

end Reductions

/-! ## Element-wise and scalar operators -/

section Elementwise

variable {α : Type}

/-- The loops of the element-wise operators on a well-formed 2-D receiver:
`result.data_[i] = val i` for every flat position of a fresh tensor. -/
theorem Tensor.elementwise_loop_ok [Zero α] (val : Nat → α) (t : Tensor α) (r c : Nat)
    (ht : t.IsMatrix r c) :
    ∃ y, (forRange (fun i (result : Tensor α) =>
        ({ result with data := result.data.set i (val i) }, none))
        t.data.length 0 (Tensor.zeros (t.shape_at 0) (t.shape_at 1))).1 = y ∧
      y.IsMatrix r c ∧ ∀ i, i < r * c → y.op_index i = .ok (val i) := by
  obtain ⟨hts, htl⟩ := ht
  rw [Tensor.shape_at_zero t r c hts, Tensor.shape_at_one t r c hts, htl]
  obtain ⟨hZs, hZl⟩ := Tensor.zeros_isMatrix (α := α) r c
  obtain ⟨res, hres, hs, hl, hval⟩ := flat_fill_loop (r * c)
    (fun i (result : Tensor α) =>
      ({ result with data := result.data.set i (val i) }, none))
    (Tensor.zeros r c) val hZl (fun _ _ _ _ _ => rfl)
  refine ⟨res, by rw [hres], ⟨hs.trans hZs, hl⟩, fun i hi => ?_⟩
  rw [Tensor.op_index_ok res i (by omega), hval i hi]

/-- C23 as stated fails: the flat constructor accepts six elements with the
shape `{2, 3, 1}`; on two such tensors `a + b`, `a - b` and the element-wise
`a * b` return, with the right elements, a tensor built by
`Tensor(shape_[0], shape_[1])`, whose shape is `{2, 3}` and not the shape of
`a` and `b`. -/
theorem Tensor.elementwise_counterexample :
    Tensor.make ([1, 2, 3, 4, 5, 6] : List Int) [2, 3, 1]
      = .ok ⟨[1, 2, 3, 4, 5, 6], [2, 3, 1]⟩ ∧
    Tensor.make ([6, 5, 4, 3, 2, 1] : List Int) [2, 3, 1]
      = .ok ⟨[6, 5, 4, 3, 2, 1], [2, 3, 1]⟩ ∧
    (⟨[1, 2, 3, 4, 5, 6], [2, 3, 1]⟩ : Tensor Int).op_add ⟨[6, 5, 4, 3, 2, 1], [2, 3, 1]⟩
      = .ok ⟨[7, 7, 7, 7, 7, 7], [2, 3]⟩ ∧
    (⟨[1, 2, 3, 4, 5, 6], [2, 3, 1]⟩ : Tensor Int).op_sub ⟨[6, 5, 4, 3, 2, 1], [2, 3, 1]⟩
      = .ok ⟨[-5, -3, -1, 1, 3, 5], [2, 3]⟩ ∧
    (⟨[1, 2, 3, 4, 5, 6], [2, 3, 1]⟩ : Tensor Int).op_mul ⟨[6, 5, 4, 3, 2, 1], [2, 3, 1]⟩
      = .ok ⟨[6, 10, 12, 12, 10, 6], [2, 3]⟩ ∧
    ([2, 3] : List Nat) ≠ (⟨[1, 2, 3, 4, 5, 6], [2, 3, 1]⟩ : Tensor Int).shape := by
  decide

/-- C23, amended: for tensors `a` and `b` with two-entry shapes (r, c) and
(r', c') that hold r*c and r'*c' elements, each of `a + b`, `a - b` and the
element-wise `a * b` throws if and only if the shape vectors differ; when they
are equal the result has that shape and element i is a_i + b_i, a_i - b_i,
a_i * b_i.  The operators are functions of the two values: `a` and `b` are
what they were. -/
theorem Tensor.elementwise_spec [Zero α] [Add α] [Sub α] [Mul α] (a b : Tensor α)
    (r c r' c' : Nat) (ha : a.IsMatrix r c) (hb : b.IsMatrix r' c') :
    ((∃ e, a.op_add b = .error e) ↔ a.shape ≠ b.shape) ∧
    ((∃ e, a.op_sub b = .error e) ↔ a.shape ≠ b.shape) ∧
    ((∃ e, a.op_mul b = .error e) ↔ a.shape ≠ b.shape) ∧
    (a.shape ≠ b.shape →
      a.op_add b = .error (.runtime_error "Tensor shapes do not match for addition") ∧
      a.op_sub b = .error (.runtime_error "Tensor shapes do not match for subtraction") ∧
      a.op_mul b = .error
        (.runtime_error "Tensor shapes do not match for element-wise multiplication")) ∧
    (a.shape = b.shape → ∃ s d p,
      a.op_add b = .ok s ∧ a.op_sub b = .ok d ∧ a.op_mul b = .ok p ∧
      s.shape = a.shape ∧ d.shape = a.shape ∧ p.shape = a.shape ∧
      s.size = a.size ∧ d.size = a.size ∧ p.size = a.size ∧
      ∀ i, i < a.size →
        b.op_index i = .ok (b.data_at i) ∧
        s.op_index i = .ok (a.data_at i + b.data_at i) ∧
        d.op_index i = .ok (a.data_at i - b.data_at i) ∧
        p.op_index i = .ok (a.data_at i * b.data_at i)) := by
  refine ⟨?_, ?_, ?_, ?_, ?_⟩
  · by_cases h : a.shape = b.shape <;> simp [Tensor.op_add, h]
  · by_cases h : a.shape = b.shape <;> simp [Tensor.op_sub, h]
  · by_cases h : a.shape = b.shape <;> simp [Tensor.op_mul, h]
  · intro h
    simp [Tensor.op_add, Tensor.op_sub, Tensor.op_mul, h]
  · intro h
    obtain ⟨s, hs, hsm, hse⟩ :=
      Tensor.elementwise_loop_ok (fun i => a.data_at i + b.data_at i) a r c ha
    obtain ⟨d, hd, hdm, hde⟩ :=
      Tensor.elementwise_loop_ok (fun i => a.data_at i - b.data_at i) a r c ha
    obtain ⟨p, hp, hpm, hpe⟩ :=
      Tensor.elementwise_loop_ok (fun i => a.data_at i * b.data_at i) a r c ha
    have hbl : b.data.length = a.data.length := by
      have := ha.1.symm.trans (h.trans hb.1)
      simp only [List.cons.injEq, and_true] at this
      rw [hb.2, ha.2, this.1, this.2]
    refine ⟨s, d, p, ?_, ?_, ?_, hsm.1.trans ha.1.symm, hdm.1.trans ha.1.symm,
      hpm.1.trans ha.1.symm, hsm.2.trans ha.2.symm, hdm.2.trans ha.2.symm,
      hpm.2.trans ha.2.symm, ?_⟩
    · simp only [Tensor.op_add, h, ne_eq, not_true_eq_false, if_false, hs]
    · simp only [Tensor.op_sub, h, ne_eq, not_true_eq_false, if_false, hd]
    · simp only [Tensor.op_mul, h, ne_eq, not_true_eq_false, if_false, hp]
    · intro i hi
      have hi' : i < r * c := by rw [Tensor.size, ha.2] at hi; exact hi
      exact ⟨Tensor.op_index_ok b i (by rw [hbl]; exact hi), hse i hi', hde i hi', hpe i hi'⟩

/-- Witness of C23, amended: two 2x3 tensors. -/
theorem Tensor.elementwise_spec_witness :
    (⟨[1, 2, 3, 4, 5, 6], [2, 3]⟩ : Tensor Int).IsMatrix 2 3 ∧
    (⟨[6, 5, 4, 3, 2, 1], [2, 3]⟩ : Tensor Int).IsMatrix 2 3 ∧
    (⟨[1, 2, 3, 4, 5, 6], [2, 3]⟩ : Tensor Int).op_add ⟨[6, 5, 4, 3, 2, 1], [2, 3]⟩
      = .ok ⟨[7, 7, 7, 7, 7, 7], [2, 3]⟩ ∧
    ((∃ e, (⟨[1, 2, 3, 4, 5, 6], [2, 3]⟩ : Tensor Int).op_add ⟨[6, 5, 4, 3, 2, 1], [2, 3]⟩
      = .error e) ↔
      (⟨[1, 2, 3, 4, 5, 6], [2, 3]⟩ : Tensor Int).shape
        ≠ (⟨[6, 5, 4, 3, 2, 1], [2, 3]⟩ : Tensor Int).shape) :=
  ⟨by decide, by decide, by decide,
    (Tensor.elementwise_spec _ _ 2 3 2 3 (by decide) (by decide)).1⟩

/-- C24: for a 2-D tensor `t` and a scalar `s`, `t / s` throws if and only if
`s` is zero, and otherwise has the shape of `t` and element i equal to
t_i / s; `t * s` and `s * t` are the same tensor, of the shape of `t` with
element i equal to t_i * s, and no statement of them throws. -/
theorem Tensor.scalar_spec [Zero α] [Mul α] [Div α] [DecidableEq α] (t : Tensor α) (s : α)
    (r c : Nat) (ht : t.IsMatrix r c) :
    ((∃ e, t.op_div_scalar s = .error e) ↔ s = 0) ∧
    (s = 0 → t.op_div_scalar s = .error (.runtime_error "Division by zero")) ∧
    (s ≠ 0 → ∃ q, t.op_div_scalar s = .ok q ∧ q.shape = t.shape ∧ q.size = t.size ∧
      ∀ i, i < t.size → q.op_index i = .ok (t.data_at i / s)) ∧
    Tensor.scalar_op_mul s t = t.op_mul_scalar s ∧
    (t.op_mul_scalar s).shape = t.shape ∧ (t.op_mul_scalar s).size = t.size ∧
    ∀ i, i < t.size → (t.op_mul_scalar s).op_index i = .ok (t.data_at i * s) := by
  obtain ⟨q, hq, hqm, hqe⟩ := Tensor.elementwise_loop_ok (fun i => t.data_at i / s) t r c ht
  obtain ⟨m, hm, hmm, hme⟩ := Tensor.elementwise_loop_ok (fun i => t.data_at i * s) t r c ht
  have hsz : t.size = r * c := ht.2
  refine ⟨?_, ?_, ?_, rfl, ?_, ?_, ?_⟩
  · by_cases h : s = 0 <;> simp [Tensor.op_div_scalar, h]
  · intro h
    simp [Tensor.op_div_scalar, h]
  · intro h
    refine ⟨q, ?_, hqm.1.trans ht.1.symm, hqm.2.trans ht.2.symm, fun i hi => ?_⟩
    · simp only [Tensor.op_div_scalar, h, if_false, hq]
    · exact hqe i (by rw [← hsz]; exact hi)
  · show (Tensor.op_mul_scalar t s).shape = _
    unfold Tensor.op_mul_scalar
    rw [hm]
    exact hmm.1.trans ht.1.symm
  · unfold Tensor.op_mul_scalar
    rw [hm]
    exact hmm.2.trans ht.2.symm
  · intro i hi
    unfold Tensor.op_mul_scalar
    rw [hm]
    exact hme i (by rw [← hsz]; exact hi)

/-- Witness of C24: a 2x2 tensor divided and multiplied by 2. -/
theorem Tensor.scalar_spec_witness :
    (⟨[1, 2, 3, 4], [2, 2]⟩ : Tensor ℚ).IsMatrix 2 2 ∧
    (⟨[1, 2, 3, 4], [2, 2]⟩ : Tensor ℚ).op_div_scalar 2 = .ok ⟨[1 / 2, 1, 3 / 2, 2], [2, 2]⟩ ∧
    (⟨[1, 2, 3, 4], [2, 2]⟩ : Tensor ℚ).op_mul_scalar 2 = ⟨[2, 4, 6, 8], [2, 2]⟩ ∧
    ((∃ e, (⟨[1, 2, 3, 4], [2, 2]⟩ : Tensor ℚ).op_div_scalar 2 = .error e) ↔ (2 : ℚ) = 0) :=
  ⟨by decide, by decide!, by decide!,
    (Tensor.scalar_spec _ 2 2 2 (by decide)).1⟩

end Elementwise

/-! ## Element access, constructors and the size invariant -/

section Construction

variable {α : Type}

/-- C25: for a tensor of shape (R, C), the access by (row, col), read or
written, throws if and only if row >= R or col >= C, and the access by the
flat index i throws if and only if i >= R*C; what is thrown is `out_of_range`,
an assignment through a failing access leaves the tensor as it was, and an
access that does not throw reads or writes the row-major position. -/
theorem Tensor.access_spec [Zero α] (t : Tensor α) (R C : Nat) (ht : t.IsMatrix R C)
    (row col i : Nat) (v : α) :
    ((∃ e, t.op_call row col = .error e) ↔ (row ≥ R ∨ col ≥ C)) ∧
    ((∃ e, t.op_call_assign row col v = .error e) ↔ (row ≥ R ∨ col ≥ C)) ∧
    ((∃ e, t.op_index i = .error e) ↔ i ≥ R * C) ∧
    ((∃ e, t.op_index_assign i v = .error e) ↔ i ≥ R * C) ∧
    ((row ≥ R ∨ col ≥ C) →
      t.op_call row col = .error (.out_of_range "Index out of bounds") ∧
      stmt t (t.op_call_assign row col v) = (t, some (.out_of_range "Index out of bounds"))) ∧
    (i ≥ R * C →
      t.op_index i = .error (.out_of_range "Index out of bounds") ∧
      stmt t (t.op_index_assign i v) = (t, some (.out_of_range "Index out of bounds"))) ∧
    (row < R → col < C →
      t.op_call row col = .ok (t.data_at (row * C + col)) ∧
      t.op_call_assign row col v = .ok { t with data := t.data.set (row * C + col) v }) ∧
    (i < R * C →
      t.op_index i = .ok (t.data_at i) ∧
      t.op_index_assign i v = .ok { t with data := t.data.set i v }) := by
  obtain ⟨hs, hl⟩ := ht
  have h0 := Tensor.shape_at_zero t R C hs
  have h1 := Tensor.shape_at_one t R C hs
  refine ⟨?_, ?_, ?_, ?_, ?_, ?_, ?_, ?_⟩
  · by_cases h : row ≥ R ∨ col ≥ C <;> simp [Tensor.op_call, h0, h1, h]
  · by_cases h : row ≥ R ∨ col ≥ C <;> simp [Tensor.op_call_assign, h0, h1, h]
  · by_cases h : i ≥ R * C <;> simp [Tensor.op_index, hl, h]
  · by_cases h : i ≥ R * C <;> simp [Tensor.op_index_assign, hl, h]
  · intro h
    simp [Tensor.op_call, Tensor.op_call_assign, h0, h1, h, stmt]
  · intro h
    simp [Tensor.op_index, Tensor.op_index_assign, hl, h, stmt]
  · intro hr hc
    refine ⟨?_, Tensor.op_call_assign_ok t R C hs row col hr hc v⟩
    rw [Tensor.op_call_ok t R C hs row col hr hc, Tensor.entry, Tensor.index_eq t R C hs]
  · intro h
    exact ⟨Tensor.op_index_ok t i (by omega), Tensor.op_index_assign_ok t i v (by omega)⟩

/-- Witness of C25: the 2x3 tensor of `test_tensor_operations`, read at
(0, 1) and past the end. -/
theorem Tensor.access_spec_witness :
    (⟨[1, 2, 3, 4, 5, 6], [2, 3]⟩ : Tensor Int).IsMatrix 2 3 ∧
    (⟨[1, 2, 3, 4, 5, 6], [2, 3]⟩ : Tensor Int).op_call 0 1 = .ok 2 ∧
    (⟨[1, 2, 3, 4, 5, 6], [2, 3]⟩ : Tensor Int).op_call 2 0
      = .error (.out_of_range "Index out of bounds") ∧
    ((∃ e, (⟨[1, 2, 3, 4, 5, 6], [2, 3]⟩ : Tensor Int).op_index 6 = .error e) ↔ 6 ≥ 2 * 3) :=
  ⟨by decide, by decide, by decide,
    (Tensor.access_spec _ 2 3 (by decide) 0 0 6 0).2.2.1⟩

/-- The row loop of the nested-row constructor on rows of one length. -/
theorem Tensor.row_loop_ok (m : Nat) :
    ∀ (rows : List (List α)) (acc : List α), (∀ row ∈ rows, row.length = m) →
      rows.foldlM (fun data_ row =>
          if row.length ≠ m then
            Except.error (Err.runtime_error "All rows must have the same size")
          else Except.ok (data_ ++ row)) acc = .ok (acc ++ rows.flatten) := by
  intro rows
  induction rows with
  | nil => intro acc _; simp [pure, Except.pure]
  | cons x xs ih =>
    intro acc h
    have hx := h x (List.mem_cons_self x xs)
    rw [List.foldlM_cons]
    simp only [hx, ne_eq, not_true_eq_false, if_false, bind, Except.bind]
    rw [ih (acc ++ x) (fun row hrow => h row (List.mem_cons_of_mem x hrow))]
    simp

/-- The row loop of the nested-row constructor on rows one of which has
another length. -/
theorem Tensor.row_loop_err (m : Nat) :
    ∀ (rows : List (List α)) (acc : List α), (∃ row ∈ rows, row.length ≠ m) →
      rows.foldlM (fun data_ row =>
          if row.length ≠ m then
            Except.error (Err.runtime_error "All rows must have the same size")
          else Except.ok (data_ ++ row)) acc
        = .error (.runtime_error "All rows must have the same size") := by
  intro rows
  induction rows with
  | nil => intro acc h; obtain ⟨row, hrow, _⟩ := h; cases hrow
  | cons x xs ih =>
    intro acc h
    rw [List.foldlM_cons]
    by_cases hx : x.length = m
    · simp only [hx, ne_eq, not_true_eq_false, if_false, bind, Except.bind]
      apply ih
      obtain ⟨row, hrow, hne⟩ := h
      rcases List.mem_cons.mp hrow with h1 | h1
      · subst h1; exact absurd hx hne
      · exact ⟨row, h1, hne⟩
    · simp only [hx, ne_eq, not_false_eq_true, if_true, bind, Except.bind]

/-- Rows of one length, laid end to end, are stored row-major. -/
theorem flatten_uniform [Zero α] (m : Nat) :
    ∀ (rows : List (List α)), (∀ row ∈ rows, row.length = m) →
      rows.flatten.length = rows.length * m ∧
      ∀ r c, r < rows.length → c < m →
        rows.flatten.getD (r * m + c) 0 = (rows.getD r []).getD c 0 := by
  intro rows
  induction rows with
  | nil => intro _; exact ⟨by simp, fun r c hr _ => by simp at hr⟩
  | cons x xs ih =>
    intro h
    have hx := h x (List.mem_cons_self x xs)
    obtain ⟨ihl, ihe⟩ := ih (fun row hrow => h row (List.mem_cons_of_mem x hrow))
    refine ⟨?_, ?_⟩
    · rw [List.flatten_cons, List.length_append, ihl, hx, List.length_cons, Nat.succ_mul]
      omega
    · intro r c hr hc
      rw [List.flatten_cons]
      cases r with
      | zero =>
        rw [Nat.zero_mul, Nat.zero_add, List.getD_append _ _ _ _ (by omega)]
        rfl
      | succ r =>
        rw [List.getD_append_right _ _ _ _ (by rw [hx, Nat.succ_mul]; omega), hx]
        have e : (r + 1) * m + c - m = r * m + c := by rw [Nat.succ_mul]; omega
        rw [e, ihe r c (by simpa using hr) hc]
        rfl

/-- C26: for a non-empty list of `n` rows that all have the length `m >= 1`,
the nested-row constructor returns a tensor of shape (n, m) holding n*m
elements row-major: t(r, c) and t[r*m + c] are both `rows[r][c]`, for all
r < n and c < m. -/
theorem Tensor.of_rows_spec [Zero α] (rows : List (List α)) (n m : Nat) (hn : rows.length = n)
    (hn1 : 1 ≤ n) (hm : 1 ≤ m) (hrows : ∀ row ∈ rows, row.length = m) :
    ∃ t, Tensor.of_rows rows = .ok t ∧ t.shape = [n, m] ∧ t.size = n * m ∧
      ∀ r c, r < n → c < m →
        t.op_call r c = .ok ((rows.getD r []).getD c 0) ∧
        t.op_index (r * m + c) = .ok ((rows.getD r []).getD c 0) ∧
        t.index r c = r * m + c := by
  obtain ⟨hfl, hfe⟩ := flatten_uniform m rows hrows
  cases rows with
  | nil => simp at hn; omega
  | cons first rest =>
    have hf : first.length = m := hrows first (List.mem_cons_self first rest)
    have hne : first.isEmpty = false := by
      cases first with
      | nil => simp at hf; omega
      | cons _ _ => rfl
    have hloop := Tensor.row_loop_ok m (first :: rest) [] hrows
    refine ⟨⟨(first :: rest).flatten, [n, m]⟩, ?_, rfl, by rw [Tensor.size, hfl, hn], ?_⟩
    · simp only [Tensor.of_rows, hne, hf, hn]
      rw [hloop]
      simp
    · intro r c hr hc
      have hidx : (⟨(first :: rest).flatten, [n, m]⟩ : Tensor α).index r c = r * m + c :=
        Tensor.index_eq _ n m rfl r c
      have hlt : r * m + c < n * m := rowmajor_lt n m r c hr hc
      refine ⟨?_, ?_, hidx⟩
      · rw [Tensor.op_call_ok _ n m rfl r c hr hc, Tensor.entry, hidx]
        exact congrArg Except.ok (hfe r c (by rw [hn]; exact hr) hc)
      · rw [Tensor.op_index_ok _ _
          (by show _ < (first :: rest).flatten.length; rw [hfl, hn]; exact hlt)]
        exact congrArg Except.ok (hfe r c (by rw [hn]; exact hr) hc)

/-- Witness of C26: the rows {{1,2,3},{4,5,6}} of `test_tensor_operations`
give a 2x3 tensor with t(0, 1) == 2. -/
theorem Tensor.of_rows_spec_witness :
    Tensor.of_rows ([[1, 2, 3], [4, 5, 6]] : List (List Int))
      = .ok ⟨[1, 2, 3, 4, 5, 6], [2, 3]⟩ ∧
    (⟨[1, 2, 3, 4, 5, 6], [2, 3]⟩ : Tensor Int).op_call 0 1 = .ok 2 ∧
    ∃ t, Tensor.of_rows ([[1, 2, 3], [4, 5, 6]] : List (List Int)) = .ok t ∧
      t.shape = [2, 3] ∧ t.size = 2 * 3 ∧
      ∀ r c, r < 2 → c < 3 →
        t.op_call r c = .ok ((([[1, 2, 3], [4, 5, 6]] : List (List Int)).getD r []).getD c 0) ∧
        t.op_index (r * 3 + c)
          = .ok ((([[1, 2, 3], [4, 5, 6]] : List (List Int)).getD r []).getD c 0) ∧
        t.index r c = r * 3 + c :=
  ⟨by decide, by decide,
    Tensor.of_rows_spec _ 2 3 (by decide) (by decide) (by decide) (by decide)⟩

/-- C27 fails on a row list whose first row is empty: the rows {{}, {1}} have
the lengths 0 and 1, and the constructor throws nothing and returns the empty
tensor, the element 1 dropped.  When the first row is not empty, a row of
another length does make the constructor throw "All rows must have the same
size". -/
theorem Tensor.of_rows_ragged [One α] :
    Tensor.of_rows ([[], [1]] : List (List α)) = .ok ⟨[], []⟩ ∧
    ∀ (first : List α) (rest : List (List α)), first ≠ [] →
      (∃ row ∈ rest, row.length ≠ first.length) →
      Tensor.of_rows (first :: rest)
        = .error (.runtime_error "All rows must have the same size") := by
  refine ⟨rfl, ?_⟩
  intro first rest hne hbad
  have hemp : first.isEmpty = false := by
    cases first with
    | nil => exact absurd rfl hne
    | cons _ _ => rfl
  obtain ⟨row, hrow, hlen⟩ := hbad
  have := Tensor.row_loop_err first.length (first :: rest) []
    ⟨row, List.mem_cons_of_mem first hrow, hlen⟩
  simp only [Tensor.of_rows, hemp]
  rw [this]
  simp

/-- A well-formed 2-D tensor satisfies `size() == rows() * cols()`. -/
theorem Tensor.size_of_isMatrix (t : Tensor α) (r c : Nat) (ht : t.IsMatrix r c) :
    t.size = t.rows * t.cols := by
  rw [Tensor.rows_eq t r c ht.1, Tensor.cols_eq t r c ht.1]
  exact ht.2

/-- The `int` product of a two-entry shape, written out. -/
theorem Tensor.shape_product_pair (m n : Nat) :
    Tensor.shape_product [m, n]
      = Tensor.wrap_int ((Tensor.wrap_int ((1 % 2 ^ 64) * (m : Int) % 2 ^ 64) % 2 ^ 64)
          * (n : Int) % 2 ^ 64) := by
  unfold Tensor.shape_product
  rw [List.bind_eq_flatMap, List.flatMap_cons, List.flatMap_cons, List.flatMap_nil,
    List.append_nil]
  show List.foldl (fun acc d => Tensor.wrap_int (acc % 2 ^ 64 * d % 2 ^ 64)) 1
    [(m : Int), (n : Int)] = _
  rw [List.foldl_cons, List.foldl_cons, List.foldl_nil]

/-- The `int` product of a two-entry shape is the product when that is below
2^31. -/
theorem Tensor.shape_product_two (m n : Nat) (h : m * n < 2 ^ 31) :
    Tensor.shape_product [m, n] % 2 ^ 64 = ((m * n : Nat) : Int) := by
  have one_mod : (1 : Int) % 2 ^ 64 = 1 := by norm_num
  rw [Tensor.shape_product_pair, one_mod, one_mul]
  rcases Nat.eq_zero_or_pos n with h0 | h0
  · subst h0
    rw [Nat.mul_zero, Nat.cast_zero, mul_zero]
    unfold Tensor.wrap_int
    omega
  · have hm : m < 2 ^ 31 := by
      have : m * 1 ≤ m * n := Nat.mul_le_mul_left m h0
      omega
    have e1 : Tensor.wrap_int ((m : Int) % 2 ^ 64) = m := by
      unfold Tensor.wrap_int
      omega
    have e2 : (m : Int) % 2 ^ 64 = m := by omega
    rw [e1, e2]
    unfold Tensor.wrap_int
    omega

/-- The flat constructor on a two-entry shape whose product fits an `int`. -/
theorem Tensor.make_two (data : List α) (m n : Nat) (h : m * n < 2 ^ 31) (t : Tensor α)
    (ht : Tensor.make data [m, n] = .ok t) : t.IsMatrix m n := by
  have hp := Tensor.shape_product_two m n h
  unfold Tensor.make at ht
  rw [hp] at ht
  by_cases hlen : (data.length : Int) = ((m * n : Nat) : Int)
  · rw [if_neg (not_not.mpr hlen)] at ht
    have := Except.ok.inj ht
    subst this
    exact ⟨rfl, Int.ofNat_inj.mp hlen⟩
  · rw [if_pos hlen] at ht
    cases ht

/-- C28 as stated fails: the flat constructor accepts the data {1, 2} with the
shape sequence {1, 1, 2}, and the tensor it returns has `size() == 2` and
`rows() * cols() == 1`. -/
theorem Tensor.invariant_counterexample :
    Tensor.make ([1, 2] : List Int) [1, 1, 2] = .ok ⟨[1, 2], [1, 1, 2]⟩ ∧
    (⟨[1, 2], [1, 1, 2]⟩ : Tensor Int).size = 2 ∧
    (⟨[1, 2], [1, 1, 2]⟩ : Tensor Int).rows * (⟨[1, 2], [1, 1, 2]⟩ : Tensor Int).cols = 1 ∧
    (⟨[1, 2], [1, 1, 2]⟩ : Tensor Int).size
      ≠ (⟨[1, 2], [1, 1, 2]⟩ : Tensor Int).rows * (⟨[1, 2], [1, 1, 2]⟩ : Tensor Int).cols := by
  decide

/-- C28, amended: `size() == rows() * cols()` holds for every tensor returned
by the rows/cols constructor, by the nested-row constructor on a list whose
first row is not empty, and by the flat constructor on a two-entry shape
(m, n) with m*n below 2^31; and for 2-D operands `a` and `b` that satisfy it,
it holds for every tensor returned by `+`, `-`, `*`, scalar `*` and `/`,
`matmul`, `transpose`, `sum`, `sigmoid`, `relu` and `tanh_activation`. -/
theorem Tensor.invariant_spec [Field α] [LT α] [DecidableRel (fun (a b : α) => a < b)]
    [DecidableEq α] (exp tanh : α → α) (a b : Tensor α) (r c r' c' : Nat) (s : α)
    (axis : Int) (ha : a.IsMatrix r c) (hb : b.IsMatrix r' c') :
    (∀ m n : Nat, (Tensor.zeros m n : Tensor α).size
      = (Tensor.zeros m n : Tensor α).rows * (Tensor.zeros m n : Tensor α).cols) ∧
    (∀ (first : List α) (rest : List (List α)) (t : Tensor α), first ≠ [] →
      Tensor.of_rows (first :: rest) = .ok t → t.size = t.rows * t.cols) ∧
    (∀ (data : List α) (m n : Nat) (t : Tensor α), m * n < 2 ^ 31 →
      Tensor.make data [m, n] = .ok t → t.size = t.rows * t.cols) ∧
    (∀ y, a.op_add b = .ok y → y.size = y.rows * y.cols) ∧
    (∀ y, a.op_sub b = .ok y → y.size = y.rows * y.cols) ∧
    (∀ y, a.op_mul b = .ok y → y.size = y.rows * y.cols) ∧
    (a.op_mul_scalar s).size = (a.op_mul_scalar s).rows * (a.op_mul_scalar s).cols ∧
    (Tensor.scalar_op_mul s a).size
      = (Tensor.scalar_op_mul s a).rows * (Tensor.scalar_op_mul s a).cols ∧
    (∀ y, a.op_div_scalar s = .ok y → y.size = y.rows * y.cols) ∧
    (∀ y, a.matmul b = .ok y → y.size = y.rows * y.cols) ∧
    (∀ y, a.transpose = .ok y → y.size = y.rows * y.cols) ∧
    (∀ y, a.sum axis = .ok y → y.size = y.rows * y.cols) ∧
    (a.sigmoid exp).size = (a.sigmoid exp).rows * (a.sigmoid exp).cols ∧
    a.relu.size = a.relu.rows * a.relu.cols ∧
    (a.tanh_activation tanh).size
      = (a.tanh_activation tanh).rows * (a.tanh_activation tanh).cols := by
  have hloop : ∀ val : Nat → α, ((forRange (fun i (result : Tensor α) =>
      ({ result with data := result.data.set i (val i) }, none))
      a.data.length 0 (Tensor.zeros (a.shape_at 0) (a.shape_at 1))).1).IsMatrix r c := by
    intro val
    obtain ⟨y, hy, hym, _⟩ := Tensor.elementwise_loop_ok val a r c ha
    rw [hy]
    exact hym
  have hinv : ∀ val : Nat → α, ((forRange (fun i (result : Tensor α) =>
      ({ result with data := result.data.set i (val i) }, none))
      a.data.length 0 (Tensor.zeros (a.shape_at 0) (a.shape_at 1))).1).size
      = ((forRange (fun i (result : Tensor α) =>
      ({ result with data := result.data.set i (val i) }, none))
      a.data.length 0 (Tensor.zeros (a.shape_at 0) (a.shape_at 1))).1).rows
      * ((forRange (fun i (result : Tensor α) =>
      ({ result with data := result.data.set i (val i) }, none))
      a.data.length 0 (Tensor.zeros (a.shape_at 0) (a.shape_at 1))).1).cols :=
    fun val => Tensor.size_of_isMatrix _ r c (hloop val)
  refine ⟨?_, ?_, ?_, ?_, ?_, ?_, ?_, ?_, ?_, ?_, ?_, ?_, ?_, ?_, ?_⟩
  · intro m n
    exact Tensor.size_of_isMatrix _ m n (Tensor.zeros_isMatrix m n)
  · intro first rest t hne ht
    have hemp : first.isEmpty = false := by
      cases first with
      | nil => exact absurd rfl hne
      | cons _ _ => rfl
    by_cases hu : ∀ row ∈ first :: rest, row.length = first.length
    · obtain ⟨hfl, -⟩ := flatten_uniform (α := α) first.length (first :: rest) hu
      have hloop := Tensor.row_loop_ok first.length (first :: rest) [] hu
      simp only [Tensor.of_rows, hemp] at ht
      rw [hloop] at ht
      simp only [List.nil_append, Bool.false_eq_true, if_false, Except.ok.injEq] at ht
      subst ht
      exact Tensor.size_of_isMatrix _ _ _ ⟨rfl, hfl⟩
    · exfalso
      push_neg at hu
      obtain ⟨row, hrow, hlen⟩ := hu
      have := Tensor.row_loop_err first.length (first :: rest) [] ⟨row, hrow, hlen⟩
      simp only [Tensor.of_rows, hemp] at ht
      rw [this] at ht
      simp at ht
  · intro data m n t hmn ht
    exact Tensor.size_of_isMatrix _ m n (Tensor.make_two data m n hmn t ht)
  · intro y hy
    simp only [Tensor.op_add] at hy
    split_ifs at hy
    rw [← Except.ok.inj hy]
    exact hinv _
  · intro y hy
    simp only [Tensor.op_sub] at hy
    split_ifs at hy
    rw [← Except.ok.inj hy]
    exact hinv _
  · intro y hy
    simp only [Tensor.op_mul] at hy
    split_ifs at hy
    rw [← Except.ok.inj hy]
    exact hinv _
  · exact hinv _
  · exact hinv _
  · intro y hy
    simp only [Tensor.op_div_scalar] at hy
    split_ifs at hy
    rw [← Except.ok.inj hy]
    exact hinv _
  · intro y hy
    by_cases hcr : c = r'
    · subst hcr
      obtain ⟨C, hC, hCm, -⟩ := Tensor.matmul_ok a b r c c' ha.1 hb.1
      rw [hC] at hy
      rw [← Except.ok.inj hy]
      exact Tensor.size_of_isMatrix _ _ _ hCm
    · exfalso
      have : a.cols ≠ b.rows := by
        rw [Tensor.cols_eq a r c ha.1, Tensor.rows_eq b r' c' hb.1]
        exact hcr
      simp [Tensor.matmul, this] at hy
  · intro y hy
    obtain ⟨u, hu, hum, -⟩ := Tensor.transpose_ok a r c ha.1
    rw [hu] at hy
    rw [← Except.ok.inj hy]
    exact Tensor.size_of_isMatrix _ _ _ hum
  · intro y hy
    by_cases h1 : axis = -1
    · subst h1
      rw [Tensor.sum_all_ok] at hy
      rw [← Except.ok.inj hy]
      exact Tensor.size_of_isMatrix _ 1 1 ⟨rfl, rfl⟩
    · by_cases h2 : axis = 0
      · subst h2
        obtain ⟨u, hu, hum, -⟩ := Tensor.sum_zero_ok a r c ha.1
        rw [hu] at hy
        rw [← Except.ok.inj hy]
        exact Tensor.size_of_isMatrix _ _ _ hum
      · by_cases h3 : axis = 1
        · subst h3
          obtain ⟨u, hu, hum, -⟩ := Tensor.sum_one_ok a r c ha.1
          rw [hu] at hy
          rw [← Except.ok.inj hy]
          exact Tensor.size_of_isMatrix _ _ _ hum
        · exfalso
          simp [Tensor.sum, h1, h2, h3] at hy
  · exact hinv _
  · exact hinv _
  · exact hinv _

/-- Witness of C28: the 2x3 and 3x2 tensors of `test_tensor_operations`. -/
theorem Tensor.invariant_spec_witness :
    (⟨[1, 2, 3, 4, 5, 6], [2, 3]⟩ : Tensor ℚ).IsMatrix 2 3 ∧
    (⟨[1, 2, 3, 4, 5, 6], [3, 2]⟩ : Tensor ℚ).IsMatrix 3 2 ∧
    (∀ y, (⟨[1, 2, 3, 4, 5, 6], [2, 3]⟩ : Tensor ℚ).matmul ⟨[1, 2, 3, 4, 5, 6], [3, 2]⟩ = .ok y →
      y.size = y.rows * y.cols) ∧
    (⟨[1, 2, 3, 4, 5, 6], [2, 3]⟩ : Tensor ℚ).matmul ⟨[1, 2, 3, 4, 5, 6], [3, 2]⟩
      = .ok ⟨[22, 28, 49, 64], [2, 2]⟩ :=
  ⟨by decide, by decide,
    (Tensor.invariant_spec (fun x => x) (fun x => x) _ _ 2 3 3 2 2 1 (by decide)
      (by decide)).2.2.2.2.2.2.2.2.2.1,
    by decide!⟩

end Construction

/-! ## Cross-entropy loss and the shape check of the losses -/

section CrossEntropy

variable {α : Type}

/-- `CrossEntropyLoss::compute_loss` on tensors of one shape with equally many
elements: the mean of `-t_i * log(q_i)`, `q_i` the clamped prediction. -/
theorem CrossEntropyLoss.ce_compute_loss_ok [Field α] [LT α]
    [DecidableRel (fun (a b : α) => a < b)] (log : α → α) (p t : Tensor α)
    (hs : p.shape = t.shape) (hl : t.data.length = p.data.length) :
    CrossEntropyLoss.compute_loss log p t = .ok ((∑ i in Finset.range p.data.length,
      -(t.data_at i * log (if p.data_at i < 1e-15 then 1e-15 else p.data_at i)))
        / (p.data.length : α)) := by
  have hsum := forRange_sum (fun i sum =>
      stmt sum (do
        let x ← p.op_index i
        let q := if x < 1e-15 then 1e-15 else x
        let y ← t.op_index i
        pure (sum - y * log q)))
    (fun i => -(t.data_at i * log (if p.data_at i < 1e-15 then 1e-15 else p.data_at i)))
    p.data.length
    (fun k s hk => by
      simp only [Tensor.op_index_ok p k hk, Tensor.op_index_ok t k (by omega), bind,
        Except.bind, pure, Except.pure, stmt, sub_eq_add_neg])
  simp only [CrossEntropyLoss.compute_loss, hs, ne_eq, not_true_eq_false, if_false, Tensor.size]
  rw [hsum]

/-- `CrossEntropyLoss::compute_gradient` on 2-D tensors of one shape. -/
theorem CrossEntropyLoss.ce_compute_gradient_ok [Field α] [LT α]
    [DecidableRel (fun (a b : α) => a < b)] (p t : Tensor α) (r c : Nat)
    (hp : p.IsMatrix r c) (ht : t.IsMatrix r c) :
    ∃ G, CrossEntropyLoss.compute_gradient p t = .ok G ∧ G.IsMatrix r c ∧
      ∀ i, i < r * c → G.op_index i =
        .ok (((if p.data_at i < 1e-15 then 1e-15 else p.data_at i) - t.data_at i)
          / ((if p.data_at i < 1e-15 then 1e-15 else p.data_at i) * ((r * c : Nat) : α))) := by
  obtain ⟨G, hG, hGm, hGe⟩ := backward_loop_ok p r c hp
    (fun i gradient =>
      stmt gradient (do
        let x ← p.op_index i
        let q := if x < 1e-15 then 1e-15 else x
        let y ← t.op_index i
        gradient.op_index_assign i ((q - y) / (q * (p.size : α)))))
    (fun i => ((if p.data_at i < 1e-15 then 1e-15 else p.data_at i) - t.data_at i)
          / ((if p.data_at i < 1e-15 then 1e-15 else p.data_at i) * ((r * c : Nat) : α)))
    (fun i G hi _ => by
      simp only [Tensor.op_index_ok p i (by rw [hp.2]; exact hi),
        Tensor.op_index_ok t i (by rw [ht.2]; exact hi), bind, Except.bind, Tensor.size, hp.2])
  refine ⟨G, ?_, hGm, hGe⟩
  simp only [CrossEntropyLoss.compute_gradient, hp.1, ht.1, ne_eq, not_true_eq_false, if_false]
  exact hG

/-- C29 as stated fails: the flat constructor accepts the data `{0.5, 0.5}`
and `{1, 0}` with the shape `{1, 1, 2}`; the shapes are equal and not empty,
but `MSELoss::compute_gradient` and `CrossEntropyLoss::compute_gradient` both
build `gradient(rows(), cols())`, a 1x1 tensor, and the checked `gradient[1]`
throws `out_of_range`. -/
theorem CrossEntropyLoss.loss_shape_check_counterexample :
    Tensor.make ([1 / 2, 1 / 2] : List ℚ) [1, 1, 2] = .ok ⟨[1 / 2, 1 / 2], [1, 1, 2]⟩ ∧
    Tensor.make ([1, 0] : List ℚ) [1, 1, 2] = .ok ⟨[1, 0], [1, 1, 2]⟩ ∧
    (⟨[1 / 2, 1 / 2], [1, 1, 2]⟩ : Tensor ℚ).shape = (⟨[1, 0], [1, 1, 2]⟩ : Tensor ℚ).shape ∧
    (⟨[1 / 2, 1 / 2], [1, 1, 2]⟩ : Tensor ℚ).shape ≠ [] ∧
    MSELoss.compute_gradient (⟨[1 / 2, 1 / 2], [1, 1, 2]⟩ : Tensor ℚ) ⟨[1, 0], [1, 1, 2]⟩
      = .error (.out_of_range "Index out of bounds") ∧
    CrossEntropyLoss.compute_gradient (⟨[1 / 2, 1 / 2], [1, 1, 2]⟩ : Tensor ℚ)
        ⟨[1, 0], [1, 1, 2]⟩
      = .error (.out_of_range "Index out of bounds") := by
  decide!

/-- C29, amended: for all tensors `p` and `t`, each of
`MSELoss::compute_loss`, `MSELoss::compute_gradient`,
`CrossEntropyLoss::compute_loss` and `CrossEntropyLoss::compute_gradient`
throws "Prediction and target shapes do not match" when the shape vectors of
`p` and `t` differ; and each returns when `p` and `t` have one two-entry shape
(r, c) and hold r*c >= 1 elements each. -/
theorem CrossEntropyLoss.loss_shape_check [Field α] [LT α]
    [DecidableRel (fun (a b : α) => a < b)] (log : α → α) (p t : Tensor α) :
    (p.shape ≠ t.shape →
      MSELoss.compute_loss p t
        = .error (.runtime_error "Prediction and target shapes do not match") ∧
      MSELoss.compute_gradient p t
        = .error (.runtime_error "Prediction and target shapes do not match") ∧
      CrossEntropyLoss.compute_loss log p t
        = .error (.runtime_error "Prediction and target shapes do not match") ∧
      CrossEntropyLoss.compute_gradient p t
        = .error (.runtime_error "Prediction and target shapes do not match")) ∧
    (∀ r c : Nat, p.IsMatrix r c → t.IsMatrix r c → 1 ≤ r * c →
      ∃ (v w : α) (G H : Tensor α),
        MSELoss.compute_loss p t = .ok v ∧ MSELoss.compute_gradient p t = .ok G ∧
        CrossEntropyLoss.compute_loss log p t = .ok w ∧
        CrossEntropyLoss.compute_gradient p t = .ok H ∧
        G.shape = p.shape ∧ H.shape = p.shape) := by
  constructor
  · intro h
    simp [MSELoss.compute_loss, MSELoss.compute_gradient, CrossEntropyLoss.compute_loss,
      CrossEntropyLoss.compute_gradient, h]
  · intro r c hp ht _
    obtain ⟨G, hG, hGm, -⟩ := MSELoss.compute_gradient_ok p t r c hp ht
    obtain ⟨H, hH, hHm, -⟩ := CrossEntropyLoss.ce_compute_gradient_ok p t r c hp ht
    exact ⟨_, _, G, H,
      MSELoss.compute_loss_ok p t (hp.1.trans ht.1.symm) (ht.2.trans hp.2.symm), hG,
      CrossEntropyLoss.ce_compute_loss_ok log p t (hp.1.trans ht.1.symm) (ht.2.trans hp.2.symm),
      hH, hGm.1.trans hp.1.symm, hHm.1.trans hp.1.symm⟩

/-- Witness of C29, amended: the 1x3 prediction and target of `test_loss_functions`,
and a 3x1 target against the same prediction. -/
theorem CrossEntropyLoss.loss_shape_check_witness :
    (⟨[7 / 10, 2 / 10, 1 / 10], [1, 3]⟩ : Tensor ℝ).IsMatrix 1 3 ∧
    (⟨[1, 0, 0], [1, 3]⟩ : Tensor ℝ).IsMatrix 1 3 ∧
    (∃ (v w : ℝ) (G H : Tensor ℝ),
      MSELoss.compute_loss ⟨[7 / 10, 2 / 10, 1 / 10], [1, 3]⟩ ⟨[1, 0, 0], [1, 3]⟩ = .ok v ∧
      MSELoss.compute_gradient ⟨[7 / 10, 2 / 10, 1 / 10], [1, 3]⟩ ⟨[1, 0, 0], [1, 3]⟩
        = .ok G ∧
      CrossEntropyLoss.compute_loss Real.log ⟨[7 / 10, 2 / 10, 1 / 10], [1, 3]⟩
        ⟨[1, 0, 0], [1, 3]⟩ = .ok w ∧
      CrossEntropyLoss.compute_gradient ⟨[7 / 10, 2 / 10, 1 / 10], [1, 3]⟩ ⟨[1, 0, 0], [1, 3]⟩
        = .ok H ∧
      G.shape = [1, 3] ∧ H.shape = [1, 3]) ∧
    CrossEntropyLoss.compute_loss Real.log ⟨[7 / 10, 2 / 10, 1 / 10], [1, 3]⟩
        ⟨[1, 0, 0], [3, 1]⟩
      = .error (.runtime_error "Prediction and target shapes do not match") :=
  ⟨by decide, by decide,
    (CrossEntropyLoss.loss_shape_check Real.log ⟨[7 / 10, 2 / 10, 1 / 10], [1, 3]⟩
      ⟨[1, 0, 0], [1, 3]⟩).2 1 3 (by decide) (by decide) (by decide),
    ((CrossEntropyLoss.loss_shape_check Real.log ⟨[7 / 10, 2 / 10, 1 / 10], [1, 3]⟩
      ⟨[1, 0, 0], [3, 1]⟩).1 (by decide)).2.2.1⟩

/-- C30 as stated fails: the flat constructor accepts the data
`{0.7, 0.2, 0.1}` and `{1, 0, 0}` with the shape `{1, 1, 3}`; the two tensors
have one shape and N = 3 elements, but `compute_gradient` builds
`gradient(rows(), cols())`, a 1x1 tensor, and the checked `gradient[1]` throws
`out_of_range`: no tensor of the shape of `p` is returned. -/
theorem CrossEntropyLoss.gradient_counterexample :
    Tensor.make ([7 / 10, 2 / 10, 1 / 10] : List ℚ) [1, 1, 3]
      = .ok ⟨[7 / 10, 2 / 10, 1 / 10], [1, 1, 3]⟩ ∧
    Tensor.make ([1, 0, 0] : List ℚ) [1, 1, 3] = .ok ⟨[1, 0, 0], [1, 1, 3]⟩ ∧
    (⟨[7 / 10, 2 / 10, 1 / 10], [1, 1, 3]⟩ : Tensor ℚ).shape
      = (⟨[1, 0, 0], [1, 1, 3]⟩ : Tensor ℚ).shape ∧
    (⟨[7 / 10, 2 / 10, 1 / 10], [1, 1, 3]⟩ : Tensor ℚ).size = 3 ∧
    CrossEntropyLoss.compute_gradient (⟨[7 / 10, 2 / 10, 1 / 10], [1, 1, 3]⟩ : Tensor ℚ)
        ⟨[1, 0, 0], [1, 1, 3]⟩
      = .error (.out_of_range "Index out of bounds") := by
  decide!

/-- C30, amended: for a prediction `p` and a target `t` of one two-entry shape
(r, c) that hold N = r*c >= 1 elements each,
`CrossEntropyLoss::compute_gradient(p, t)` has the shape of `p` and N
elements, element i being (q_i - t_i) / (q_i * N) with q_i = max(p_i, 1e-15);
q_i is positive and the divisor q_i * N is not zero, whatever the sign of
p_i. -/
theorem CrossEntropyLoss.gradient_spec [LinearOrderedField α] (p t : Tensor α) (r c : Nat)
    (hp : p.IsMatrix r c) (ht : t.IsMatrix r c) (hN : 1 ≤ r * c) :
    ∃ G, CrossEntropyLoss.compute_gradient p t = .ok G ∧ G.shape = p.shape ∧
      G.size = r * c ∧ G.size = p.size ∧
      ∀ i, i < r * c →
        G.op_index i = .ok ((max (p.data_at i) 1e-15 - t.data_at i)
          / (max (p.data_at i) 1e-15 * ((r * c : Nat) : α))) ∧
        0 < max (p.data_at i) 1e-15 ∧
        max (p.data_at i) 1e-15 * ((r * c : Nat) : α) ≠ 0 := by
  obtain ⟨G, hG, hGm, hGe⟩ := CrossEntropyLoss.ce_compute_gradient_ok p t r c hp ht
  have hmax : ∀ x : α, (if x < 1e-15 then 1e-15 else x) = max x 1e-15 := by
    intro x
    split_ifs with h
    · exact (max_eq_right (le_of_lt h)).symm
    · exact (max_eq_left (not_lt.mp h)).symm
  have heps : (0 : α) < 1e-15 := by norm_num
  have hNpos : (0 : α) < ((r * c : Nat) : α) := by exact_mod_cast hN
  refine ⟨G, hG, hGm.1.trans hp.1.symm, hGm.2, hGm.2.trans hp.2.symm, fun i hi => ?_⟩
  have hq : (0 : α) < max (p.data_at i) 1e-15 := lt_of_lt_of_le heps (le_max_right _ _)
  refine ⟨?_, hq, ne_of_gt (mul_pos hq hNpos)⟩
  rw [hGe i hi, hmax]

/-- Witness of C30, amended: the prediction [[0, -1, 0.7]] with non-positive elements
against the target [[1, 0, 0]]. -/
theorem CrossEntropyLoss.gradient_spec_witness :
    (⟨[0, -1, 7 / 10], [1, 3]⟩ : Tensor ℚ).IsMatrix 1 3 ∧
    (⟨[1, 0, 0], [1, 3]⟩ : Tensor ℚ).IsMatrix 1 3 ∧
    ∃ G, CrossEntropyLoss.compute_gradient (⟨[0, -1, 7 / 10], [1, 3]⟩ : Tensor ℚ)
        ⟨[1, 0, 0], [1, 3]⟩ = .ok G ∧
      G.shape = (⟨[0, -1, 7 / 10], [1, 3]⟩ : Tensor ℚ).shape ∧
      G.size = 1 * 3 ∧ G.size = (⟨[0, -1, 7 / 10], [1, 3]⟩ : Tensor ℚ).size ∧
      ∀ i, i < 1 * 3 →
        G.op_index i = .ok
          ((max ((⟨[0, -1, 7 / 10], [1, 3]⟩ : Tensor ℚ).data_at i) 1e-15
            - (⟨[1, 0, 0], [1, 3]⟩ : Tensor ℚ).data_at i)
          / (max ((⟨[0, -1, 7 / 10], [1, 3]⟩ : Tensor ℚ).data_at i) 1e-15
            * ((1 * 3 : Nat) : ℚ))) ∧
        0 < max ((⟨[0, -1, 7 / 10], [1, 3]⟩ : Tensor ℚ).data_at i) 1e-15 ∧
        max ((⟨[0, -1, 7 / 10], [1, 3]⟩ : Tensor ℚ).data_at i) 1e-15
          * ((1 * 3 : Nat) : ℚ) ≠ 0 :=
  ⟨by decide, by decide,
    CrossEntropyLoss.gradient_spec _ _ 1 3 (by decide) (by decide) (by decide)⟩

end CrossEntropy

/-! ## Parameter lists, update_parameters and failing backward -/

section LayerProtocol

variable {α : Type}

/-- A property that every round of a loop keeps, whether the round throws or
not, holds when the loop is left. -/
theorem forRange_pres {σ : Type} (body : Nat → σ → σ × Option Err) (I : σ → Prop)
    (h : ∀ i s, I s → I (body i s).1) :
    ∀ (n i : Nat) (s : σ), I s → I (forRange body n i s).1 := by
  intro n
  induction n with
  | zero => intro i s hs; exact hs
  | succ n ih =>
    intro i s hs
    have hb := h i s hs
    rcases hbs : body i s with ⟨s', o⟩
    rw [hbs] at hb
    cases o with
    | none =>
      simp only [forRange, hbs]
      exact ih (i + 1) s' hb
    | some e =>
      simp only [forRange, hbs]
      exact hb

theorem andThen_pres {σ : Type} (r : σ × Option Err) (next : σ → σ × Option Err)
    (I : σ → Prop) (hr : I r.1) (hn : ∀ s, I s → I (next s).1) : I (andThen r next).1 := by
  rcases r with ⟨s, o⟩
  cases o with
  | none => exact hn s hr
  | some e => exact hr

theorem stmt_pres {σ : Type} (old : σ) (r : Except Err σ) (I : σ → Prop) (ho : I old)
    (hr : ∀ s, r = .ok s → I s) : I (stmt old r).1 := by
  cases r with
  | ok s => exact hr s rfl
  | error e => exact ho

/-- A loop on a wrapped state that acts through the wrapper. -/
theorem forRange_map {σ τ : Type} (f : σ → τ) (b1 : Nat → σ → σ × Option Err)
    (b2 : Nat → τ → τ × Option Err)
    (h : ∀ i s, b2 i (f s) = (f (b1 i s).1, (b1 i s).2)) :
    ∀ (n i : Nat) (s : σ),
      forRange b2 n i (f s) = (f (forRange b1 n i s).1, (forRange b1 n i s).2) := by
  intro n
  induction n with
  | zero => intro i s; rfl
  | succ n ih =>
    intro i s
    have hb := h i s
    rcases hbs : b1 i s with ⟨s', o⟩
    rw [hbs] at hb
    cases o with
    | none =>
      simp only [forRange, hb, hbs]
      exact ih (i + 1) s'
    | some e =>
      simp only [forRange, hb, hbs]

/-- `Momentum::step` on a layer without parameters does nothing. -/
theorem Momentum.momentum_step_layer_other [Zero α] [Add α] [Sub α] [Mul α] (r m : α)
    (addr : Nat) (obj : Layer α) (vel : Nat → Option (List α))
    (h : ∀ l, obj ≠ Layer.linear l) :
    Momentum.step_layer r m ⟨addr, obj⟩ vel = ((⟨addr, obj⟩, vel), none) := by
  cases obj with
  | linear l => exact absurd rfl (h l)
  | sigmoid c => rfl
  | relu c => rfl
  | tanh c => rfl

/-- `zero_grad` on a layer without parameters does nothing. -/
theorem zero_grad_layer_other [Zero α] (obj : Layer α) (h : ∀ l, obj ≠ Layer.linear l) :
    zero_grad_layer obj = (obj, none) := by
  cases obj with
  | linear l => exact absurd rfl (h l)
  | sigmoid c => rfl
  | relu c => rfl
  | tanh c => rfl

/-- The layers after the three `zero_grad` functions: the layer loop. -/
theorem Optimizer.zero_grad_eq [Zero α] (opt : Optimizer α) (layers : List (LayerRef α)) :
    (opt.zero_grad layers).1 = (forEach (fun (r : LayerRef α) (u : Unit) =>
      match zero_grad_layer r.obj with
      | (obj, e) => (({ r with obj := obj }, u), e)) layers ()).1.1 := by
  cases opt <;>
    simp only [Optimizer.zero_grad, SGD.zero_grad, Momentum.zero_grad, Adam.zero_grad]

/-- The layers after `step`: the layer loop of the optimizer at hand. -/
theorem Optimizer.step_layers_rel [Field α] (sqrt : α → α) (R : LayerRef α → LayerRef α → Prop)
    (hrefl : ∀ x, R x x)
    (hsgd : ∀ (o : SGD α) (ref : LayerRef α),
      R ref { ref with obj := (o.step_layer ref.obj).1 })
    (hmom : ∀ (r m : α) (ref : LayerRef α) (vel : Nat → Option (List α)),
      R ref (Momentum.step_layer r m ref vel).1.1)
    (hadam : ∀ (b1 b2 eps lr : α) (t : Nat) (ref : LayerRef α)
      (P : Nat → Option (AdamParams α)), R ref (Adam.step_layer sqrt b1 b2 eps lr t ref P).1.1)
    (opt : Optimizer α) (layers : List (LayerRef α)) :
    List.Forall₂ R layers (opt.step sqrt layers).1.2 := by
  cases opt with
  | sgd o =>
    have := forEach_rel (fun (r : LayerRef α) (u : Unit) =>
      match o.step_layer r.obj with
      | (obj, e) => (({ r with obj := obj }, u), e)) R hrefl (fun x _ => hsgd o x) layers ()
    simpa only [Optimizer.step, SGD.step] using this
  | momentum o =>
    have := forEach_rel (Momentum.step_layer o.learning_rate_ o.momentum_) R hrefl
      (fun x s => hmom _ _ x s) layers o.velocities_
    simpa only [Optimizer.step, Momentum.step] using this
  | adam o =>
    have := forEach_rel (Adam.step_layer sqrt o.beta1_ o.beta2_ o.epsilon_
      (o.learning_rate_ * sqrt (1 - o.beta2_ ^ (o.timestep_ + 1)) /
        (1 - o.beta1_ ^ (o.timestep_ + 1))) (o.timestep_ + 1)) R hrefl
      (fun x s => hadam _ _ _ _ _ x s) layers o.params_
    simpa only [Optimizer.step, Adam.step] using this

/-- C31: `Linear::get_parameters()` is exactly `{&weights_, &bias_}` and
`Linear::get_gradients()` exactly `{&grad_weights_, &grad_bias_}`, in that
order and of equal length; `Sigmoid`, `ReLU` and `Tanh` return empty vectors;
and `step` and `zero_grad` of every optimizer, whether they return or throw,
leave every layer without parameters as it was. -/
theorem Layer.parameter_convention [Field α] (sqrt : α → α) :
    (∀ l : Linear α,
      (Layer.linear l).get_parameters = [Slot.weights_, Slot.bias_] ∧
      (Layer.linear l).get_gradients = [Slot.grad_weights_, Slot.grad_bias_] ∧
      (Layer.linear l).get_parameters.map (Layer.linear l).deref = [l.weights_, l.bias_] ∧
      (Layer.linear l).get_gradients.map (Layer.linear l).deref
        = [l.grad_weights_, l.grad_bias_] ∧
      (Layer.linear l).get_parameters.length = (Layer.linear l).get_gradients.length) ∧
    (∀ c : Tensor α,
      (Layer.sigmoid c).get_parameters = [] ∧ (Layer.sigmoid c).get_gradients = [] ∧
      (Layer.relu c).get_parameters = [] ∧ (Layer.relu c).get_gradients = [] ∧
      (Layer.tanh c).get_parameters = [] ∧ (Layer.tanh c).get_gradients = []) ∧
    (∀ (opt : Optimizer α) (layers : List (LayerRef α)),
      List.Forall₂ (fun ref ref' => (∀ l, ref.obj ≠ Layer.linear l) → ref' = ref)
        layers (opt.step sqrt layers).1.2 ∧
      List.Forall₂ (fun ref ref' => (∀ l, ref.obj ≠ Layer.linear l) → ref' = ref)
        layers (opt.zero_grad layers).1) := by
  refine ⟨fun l => ⟨rfl, rfl, rfl, rfl, rfl⟩, fun c => ⟨rfl, rfl, rfl, rfl, rfl, rfl⟩, ?_⟩
  intro opt layers
  constructor
  · apply Optimizer.step_layers_rel sqrt _ (fun x _ => rfl)
    · intro o ref h
      rw [SGD.sgd_step_layer_other o ref.obj h]
    · intro r m ref vel h
      rcases ref with ⟨addr, obj⟩
      rw [Momentum.momentum_step_layer_other r m addr obj vel h]
    · intro b1 b2 eps lr t ref P h
      rcases ref with ⟨addr, obj⟩
      rw [Adam.adam_step_layer_other sqrt b1 b2 eps lr t addr obj P h]
  · rw [Optimizer.zero_grad_eq]
    apply forEach_rel _ _ (fun x _ => rfl)
    intro ref _ h
    simp only [zero_grad_layer_other ref.obj h]

/-- The element loop of `SGD::step` on a parameter of a `Linear` object is the
loop of `Linear::update_parameters` on that member. -/
theorem Linear.update_loop_refines [Zero α] [Sub α] [Mul α] (r : α) (ps gs : Slot)
    (get_p get_g : Linear α → Tensor α) (set_p : Linear α → Tensor α → Linear α)
    (hp : ∀ s, (Layer.linear s).deref ps = get_p s)
    (hg : ∀ s, (Layer.linear s).deref gs = get_g s)
    (hs : ∀ s t, (Layer.linear s).store ps t = Layer.linear (set_p s t)) (n : Nat)
    (l : Linear α) :
    forRange (fun j layer =>
        stmt layer (do
          let g ← (layer.deref gs).op_index j
          let p ← (layer.deref ps).op_index j
          let t ← (layer.deref ps).op_index_assign j (p - r * g)
          pure (layer.store ps t))) n 0 (Layer.linear l)
      = (Layer.linear (forRange (fun j (s : Linear α) =>
          stmt s (do
            let g ← (get_g s).op_index j
            let p ← (get_p s).op_index j
            let t ← (get_p s).op_index_assign j (p - r * g)
            pure (set_p s t))) n 0 l).1,
        (forRange (fun j (s : Linear α) =>
          stmt s (do
            let g ← (get_g s).op_index j
            let p ← (get_p s).op_index j
            let t ← (get_p s).op_index_assign j (p - r * g)
            pure (set_p s t))) n 0 l).2) := by
  apply forRange_map Layer.linear
  intro j s
  simp only [hp, hg, hs, bind, Except.bind, pure, Except.pure]
  cases (get_g s).op_index j with
  | error e => rfl
  | ok g =>
    cases (get_p s).op_index j with
    | error e => rfl
    | ok p =>
      dsimp only
      cases (get_p s).op_index_assign j (p - r * g) with
      | error e => rfl
      | ok t => rfl

/-- `SGD(r).step` on one `Linear` object does what `update_parameters(r)`
does, whether it returns or throws. -/
theorem Linear.sgd_refines_update [Zero α] [Sub α] [Mul α] (l : Linear α) (r : α) :
    SGD.step_layer ⟨r⟩ (Layer.linear l)
      = (Layer.linear (l.update_parameters r).1, (l.update_parameters r).2) := by
  simp only [SGD.step_layer, Layer.get_parameters, Layer.get_gradients, List.length_cons,
    List.length_nil, ne_eq, not_true_eq_false, if_false]
  rw [show (0 + 1 + 1 : Nat) = 2 from rfl, forRange_two]
  simp only [List.get?]
  rw [Linear.update_loop_refines r Slot.weights_ Slot.grad_weights_ (fun s => s.weights_)
    (fun s => s.grad_weights_) (fun s t => { s with weights_ := t }) (fun _ => rfl)
    (fun _ => rfl) (fun _ _ => rfl)]
  unfold Linear.update_parameters
  rw [Layer.deref_weights]
  generalize forRange (fun j (s : Linear α) =>
      stmt s (do
        let g ← s.grad_weights_.op_index j
        let p ← s.weights_.op_index j
        let t ← s.weights_.op_index_assign j (p - r * g)
        pure { s with weights_ := t })) l.weights_.size 0 l = res
  rcases res with ⟨l1, o⟩
  cases o with
  | some e => rfl
  | none =>
    simp only [andThen]
    exact Linear.update_loop_refines r Slot.bias_ Slot.grad_bias_ (fun s => s.bias_)
      (fun s => s.grad_bias_) (fun s t => { s with bias_ := t }) (fun _ => rfl)
      (fun _ => rfl) (fun _ _ => rfl) _ l1

/-- C32: for a `Linear` layer whose gradients have the shapes of its
parameters and every rate r, `update_parameters(r)` returns and replaces each
weight element w_i by w_i - r*grad_weights_i and each bias element b_i by
b_i - r*grad_bias_i; the gradients and the cached input are what they were;
and `SGD(r).step` on that layer has the same effect (also without the
hypothesis, and also when it throws). -/
theorem Linear.update_parameters_spec [Zero α] [Sub α] [Mul α] (l : Linear α) (r : α)
    (addr : Nat) (h : (Layer.linear l).GradsConform) :
    l.update_parameters r = ({ l with
        weights_ := { l.weights_ with
          data := List.zipWith (fun p g => p - r * g) l.weights_.data l.grad_weights_.data },
        bias_ := { l.bias_ with
          data := List.zipWith (fun p g => p - r * g) l.bias_.data l.grad_bias_.data } },
      none) ∧
    (l.update_parameters r).1.grad_weights_ = l.grad_weights_ ∧
    (l.update_parameters r).1.grad_bias_ = l.grad_bias_ ∧
    (l.update_parameters r).1.input_cache_ = l.input_cache_ ∧
    (∀ i, i < l.weights_.size →
      (l.update_parameters r).1.weights_.op_index i
        = .ok (l.weights_.data_at i - r * l.grad_weights_.data_at i)) ∧
    (∀ i, i < l.bias_.size →
      (l.update_parameters r).1.bias_.op_index i
        = .ok (l.bias_.data_at i - r * l.grad_bias_.data_at i)) ∧
    SGD.step (⟨r⟩ : SGD α) [⟨addr, Layer.linear l⟩]
      = ([⟨addr, Layer.linear (l.update_parameters r).1⟩], (l.update_parameters r).2) ∧
    ∀ l' : Linear α, SGD.step (⟨r⟩ : SGD α) [⟨addr, Layer.linear l'⟩]
      = ([⟨addr, Layer.linear (l'.update_parameters r).1⟩], (l'.update_parameters r).2) := by
  have hsgd := SGD.sgd_step_layer_linear ⟨r⟩ l h
  rw [Linear.sgd_refines_update] at hsgd
  have h1 : (l.update_parameters r).1 = { l with
        weights_ := { l.weights_ with
          data := List.zipWith (fun p g => p - r * g) l.weights_.data l.grad_weights_.data },
        bias_ := { l.bias_ with
          data := List.zipWith (fun p g => p - r * g) l.bias_.data l.grad_bias_.data } } :=
    Layer.linear.inj (congrArg Prod.fst hsgd)
  have h2 : (l.update_parameters r).2 = none := congrArg Prod.snd hsgd
  have hstep : ∀ l' : Linear α, SGD.step (⟨r⟩ : SGD α) [⟨addr, Layer.linear l'⟩]
      = ([⟨addr, Layer.linear (l'.update_parameters r).1⟩], (l'.update_parameters r).2) := by
    intro l'
    simp only [SGD.step, forEach, Linear.sgd_refines_update]
    cases (l'.update_parameters r).2 <;> rfl
  obtain ⟨hgws, hgwl, hgbs, hgbl⟩ := h
  refine ⟨Prod.ext h1 h2, by rw [h1], by rw [h1], by rw [h1], ?_, ?_, hstep l, hstep⟩
  · intro i hi
    rw [h1]
    have hi2 : i < l.grad_weights_.data.length := by rw [← Tensor.size, hgwl]; exact hi
    rw [Tensor.op_index_ok _ i (by
      show i < (List.zipWith _ l.weights_.data l.grad_weights_.data).length
      rw [List.length_zipWith]
      exact lt_min hi hi2)]
    simp only [Tensor.data_at, List.getD_eq_getElem?_getD, List.getElem?_zipWith]
    rw [List.getElem?_eq_getElem hi, List.getElem?_eq_getElem hi2]
    rfl
  · intro i hi
    rw [h1]
    have hi2 : i < l.grad_bias_.data.length := by rw [← Tensor.size, hgbl]; exact hi
    rw [Tensor.op_index_ok _ i (by
      show i < (List.zipWith _ l.bias_.data l.grad_bias_.data).length
      rw [List.length_zipWith]
      exact lt_min hi hi2)]
    simp only [Tensor.data_at, List.getD_eq_getElem?_getD, List.getElem?_zipWith]
    rw [List.getElem?_eq_getElem hi, List.getElem?_eq_getElem hi2]
    rfl

/-- Witness of C32: rate 0.1 on a `Linear(2,1)` layer. -/
theorem Linear.update_parameters_spec_witness :
    (Layer.linear (⟨⟨[1, 2], [1, 2]⟩, ⟨[3], [1, 1]⟩, ⟨[5, 6], [2, 1]⟩, ⟨[10, 20], [1, 2]⟩,
      ⟨[30], [1, 1]⟩⟩ : Linear ℚ)).GradsConform ∧
    (⟨⟨[1, 2], [1, 2]⟩, ⟨[3], [1, 1]⟩, ⟨[5, 6], [2, 1]⟩, ⟨[10, 20], [1, 2]⟩,
      ⟨[30], [1, 1]⟩⟩ : Linear ℚ).update_parameters (1 / 10)
      = (⟨⟨[0, 0], [1, 2]⟩, ⟨[0], [1, 1]⟩, ⟨[5, 6], [2, 1]⟩, ⟨[10, 20], [1, 2]⟩,
        ⟨[30], [1, 1]⟩⟩, none) ∧
    SGD.step (⟨1 / 10⟩ : SGD ℚ) [⟨0, Layer.linear ⟨⟨[1, 2], [1, 2]⟩, ⟨[3], [1, 1]⟩,
        ⟨[5, 6], [2, 1]⟩, ⟨[10, 20], [1, 2]⟩, ⟨[30], [1, 1]⟩⟩⟩]
      = ([⟨0, Layer.linear ((⟨⟨[1, 2], [1, 2]⟩, ⟨[3], [1, 1]⟩, ⟨[5, 6], [2, 1]⟩,
          ⟨[10, 20], [1, 2]⟩, ⟨[30], [1, 1]⟩⟩ : Linear ℚ).update_parameters (1 / 10)).1⟩],
        ((⟨⟨[1, 2], [1, 2]⟩, ⟨[3], [1, 1]⟩, ⟨[5, 6], [2, 1]⟩, ⟨[10, 20], [1, 2]⟩,
          ⟨[30], [1, 1]⟩⟩ : Linear ℚ).update_parameters (1 / 10)).2) :=
  ⟨by decide, by decide!,
    (Linear.update_parameters_spec _ (1 / 10) 0 (by decide)).2.2.2.2.2.2.1⟩

/-- C37 as stated fails: a `Linear(2,1)` layer with cached input `[[1],[1]]`
and a gradient of shape (2, 1) instead of (1, 1): the first product and the row
sums succeed and are stored, then `weights_.transpose().matmul(grad_output)`
throws the dimension error, and `grad_weights_` and `grad_bias_` are not what
they were. -/
theorem Linear.backward_partial_effect :
    (⟨⟨[1, 2], [1, 2]⟩, ⟨[0], [1, 1]⟩, ⟨[1, 1], [2, 1]⟩, ⟨[0, 0], [1, 2]⟩, ⟨[0], [1, 1]⟩⟩ :
      Linear Int).backward ⟨[1, 1], [2, 1]⟩
      = (⟨⟨[1, 2], [1, 2]⟩, ⟨[0], [1, 1]⟩, ⟨[1, 1], [2, 1]⟩, ⟨[1, 1, 1, 1], [2, 2]⟩,
          ⟨[1, 1], [2, 1]⟩⟩,
        .error (.runtime_error "Matrix dimensions do not match for multiplication")) ∧
    ((⟨⟨[1, 2], [1, 2]⟩, ⟨[0], [1, 1]⟩, ⟨[1, 1], [2, 1]⟩, ⟨[0, 0], [1, 2]⟩, ⟨[0], [1, 1]⟩⟩ :
      Linear Int).backward ⟨[1, 1], [2, 1]⟩).1.grad_weights_ ≠ ⟨[0, 0], [1, 2]⟩ ∧
    ((⟨⟨[1, 2], [1, 2]⟩, ⟨[0], [1, 1]⟩, ⟨[1, 1], [2, 1]⟩, ⟨[0, 0], [1, 2]⟩, ⟨[0], [1, 1]⟩⟩ :
      Linear Int).backward ⟨[1, 1], [2, 1]⟩).1.grad_bias_ ≠ ⟨[0], [1, 1]⟩ := by
  decide

/-- C37, amended: a failing `Linear::backward` leaves the weights, the bias
and the cached input as they were.  The stored gradients are what they were
only when the first product `grad_output.matmul(input_cache_.transpose())` is
what threw; when `grad_output.sum(1)` throws, `grad_weights_` holds the new
product, and when the last product `weights_.transpose().matmul(grad_output)`
throws, `grad_weights_` and `grad_bias_` both hold their new values. -/
theorem Linear.backward_failure [Zero α] [Add α] [Mul α] (l : Linear α) (g : Tensor α)
    (e : Err) (h : (l.backward g).2 = .error e) :
    (l.backward g).1.weights_ = l.weights_ ∧ (l.backward g).1.bias_ = l.bias_ ∧
    (l.backward g).1.input_cache_ = l.input_cache_ ∧
    (((do
        let xt ← l.input_cache_.transpose
        g.matmul xt) = .error e ∧ (l.backward g).1 = l) ∨
      (∃ gw, (do
          let xt ← l.input_cache_.transpose
          g.matmul xt) = .ok gw ∧ g.sum 1 = .error e ∧
        (l.backward g).1 = { l with grad_weights_ := gw }) ∨
      (∃ gw gb, (do
          let xt ← l.input_cache_.transpose
          g.matmul xt) = .ok gw ∧ g.sum 1 = .ok gb ∧
        (do
          let wt ← l.weights_.transpose
          wt.matmul g) = .error e ∧
        (l.backward g).1 = { l with grad_weights_ := gw, grad_bias_ := gb })) := by
  cases h1 : (do
      let xt ← l.input_cache_.transpose
      g.matmul xt) with
  | error e1 =>
    have hres : l.backward g = (l, .error e1) := by
      simp only [Linear.backward, h1]
    rw [hres] at h ⊢
    exact ⟨rfl, rfl, rfl, Or.inl ⟨h, rfl⟩⟩
  | ok gw =>
    cases h2 : g.sum 1 with
    | error e2 =>
      have hres : l.backward g = ({ l with grad_weights_ := gw }, .error e2) := by
        simp only [Linear.backward, h1, h2]
      rw [hres] at h ⊢
      exact ⟨rfl, rfl, rfl, Or.inr (Or.inl ⟨gw, rfl, h, rfl⟩)⟩
    | ok gb =>
      have hres : l.backward g = ({ l with grad_weights_ := gw, grad_bias_ := gb }, (do
          let wt ← l.weights_.transpose
          wt.matmul g)) := by
        simp only [Linear.backward, h1, h2]
      rw [hres] at h ⊢
      exact ⟨rfl, rfl, rfl, Or.inr (Or.inr ⟨gw, gb, rfl, rfl, h, rfl⟩)⟩

/-- Witness of C37: the failing call of the counterexample, in which the last
product is what throws. -/
theorem Linear.backward_failure_witness :
    ((⟨⟨[1, 2], [1, 2]⟩, ⟨[0], [1, 1]⟩, ⟨[1, 1], [2, 1]⟩, ⟨[0, 0], [1, 2]⟩, ⟨[0], [1, 1]⟩⟩ :
      Linear Int).backward ⟨[1, 1], [2, 1]⟩).2
      = .error (.runtime_error "Matrix dimensions do not match for multiplication") ∧
    ((⟨⟨[1, 2], [1, 2]⟩, ⟨[0], [1, 1]⟩, ⟨[1, 1], [2, 1]⟩, ⟨[0, 0], [1, 2]⟩, ⟨[0], [1, 1]⟩⟩ :
      Linear Int).backward ⟨[1, 1], [2, 1]⟩).1.weights_ = ⟨[1, 2], [1, 2]⟩ :=
  ⟨by decide,
    (Linear.backward_failure _ _
      (.runtime_error "Matrix dimensions do not match for multiplication") (by decide)).1⟩

end LayerProtocol

/-! ## DataLoader batching -/

section Batching

variable {α : Type}

/-- The copy loop of `DataLoader::get_next`. -/
theorem DataLoader.copy_loop_ok (D L : List (Tensor α)) :
    ∀ (n start : Nat) (acc : DataLoader.Batch α), start + n ≤ D.length → start + n ≤ L.length →
      forRange (fun i (batch : DataLoader.Batch α) =>
        ((⟨batch.data ++ [D.getD i ⟨[], []⟩], batch.labels ++ [L.getD i ⟨[], []⟩]⟩ :
          DataLoader.Batch α), none)) n start acc
      = (⟨acc.data ++ (D.drop start).take n, acc.labels ++ (L.drop start).take n⟩, none) := by
  intro n
  induction n with
  | zero => intro start acc _ _; simp [forRange]
  | succ n ih =>
    intro start acc hD hL
    have h1 : start < D.length := by omega
    have h2 : start < L.length := by omega
    simp only [forRange]
    rw [ih (start + 1) _ (by omega) (by omega)]
    rw [List.drop_eq_getElem_cons h1, List.drop_eq_getElem_cons h2, List.take_succ_cons,
      List.take_succ_cons, List.getD_eq_getElem _ _ h1, List.getD_eq_getElem _ _ h2]
    simp

/-- One call of `get_next` while `has_next` holds. -/
theorem DataLoader.get_next_ok (dl : DataLoader α) (hl : dl.labels_.length = dl.data_.length)
    (h : dl.current_index_ < dl.data_.length) :
    dl.has_next = true ∧
    dl.get_next = ({ dl with
        current_index_ := min (dl.current_index_ + dl.batch_size_) dl.data_.length },
      .ok ⟨(dl.data_.drop dl.current_index_).take
          (min (dl.current_index_ + dl.batch_size_) dl.data_.length - dl.current_index_),
        (dl.labels_.drop dl.current_index_).take
          (min (dl.current_index_ + dl.batch_size_) dl.data_.length - dl.current_index_)⟩) := by
  have hn : dl.has_next = true := by simp [DataLoader.has_next, h]
  refine ⟨hn, ?_⟩
  simp only [DataLoader.get_next, hn, Bool.not_true, Bool.false_eq_true, if_false]
  rw [DataLoader.copy_loop_ok dl.data_ dl.labels_ _ _ _ (by omega) (by omega)]
  simp

/-- One call of `get_next` once `has_next` is false. -/
theorem DataLoader.get_next_end (dl : DataLoader α)
    (h : dl.data_.length ≤ dl.current_index_) :
    dl.has_next = false ∧
    dl.get_next = (dl, .error (.runtime_error "No more data to load")) := by
  have hn : dl.has_next = false := by simp [DataLoader.has_next, h]
  exact ⟨hn, by simp [DataLoader.get_next, hn]⟩

/-- The loader after `k` calls of `get_next`. -/
theorem DataLoader.iterate_get_next (data labels : List (Tensor α)) (b : Nat)
    (hl : labels.length = data.length) :
    ∀ k, (fun (d : DataLoader α) => d.get_next.1)^[k] ⟨data, labels, b, 0⟩
      = ⟨data, labels, b, min (k * b) data.length⟩ := by
  intro k
  induction k with
  | zero => simp
  | succ k ih =>
    rw [Function.iterate_succ_apply', ih]
    by_cases h : k * b < data.length
    · have := (DataLoader.get_next_ok (⟨data, labels, b, min (k * b) data.length⟩ :
        DataLoader α) hl (by simp [h])).2
      rw [this]
      simp only [DataLoader.mk.injEq, true_and]
      rw [Nat.succ_mul]
      omega
    · have := (DataLoader.get_next_end (⟨data, labels, b, min (k * b) data.length⟩ :
        DataLoader α) (by simp; omega)).2
      rw [this]
      simp only [DataLoader.mk.injEq, true_and]
      rw [Nat.succ_mul]
      omega

/-- Consecutive slices of length `b` that cover a list give the list back. -/
theorem flatMap_slices {β : Type} (b : Nat) :
    ∀ (n : Nat) (l : List β), l.length ≤ n * b →
      (List.range n).flatMap (fun k => (l.drop (k * b)).take b) = l := by
  intro n
  induction n with
  | zero => intro l h; simp at h; simp [h]
  | succ n ih =>
    intro l h
    rw [List.range_succ_eq_map, List.flatMap_cons, List.flatMap_map]
    have hd : ∀ k, (l.drop ((k + 1) * b)).take b = ((l.drop b).drop (k * b)).take b := by
      intro k
      rw [List.drop_drop, Nat.succ_mul, Nat.add_comm]
    simp only [Function.comp, Nat.succ_eq_add_one, hd, Nat.zero_mul, List.drop_zero]
    rw [ih (l.drop b) (by rw [List.length_drop, Nat.succ_mul] at *; omega)]
    exact List.take_append_drop b l

/-- The number of batches: `k` is below ceil(N/b) exactly when `k*b < N`. -/
theorem lt_ceil_div (N b k : Nat) (hb : 1 ≤ b) : k < (N + b - 1) / b ↔ k * b < N := by
  rw [Nat.lt_iff_add_one_le, Nat.le_div_iff_mul_le (by omega), Nat.succ_mul]
  omega

/-- C34: for data and labels of N samples and a batch size b >= 1, `get_next`
returns a batch on each of the first ceil(N/b) calls, during which `has_next`
is true; after them `has_next` is false and `get_next` throws and changes
nothing.  Batch k holds the samples from position k*b on, b of them for every
batch but the last and N - b*(ceil(N/b) - 1) for the last; the batches laid end
to end are the data and the labels in their original order. -/
theorem DataLoader.batches_spec (data labels : List (Tensor α)) (b : Nat) (hb : 1 ≤ b)
    (hl : data.length = labels.length) :
    DataLoader.make data labels b = .ok ⟨data, labels, b, 0⟩ ∧
    (∀ k, k < (data.length + b - 1) / b →
      ((fun (d : DataLoader α) => d.get_next.1)^[k] ⟨data, labels, b, 0⟩).has_next = true ∧
      ((fun (d : DataLoader α) => d.get_next.1)^[k] ⟨data, labels, b, 0⟩).get_next.2
        = .ok ⟨(data.drop (k * b)).take b, (labels.drop (k * b)).take b⟩) ∧
    (∀ k, (data.length + b - 1) / b ≤ k →
      ((fun (d : DataLoader α) => d.get_next.1)^[k] ⟨data, labels, b, 0⟩).has_next = false ∧
      ((fun (d : DataLoader α) => d.get_next.1)^[k] ⟨data, labels, b, 0⟩).get_next
        = ((fun (d : DataLoader α) => d.get_next.1)^[k] ⟨data, labels, b, 0⟩,
          .error (.runtime_error "No more data to load"))) ∧
    (∀ k, k + 1 < (data.length + b - 1) / b →
      ((data.drop (k * b)).take b).length = b ∧ ((labels.drop (k * b)).take b).length = b) ∧
    (0 < (data.length + b - 1) / b →
      ((data.drop (((data.length + b - 1) / b - 1) * b)).take b).length
        = data.length - b * ((data.length + b - 1) / b - 1) ∧
      ((labels.drop (((data.length + b - 1) / b - 1) * b)).take b).length
        = data.length - b * ((data.length + b - 1) / b - 1)) ∧
    (List.range ((data.length + b - 1) / b)).flatMap (fun k => (data.drop (k * b)).take b)
      = data ∧
    (List.range ((data.length + b - 1) / b)).flatMap (fun k => (labels.drop (k * b)).take b)
      = labels := by
  have hit := DataLoader.iterate_get_next data labels b hl.symm
  have hceil : data.length ≤ (data.length + b - 1) / b * b := by
    by_contra hcon
    have := (lt_ceil_div data.length b ((data.length + b - 1) / b) hb).mpr (by omega)
    omega
  refine ⟨?_, ?_, ?_, ?_, ?_, ?_, ?_⟩
  · simp [DataLoader.make, hl]
  · intro k hk
    have hkb := (lt_ceil_div data.length b k hb).mp hk
    rw [hit k]
    have := DataLoader.get_next_ok (⟨data, labels, b, min (k * b) data.length⟩ :
      DataLoader α) hl.symm (by simp [hkb])
    refine ⟨this.1, ?_⟩
    rw [this.2]
    simp only [Nat.min_eq_left (Nat.le_of_lt hkb)]
    have e : min (k * b + b) data.length - k * b = min b (data.length - k * b) := by omega
    rw [e]
    congr 2
    · rw [List.take_eq_take, List.length_drop]
      omega
    · rw [List.take_eq_take, List.length_drop, ← hl]
      omega
  · intro k hk
    have hkb : ¬ k * b < data.length := fun h =>
      absurd ((lt_ceil_div data.length b k hb).mpr h) (by omega)
    rw [hit k]
    exact DataLoader.get_next_end _ (by simp; omega)
  · intro k hk
    have hkb := (lt_ceil_div data.length b (k + 1) hb).mp hk
    rw [Nat.succ_mul] at hkb
    rw [List.length_take, List.length_take, List.length_drop, List.length_drop, ← hl]
    omega
  · intro hpos
    have hlast := (lt_ceil_div data.length b ((data.length + b - 1) / b - 1) hb).mp (by omega)
    rw [List.length_take, List.length_take, List.length_drop, List.length_drop, ← hl]
    generalize (data.length + b - 1) / b = nb at *
    have e1 : nb * b = (nb - 1) * b + b := by
      conv_lhs => rw [show nb = nb - 1 + 1 from by omega, Nat.succ_mul]
    have e2 : b * (nb - 1) = (nb - 1) * b := Nat.mul_comm _ _
    omega
  · exact flatMap_slices b _ data hceil
  · exact flatMap_slices b _ labels (by rw [← hl]; exact hceil)

/-- Witness of C34: ten samples and batch size 3 give four batches, the last
of one sample. -/
theorem DataLoader.batches_spec_witness :
    (10 + 3 - 1) / 3 = 4 ∧ 10 - 3 * ((10 + 3 - 1) / 3 - 1) = 1 ∧
    ((List.range 10).map (fun i => (⟨[(i : Int)], [1, 1]⟩ : Tensor Int))).length = 10 ∧
    ((fun (d : DataLoader Int) => d.get_next.1)^[3]
      ⟨(List.range 10).map (fun i => (⟨[(i : Int)], [1, 1]⟩ : Tensor Int)),
        (List.range 10).map (fun i => (⟨[(i : Int)], [1, 1]⟩ : Tensor Int)), 3, 0⟩).get_next.2
      = .ok ⟨[⟨[9], [1, 1]⟩], [⟨[9], [1, 1]⟩]⟩ ∧
    (List.range ((((List.range 10).map
        (fun i => (⟨[(i : Int)], [1, 1]⟩ : Tensor Int))).length + 3 - 1) / 3)).flatMap
      (fun k => (((List.range 10).map
        (fun i => (⟨[(i : Int)], [1, 1]⟩ : Tensor Int))).drop (k * 3)).take 3)
      = (List.range 10).map (fun i => (⟨[(i : Int)], [1, 1]⟩ : Tensor Int)) :=
  ⟨by decide, by decide, by decide, by decide,
    (DataLoader.batches_spec
      ((List.range 10).map (fun i => (⟨[(i : Int)], [1, 1]⟩ : Tensor Int)))
      ((List.range 10).map (fun i => (⟨[(i : Int)], [1, 1]⟩ : Tensor Int))) 3
      (by decide) rfl).2.2.2.2.2.1⟩

end Batching

/-! ## Backward overwrites the stored gradients -/

section Overwriting

variable {α : Type}

/-- Two layer loops on lists related element by element by `R`, with a body
that respects `R`: the same exception, the same shared state, results related
by `R`, and by `R'` when the loop completes. -/
theorem forEach_sim {β σ : Type} (body : β → σ → (β × σ) × Option Err) (R R' : β → β → Prop)
    (h : ∀ x y s, R x y →
      (body y s).2 = (body x s).2 ∧ (body y s).1.2 = (body x s).1.2 ∧
      R (body x s).1.1 (body y s).1.1 ∧
      ((body x s).2 = none → R' (body x s).1.1 (body y s).1.1)) :
    ∀ (xs ys : List β) (s : σ), List.Forall₂ R xs ys →
      (forEach body ys s).2 = (forEach body xs s).2 ∧
      (forEach body ys s).1.2 = (forEach body xs s).1.2 ∧
      List.Forall₂ R (forEach body xs s).1.1 (forEach body ys s).1.1 ∧
      ((forEach body xs s).2 = none →
        List.Forall₂ R' (forEach body xs s).1.1 (forEach body ys s).1.1) := by
  intro xs ys s hxy
  induction hxy generalizing s with
  | nil => exact ⟨rfl, rfl, List.Forall₂.nil, fun _ => List.Forall₂.nil⟩
  | @cons x y xs ys hR hrest ih =>
    obtain ⟨h1, h2, h3, h4⟩ := h x y s hR
    rcases hbx : body x s with ⟨⟨x', s'⟩, o⟩
    rcases hby : body y s with ⟨⟨y', t'⟩, o'⟩
    rw [hbx, hby] at h1 h2 h3 h4
    simp only at h1 h2 h3 h4
    subst h1
    subst h2
    cases o' with
    | some e =>
      simp only [forEach, hbx, hby]
      exact ⟨trivial, trivial, List.Forall₂.cons h3 hrest, fun hn => by cases hn⟩
    | none =>
      obtain ⟨i1, i2, i3, i4⟩ := ih t'
      simp only [forEach, hbx, hby]
      rcases hfx : forEach body xs t' with ⟨⟨xs', s2⟩, e2⟩
      rcases hfy : forEach body ys t' with ⟨⟨ys', t2⟩, e3⟩
      rw [hfx, hfy] at i1 i2 i3 i4
      simp only at i1 i2 i3 i4 ⊢
      exact ⟨i1, i2, List.Forall₂.cons h3 i3, fun hn => List.Forall₂.cons (h4 rfl) (i4 hn)⟩

/-- `Linear::forward` reads the weights and the bias only. -/
theorem Linear.forward_congr [Zero α] [Add α] [Mul α] (l l' : Linear α) (x : Tensor α)
    (hw : l'.weights_ = l.weights_) (hb : l'.bias_ = l.bias_) :
    (l'.forward x).2 = (l.forward x).2 := by
  rcases l with ⟨w, b, c, gw, gb⟩
  rcases l' with ⟨w', b', c', gw', gb'⟩
  simp only at hw hb
  subst hw
  subst hb
  simp only [Linear.forward]
  cases w'.matmul x <;> rfl

/-- `Linear::backward` reads the weights and the cached input only, and what
it stores does not depend on the gradients stored before. -/
theorem Linear.backward_congr [Zero α] [Add α] [Mul α] (l l' : Linear α) (g : Tensor α)
    (hw : l'.weights_ = l.weights_) (hb : l'.bias_ = l.bias_)
    (hc : l'.input_cache_ = l.input_cache_) :
    (l'.backward g).2 = (l.backward g).2 ∧
    (l'.backward g).1.weights_ = (l.backward g).1.weights_ ∧
    (l'.backward g).1.bias_ = (l.backward g).1.bias_ ∧
    (l'.backward g).1.input_cache_ = (l.backward g).1.input_cache_ ∧
    (∀ gi, (l.backward g).2 = .ok gi → (l'.backward g).1 = (l.backward g).1) := by
  rcases l with ⟨w, b, c, gw, gb⟩
  rcases l' with ⟨w', b', c', gw', gb'⟩
  simp only at hw hb hc
  subst hw
  subst hb
  subst hc
  simp only [Linear.backward]
  cases (do
      let xt ← c'.transpose
      g.matmul xt) with
  | error e => exact ⟨rfl, rfl, rfl, rfl, fun gi h => by cases h⟩
  | ok gw2 =>
    dsimp only
    cases g.sum 1 with
    | error e => exact ⟨rfl, rfl, rfl, rfl, fun gi h => by cases h⟩
    | ok gb2 => exact ⟨rfl, rfl, rfl, rfl, fun _ _ => rfl⟩

/-- `forward` of any layer class on two states that agree up to the stored
gradients. -/
theorem Layer.forward_agree [Field α] [LT α] [DecidableRel (fun (a b : α) => a < b)]
    (exp tanh : α → α) (o o' : Layer α) (x : Tensor α) (h : o.AgreeUpToGradients o') :
    (o'.forward exp tanh x).2 = (o.forward exp tanh x).2 ∧
    (o.forward exp tanh x).1.AgreeUpToGradients (o'.forward exp tanh x).1 := by
  cases o <;> cases o' <;> try (exact False.elim h)
  · rename_i l l'
    obtain ⟨hw, hb, hc⟩ := h
    refine ⟨?_, ?_⟩
    · simp only [Layer.forward]
      exact Linear.forward_congr l l' x hw hb
    · simp only [Layer.forward, Linear.forward_fst]
      exact ⟨hw, hb, rfl⟩
  · exact ⟨rfl, rfl⟩
  · exact ⟨rfl, rfl⟩
  · exact ⟨rfl, rfl⟩

/-- `backward` of any layer class on two states that agree up to the stored
gradients: the same outcome, and the same state after a call that returns. -/
theorem Layer.backward_agree [Field α] [LT α] [DecidableRel (fun (a b : α) => a < b)]
    (o o' : Layer α) (g : Tensor α) (h : o.AgreeUpToGradients o') :
    (o'.backward g).2 = (o.backward g).2 ∧
    (o.backward g).1.AgreeUpToGradients (o'.backward g).1 ∧
    (∀ gi, (o.backward g).2 = .ok gi → (o'.backward g).1 = (o.backward g).1) := by
  cases o <;> cases o' <;> try (exact False.elim h)
  · rename_i l l'
    obtain ⟨hw, hb, hc⟩ := h
    obtain ⟨h1, h2, h3, h4, h5⟩ := Linear.backward_congr l l' g hw hb hc
    refine ⟨?_, ?_, ?_⟩
    · simp only [Layer.backward]
      exact h1
    · simp only [Layer.backward]
      exact ⟨h2, h3, h4⟩
    · intro gi hgi
      simp only [Layer.backward] at hgi ⊢
      rw [h5 gi hgi]
  · have : _ = _ := h
    subst this
    exact ⟨rfl, rfl, fun _ _ => rfl⟩
  · have : _ = _ := h
    subst this
    exact ⟨rfl, rfl, fun _ _ => rfl⟩
  · have : _ = _ := h
    subst this
    exact ⟨rfl, rfl, fun _ _ => rfl⟩

/-- A store through a gradient pointer keeps the state up to the stored
gradients. -/
theorem Layer.store_grad_agree (o s : Layer α) (gs : Slot) (t : Tensor α)
    (hgs : gs = Slot.grad_weights_ ∨ gs = Slot.grad_bias_) (h : o.AgreeUpToGradients s) :
    o.AgreeUpToGradients (s.store gs t) := by
  cases o <;> cases s <;> try (exact False.elim h)
  · rcases hgs with rfl | rfl <;> exact h
  · rcases hgs with rfl | rfl <;> exact h
  · rcases hgs with rfl | rfl <;> exact h
  · rcases hgs with rfl | rfl <;> exact h

theorem Layer.agree_refl (o : Layer α) : o.AgreeUpToGradients o := by
  cases o
  · exact ⟨rfl, rfl, rfl⟩
  · rfl
  · rfl
  · rfl

/-- `zero_grad` changes nothing of a layer but its stored gradients. -/
theorem zero_grad_layer_agree [Zero α] (o : Layer α) :
    o.AgreeUpToGradients (zero_grad_layer o).1 := by
  cases o with
  | linear l =>
    unfold zero_grad_layer
    apply forRange_pres _ (fun s => (Layer.linear l).AgreeUpToGradients s) _ _ _ _
      (Layer.agree_refl _)
    intro k s hs
    have hk : (Layer.linear l).get_gradients.get? k = some Slot.grad_weights_ ∨
        (Layer.linear l).get_gradients.get? k = some Slot.grad_bias_ ∨
        (Layer.linear l).get_gradients.get? k = none := by
      match k with
      | 0 => exact Or.inl rfl
      | 1 => exact Or.inr (Or.inl rfl)
      | k + 2 => exact Or.inr (Or.inr rfl)
    rcases hk with hk | hk | hk
    · simp only [hk]
      apply forRange_pres _ (fun s => (Layer.linear l).AgreeUpToGradients s) _ _ _ _ hs
      intro i s2 hs2
      apply stmt_pres _ _ _ hs2
      intro s3 h3
      cases hA : (s2.deref Slot.grad_weights_).op_index_assign i 0 with
      | error e => rw [hA] at h3; cases h3
      | ok t =>
        rw [hA] at h3
        have := Except.ok.inj h3
        subst this
        exact Layer.store_grad_agree _ _ _ _ (Or.inl rfl) hs2
    · simp only [hk]
      apply forRange_pres _ (fun s => (Layer.linear l).AgreeUpToGradients s) _ _ _ _ hs
      intro i s2 hs2
      apply stmt_pres _ _ _ hs2
      intro s3 h3
      cases hA : (s2.deref Slot.grad_bias_).op_index_assign i 0 with
      | error e => rw [hA] at h3; cases h3
      | ok t =>
        rw [hA] at h3
        have := Except.ok.inj h3
        subst this
        exact Layer.store_grad_agree _ _ _ _ (Or.inr rfl) hs2
    · simp only [hk]
      exact hs
  | sigmoid c => exact rfl
  | relu c => exact rfl
  | tanh c => exact rfl

/-- The body of the forward loop respects agreement up to the stored
gradients. -/
theorem Network.forward_layer_agree [Field α] [LT α] [DecidableRel (fun (a b : α) => a < b)]
    (exp tanh : α → α) (x y : LayerRef α) (s : Tensor α)
    (h : y.addr = x.addr ∧ x.obj.AgreeUpToGradients y.obj) :
    (Network.forward_layer exp tanh y s).2 = (Network.forward_layer exp tanh x s).2 ∧
    (Network.forward_layer exp tanh y s).1.2 = (Network.forward_layer exp tanh x s).1.2 ∧
    ((Network.forward_layer exp tanh y s).1.1.addr
        = (Network.forward_layer exp tanh x s).1.1.addr ∧
      (Network.forward_layer exp tanh x s).1.1.obj.AgreeUpToGradients
        (Network.forward_layer exp tanh y s).1.1.obj) := by
  obtain ⟨h1, h2⟩ := Layer.forward_agree exp tanh x.obj y.obj s h.2
  simp only [Network.forward_layer]
  rcases hx : x.obj.forward exp tanh s with ⟨ox, rx⟩
  rcases hy : y.obj.forward exp tanh s with ⟨oy, ry⟩
  rw [hx, hy] at h1 h2
  simp only at h1 h2
  subst h1
  cases ry with
  | ok out => exact ⟨rfl, rfl, h.1, h2⟩
  | error e => exact ⟨rfl, rfl, h.1, h2⟩

/-- The body of the backward loop respects agreement up to the stored
gradients, and makes the two states equal when it returns. -/
theorem Network.backward_layer_agree [Field α] [LT α] [DecidableRel (fun (a b : α) => a < b)]
    (x y : LayerRef α) (s : Tensor α)
    (h : y.addr = x.addr ∧ x.obj.AgreeUpToGradients y.obj) :
    (Network.backward_layer y s).2 = (Network.backward_layer x s).2 ∧
    (Network.backward_layer y s).1.2 = (Network.backward_layer x s).1.2 ∧
    ((Network.backward_layer y s).1.1.addr = (Network.backward_layer x s).1.1.addr ∧
      (Network.backward_layer x s).1.1.obj.AgreeUpToGradients
        (Network.backward_layer y s).1.1.obj) ∧
    ((Network.backward_layer x s).2 = none →
      (Network.backward_layer x s).1.1 = (Network.backward_layer y s).1.1) := by
  obtain ⟨h1, h2, h3⟩ := Layer.backward_agree x.obj y.obj s h.2
  simp only [Network.backward_layer]
  rcases x with ⟨ax, objx⟩
  rcases y with ⟨ay, objy⟩
  rcases hx : objx.backward s with ⟨ox, rx⟩
  rcases hy : objy.backward s with ⟨oy, ry⟩
  rw [hx, hy] at h1 h2 h3
  simp only at h1 h2 h3 h
  subst h1
  obtain ⟨ha, -⟩ := h
  subst ha
  cases ry with
  | ok out =>
    have := h3 out rfl
    subst this
    exact ⟨rfl, rfl, ⟨rfl, h2⟩, fun _ => rfl⟩
  | error e => exact ⟨rfl, rfl, ⟨rfl, h2⟩, fun hn => by cases hn⟩

/-- C36: `Linear::backward` overwrites the stored gradients.  For two states of
a `Linear` layer that agree on the weights, the bias and the cached input,
`backward` with the same gradient has the same outcome, and when it returns
the two layers are equal: the same `grad_weights_` and `grad_bias_`.  Hence
`Network::train` on two networks whose layers agree up to the stored gradients
returns the same value or throws the same exception, and when it returns the
networks and the optimizers are equal afterwards; and `zero_grad` of every
optimizer changes nothing of the layers but the stored gradients, so calling
it before `train` does not change the result. -/
theorem Linear.backward_overwrites [Field α] [LT α] [DecidableRel (fun (a b : α) => a < b)]
    (exp tanh sqrt : α → α) :
    (∀ (l l' : Linear α) (g : Tensor α), l'.weights_ = l.weights_ → l'.bias_ = l.bias_ →
      l'.input_cache_ = l.input_cache_ →
      (l'.backward g).2 = (l.backward g).2 ∧
      ∀ gi, (l.backward g).2 = .ok gi →
        (l'.backward g).1 = (l.backward g).1 ∧
        (l'.backward g).1.grad_weights_ = (l.backward g).1.grad_weights_ ∧
        (l'.backward g).1.grad_bias_ = (l.backward g).1.grad_bias_) ∧
    (∀ (net : Network α) (layers' : List (LayerRef α)) (x target : Tensor α) (loss : Loss α)
      (opt : Optimizer α),
      List.Forall₂ (fun ref ref' => ref'.addr = ref.addr ∧ ref.obj.AgreeUpToGradients ref'.obj)
        net.layers_ layers' →
      (Network.train exp tanh sqrt { net with layers_ := layers' } x target loss opt).2
        = (Network.train exp tanh sqrt net x target loss opt).2 ∧
      ∀ v, (Network.train exp tanh sqrt net x target loss opt).2 = .ok v →
        Network.train exp tanh sqrt { net with layers_ := layers' } x target loss opt
          = Network.train exp tanh sqrt net x target loss opt) ∧
    (∀ (opt : Optimizer α) (layers : List (LayerRef α)),
      List.Forall₂ (fun ref ref' => ref'.addr = ref.addr ∧ ref.obj.AgreeUpToGradients ref'.obj)
        layers (opt.zero_grad layers).1) := by
  refine ⟨?_, ?_, ?_⟩
  · intro l l' g hw hb hc
    obtain ⟨h1, -, -, -, h5⟩ := Linear.backward_congr l l' g hw hb hc
    refine ⟨h1, fun gi hgi => ?_⟩
    have := h5 gi hgi
    exact ⟨this, by rw [this], by rw [this]⟩
  · intro net layers' x target loss opt hrel
    obtain ⟨f1, f2, f3, -⟩ := forEach_sim (Network.forward_layer exp tanh)
      (fun ref ref' => ref'.addr = ref.addr ∧ ref.obj.AgreeUpToGradients ref'.obj)
      (fun ref ref' => ref'.addr = ref.addr ∧ ref.obj.AgreeUpToGradients ref'.obj)
      (fun a b s hab => by
        obtain ⟨q1, q2, q3⟩ := Network.forward_layer_agree exp tanh a b s hab
        exact ⟨q1, q2, q3, fun _ => q3⟩)
      net.layers_ layers' x hrel
    simp only [Network.train, Network.forward]
    rcases hF : forEach (Network.forward_layer exp tanh) net.layers_ x with ⟨⟨L1, y⟩, o⟩
    rcases hF' : forEach (Network.forward_layer exp tanh) layers' x with ⟨⟨L1', y'⟩, o'⟩
    rw [hF, hF'] at f1 f2 f3
    simp only at f1 f2 f3
    subst f1
    subst f2
    cases o' with
    | some e => exact ⟨rfl, fun v hv => by cases hv⟩
    | none =>
      simp only
      cases loss.compute_loss y' target with
      | error e => exact ⟨rfl, fun v hv => by cases hv⟩
      | ok lv =>
        simp only
        cases loss.compute_gradient y' target with
        | error e => exact ⟨rfl, fun v hv => by cases hv⟩
        | ok g =>
          simp only [Network.backward_pass]
          obtain ⟨b1, b2, -, b4⟩ := forEach_sim Network.backward_layer
            (fun ref ref' => ref'.addr = ref.addr ∧ ref.obj.AgreeUpToGradients ref'.obj)
            (fun ref ref' => ref = ref')
            (fun a b s hab => Network.backward_layer_agree a b s hab)
            L1.reverse L1'.reverse g (List.forall₂_reverse_iff.mpr f3)
          rcases hB : forEach Network.backward_layer L1.reverse g with ⟨⟨V, gi⟩, e⟩
          rcases hB' : forEach Network.backward_layer L1'.reverse g with ⟨⟨V', gi'⟩, e'⟩
          rw [hB, hB'] at b1 b2 b4
          simp only at b1 b2 b4
          subst b1
          subst b2
          cases e' with
          | some e => exact ⟨rfl, fun v hv => by cases hv⟩
          | none =>
            have hV := b4 rfl
            rw [List.forall₂_eq_eq_eq] at hV
            subst hV
            exact ⟨rfl, fun _ _ => rfl⟩
  · intro opt layers
    rw [Optimizer.zero_grad_eq]
    apply forEach_rel _ _ (fun x => ⟨rfl, Layer.agree_refl _⟩)
    intro ref _
    rcases hz : zero_grad_layer ref.obj with ⟨obj, e⟩
    have := zero_grad_layer_agree ref.obj
    rw [hz] at this
    exact ⟨rfl, this⟩

/-- Witness of C36: two states of a `Linear(2,1)` layer with different stored
gradients, and the same call of `backward`. -/
theorem Linear.backward_overwrites_witness :
    ((⟨⟨[1, 2], [1, 2]⟩, ⟨[0], [1, 1]⟩, ⟨[1, 1], [2, 1]⟩, ⟨[7, 8], [1, 2]⟩, ⟨[9], [1, 1]⟩⟩ :
      Linear ℚ).backward ⟨[3], [1, 1]⟩).2 = .ok ⟨[3, 6], [2, 1]⟩ ∧
    ((⟨⟨[1, 2], [1, 2]⟩, ⟨[0], [1, 1]⟩, ⟨[1, 1], [2, 1]⟩, ⟨[0, 0], [1, 2]⟩, ⟨[0], [1, 1]⟩⟩ :
      Linear ℚ).backward ⟨[3], [1, 1]⟩).1
      = ((⟨⟨[1, 2], [1, 2]⟩, ⟨[0], [1, 1]⟩, ⟨[1, 1], [2, 1]⟩, ⟨[7, 8], [1, 2]⟩, ⟨[9], [1, 1]⟩⟩ :
        Linear ℚ).backward ⟨[3], [1, 1]⟩).1 :=
  ⟨by decide!,
    (((Linear.backward_overwrites (fun x => x) (fun x => x) (fun x => x)).1
      (⟨⟨[1, 2], [1, 2]⟩, ⟨[0], [1, 1]⟩, ⟨[1, 1], [2, 1]⟩, ⟨[7, 8], [1, 2]⟩, ⟨[9], [1, 1]⟩⟩ :
        Linear ℚ)
      ⟨⟨[1, 2], [1, 2]⟩, ⟨[0], [1, 1]⟩, ⟨[1, 1], [2, 1]⟩, ⟨[0, 0], [1, 2]⟩, ⟨[0], [1, 1]⟩⟩
      ⟨[3], [1, 1]⟩ rfl rfl rfl).2 ⟨[3, 6], [2, 1]⟩ (by decide!)).1⟩

end Overwriting

/-! ## Shape invariant of the Linear layer -/

section ShapeInvariant

variable {α : Type}

/-- A statement made of a call that may throw followed by more: what holds of
the state before and after every completed continuation holds afterwards. -/
theorem stmt_bind_pres {σ β : Type} (old : σ) (x : Except Err β) (f : β → Except Err σ)
    (I : σ → Prop) (ho : I old) (hf : ∀ a, x = .ok a → I (stmt old (f a)).1) :
    I (stmt old (x >>= f)).1 := by
  cases x with
  | error e => exact ho
  | ok a => exact hf a rfl

theorem Tensor.op_index_assign_keeps (t t' : Tensor α) (i : Nat) (v : α)
    (h : t.op_index_assign i v = .ok t') :
    t'.shape = t.shape ∧ t'.data.length = t.data.length := by
  simp only [Tensor.op_index_assign] at h
  split_ifs at h
  have := Except.ok.inj h
  subst this
  exact ⟨rfl, by simp⟩

/-- A store of a tensor of the shape and size of the one it replaces keeps the
shapes and sizes of the weights and the bias. -/
theorem Layer.store_keeps (sw sb : List Nat) (nw nb : Nat) (o : Layer α) (ps : Slot)
    (t : Tensor α) (hs : t.shape = (o.deref ps).shape)
    (hl : t.data.length = (o.deref ps).data.length)
    (h : ∃ l, o = Layer.linear l ∧ l.weights_.shape = sw ∧ l.bias_.shape = sb ∧
      l.weights_.data.length = nw ∧ l.bias_.data.length = nb) :
    ∃ l, o.store ps t = Layer.linear l ∧ l.weights_.shape = sw ∧ l.bias_.shape = sb ∧
      l.weights_.data.length = nw ∧ l.bias_.data.length = nb := by
  obtain ⟨l, rfl, h1, h2, h3, h4⟩ := h
  cases ps
  · exact ⟨_, rfl, hs.trans h1, h2, hl.trans h3, h4⟩
  · exact ⟨_, rfl, h1, hs.trans h2, h3, hl.trans h4⟩
  · exact ⟨_, rfl, h1, h2, h3, h4⟩
  · exact ⟨_, rfl, h1, h2, h3, h4⟩

/-- What every store of a tensor of the shape and size of the member it
replaces keeps, `Linear::update_parameters` keeps, whether it returns or
throws. -/
theorem Linear.update_parameters_pres [Zero α] [Sub α] [Mul α] (I : Linear α → Prop)
    (hw : ∀ (s : Linear α) (t : Tensor α), I s → t.shape = s.weights_.shape →
      t.data.length = s.weights_.data.length → I { s with weights_ := t })
    (hb : ∀ (s : Linear α) (t : Tensor α), I s → t.shape = s.bias_.shape →
      t.data.length = s.bias_.data.length → I { s with bias_ := t })
    (l : Linear α) (r : α) (hl : I l) : I (l.update_parameters r).1 := by
  unfold Linear.update_parameters
  apply andThen_pres _ _ I
  · apply forRange_pres _ I _ _ _ _ hl
    intro i s hs
    apply stmt_bind_pres _ _ _ I hs
    intro g _
    apply stmt_bind_pres _ _ _ I hs
    intro w _
    apply stmt_bind_pres _ _ _ I hs
    intro t ht
    obtain ⟨k1, k2⟩ := Tensor.op_index_assign_keeps _ _ _ _ ht
    exact hw s t hs k1 k2
  · intro s0 hs0
    apply forRange_pres _ I _ _ _ _ hs0
    intro i s hs
    apply stmt_bind_pres _ _ _ I hs
    intro g _
    apply stmt_bind_pres _ _ _ I hs
    intro w _
    apply stmt_bind_pres _ _ _ I hs
    intro t ht
    obtain ⟨k1, k2⟩ := Tensor.op_index_assign_keeps _ _ _ _ ht
    exact hb s t hs k1 k2

/-- `zero_grad` keeps the weights and the bias. -/
theorem zero_grad_layer_keeps [Zero α] (l : Linear α) :
    ∃ l', (zero_grad_layer (Layer.linear l)).1 = Layer.linear l' ∧
      l'.weights_ = l.weights_ ∧ l'.bias_ = l.bias_ := by
  have := zero_grad_layer_agree (Layer.linear l)
  cases hz : (zero_grad_layer (Layer.linear l)).1 with
  | linear l' =>
    rw [hz] at this
    exact ⟨l', rfl, this.1, this.2.1⟩
  | sigmoid c => rw [hz] at this; exact False.elim this
  | relu c => rw [hz] at this; exact False.elim this
  | tanh c => rw [hz] at this; exact False.elim this

/-- What every store of a tensor of the shape and size of the member it
replaces keeps, `Momentum::step` on one layer keeps, whether it returns or
throws. -/
theorem Momentum.momentum_step_layer_pres [Zero α] [Add α] [Sub α] [Mul α]
    (I : Layer α → Prop)
    (hstore : ∀ (o : Layer α) (ps : Slot) (t : Tensor α), I o →
      t.shape = (o.deref ps).shape → t.data.length = (o.deref ps).data.length →
      I (o.store ps t))
    (r m : α) (ref : LayerRef α) (vel : Nat → Option (List α)) (h : I ref.obj) :
    I (Momentum.step_layer r m ref vel).1.1.obj := by
  unfold Momentum.step_layer
  dsimp only
  split_ifs
  · exact h
  · apply forRange_pres _ (fun (st : LayerRef α × (Nat → Option (List α))) => I st.1.obj)
      _ _ _ _ h
    intro i st hst
    cases ref.obj.get_parameters.get? i with
    | none => exact hst
    | some ps =>
      cases ref.obj.get_gradients.get? i with
      | none => exact hst
      | some gs =>
        dsimp only
        apply forRange_pres _ (fun (st : LayerRef α × (Nat → Option (List α))) => I st.1.obj)
          _ _ _ _ (by exact hst)
        intro j st2 hst2
        apply andThen_pres _ _ (fun (st : LayerRef α × (Nat → Option (List α))) => I st.1.obj)
        · apply stmt_bind_pres _ _ _
            (fun (st : LayerRef α × (Nat → Option (List α))) => I st.1.obj) hst2
          intro g _
          exact hst2
        · intro st3 hst3
          apply stmt_bind_pres _ _ _
            (fun (st : LayerRef α × (Nat → Option (List α))) => I st.1.obj) hst3
          intro p _
          apply stmt_bind_pres _ _ _
            (fun (st : LayerRef α × (Nat → Option (List α))) => I st.1.obj) hst3
          intro t ht
          obtain ⟨k1, k2⟩ := Tensor.op_index_assign_keeps _ _ _ _ ht
          exact hstore _ _ _ hst3 k1 k2

/-- What every store of a tensor of the shape and size of the member it
replaces keeps, `Adam::step` on one layer keeps, whether it returns or throws. -/
theorem Adam.adam_step_layer_pres [Field α] (sqrt : α → α) (I : Layer α → Prop)
    (hstore : ∀ (o : Layer α) (ps : Slot) (t : Tensor α), I o →
      t.shape = (o.deref ps).shape → t.data.length = (o.deref ps).data.length →
      I (o.store ps t))
    (b1 b2 eps lr : α) (ts : Nat) (ref : LayerRef α) (P : Nat → Option (AdamParams α))
    (h : I ref.obj) : I (Adam.step_layer sqrt b1 b2 eps lr ts ref P).1.1.obj := by
  have hloop : ∀ (ps gs : Slot) (gm gv : AdamParams α → List α)
      (sm sv : AdamParams α → List α → AdamParams α) (n : Nat)
      (st0 : LayerRef α × (Nat → Option (AdamParams α))), I st0.1.obj →
      I (forRange (fun j (st : LayerRef α × (Nat → Option (AdamParams α))) =>
          andThen (andThen
            (stmt st (do
              let g ← (st.1.obj.deref gs).op_index j
              pure (st.1, Function.update st.2 ref.addr (some
                (sm ((st.2 ref.addr).getD ⟨[], [], [], [], 0, 0⟩)
                  ((gm ((st.2 ref.addr).getD ⟨[], [], [], [], 0, 0⟩)).set j
                    (b1 * (gm ((st.2 ref.addr).getD ⟨[], [], [], [], 0, 0⟩)).getD j 0
                      + (1 - b1) * g)))))))
            (fun st => stmt st (do
              let g ← (st.1.obj.deref gs).op_index j
              let g' ← (st.1.obj.deref gs).op_index j
              pure (st.1, Function.update st.2 ref.addr (some
                (sv ((st.2 ref.addr).getD ⟨[], [], [], [], 0, 0⟩)
                  ((gv ((st.2 ref.addr).getD ⟨[], [], [], [], 0, 0⟩)).set j
                    (b2 * (gv ((st.2 ref.addr).getD ⟨[], [], [], [], 0, 0⟩)).getD j 0
                      + (1 - b2) * g * g'))))))))
            (fun st => stmt st (do
              let p ← (st.1.obj.deref ps).op_index j
              let t ← (st.1.obj.deref ps).op_index_assign j
                (p - lr * ((gm ((st.2 ref.addr).getD ⟨[], [], [], [], 0, 0⟩)).getD j 0
                    / (1 - b1 ^ ts))
                  / (sqrt ((gv ((st.2 ref.addr).getD ⟨[], [], [], [], 0, 0⟩)).getD j 0
                    / (1 - b2 ^ ts)) + eps))
              pure ({ st.1 with obj := st.1.obj.store ps t }, st.2))))
          n 0 st0).1.1.obj := by
    intro ps gs gm gv sm sv n st0 h0
    apply forRange_pres _ (fun (st : LayerRef α × (Nat → Option (AdamParams α))) => I st.1.obj)
      _ _ _ _ h0
    intro j st hst
    apply andThen_pres _ _ (fun (st : LayerRef α × (Nat → Option (AdamParams α))) => I st.1.obj)
    · apply andThen_pres _ _
        (fun (st : LayerRef α × (Nat → Option (AdamParams α))) => I st.1.obj)
      · apply stmt_bind_pres _ _ _
          (fun (st : LayerRef α × (Nat → Option (AdamParams α))) => I st.1.obj) hst
        intro g _
        exact hst
      · intro st2 hst2
        apply stmt_bind_pres _ _ _
          (fun (st : LayerRef α × (Nat → Option (AdamParams α))) => I st.1.obj) hst2
        intro g _
        apply stmt_bind_pres _ _ _
          (fun (st : LayerRef α × (Nat → Option (AdamParams α))) => I st.1.obj) hst2
        intro g' _
        exact hst2
    · intro st3 hst3
      apply stmt_bind_pres _ _ _
        (fun (st : LayerRef α × (Nat → Option (AdamParams α))) => I st.1.obj) hst3
      intro p _
      apply stmt_bind_pres _ _ _
        (fun (st : LayerRef α × (Nat → Option (AdamParams α))) => I st.1.obj) hst3
      intro t ht
      obtain ⟨k1, k2⟩ := Tensor.op_index_assign_keeps _ _ _ _ ht
      exact hstore _ _ _ hst3 k1 k2
  unfold Adam.step_layer
  dsimp only
  by_cases hlen : ref.obj.get_parameters.length ≠ ref.obj.get_gradients.length
  · rw [if_pos hlen]
    exact h
  · rw [if_neg hlen]
    apply andThen_pres _ _ (fun (st : LayerRef α × (Nat → Option (AdamParams α))) => I st.1.obj)
    · cases ref.obj.get_parameters.get? 0 with
      | none => exact h
      | some ps =>
        cases ref.obj.get_gradients.get? 0 with
        | none => exact h
        | some gs =>
          exact hloop ps gs (fun ap => ap.m_w) (fun ap => ap.v_w)
            (fun ap x => { ap with m_w := x }) (fun ap x => { ap with v_w := x }) _ _ h
    · intro st hst
      cases ref.obj.get_parameters.get? 1 with
      | none => exact hst
      | some ps =>
        cases ref.obj.get_gradients.get? 1 with
        | none => exact hst
        | some gs =>
          exact hloop ps gs (fun ap => ap.m_b) (fun ap => ap.v_b)
            (fun ap x => { ap with m_b := x }) (fun ap x => { ap with v_b := x }) _ _ hst

/-- The initialisation loop of `Linear::Linear` stores the drawn values and
completes. -/
theorem Linear.make_ok [Zero α] (dis : Nat → α) (inp out : Nat) :
    ∃ w : Tensor α, Linear.make dis inp out = .ok ⟨w, (Tensor.zeros out 1).fill 0, ⟨[], []⟩,
        Tensor.zeros out inp, Tensor.zeros out 1⟩ ∧
      w.IsMatrix out inp ∧ ∀ i, i < out * inp → w.data_at i = dis i := by
  obtain ⟨res, hres, hshape, hlen, hval⟩ := flat_fill_loop (out * inp)
    (fun i (weights_ : Tensor α) => stmt weights_ (weights_.op_index_assign i (dis i)))
    (Tensor.zeros out inp) dis (by simp [Tensor.zeros])
    (fun i G hi _ hGl => by
      simp only [Tensor.op_index_assign, ge_iff_le, hGl, Nat.not_le.mpr hi, if_false, stmt])
  refine ⟨res, ?_, ⟨hshape, hlen⟩, hval⟩
  have hsize : (Tensor.zeros out inp : Tensor α).size = out * inp := by
    simp [Tensor.zeros, Tensor.size]
  simp only [Linear.make, hsize, hres]

/-- C33: `Linear(in, out)` is constructed with weights of shape (out, in),
holding the drawn values, and a bias of shape (out, 1) whose elements are all
zero.  `forward`, `backward` and `update_parameters` keep the shape vectors of
the weights and the bias, whether they return or throw; `set_weights` and
`set_bias` store a tensor of the present shape and throw on any other, leaving
the layer as it was; and `step` and `zero_grad` of every optimizer, whether
they return or throw, leave in every position of the layer list that holds a
`Linear` layer a `Linear` layer with weights and bias of the same shapes. -/
theorem Linear.shape_invariant [Field α] (sqrt : α → α) :
    (∀ (dis : Nat → α) (inp out : Nat), ∃ l : Linear α,
      Linear.make dis inp out = .ok l ∧
      l.weights_.IsMatrix out inp ∧ l.bias_.IsMatrix out 1 ∧
      (∀ i, i < out * inp → l.weights_.data_at i = dis i) ∧
      ∀ x ∈ l.bias_.data, x = 0) ∧
    (∀ (l : Linear α) (x g t : Tensor α) (r : α),
      ((l.forward x).1.weights_.shape = l.weights_.shape ∧
        (l.forward x).1.bias_.shape = l.bias_.shape) ∧
      ((l.backward g).1.weights_.shape = l.weights_.shape ∧
        (l.backward g).1.bias_.shape = l.bias_.shape) ∧
      ((l.update_parameters r).1.weights_.shape = l.weights_.shape ∧
        (l.update_parameters r).1.bias_.shape = l.bias_.shape) ∧
      (t.shape = l.weights_.shape → l.set_weights t = ({ l with weights_ := t }, none)) ∧
      (t.shape ≠ l.weights_.shape →
        l.set_weights t = (l, some (.runtime_error "Weight tensor shape mismatch"))) ∧
      (t.shape = l.bias_.shape → l.set_bias t = ({ l with bias_ := t }, none)) ∧
      (t.shape ≠ l.bias_.shape →
        l.set_bias t = (l, some (.runtime_error "Bias tensor shape mismatch")))) ∧
    (∀ (opt : Optimizer α) (layers : List (LayerRef α)),
      List.Forall₂ (fun ref ref' => ∀ l, ref.obj = Layer.linear l →
          ∃ l', ref'.obj = Layer.linear l' ∧ l'.weights_.shape = l.weights_.shape ∧
            l'.bias_.shape = l.bias_.shape)
        layers (opt.step sqrt layers).1.2 ∧
      List.Forall₂ (fun ref ref' => ∀ l, ref.obj = Layer.linear l →
          ∃ l', ref'.obj = Layer.linear l' ∧ l'.weights_.shape = l.weights_.shape ∧
            l'.bias_.shape = l.bias_.shape)
        layers (opt.zero_grad layers).1) := by
  have hstore : ∀ (l : Linear α) (o : Layer α) (ps : Slot) (t : Tensor α),
      (∃ l', o = Layer.linear l' ∧ l'.weights_.shape = l.weights_.shape ∧
        l'.bias_.shape = l.bias_.shape ∧ l'.weights_.data.length = l.weights_.data.length ∧
        l'.bias_.data.length = l.bias_.data.length) →
      t.shape = (o.deref ps).shape → t.data.length = (o.deref ps).data.length →
      ∃ l', o.store ps t = Layer.linear l' ∧ l'.weights_.shape = l.weights_.shape ∧
        l'.bias_.shape = l.bias_.shape ∧ l'.weights_.data.length = l.weights_.data.length ∧
        l'.bias_.data.length = l.bias_.data.length :=
    fun l o ps t h hs hl => Layer.store_keeps _ _ _ _ o ps t hs hl h
  refine ⟨?_, ?_, ?_⟩
  · intro dis inp out
    obtain ⟨w, hmake, hw, hval⟩ := Linear.make_ok dis inp out
    refine ⟨_, hmake, hw, ⟨rfl, by simp [Tensor.fill, Tensor.zeros]⟩, hval, ?_⟩
    intro x hx
    simp only [Tensor.fill, List.mem_map] at hx
    obtain ⟨_, _, rfl⟩ := hx
    rfl
  · intro l x g t r
    refine ⟨?_, ?_, ?_, ?_, ?_, ?_, ?_⟩
    · rw [Linear.forward_fst]
      exact ⟨rfl, rfl⟩
    · unfold Linear.backward
      cases (do
          let xt ← l.input_cache_.transpose
          g.matmul xt) with
      | error e => exact ⟨rfl, rfl⟩
      | ok gw =>
        dsimp only
        cases g.sum 1 with
        | error e => exact ⟨rfl, rfl⟩
        | ok gb => exact ⟨rfl, rfl⟩
    · exact Linear.update_parameters_pres
        (fun s => s.weights_.shape = l.weights_.shape ∧ s.bias_.shape = l.bias_.shape)
        (fun s t hs h1 _ => ⟨h1.trans hs.1, hs.2⟩) (fun s t hs h1 _ => ⟨hs.1, h1.trans hs.2⟩)
        l r ⟨rfl, rfl⟩
    · intro h
      simp only [Linear.set_weights, h, ne_eq, not_true_eq_false, if_false]
    · intro h
      simp only [Linear.set_weights, ne_eq, h, not_false_eq_true, if_true]
    · intro h
      simp only [Linear.set_bias, h, ne_eq, not_true_eq_false, if_false]
    · intro h
      simp only [Linear.set_bias, ne_eq, h, not_false_eq_true, if_true]
  · intro opt layers
    constructor
    · apply Optimizer.step_layers_rel sqrt _ (fun x l hl => ⟨l, hl, rfl, rfl⟩)
      · intro o ref l hl
        rcases o with ⟨r⟩
        show ∃ l', (SGD.step_layer ⟨r⟩ ref.obj).1 = Layer.linear l' ∧ _
        rw [hl, Linear.sgd_refines_update]
        exact ⟨_, rfl, Linear.update_parameters_pres
          (fun s => s.weights_.shape = l.weights_.shape ∧ s.bias_.shape = l.bias_.shape)
          (fun s t hs h1 _ => ⟨h1.trans hs.1, hs.2⟩)
          (fun s t hs h1 _ => ⟨hs.1, h1.trans hs.2⟩) l r ⟨rfl, rfl⟩⟩
      · intro r m ref vel l hl
        obtain ⟨l', h1, h2, h3, _, _⟩ := Momentum.momentum_step_layer_pres _ (hstore l)
          r m ref vel ⟨l, hl, rfl, rfl, rfl, rfl⟩
        exact ⟨l', h1, h2, h3⟩
      · intro b1 b2 eps lr ts ref P l hl
        obtain ⟨l', h1, h2, h3, _, _⟩ := Adam.adam_step_layer_pres sqrt _ (hstore l)
          b1 b2 eps lr ts ref P ⟨l, hl, rfl, rfl, rfl, rfl⟩
        exact ⟨l', h1, h2, h3⟩
    · rw [Optimizer.zero_grad_eq]
      apply forEach_rel _ _ (fun x l hl => ⟨l, hl, rfl, rfl⟩)
      intro ref _ l hl
      obtain ⟨l', h1, h2, h3⟩ := zero_grad_layer_keeps l
      refine ⟨l', ?_, by rw [h2], by rw [h3]⟩
      show (zero_grad_layer ref.obj).1 = _
      rw [hl, h1]

end ShapeInvariant

/-! ## Momentum with coefficient zero -/

section ZeroMomentum

variable {α : Type}

theorem resize_length [Zero α] (v : List α) (n : Nat) : (resize v n).length = n := by
  simp only [resize, List.length_append, List.length_take, List.length_replicate]
  omega

/-- The element loop of `Momentum::step` on one parameter of a `Linear` object
and the velocity vector recorded for the layer. -/
theorem Momentum.momentum_element_loop_ok [Zero α] [Add α] [Sub α] [Mul α] (r m : α)
    (a addr : Nat) (l : Linear α) (ps gs : Slot) (hne : ps ≠ gs)
    (hlen : ((Layer.linear l).deref gs).data.length = ((Layer.linear l).deref ps).data.length)
    (M : Nat → Option (List α)) (v0 : List α) (hM : M addr = some v0)
    (hv : v0.length = ((Layer.linear l).deref ps).data.length) :
    forRange (fun j (st : LayerRef α × (Nat → Option (List α))) =>
        andThen
          (stmt st (do
            let g ← (st.1.obj.deref gs).op_index j
            pure (st.1, Function.update st.2 addr
              (some (((st.2 addr).getD []).set j
                (m * ((st.2 addr).getD []).getD j 0 - r * g))))))
          (fun st => stmt st (do
            let p ← (st.1.obj.deref ps).op_index j
            let t ← (st.1.obj.deref ps).op_index_assign j (p + ((st.2 addr).getD []).getD j 0)
            pure ({ st.1 with obj := st.1.obj.store ps t }, st.2))))
      ((Layer.linear l).deref ps).size 0 (⟨a, Layer.linear l⟩, M)
      = ((⟨a, (Layer.linear l).store ps { (Layer.linear l).deref ps with
            data := List.zipWith (fun p x => p + x) ((Layer.linear l).deref ps).data
              (List.zipWith (fun v g => m * v - r * g) v0
                ((Layer.linear l).deref gs).data) }⟩,
          Function.update M addr (some (List.zipWith (fun v g => m * v - r * g) v0
            ((Layer.linear l).deref gs).data))), none) := by
  generalize hP : (Layer.linear l).deref ps = P at hlen hv ⊢
  generalize hG : (Layer.linear l).deref gs = G at hlen ⊢
  have key := forRange_inv (fun j (st : LayerRef α × (Nat → Option (List α))) =>
        andThen
          (stmt st (do
            let g ← (st.1.obj.deref gs).op_index j
            pure (st.1, Function.update st.2 addr
              (some (((st.2 addr).getD []).set j
                (m * ((st.2 addr).getD []).getD j 0 - r * g))))))
          (fun st => stmt st (do
            let p ← (st.1.obj.deref ps).op_index j
            let t ← (st.1.obj.deref ps).op_index_assign j (p + ((st.2 addr).getD []).getD j 0)
            pure ({ st.1 with obj := st.1.obj.store ps t }, st.2))))
    (fun j st => ∃ d v : List α,
      st = (⟨a, (Layer.linear l).store ps { P with data := d }⟩,
        Function.update M addr (some v)) ∧
      d.length = P.data.length ∧ v.length = P.data.length ∧
      (∀ k, v.getD k 0 = if k < j then m * v0.getD k 0 - r * G.data.getD k 0
        else v0.getD k 0) ∧
      ∀ k, d.getD k 0 = if k < j then P.data.getD k 0 + (m * v0.getD k 0 - r * G.data.getD k 0)
        else P.data.getD k 0)
    P.size 0 (⟨a, Layer.linear l⟩, M)
    ⟨P.data, v0, by
        rw [← hP, Layer.store_deref, ← hM, Function.update_eq_self], rfl, hv,
      fun k => by rw [if_neg (Nat.not_lt_zero k)],
      fun k => by rw [if_neg (Nat.not_lt_zero k)]⟩
    (fun j st _ hj hI => by
      obtain ⟨d, v, rfl, hd, hvl, hvk, hdk⟩ := hI
      have hj : j < P.data.length := by simpa [Tensor.size] using hj
      have e1 : (Tensor.op_index G j : Except Err α) = .ok (G.data.getD j 0) := by
        simp only [Tensor.op_index, Tensor.data_at]
        rw [if_neg (by omega)]
      have e2 : (Tensor.op_index ({ P with data := d } : Tensor α) j : Except Err α)
          = .ok (d.getD j 0) := by
        simp only [Tensor.op_index, Tensor.data_at]
        rw [if_neg (by omega)]
      have e3 : ∀ x, Tensor.op_index_assign ({ P with data := d } : Tensor α) j x
          = .ok { P with data := d.set j x } := by
        intro x
        simp only [Tensor.op_index_assign]
        rw [if_neg (by omega)]
      simp only [Layer.deref_store_same, Layer.deref_store_other l ps gs hne, hG, e1, e2, e3,
        Layer.store_store, bind, Except.bind, pure, Except.pure, stmt, andThen,
        Function.update_same, Option.getD_some, Function.update_idem]
      refine ⟨trivial, d.set j (d.getD j 0 + (v.set j (m * v.getD j 0 - r * G.data.getD j 0)).getD j 0),
        v.set j (m * v.getD j 0 - r * G.data.getD j 0), rfl, by simpa using hd,
        by simpa using hvl, ?_, ?_⟩
      · intro k
        rw [getD_set_eq v j k _ (by omega)]
        by_cases hkj : k = j
        · subst hkj
          have := hvk k
          rw [if_neg (Nat.lt_irrefl k)] at this
          rw [if_pos rfl, if_pos (Nat.lt_succ_self k), this]
        · have := hvk k
          rw [if_neg hkj, this]
          by_cases hlt : k < j
          · rw [if_pos hlt, if_pos (Nat.lt_succ_of_lt hlt)]
          · rw [if_neg hlt, if_neg (by omega)]
      · intro k
        rw [getD_set_eq d j k _ (by omega), getD_set_eq v j j _ (by omega), if_pos rfl]
        by_cases hkj : k = j
        · subst hkj
          have h1 := hdk k
          have h2 := hvk k
          rw [if_neg (Nat.lt_irrefl k)] at h1 h2
          rw [if_pos rfl, if_pos (Nat.lt_succ_self k), h1, h2]
        · have := hdk k
          rw [if_neg hkj, this]
          by_cases hlt : k < j
          · rw [if_pos hlt, if_pos (Nat.lt_succ_of_lt hlt)]
          · rw [if_neg hlt, if_neg (by omega)])
  rcases hr : forRange (fun j (st : LayerRef α × (Nat → Option (List α))) =>
        andThen
          (stmt st (do
            let g ← (st.1.obj.deref gs).op_index j
            pure (st.1, Function.update st.2 addr
              (some (((st.2 addr).getD []).set j
                (m * ((st.2 addr).getD []).getD j 0 - r * g))))))
          (fun st => stmt st (do
            let p ← (st.1.obj.deref ps).op_index j
            let t ← (st.1.obj.deref ps).op_index_assign j (p + ((st.2 addr).getD []).getD j 0)
            pure ({ st.1 with obj := st.1.obj.store ps t }, st.2))))
      P.size 0 (⟨a, Layer.linear l⟩, M) with ⟨res, o⟩
  rw [hr] at key
  obtain ⟨ho, d, v, hres, hd, hvl, hvk, hdk⟩ := key
  simp only at ho hres
  subst ho
  rw [hres]
  have hveq : v = List.zipWith (fun v g => m * v - r * g) v0 G.data := by
    apply eq_zipWith_of_getD _ v v0 G.data (by omega) (by omega)
    intro k hk'
    have := hvk k
    simp only [Nat.zero_add, Tensor.size] at this
    rw [if_pos (by omega)] at this
    exact this
  have hdeq : d = List.zipWith (fun p x => p + x) P.data v := by
    apply eq_zipWith_of_getD _ d P.data v hd hvl
    intro k hk'
    have h1 := hdk k
    have h2 := hvk k
    simp only [Nat.zero_add, Tensor.size] at h1 h2
    rw [if_pos hk'] at h1 h2
    rw [h1, h2]
  rw [hdeq, hveq]

/-- `Momentum::step` on one `Linear` object whose gradients conform: `vw`
and `vb` are the velocity vector at the start of the weight loop and of the
bias loop. -/
theorem Momentum.momentum_step_layer_linear [Zero α] [Add α] [Sub α] [Mul α] (r m : α)
    (addr : Nat) (l : Linear α) (vel : Nat → Option (List α))
    (h : (Layer.linear l).GradsConform) :
    ∃ (vw vb : List α) (vel' : Nat → Option (List α)),
      vw.length = l.weights_.data.length ∧ vb.length = l.bias_.data.length ∧
      Momentum.step_layer r m ⟨addr, Layer.linear l⟩ vel
        = ((⟨addr, Layer.linear { l with
            weights_ := { l.weights_ with
              data := List.zipWith (fun p x => p + x) l.weights_.data
                (List.zipWith (fun v g => m * v - r * g) vw l.grad_weights_.data) },
            bias_ := { l.bias_ with
              data := List.zipWith (fun p x => p + x) l.bias_.data
                (List.zipWith (fun v g => m * v - r * g) vb l.grad_bias_.data) } }⟩,
          vel'), none) := by
  obtain ⟨_, hw, _, hb⟩ := h
  have hsel : ∀ (n : Nat) (M : Nat → Option (List α)), ∃ v0 : List α, v0.length = n ∧
      (Function.update
        (if (M addr).isNone = true then Function.update M addr (some (List.replicate n 0))
          else M) addr
        (some (if (((if (M addr).isNone = true then
              Function.update M addr (some (List.replicate n 0)) else M) addr).getD []).length ≠ n
          then resize (((if (M addr).isNone = true then
              Function.update M addr (some (List.replicate n 0)) else M) addr).getD []) n
          else ((if (M addr).isNone = true then
              Function.update M addr (some (List.replicate n 0)) else M) addr).getD []))) addr
        = some v0 := by
    intro n M
    refine ⟨_, ?_, Function.update_same _ _ _⟩
    split_ifs with h1 h2 h2
    · exact resize_length _ _
    · exact not_not.mp h2
    · exact resize_length _ _
    · exact not_not.mp h2
  simp only [Momentum.step_layer, Layer.get_parameters, Layer.get_gradients, List.length_cons,
    List.length_nil, ne_eq, not_true_eq_false, if_false]
  rw [show (0 + 1 + 1 : Nat) = 2 from rfl, forRange_two]
  simp only [List.get?]
  obtain ⟨vw, hvw, hMw⟩ := hsel ((Layer.linear l).deref Slot.weights_).size vel
  have h1 := Momentum.momentum_element_loop_ok r m addr addr l Slot.weights_ Slot.grad_weights_
    (by decide) hw _ vw hMw hvw
  simp only [ne_eq] at h1 hMw ⊢
  rw [h1]
  simp only [andThen]
  obtain ⟨vb, hvb, hMb⟩ := hsel
    (((Layer.linear l).store Slot.weights_ { (Layer.linear l).deref Slot.weights_ with
      data := List.zipWith (fun p x => p + x) ((Layer.linear l).deref Slot.weights_).data
        (List.zipWith (fun v g => m * v - r * g) vw
          ((Layer.linear l).deref Slot.grad_weights_).data) }).deref Slot.bias_).size
    (Function.update
      (Function.update
        (if (vel addr).isNone = true then
          Function.update vel addr
            (some (List.replicate ((Layer.linear l).deref Slot.weights_).size 0))
        else vel) addr
        (some (if ¬ (((if (vel addr).isNone = true then
              Function.update vel addr
                (some (List.replicate ((Layer.linear l).deref Slot.weights_).size 0))
            else vel) addr).getD []).length = ((Layer.linear l).deref Slot.weights_).size
          then resize (((if (vel addr).isNone = true then
              Function.update vel addr
                (some (List.replicate ((Layer.linear l).deref Slot.weights_).size 0))
            else vel) addr).getD []) ((Layer.linear l).deref Slot.weights_).size
          else ((if (vel addr).isNone = true then
              Function.update vel addr
                (some (List.replicate ((Layer.linear l).deref Slot.weights_).size 0))
            else vel) addr).getD []))) addr
      (some (List.zipWith (fun v g => m * v - r * g) vw
        ((Layer.linear l).deref Slot.grad_weights_).data)))
  have h2 := Momentum.momentum_element_loop_ok r m addr addr { l with
      weights_ := { l.weights_ with
        data := List.zipWith (fun p x => p + x) l.weights_.data
          (List.zipWith (fun v g => m * v - r * g) vw l.grad_weights_.data) } }
    Slot.bias_ Slot.grad_bias_ (by decide) hb _ vb hMb hvb
  simp only [ne_eq, Layer.store, Layer.deref] at h2 hMb ⊢
  exact ⟨vw, vb, _, hvw, hvb, h2⟩

/-- A layer loop whose body maps each object by `f` and completes, whatever
the shared state. -/
theorem forEach_map_state {β σ : Type} (body : β → σ → (β × σ) × Option Err) (f : β → β) :
    ∀ xs : List β, (∀ x ∈ xs, ∀ s, ∃ s', body x s = ((f x, s'), none)) →
      ∀ s, ∃ s', forEach body xs s = ((xs.map f, s'), none) := by
  intro xs
  induction xs with
  | nil => intro _ s; exact ⟨s, rfl⟩
  | cons x xs ih =>
    intro h s
    obtain ⟨s1, hx⟩ := h x (List.mem_cons_self x xs) s
    obtain ⟨s2, hxs⟩ := ih (fun y hy => h y (List.mem_cons_of_mem x hy)) s1
    exact ⟨s2, by simp [forEach, hx, hxs]⟩

theorem zipWith_zero_momentum [Ring α] (r : α) (p v g : List α) (hv : v.length = p.length)
    (hg : g.length = p.length) :
    List.zipWith (fun p x => p + x) p (List.zipWith (fun v g => 0 * v - r * g) v g)
      = List.zipWith (fun p g => p - r * g) p g := by
  apply List.ext_getElem
  · simp [hv, hg]
  · intro k h1 h2
    simp only [List.getElem_zipWith, zero_mul, zero_sub]
    exact (sub_eq_add_neg _ _).symm

/-- The layer that `SGD(r).step` leaves for a layer whose gradients conform. -/
theorem SGD.sgd_layer_conform [Zero α] [Sub α] [Mul α] (r : α) (l : Linear α)
    (h : (Layer.linear l).GradsConform) :
    (Layer.linear { l with
        weights_ := { l.weights_ with
          data := List.zipWith (fun p g => p - r * g) l.weights_.data l.grad_weights_.data },
        bias_ := { l.bias_ with
          data := List.zipWith (fun p g => p - r * g) l.bias_.data
            l.grad_bias_.data } }).GradsConform := by
  obtain ⟨h1, h2, h3, h4⟩ := h
  simp only [Tensor.size] at h2 h4
  refine ⟨h1, ?_, h3, ?_⟩
  · simp only [Tensor.size, List.length_zipWith]
    omega
  · simp only [Tensor.size, List.length_zipWith]
    omega

/-- One call of `Momentum(r, 0).step` and of `SGD(r).step` on layers whose
gradients conform: both complete and leave the same layers, whose gradients
conform again. -/
theorem Momentum.zero_momentum_step [Ring α] (r : α) (vel : Nat → Option (List α))
    (layers : List (LayerRef α)) (h : ∀ ref ∈ layers, ref.obj.GradsConform) :
    (Momentum.step ⟨r, 0, vel⟩ layers).2 = none ∧
    ((⟨r⟩ : SGD α).step layers).2 = none ∧
    (Momentum.step ⟨r, 0, vel⟩ layers).1.2 = ((⟨r⟩ : SGD α).step layers).1 ∧
    (Momentum.step ⟨r, 0, vel⟩ layers).1.1.learning_rate_ = r ∧
    (Momentum.step ⟨r, 0, vel⟩ layers).1.1.momentum_ = 0 ∧
    ∀ ref ∈ ((⟨r⟩ : SGD α).step layers).1, ref.obj.GradsConform := by
  have hs : (⟨r⟩ : SGD α).step layers = (layers.map (fun ref =>
      { ref with obj := ((⟨r⟩ : SGD α).step_layer ref.obj).1 }), none) := by
    unfold SGD.step
    rw [forEach_map _ _ () layers]
    intro ref href
    rcases ref with ⟨addr, obj⟩
    cases obj with
    | linear l => simp only [SGD.sgd_step_layer_linear ⟨r⟩ l (h _ href)]
    | sigmoid c => rfl
    | relu c => rfl
    | tanh c => rfl
  obtain ⟨vel', hm⟩ := forEach_map_state (Momentum.step_layer r (0 : α))
    (fun ref => { ref with obj := ((⟨r⟩ : SGD α).step_layer ref.obj).1 }) layers
    (fun ref href V => by
      rcases ref with ⟨addr, obj⟩
      cases obj with
      | linear l =>
        have hc := h _ href
        obtain ⟨vw, vb, V', hvw, hvb, hstep⟩ :=
          Momentum.momentum_step_layer_linear r 0 addr l V hc
        obtain ⟨_, hw, _, hb⟩ := hc
        rw [zipWith_zero_momentum r _ vw _ hvw hw, zipWith_zero_momentum r _ vb _ hvb hb]
          at hstep
        exact ⟨V', by simp only [hstep, SGD.sgd_step_layer_linear ⟨r⟩ l (h _ href)]⟩
      | sigmoid c => exact ⟨V, rfl⟩
      | relu c => exact ⟨V, rfl⟩
      | tanh c => exact ⟨V, rfl⟩) vel
  have hM : Momentum.step ⟨r, 0, vel⟩ layers = ((⟨r, 0, vel'⟩, layers.map (fun ref =>
      { ref with obj := ((⟨r⟩ : SGD α).step_layer ref.obj).1 })), none) := by
    simp only [Momentum.step, hm]
  rw [hM, hs]
  refine ⟨rfl, rfl, rfl, rfl, rfl, ?_⟩
  intro ref href
  simp only [List.mem_map] at href
  obtain ⟨ref0, href0, rfl⟩ := href
  rcases ref0 with ⟨addr, obj⟩
  cases obj with
  | linear l =>
    simp only [SGD.sgd_step_layer_linear ⟨r⟩ l (h _ href0)]
    exact SGD.sgd_layer_conform r l (h _ href0)
  | sigmoid c => trivial
  | relu c => trivial
  | tanh c => trivial

/-- C40: for every rate `r`, every prior velocity state and every layer list
whose gradients have the shapes of their parameters, `Momentum(r, 0).step` and
`SGD(r).step` both complete and leave the same layers; and along any sequence
of steps, each preceded by a change `f` of the layers that keeps the gradients
in the shapes of the parameters (a pass that renews the gradients, or
nothing), the layers after the `Momentum(r, 0)` steps are the layers after
the `SGD(r)` steps. -/
theorem Momentum.zero_momentum_is_sgd [Ring α] (r : α) (vel : Nat → Option (List α))
    (layers : List (LayerRef α)) (fs : List (List (LayerRef α) → List (LayerRef α)))
    (hconf : ∀ ref ∈ layers, ref.obj.GradsConform)
    (hfs : ∀ f ∈ fs, ∀ ls : List (LayerRef α), (∀ ref ∈ ls, ref.obj.GradsConform) →
      ∀ ref ∈ f ls, ref.obj.GradsConform) :
    (Momentum.step ⟨r, 0, vel⟩ layers).2 = none ∧
    ((⟨r⟩ : SGD α).step layers).2 = none ∧
    (Momentum.step ⟨r, 0, vel⟩ layers).1.2 = ((⟨r⟩ : SGD α).step layers).1 ∧
    (fs.foldl (fun (st : Momentum α × List (LayerRef α)) f => (Momentum.step st.1 (f st.2)).1)
        (⟨r, 0, vel⟩, layers)).2
      = fs.foldl (fun ls f => ((⟨r⟩ : SGD α).step (f ls)).1) layers := by
  obtain ⟨h1, h2, h3, -⟩ := Momentum.zero_momentum_step r vel layers hconf
  refine ⟨h1, h2, h3, ?_⟩
  have key : ∀ (fs : List (List (LayerRef α) → List (LayerRef α))),
      (∀ f ∈ fs, ∀ ls : List (LayerRef α), (∀ ref ∈ ls, ref.obj.GradsConform) →
        ∀ ref ∈ f ls, ref.obj.GradsConform) →
      ∀ (o : Momentum α) (ls : List (LayerRef α)), o.learning_rate_ = r → o.momentum_ = 0 →
      (∀ ref ∈ ls, ref.obj.GradsConform) →
      (fs.foldl (fun (st : Momentum α × List (LayerRef α)) f =>
          (Momentum.step st.1 (f st.2)).1) (o, ls)).2
        = fs.foldl (fun ls f => ((⟨r⟩ : SGD α).step (f ls)).1) ls := by
    intro fs
    induction fs with
    | nil => intro _ o ls _ _ _; rfl
    | cons f fs ih =>
      intro hfs o ls hr hm hls
      rcases o with ⟨r0, m0, vel0⟩
      simp only at hr hm
      subst hr
      subst hm
      have hf := hfs f (List.mem_cons_self f fs) ls hls
      obtain ⟨_, _, k3, k4, k5, k6⟩ := Momentum.zero_momentum_step r0 vel0 (f ls) hf
      have e : ((⟨r0, 0, vel0⟩ : Momentum α).step (f ls)).1
          = (((⟨r0, 0, vel0⟩ : Momentum α).step (f ls)).1.1, ((⟨r0⟩ : SGD α).step (f ls)).1) :=
        Prod.ext rfl k3
      show (fs.foldl (fun (st : Momentum α × List (LayerRef α)) f =>
          (Momentum.step st.1 (f st.2)).1) ((⟨r0, 0, vel0⟩ : Momentum α).step (f ls)).1).2
        = fs.foldl (fun ls f => ((⟨r0⟩ : SGD α).step (f ls)).1) ((⟨r0⟩ : SGD α).step (f ls)).1
      rw [e]
      exact ih (fun g hg => hfs g (List.mem_cons_of_mem f hg)) _ _ k4 k5 k6
  exact key fs hfs ⟨r, 0, vel⟩ layers rfl rfl hconf

/-- Witness of C40: two steps at rate 2 on a `Linear(2,1)` layer followed by a
ReLU, from a velocity state that already holds a vector for the layer. -/
theorem Momentum.zero_momentum_is_sgd_witness :
    (Momentum.step ⟨2, 0, Function.update (fun _ => none) 0 (some [7, 8, 9])⟩
      [⟨0, .linear ⟨⟨[1, 2], [1, 2]⟩, ⟨[3], [1, 1]⟩, ⟨[5, 6], [2, 1]⟩,
        ⟨[10, 20], [1, 2]⟩, ⟨[30], [1, 1]⟩⟩⟩, ⟨1, .relu ⟨[4], [1, 1]⟩⟩]).1.2
      = ((⟨2⟩ : SGD Int).step
      [⟨0, .linear ⟨⟨[1, 2], [1, 2]⟩, ⟨[3], [1, 1]⟩, ⟨[5, 6], [2, 1]⟩,
        ⟨[10, 20], [1, 2]⟩, ⟨[30], [1, 1]⟩⟩⟩, ⟨1, .relu ⟨[4], [1, 1]⟩⟩]).1 ∧
    ((⟨2⟩ : SGD Int).step
      [⟨0, .linear ⟨⟨[1, 2], [1, 2]⟩, ⟨[3], [1, 1]⟩, ⟨[5, 6], [2, 1]⟩,
        ⟨[10, 20], [1, 2]⟩, ⟨[30], [1, 1]⟩⟩⟩, ⟨1, .relu ⟨[4], [1, 1]⟩⟩]).1
      = [⟨0, .linear ⟨⟨[-19, -38], [1, 2]⟩, ⟨[-57], [1, 1]⟩, ⟨[5, 6], [2, 1]⟩,
        ⟨[10, 20], [1, 2]⟩, ⟨[30], [1, 1]⟩⟩⟩, ⟨1, .relu ⟨[4], [1, 1]⟩⟩] :=
  ⟨(Momentum.zero_momentum_is_sgd (2 : Int) (Function.update (fun _ => none) 0 (some [7, 8, 9]))
      [⟨0, .linear ⟨⟨[1, 2], [1, 2]⟩, ⟨[3], [1, 1]⟩, ⟨[5, 6], [2, 1]⟩,
        ⟨[10, 20], [1, 2]⟩, ⟨[30], [1, 1]⟩⟩⟩, ⟨1, .relu ⟨[4], [1, 1]⟩⟩]
      [id, id] (by decide)
      (fun f hf ls hls => by
        have : f = id := by simpa using hf
        subst this
        exact hls)).2.2.1,
    by decide⟩

end ZeroMomentum

/-! ## Moment buffers of Adam -/

section MomentBuffers

variable {α : Type}

theorem LayerRef.sameObject_addrs (ls ls' : List (LayerRef α))
    (h : List.Forall₂ LayerRef.SameObject ls ls') :
    ls'.map (fun r => r.addr) = ls.map (fun r => r.addr) := by
  induction h with
  | nil => rfl
  | cons hab _ ih => simp only [List.map_cons, ih, hab.1]

theorem LayerRef.sameObject_linear (ref ref' : LayerRef α) (h : ref.SameObject ref')
    (l' : Linear α) (hl' : ref'.obj = Layer.linear l') :
    ∃ l, ref.obj = Layer.linear l ∧ l'.weights_.size = l.weights_.size ∧
      l'.bias_.size = l.bias_.size := by
  rcases ref with ⟨a, o⟩
  rcases ref' with ⟨a', o'⟩
  simp only at hl'
  subst hl'
  obtain ⟨_, h2⟩ := h
  cases o with
  | linear l => exact ⟨l, rfl, h2⟩
  | sigmoid c => exact False.elim h2
  | relu c => exact False.elim h2
  | tanh c => exact False.elim h2

/-- A state that fits a layer list fits the list of the same objects with
parameters of the same sizes. -/
theorem Optimizer.stateFits_sameObject (opt : Optimizer α) (ls ls' : List (LayerRef α))
    (h : List.Forall₂ LayerRef.SameObject ls ls') (hfit : opt.StateFits ls) :
    opt.StateFits ls' := by
  cases opt with
  | sgd o => trivial
  | momentum o => trivial
  | adam o =>
    obtain ⟨hnd, hf⟩ := hfit
    refine ⟨by rw [LayerRef.sameObject_addrs ls ls' h]; exact hnd, ?_⟩
    intro ref' href' l' ap hl' hap
    have hex : ∃ ref ∈ ls, ref.SameObject ref' := by
      clear hnd hf
      induction h with
      | nil => exact absurd href' (List.not_mem_nil _)
      | cons hab _ ih =>
        rcases List.mem_cons.mp href' with rfl | hmem
        · exact ⟨_, List.mem_cons_self _ _, hab⟩
        · obtain ⟨r, hr, hs⟩ := ih hmem
          exact ⟨r, List.mem_cons_of_mem _ hr, hs⟩
    obtain ⟨ref, href, hso⟩ := hex
    obtain ⟨l, hl, hw, hb⟩ := LayerRef.sameObject_linear ref ref' hso l' hl'
    have := hf ref href l ap hl (by rw [← hso.1]; exact hap)
    rw [hw, hb]
    exact this

end MomentBuffers

/-! ## Gradient shapes after a backward pass -/

section GradientShapes

variable {α : Type}

theorem finish_ok {σ : Type} (r : σ × Option Err) (c : σ) (h : finish r = .ok c) :
    r.1 = c ∧ r.2 = none := by
  rcases r with ⟨s, o⟩
  cases o with
  | none => exact ⟨Except.ok.inj h, rfl⟩
  | some e => cases h

theorem Tensor.op_call_assign_keeps (t t' : Tensor α) (i j : Nat) (v : α)
    (h : t.op_call_assign i j v = .ok t') :
    t'.shape = t.shape ∧ t'.data.length = t.data.length := by
  simp only [Tensor.op_call_assign] at h
  split_ifs at h
  have := Except.ok.inj h
  subst this
  exact ⟨rfl, by simp⟩

/-- A returned product has the shape (rows of the left, columns of the right)
and that many elements, and the dimension check has passed. -/
theorem Tensor.matmul_shape [Zero α] [Add α] [Mul α] (a b c : Tensor α)
    (h : a.matmul b = .ok c) :
    a.cols = b.rows ∧ c.shape = [a.rows, b.cols] ∧ c.data.length = a.rows * b.cols := by
  unfold Tensor.matmul at h
  split_ifs at h with hd
  refine ⟨not_not.mp hd, ?_⟩
  obtain ⟨hc, -⟩ := finish_ok _ _ h
  rw [← hc]
  apply forRange_pres _
    (fun r : Tensor α => r.shape = [a.rows, b.cols] ∧ r.data.length = a.rows * b.cols)
    _ _ _ _ ⟨rfl, by simp [Tensor.zeros]⟩
  intro i r hr
  apply forRange_pres _
    (fun r : Tensor α => r.shape = [a.rows, b.cols] ∧ r.data.length = a.rows * b.cols)
    _ _ _ _ hr
  intro j r hr
  rcases forRange (fun k sum =>
      stmt sum (do
        let x ← a.op_call i k
        let y ← b.op_call k j
        pure (sum + x * y))) a.cols 0 (0 : α) with ⟨sum, o⟩
  cases o with
  | some e => exact hr
  | none =>
    apply stmt_pres _ _
      (fun r : Tensor α => r.shape = [a.rows, b.cols] ∧ r.data.length = a.rows * b.cols) hr
    intro s hs
    obtain ⟨k1, k2⟩ := Tensor.op_call_assign_keeps _ _ _ _ _ hs
    exact ⟨k1.trans hr.1, k2.trans hr.2⟩

/-- A returned transpose has the shape (columns, rows) and that many
elements. -/
theorem Tensor.transpose_shape [Zero α] (t c : Tensor α) (h : t.transpose = .ok c) :
    c.shape = [t.cols, t.rows] ∧ c.data.length = t.cols * t.rows := by
  unfold Tensor.transpose at h
  obtain ⟨hc, -⟩ := finish_ok _ _ h
  rw [← hc]
  apply forRange_pres _
    (fun r : Tensor α => r.shape = [t.cols, t.rows] ∧ r.data.length = t.cols * t.rows)
    _ _ _ _ ⟨rfl, by simp [Tensor.zeros]⟩
  intro i r hr
  apply forRange_pres _
    (fun r : Tensor α => r.shape = [t.cols, t.rows] ∧ r.data.length = t.cols * t.rows)
    _ _ _ _ hr
  intro j r hr
  cases t.op_call i j with
  | error e => exact hr
  | ok x =>
    apply stmt_pres _ _
      (fun r : Tensor α => r.shape = [t.cols, t.rows] ∧ r.data.length = t.cols * t.rows) hr
    intro s hs
    obtain ⟨k1, k2⟩ := Tensor.op_call_assign_keeps _ _ _ _ _ hs
    exact ⟨k1.trans hr.1, k2.trans hr.2⟩

/-- A returned `sum(1)` has the shape (rows, 1) and that many elements. -/
theorem Tensor.sum_one_shape [Zero α] [Add α] (t c : Tensor α) (h : t.sum 1 = .ok c) :
    c.shape = [t.rows, 1] ∧ c.data.length = t.rows * 1 := by
  unfold Tensor.sum at h
  rw [if_neg (by decide), if_neg (by decide), if_pos rfl] at h
  obtain ⟨hc, -⟩ := finish_ok _ _ h
  rw [← hc]
  apply forRange_pres _
    (fun r : Tensor α => r.shape = [t.rows, 1] ∧ r.data.length = t.rows * 1)
    _ _ _ _ ⟨rfl, by simp [Tensor.zeros]⟩
  intro i r hr
  rcases forRange (fun j sum =>
      stmt sum (do
        let x ← t.op_call i j
        pure (sum + x))) t.cols 0 (0 : α) with ⟨sum, o⟩
  cases o with
  | some e => exact hr
  | none =>
    apply stmt_pres _ _
      (fun r : Tensor α => r.shape = [t.rows, 1] ∧ r.data.length = t.rows * 1) hr
    intro s hs
    obtain ⟨k1, k2⟩ := Tensor.op_call_assign_keeps _ _ _ _ _ hs
    exact ⟨k1.trans hr.1, k2.trans hr.2⟩

theorem Tensor.rows_cols_of_shape (t : Tensor α) (m n : Nat) (h : t.shape = [m, n]) :
    t.rows = m ∧ t.cols = n := by
  simp [Tensor.rows, Tensor.cols, Tensor.shape_at, h]

/-- A `Linear::forward` that returns on a layer with the shape invariant
leaves a cached input with as many rows as the weights have columns. -/
theorem Linear.forward_cached [Zero α] [Add α] [Mul α] (l : Linear α) (x y : Tensor α)
    (hwf : (Layer.linear l).WellFormed) (h : (l.forward x).2 = .ok y) :
    (Layer.linear (l.forward x).1).Cached := by
  obtain ⟨out, inp, hw, hb⟩ := hwf
  have hfst := Linear.forward_fst l x
  refine ⟨out, inp, by rw [hfst]; exact hw, by rw [hfst]; exact hb, ?_⟩
  rw [hfst]
  show x.rows = inp
  unfold Linear.forward at h
  dsimp only at h
  cases hm : l.weights_.matmul x with
  | error e => rw [hm] at h; cases h
  | ok output =>
    obtain ⟨hd, -⟩ := Tensor.matmul_shape _ _ _ hm
    rw [← hd]
    exact (Tensor.rows_cols_of_shape _ _ _ hw.1).2

/-- A `Linear::backward` that returns on a layer with the shape invariant
whose cached input has as many rows as the weights have columns leaves
gradients of the shapes and sizes of the weights and the bias. -/
theorem Linear.backward_conform [Zero α] [Add α] [Mul α] (l : Linear α) (g gi : Tensor α)
    (hc : (Layer.linear l).Cached) (h : (l.backward g).2 = .ok gi) :
    (Layer.linear (l.backward g).1).GradsConform := by
  obtain ⟨out, inp, hw, hb, hx⟩ := hc
  unfold Linear.backward at h ⊢
  cases hgw : (do
      let xt ← l.input_cache_.transpose
      g.matmul xt) with
  | error e => simp only [hgw] at h; cases h
  | ok gw =>
    simp only [hgw] at h ⊢
    cases hgb : g.sum 1 with
    | error e => simp only [hgb] at h; cases h
    | ok gb =>
      simp only [hgb] at h ⊢
      cases hxt : l.input_cache_.transpose with
      | error e => rw [hxt] at hgw; cases hgw
      | ok xt =>
        rw [hxt] at hgw
        have hgw2 : g.matmul xt = .ok gw := hgw
        cases hwt : l.weights_.transpose with
        | error e => rw [hwt] at h; cases h
        | ok wt =>
          rw [hwt] at h
          have hgi : wt.matmul g = .ok gi := h
          obtain ⟨_, s1, n1⟩ := Tensor.matmul_shape _ _ _ hgw2
          obtain ⟨s2, _⟩ := Tensor.transpose_shape _ _ hxt
          obtain ⟨s3, n3⟩ := Tensor.sum_one_shape _ _ hgb
          obtain ⟨s4, _⟩ := Tensor.transpose_shape _ _ hwt
          obtain ⟨d5, _, _⟩ := Tensor.matmul_shape _ _ _ hgi
          have hwrc := Tensor.rows_cols_of_shape _ _ _ hw.1
          have hgrows : g.rows = out := by
            rw [← d5, (Tensor.rows_cols_of_shape _ _ _ s4).2]
            exact hwrc.1
          have hxtc : xt.cols = inp := by
            rw [(Tensor.rows_cols_of_shape _ _ _ s2).2]
            exact hx
          refine ⟨?_, ?_, ?_, ?_⟩
          · show gw.shape = l.weights_.shape
            rw [s1, hw.1, hgrows, hxtc]
          · show gw.data.length = l.weights_.data.length
            rw [n1, hw.2, hgrows, hxtc]
          · show gb.shape = l.bias_.shape
            rw [s3, hb.1, hgrows]
          · show gb.data.length = l.bias_.data.length
            rw [n3, hb.2, hgrows]

theorem LayerRef.sameParameters_refl (ref : LayerRef α) : ref.SameParameters ref := by
  rcases ref with ⟨a, o⟩
  cases o <;> exact ⟨rfl, by simp⟩

theorem LayerRef.sameParameters_trans (a b c : LayerRef α) (h1 : a.SameParameters b)
    (h2 : b.SameParameters c) : a.SameParameters c := by
  rcases a with ⟨a, oa⟩
  rcases b with ⟨b, ob⟩
  rcases c with ⟨c, oc⟩
  obtain ⟨e1, k1⟩ := h1
  obtain ⟨e2, k2⟩ := h2
  refine ⟨e2.trans e1, ?_⟩
  cases oa <;> cases ob <;> cases oc <;> first
    | exact False.elim k1
    | exact False.elim k2
    | trivial
    | exact ⟨k2.1.trans k1.1, k2.2.trans k1.2⟩

theorem LayerRef.sameParameters_sameObject (a b : LayerRef α) (h : a.SameParameters b) :
    a.SameObject b := by
  rcases a with ⟨a, oa⟩
  rcases b with ⟨b, ob⟩
  obtain ⟨e1, k1⟩ := h
  refine ⟨e1, ?_⟩
  cases oa <;> cases ob <;> first
    | exact False.elim k1
    | trivial
    | exact ⟨by rw [k1.1], by rw [k1.2]⟩

theorem forall₂_trans_of {β : Type} (R : β → β → Prop)
    (htrans : ∀ a b c, R a b → R b c → R a c) :
    ∀ (xs ys zs : List β), List.Forall₂ R xs ys → List.Forall₂ R ys zs →
      List.Forall₂ R xs zs := by
  intro xs ys zs h1
  induction h1 generalizing zs with
  | nil => intro h2; cases h2; exact List.Forall₂.nil
  | cons hab _ ih =>
    intro h2
    cases h2 with
    | cons hbc htl => exact List.Forall₂.cons (htrans _ _ _ hab hbc) (ih _ htl)

/-- The virtual `forward`, whether it returns or throws, leaves every
parameter as it was. -/
theorem Layer.forward_sameParameters [Field α] [LT α] [DecidableRel (fun (a b : α) => a < b)]
    (exp tanh : α → α) (ref : LayerRef α) (x : Tensor α) :
    ref.SameParameters { ref with obj := (ref.obj.forward exp tanh x).1 } := by
  rcases ref with ⟨a, o⟩
  refine ⟨rfl, ?_⟩
  cases o with
  | linear l =>
    show ((l.forward x).1.weights_ = l.weights_ ∧ (l.forward x).1.bias_ = l.bias_)
    rw [Linear.forward_fst]
    exact ⟨rfl, rfl⟩
  | sigmoid c => trivial
  | relu c => trivial
  | tanh c => trivial

theorem Linear.backward_keeps [Zero α] [Add α] [Mul α] (l : Linear α) (g : Tensor α) :
    (l.backward g).1.weights_ = l.weights_ ∧ (l.backward g).1.bias_ = l.bias_ := by
  unfold Linear.backward
  cases (do
      let xt ← l.input_cache_.transpose
      g.matmul xt) with
  | error e => exact ⟨rfl, rfl⟩
  | ok gw =>
    dsimp only
    cases g.sum 1 with
    | error e => exact ⟨rfl, rfl⟩
    | ok gb => exact ⟨rfl, rfl⟩

/-- The virtual `backward`, whether it returns or throws, leaves every
parameter as it was. -/
theorem Layer.backward_sameParameters [Field α] [LT α]
    [DecidableRel (fun (a b : α) => a < b)] (ref : LayerRef α) (g : Tensor α) :
    ref.SameParameters { ref with obj := (ref.obj.backward g).1 } := by
  rcases ref with ⟨a, o⟩
  refine ⟨rfl, ?_⟩
  cases o with
  | linear l => exact Linear.backward_keeps l g
  | sigmoid c => trivial
  | relu c => trivial
  | tanh c => trivial

/-- A virtual `forward` that returns on a layer with the shape invariant
leaves the layer ready for `backward`. -/
theorem Layer.layer_forward_cached [Field α] [LT α] [DecidableRel (fun (a b : α) => a < b)]
    (exp tanh : α → α) (o : Layer α) (x y : Tensor α) (hwf : o.WellFormed)
    (h : (o.forward exp tanh x).2 = .ok y) : (o.forward exp tanh x).1.Cached := by
  cases o with
  | linear l => exact Linear.forward_cached l x y hwf h
  | sigmoid c => trivial
  | relu c => trivial
  | tanh c => trivial

/-- A virtual `backward` that returns on a layer ready for it leaves gradients
of the shapes and sizes of the parameters. -/
theorem Layer.layer_backward_conform [Field α] [LT α] [DecidableRel (fun (a b : α) => a < b)]
    (o : Layer α) (g gi : Tensor α) (hc : o.Cached) (h : (o.backward g).2 = .ok gi) :
    (o.backward g).1.GradsConform := by
  cases o with
  | linear l => exact Linear.backward_conform l g gi hc h
  | sigmoid c => trivial
  | relu c => trivial
  | tanh c => trivial

/-- A layer loop that completes has completed every round: what a completed
round establishes of its entry holds of every entry afterwards. -/
theorem forEach_all {β σ : Type} (body : β → σ → (β × σ) × Option Err) (A B : β → Prop)
    (hbody : ∀ x s, A x → (body x s).2 = none → B (body x s).1.1) :
    ∀ (xs : List β) (s : σ), (∀ x ∈ xs, A x) → (forEach body xs s).2 = none →
      ∀ y ∈ (forEach body xs s).1.1, B y := by
  intro xs
  induction xs with
  | nil => intro s _ _ y hy; exact absurd hy (List.not_mem_nil y)
  | cons x xs ih =>
    intro s hA hnone y hy
    have hx := hbody x s (hA x (List.mem_cons_self x xs))
    rcases hb : body x s with ⟨⟨x', s'⟩, o⟩
    rw [hb] at hx
    cases o with
    | some e =>
      simp only [forEach, hb] at hnone
      cases hnone
    | none =>
      have ih' := ih s' (fun z hz => hA z (List.mem_cons_of_mem x hz))
      rcases hr : forEach body xs s' with ⟨⟨xs', s''⟩, o2⟩
      rw [hr] at ih'
      simp only [forEach, hb, hr] at hnone hy
      rcases List.mem_cons.mp hy with rfl | hy
      · exact hx rfl
      · exact ih' hnone y hy

/-- A layer loop whose rounds all complete, whatever the shared state,
completes. -/
theorem forEach_ok {β σ : Type} (body : β → σ → (β × σ) × Option Err) :
    ∀ (xs : List β) (s : σ), (∀ x ∈ xs, ∀ s, (body x s).2 = none) →
      (forEach body xs s).2 = none := by
  intro xs
  induction xs with
  | nil => intro s _; rfl
  | cons x xs ih =>
    intro s h
    have hx := h x (List.mem_cons_self x xs) s
    rcases hb : body x s with ⟨⟨x', s'⟩, o⟩
    rw [hb] at hx
    simp only at hx
    subst hx
    have ih' := ih s' (fun z hz => h z (List.mem_cons_of_mem x hz))
    rcases hr : forEach body xs s' with ⟨⟨xs', s''⟩, o2⟩
    rw [hr] at ih'
    simp only [forEach, hb, hr]
    exact ih'

/-- The forward pass, whether it returns or throws, leaves every parameter as
it was; when it returns from layers with the shape invariant, every layer is
ready for `backward`. -/
theorem Network.forward_pass_cached [Field α] [LT α] [DecidableRel (fun (a b : α) => a < b)]
    (exp tanh : α → α) (layers : List (LayerRef α)) (x : Tensor α) :
    List.Forall₂ LayerRef.SameParameters layers
      (forEach (Network.forward_layer exp tanh) layers x).1.1 ∧
    ((∀ ref ∈ layers, ref.obj.WellFormed) →
      (forEach (Network.forward_layer exp tanh) layers x).2 = none →
      ∀ ref ∈ (forEach (Network.forward_layer exp tanh) layers x).1.1, ref.obj.Cached) := by
  have hfst : ∀ (ref : LayerRef α) (s : Tensor α),
      (Network.forward_layer exp tanh ref s).1.1
        = { ref with obj := (ref.obj.forward exp tanh s).1 } := by
    intro ref s
    unfold Network.forward_layer
    rcases ref.obj.forward exp tanh s with ⟨obj, r⟩
    cases r <;> rfl
  constructor
  · apply forEach_rel _ _ LayerRef.sameParameters_refl
    intro ref s
    rw [hfst]
    exact Layer.forward_sameParameters exp tanh ref s
  · refine forEach_all (Network.forward_layer exp tanh)
      (fun ref : LayerRef α => ref.obj.WellFormed) (fun ref : LayerRef α => ref.obj.Cached)
      ?_ layers x
    intro ref s hwf hnone
    rw [hfst]
    unfold Network.forward_layer at hnone
    rcases hf : ref.obj.forward exp tanh s with ⟨obj, r⟩
    rw [hf] at hnone
    cases r with
    | error e => cases hnone
    | ok y =>
      have := Layer.layer_forward_cached exp tanh ref.obj s y hwf (by rw [hf])
      rw [hf] at this
      exact this

/-- The backward pass, whether it returns or throws, leaves every parameter
as it was; when it returns from layers ready for it, the gradients of every
layer have the shapes and sizes of its parameters. -/
theorem Network.backward_pass_conform [Field α] [LT α]
    [DecidableRel (fun (a b : α) => a < b)] (layers : List (LayerRef α)) (g : Tensor α) :
    List.Forall₂ LayerRef.SameParameters layers (Network.backward_pass layers g).1.1 ∧
    ((∀ ref ∈ layers, ref.obj.Cached) → (Network.backward_pass layers g).2 = none →
      ∀ ref ∈ (Network.backward_pass layers g).1.1, ref.obj.GradsConform) := by
  have hfst : ∀ (ref : LayerRef α) (s : Tensor α),
      (Network.backward_layer ref s).1.1 = { ref with obj := (ref.obj.backward s).1 } := by
    intro ref s
    unfold Network.backward_layer
    rcases ref.obj.backward s with ⟨obj, r⟩
    cases r <;> rfl
  have hpass : Network.backward_pass layers g
      = (((forEach Network.backward_layer layers.reverse g).1.1.reverse,
          (forEach Network.backward_layer layers.reverse g).1.2),
          (forEach Network.backward_layer layers.reverse g).2) := by
    unfold Network.backward_pass
    rcases forEach Network.backward_layer layers.reverse g with ⟨⟨v, gr⟩, e⟩
    rfl
  rw [hpass]
  constructor
  · have := forEach_rel Network.backward_layer _ LayerRef.sameParameters_refl
      (fun ref s => by rw [hfst]; exact Layer.backward_sameParameters ref s)
      layers.reverse g
    have h2 := List.forall₂_reverse_iff.mpr this
    rw [List.reverse_reverse] at h2
    exact h2
  · intro hc hnone ref href
    rw [List.mem_reverse] at href
    refine forEach_all Network.backward_layer (fun ref => ref.obj.Cached)
      (fun ref => ref.obj.GradsConform) ?_ layers.reverse g
      (fun r hr => hc r (List.mem_reverse.mp hr)) hnone ref href
    intro r s hcr hn
    rw [hfst]
    unfold Network.backward_layer at hn
    rcases hf : r.obj.backward s with ⟨obj, res⟩
    rw [hf] at hn
    cases res with
    | error e => cases hn
    | ok gi =>
      have := Layer.layer_backward_conform r.obj s gi hcr (by rw [hf])
      rw [hf] at this
      exact this

/-- On layers whose gradients have the shapes and sizes of their parameters,
and from a state that fits them, `step` of every optimizer completes. -/
theorem Optimizer.step_ok [Field α] (sqrt : α → α) (opt : Optimizer α)
    (layers : List (LayerRef α)) (hconf : ∀ ref ∈ layers, ref.obj.GradsConform)
    (hfit : opt.StateFits layers) : (opt.step sqrt layers).2 = none := by
  cases opt with
  | sgd o =>
    have h := forEach_ok (fun (r : LayerRef α) (u : Unit) =>
      match o.step_layer r.obj with
      | (obj, e) => (({ r with obj := obj }, u), e)) layers ()
      (fun ref href u => by
        rcases ref with ⟨addr, obj⟩
        cases obj with
        | linear l => simp only [SGD.sgd_step_layer_linear o l (hconf _ href)]
        | sigmoid c => rfl
        | relu c => rfl
        | tanh c => rfl)
    simp only [Optimizer.step, SGD.step]
    exact h
  | momentum o =>
    have h := forEach_ok (Momentum.step_layer o.learning_rate_ o.momentum_) layers
      o.velocities_
      (fun ref href V => by
        rcases ref with ⟨addr, obj⟩
        cases obj with
        | linear l =>
          obtain ⟨vw, vb, V', -, -, hstep⟩ := Momentum.momentum_step_layer_linear
            o.learning_rate_ o.momentum_ addr l V (hconf _ href)
          rw [hstep]
        | sigmoid c => rfl
        | relu c => rfl
        | tanh c => rfl)
    simp only [Optimizer.step, Momentum.step]
    exact h
  | adam o =>
    obtain ⟨hnd, hwf⟩ := hfit
    obtain ⟨layers', P', hloop, -⟩ := Adam.adam_layer_loop_ok sqrt o.beta1_ o.beta2_
      o.epsilon_ (o.learning_rate_ * sqrt (1 - o.beta2_ ^ (o.timestep_ + 1)) /
        (1 - o.beta1_ ^ (o.timestep_ + 1))) (o.timestep_ + 1) layers o.params_ hnd hconf hwf
    simp only [Optimizer.step, Adam.adam_step_of_loop sqrt o layers layers' P' hloop]

theorem Network.forward_layers_eq [Field α] [LT α] [DecidableRel (fun (a b : α) => a < b)]
    (exp tanh : α → α) (net : Network α) (x : Tensor α) :
    (net.forward exp tanh x).1.layers_
      = (forEach (Network.forward_layer exp tanh) net.layers_ x).1.1 ∧
    (∀ y, (net.forward exp tanh x).2 = .ok y →
      (forEach (Network.forward_layer exp tanh) net.layers_ x).2 = none) := by
  unfold Network.forward
  rcases forEach (Network.forward_layer exp tanh) net.layers_ x with ⟨⟨ls, out⟩, o⟩
  cases o with
  | none => exact ⟨rfl, fun _ _ => rfl⟩
  | some e => exact ⟨rfl, fun y hy => by cases hy⟩

/-- C39: on a `Linear` layer with its shape invariant, when `forward(x)`
returns and a following `backward(g)` returns, `grad_weights` has the shape
and the element count of the weights and `grad_bias` those of the bias, so
that every index below the size of a parameter is within the bounds of its
gradient; and when the forward pass and the backward pass of `Network::train`
have returned on a network of such layers, the gradients of every layer have
the shapes and sizes of its parameters and `step` of every optimizer, from a
state that fits the layers, completes. -/
theorem Linear.gradients_conform [Field α] [LT α] [DecidableRel (fun (a b : α) => a < b)]
    (exp tanh sqrt : α → α) :
    (∀ (l : Linear α) (x g y gi : Tensor α), (Layer.linear l).WellFormed →
      (l.forward x).2 = .ok y → ((l.forward x).1.backward g).2 = .ok gi →
      ((l.forward x).1.backward g).1.grad_weights_.shape
        = ((l.forward x).1.backward g).1.weights_.shape ∧
      ((l.forward x).1.backward g).1.grad_bias_.shape
        = ((l.forward x).1.backward g).1.bias_.shape ∧
      (∀ j, j < ((l.forward x).1.backward g).1.weights_.size →
        j < ((l.forward x).1.backward g).1.grad_weights_.size) ∧
      (∀ j, j < ((l.forward x).1.backward g).1.bias_.size →
        j < ((l.forward x).1.backward g).1.grad_bias_.size)) ∧
    (∀ (net : Network α) (x g output : Tensor α) (opt : Optimizer α),
      (∀ ref ∈ net.layers_, ref.obj.WellFormed) → opt.StateFits net.layers_ →
      (net.forward exp tanh x).2 = .ok output →
      (Network.backward_pass (net.forward exp tanh x).1.layers_ g).2 = none →
      (∀ ref ∈ (Network.backward_pass (net.forward exp tanh x).1.layers_ g).1.1,
        ref.obj.GradsConform) ∧
      (opt.step sqrt (Network.backward_pass (net.forward exp tanh x).1.layers_ g).1.1).2
        = none) := by
  constructor
  · intro l x g y gi hwf hf hb
    obtain ⟨h1, h2, h3, h4⟩ := Linear.backward_conform (l.forward x).1 g gi
      (Linear.forward_cached l x y hwf hf) hb
    exact ⟨h1, h3, fun j hj => by omega, fun j hj => by omega⟩
  · intro net x g output opt hwf hfit hf hb
    obtain ⟨hl, hok⟩ := Network.forward_layers_eq exp tanh net x
    obtain ⟨f1, f2⟩ := Network.forward_pass_cached exp tanh net.layers_ x
    rw [hl] at hb ⊢
    obtain ⟨b1, b2⟩ := Network.backward_pass_conform
      (forEach (Network.forward_layer exp tanh) net.layers_ x).1.1 g
    have hconf := b2 (f2 hwf (hok output hf)) hb
    refine ⟨hconf, Optimizer.step_ok sqrt opt _ hconf ?_⟩
    apply Optimizer.stateFits_sameObject opt net.layers_ _ _ hfit
    exact List.Forall₂.imp (fun a b h => LayerRef.sameParameters_sameObject a b h)
      (forall₂_trans_of _ LayerRef.sameParameters_trans _ _ _ f1 b1)

/-- Witness of C39: the network of a `Linear(2,1)` layer and a ReLU on the
input (1, 1) with the gradient 1 at the output, and `SGD(0.1)`. -/
theorem Linear.gradients_conform_witness :
    (Optimizer.step (fun x => x) (.sgd ⟨1 / 10⟩)
      (Network.backward_pass (Network.forward (fun x => x) (fun x => x)
        (⟨[⟨0, .linear ⟨⟨[1, 1], [1, 2]⟩, ⟨[0], [1, 1]⟩, ⟨[], []⟩, ⟨[], []⟩, ⟨[], []⟩⟩⟩,
          ⟨1, .relu ⟨[], []⟩⟩], []⟩ : Network ℚ) ⟨[1, 1], [2, 1]⟩).1.layers_
        ⟨[1], [1, 1]⟩).1.1).2 = none :=
  ((Linear.gradients_conform (fun x => x) (fun x => x) (fun x => x)).2
    (⟨[⟨0, .linear ⟨⟨[1, 1], [1, 2]⟩, ⟨[0], [1, 1]⟩, ⟨[], []⟩, ⟨[], []⟩, ⟨[], []⟩⟩⟩,
      ⟨1, .relu ⟨[], []⟩⟩], []⟩ : Network ℚ) ⟨[1, 1], [2, 1]⟩ ⟨[1], [1, 1]⟩ ⟨[2], [1, 1]⟩
    (.sgd ⟨1 / 10⟩)
    (fun ref href => by
      simp only [List.mem_cons, List.mem_singleton, List.not_mem_nil, or_false] at href
      rcases href with rfl | rfl
      · exact ⟨1, 2, ⟨rfl, rfl⟩, ⟨rfl, rfl⟩⟩
      · trivial)
    trivial (by decide!) (by decide!)).2

end GradientShapes

/-! ## Atomicity of a training step -/

section Atomicity

variable {α : Type}

/-- C35: on a network whose `Linear` layers have their shape invariant, and
from an optimizer state that fits the layers, for every input, target and loss
and each of the three optimizers: when `Network::train` throws, the optimizer
(velocities, moments and time step included) is what it was and every layer is
at its address with its weights and its bias exactly as before the call. -/
theorem Network.train_atomic [Field α] [LT α] [DecidableRel (fun (a b : α) => a < b)]
    (exp tanh sqrt : α → α) (net : Network α) (input target : Tensor α) (loss : Loss α)
    (optimizer : Optimizer α) (e : Err)
    (hwf : ∀ ref ∈ net.layers_, ref.obj.WellFormed)
    (hfit : optimizer.StateFits net.layers_)
    (h : (net.train exp tanh sqrt input target loss optimizer).2 = .error e) :
    (net.train exp tanh sqrt input target loss optimizer).1.2 = optimizer ∧
    List.Forall₂ LayerRef.SameParameters net.layers_
      (net.train exp tanh sqrt input target loss optimizer).1.1.layers_ := by
  obtain ⟨hl, hok⟩ := Network.forward_layers_eq exp tanh net input
  obtain ⟨f1, f2⟩ := Network.forward_pass_cached exp tanh net.layers_ input
  rw [← hl] at f1 f2
  unfold Network.train at h ⊢
  rcases hfw : Network.forward exp tanh net input with ⟨net1, r⟩
  rw [hfw] at hl hok f1 f2 h
  simp only at hl hok f1 f2 h ⊢
  cases r with
  | error e1 => exact ⟨rfl, f1⟩
  | ok output =>
    simp only at h ⊢
    cases hcl : loss.compute_loss output target with
    | error e2 => exact ⟨rfl, f1⟩
    | ok loss_value =>
      rw [hcl] at h
      simp only at h ⊢
      cases hcg : loss.compute_gradient output target with
      | error e3 => exact ⟨rfl, f1⟩
      | ok grad_output =>
        rw [hcg] at h
        simp only at h ⊢
        obtain ⟨b1, b2⟩ := Network.backward_pass_conform net1.layers_ grad_output
        have hsp := forall₂_trans_of _ LayerRef.sameParameters_trans _ _ _ f1 b1
        rcases hbp : Network.backward_pass net1.layers_ grad_output with ⟨⟨layers2, gin⟩, o⟩
        rw [hbp] at h b1 b2 hsp
        simp only at h b1 b2 hsp ⊢
        cases o with
        | some e4 => exact ⟨rfl, hsp⟩
        | none =>
          simp only at h ⊢
          have hconf := b2 (f2 hwf (hok output rfl)) rfl
          have hstep := Optimizer.step_ok sqrt optimizer layers2 hconf
            (Optimizer.stateFits_sameObject optimizer net.layers_ _
              (List.Forall₂.imp (fun a b h => LayerRef.sameParameters_sameObject a b h) hsp)
              hfit)
          rcases hst : optimizer.step sqrt layers2 with ⟨⟨opt2, layers3⟩, o2⟩
          rw [hst] at h hstep
          simp only at hstep
          subst hstep
          simp only at h
          cases h

/-- Witness of C35: a new `Adam` and the MSE loss on the network of a
`Linear(2,1)` layer and a ReLU; the input of shape (3, 1) makes the product in
`Linear::forward` throw. -/
theorem Network.train_atomic_witness :
    (Network.train (fun x => x) (fun x => x) (fun x => x)
      (⟨[⟨0, .linear ⟨⟨[1, 1], [1, 2]⟩, ⟨[0], [1, 1]⟩, ⟨[], []⟩, ⟨[0, 0], [1, 2]⟩,
        ⟨[0], [1, 1]⟩⟩⟩, ⟨1, .relu ⟨[], []⟩⟩], []⟩ : Network ℚ)
      ⟨[1, 1, 1], [3, 1]⟩ ⟨[0], [1, 1]⟩ MSELoss.loss
      (.adam ⟨1 / 1000, 9 / 10, 999 / 1000, 1 / 100000000, 0, fun _ => none⟩)).2
      = .error (.runtime_error "Matrix dimensions do not match for multiplication") ∧
    List.Forall₂ LayerRef.SameParameters
      [⟨0, .linear ⟨⟨[1, 1], [1, 2]⟩, ⟨[0], [1, 1]⟩, ⟨[], []⟩, ⟨[0, 0], [1, 2]⟩,
        ⟨[0], [1, 1]⟩⟩⟩, ⟨1, .relu ⟨[], []⟩⟩]
      (Network.train (fun x => x) (fun x => x) (fun x => x)
      (⟨[⟨0, .linear ⟨⟨[1, 1], [1, 2]⟩, ⟨[0], [1, 1]⟩, ⟨[], []⟩, ⟨[0, 0], [1, 2]⟩,
        ⟨[0], [1, 1]⟩⟩⟩, ⟨1, .relu ⟨[], []⟩⟩], []⟩ : Network ℚ)
      ⟨[1, 1, 1], [3, 1]⟩ ⟨[0], [1, 1]⟩ MSELoss.loss
      (.adam ⟨1 / 1000, 9 / 10, 999 / 1000, 1 / 100000000, 0, fun _ => none⟩)).1.1.layers_ :=
  ⟨by decide!,
    (Network.train_atomic (fun x => x) (fun x => x) (fun x => x)
      (⟨[⟨0, .linear ⟨⟨[1, 1], [1, 2]⟩, ⟨[0], [1, 1]⟩, ⟨[], []⟩, ⟨[0, 0], [1, 2]⟩,
        ⟨[0], [1, 1]⟩⟩⟩, ⟨1, .relu ⟨[], []⟩⟩], []⟩ : Network ℚ)
      ⟨[1, 1, 1], [3, 1]⟩ ⟨[0], [1, 1]⟩ MSELoss.loss
      (.adam ⟨1 / 1000, 9 / 10, 999 / 1000, 1 / 100000000, 0, fun _ => none⟩)
      (.runtime_error "Matrix dimensions do not match for multiplication")
      (fun ref href => by
        simp only [List.mem_cons, List.mem_singleton, List.not_mem_nil, or_false] at href
        rcases href with rfl | rfl
        · exact ⟨1, 2, ⟨rfl, rfl⟩, ⟨rfl, rfl⟩⟩
        · trivial)
      ⟨by decide, fun _ _ _ _ _ h => by cases h⟩ (by decide!)).2⟩

end Atomicity

end nn
